import Mathlib

/-!
# Booking manager: appointment store, availability search, group appointments

A shallow embedding of the booking back end
(`backend/src/services/*.service.js`, `backend/src/repositories/*.repository.js`,
`backend/src/config/database.js`).

Conventions of the embedding

* UUIDs are natural numbers; the database generates a fresh one from a counter.
* An instant is an integer number of milliseconds since the epoch (the value of
  a JavaScript `Date` / `moment`); ISO strings written by `toISOString()` carry
  exactly this value.
* An asynchronous service function of the appointment and availability services
  becomes a function from a `World` (database and cache) to
  `Except ApiError (result × World)`: every `throw` of these functions comes
  before their single write, so a thrown `ApiError` is `Except.error` and the
  world stays as it was. The group-appointment service writes several rows in a
  transaction, so its functions return the outcome together with the world
  they leave behind.
* The time-zone library (moment-timezone) is not part of the repository; a zone
  is a parameter giving the local calendar day of an instant and the instant of
  a local wall-clock time.
-/

namespace BookingManager

/-! ## Data model -/

abbrev Uuid := Nat

/-- Milliseconds since the epoch. -/
abbrev Instant := Int

/-- ApiError of `utils/error.js`: an HTTP status and a message. -/
structure ApiError where
  status : Nat
  message : String
  deriving DecidableEq, Repr

deriving instance DecidableEq for Except

/-- A row of `users` as read by `findById` (the columns the services use). -/
structure User where
  id : Uuid
  tenant_id : Uuid
  status : String
  deriving DecidableEq, Repr

/-- A row of `calendars` together with its `calendar_skills`. -/
structure Calendar where
  id : Uuid
  tenant_id : Uuid
  provider_user_id : Uuid
  timezone : String
  is_active : Bool
  skills : List Uuid
  deriving DecidableEq, Repr

/-- A row of `availability_slots`: a weekly template. Times of day are seconds
after local midnight (the `HH:mm:ss` column). -/
structure AvailabilitySlot where
  id : Uuid
  calendar_id : Uuid
  day_of_week : Int
  start_time : Nat
  end_time : Nat
  capacity : Int
  deriving DecidableEq, Repr

/-- A row of `appointments`. -/
structure Appointment where
  id : Uuid
  tenant_id : Uuid
  calendar_id : Uuid
  client_user_id : Uuid
  start_time : Instant
  end_time : Instant
  status : String
  required_skills : List Uuid
  notes : Option String
  metadata : Option String
  deriving DecidableEq, Repr

/-- A row of `group_appointments`. -/
structure GroupAppointment where
  id : Uuid
  tenant_id : Uuid
  name : String
  start_time : Instant
  end_time : Instant
  duration_minutes : Int
  max_participants : Int
  status : String
  created_by : Uuid
  deriving DecidableEq, Repr

/-- A row of `group_appointment_providers`. -/
structure GroupProvider where
  id : Uuid
  group_appointment_id : Uuid
  provider_user_id : Uuid
  calendar_id : Option Uuid
  status : String
  deriving DecidableEq, Repr

/-- A row of `group_appointment_participants`. -/
structure GroupParticipant where
  id : Uuid
  group_appointment_id : Uuid
  participant_user_id : Uuid
  status : String
  metadata : Option String
  deriving DecidableEq, Repr

/-- A row of `waitlist_entries`. -/
structure WaitlistEntry where
  id : Uuid
  tenant_id : Uuid
  client_user_id : Uuid
  provider_user_id : Option Uuid
  priority : String
  status : String
  requested_start : Option Instant
  requested_end : Option Instant
  auto_promote : Bool
  notes : Option String
  metadata : Option String
  promoted_at : Option Instant
  created_at : Instant
  deriving DecidableEq, Repr

/-- A row of `skills`. -/
structure Skill where
  id : Uuid
  tenant_id : Uuid
  name : String
  deriving DecidableEq, Repr

/-- The relational store. `nextId` is the UUID generator. -/
structure Db where
  users : List User
  calendars : List Calendar
  slots : List AvailabilitySlot
  appointments : List Appointment
  groupAppointments : List GroupAppointment
  groupProviders : List GroupProvider
  groupParticipants : List GroupParticipant
  nextId : Nat
  waitlistEntries : List WaitlistEntry := []
  skills : List Skill := []
  deriving DecidableEq, Repr

/-- One entry of the list returned by `searchAvailability`. -/
structure AvailabilityEntry where
  calendarId : Uuid
  providerUserId : Uuid
  tenantId : Uuid
  skills : List Uuid
  slotId : Uuid
  start : Instant
  stop : Instant
  timezone : String
  availableCapacity : Int
  capacity : Int
  deriving DecidableEq, Repr

/-- The parts of the key built by `formatCacheKey`. -/
structure CacheKey where
  tenantId : Uuid
  skillsPart : List Uuid
  startUtc : Instant
  endUtc : Instant
  duration : Int
  timezone : String
  deriving DecidableEq, Repr

/-- Database plus the key/value cache of availability results. -/
structure World where
  db : Db
  cache : List (CacheKey × List AvailabilityEntry)
  deriving DecidableEq, Repr

/-! ## Cache helpers (`config/redis.js`) -/

/-- The call `cacheGet(key)`: the stored value, or `none` (JavaScript `null`). -/
def cacheGet (w : World) (key : CacheKey) : Option (List AvailabilityEntry) :=
  (w.cache.find? (fun kv => kv.1 == key)).map (fun kv => kv.2)

/-- The call `cacheSet(key, value, ttl)`: replaces the value under `key`. -/
def cacheSet (w : World) (key : CacheKey) (value : List AvailabilityEntry) : World :=
  { w with cache := (key, value) :: w.cache.filter (fun kv => !(kv.1 == key)) }

/-- The call `cacheDelPattern` on the pattern of all availability keys of the
tenant: every key of that tenant is deleted. -/
def invalidateAvailabilityCache (w : World) (tenantId : Uuid) : World :=
  { w with cache := w.cache.filter (fun kv => !(kv.1.tenantId == tenantId)) }

/-! ## Repositories -/

/-- From `calendar.repository.js`: the calendar of that tenant with that id. -/
def getCalendarById (db : Db) (tenantId calendarId : Uuid) : Option Calendar :=
  db.calendars.find? (fun c => c.tenant_id == tenantId && c.id == calendarId)

/-- From `user.repository.js` (`findById`). -/
def findUserById (db : Db) (id : Uuid) : Option User :=
  db.users.find? (fun u => u.id == id)

/-- From `appointment.repository.js`: the appointment of that tenant with that id. -/
def getAppointmentById (db : Db) (tenantId appointmentId : Uuid) : Option Appointment :=
  db.appointments.find? (fun a => a.tenant_id == tenantId && a.id == appointmentId)

/-- The `WHERE` clause of `findConflictingAppointments`:
`calendar_id = $1 AND status IN ('pending','confirmed')
 AND NOT (end_time <= $2 OR start_time >= $3)` and, when an id to ignore is
given, `AND id <> $4`. -/
def conflictsWith (calendarId : Uuid) (startTime endTime : Instant)
    (ignoreAppointmentId : Option Uuid) (a : Appointment) : Bool :=
  a.calendar_id == calendarId
    && (a.status == "pending" || a.status == "confirmed")
    && !(decide (a.end_time ≤ startTime) || decide (a.start_time ≥ endTime))
    && (match ignoreAppointmentId with
        | none => true
        | some i => a.id != i)

/-- From `appointment.repository.js`. -/
def findConflictingAppointments (db : Db) (calendarId : Uuid) (startTime endTime : Instant)
    (ignoreAppointmentId : Option Uuid) : List Appointment :=
  db.appointments.filter (conflictsWith calendarId startTime endTime ignoreAppointmentId)

/-- The arguments of the repository function `createAppointment`. -/
structure NewAppointment where
  tenantId : Uuid
  calendarId : Uuid
  clientUserId : Uuid
  startTime : Instant
  endTime : Instant
  status : String
  requiredSkills : Option (List Uuid)
  notes : Option String
  metadata : Option String
  deriving DecidableEq, Repr

/-- From `appointment.repository.js`: `INSERT ... RETURNING`. -/
def createAppointment (db : Db) (n : NewAppointment) : Appointment × Db :=
  let row : Appointment :=
    { id := db.nextId
      tenant_id := n.tenantId
      calendar_id := n.calendarId
      client_user_id := n.clientUserId
      start_time := n.startTime
      end_time := n.endTime
      status := n.status
      required_skills := n.requiredSkills.getD []
      notes := n.notes
      metadata := n.metadata }
  (row, { db with appointments := db.appointments ++ [row], nextId := db.nextId + 1 })

/-- The payload handed to `updateAppointment`: a field that is `none` is not a
key of the JavaScript object. -/
structure AppointmentPayload where
  status : Option String := none
  start_time : Option Instant := none
  end_time : Option Instant := none
  notes : Option String := none
  metadata : Option String := none
  deriving DecidableEq, Repr

/-- The `SET` list of the `UPDATE` applied to one row. -/
def applyPayload (p : AppointmentPayload) (a : Appointment) : Appointment :=
  { a with
    status := p.status.getD a.status
    start_time := p.start_time.getD a.start_time
    end_time := p.end_time.getD a.end_time
    notes := match p.notes with
      | some n => some n
      | none => a.notes
    metadata := match p.metadata with
      | some m => some m
      | none => a.metadata }

/-- Whether the payload has no entry at all. -/
def AppointmentPayload.isEmpty (p : AppointmentPayload) : Bool :=
  p.status.isNone && p.start_time.isNone && p.end_time.isNone && p.notes.isNone
    && p.metadata.isNone

/-- From `appointment.repository.js`: with an empty payload the row is only
read; otherwise `UPDATE ... WHERE tenant_id = .. AND id = .. RETURNING`. -/
def updateAppointment (db : Db) (tenantId appointmentId : Uuid) (p : AppointmentPayload) :
    Option Appointment × Db :=
  if p.isEmpty then
    (getAppointmentById db tenantId appointmentId, db)
  else
    let db2 : Db :=
      { db with
        appointments := db.appointments.map (fun a =>
          if a.tenant_id == tenantId && a.id == appointmentId then applyPayload p a else a) }
    (getAppointmentById db2 tenantId appointmentId, db2)

/-- From `appointment.repository.js`: `DELETE ... RETURNING`. -/
def deleteAppointment (db : Db) (tenantId appointmentId : Uuid) : Option Appointment × Db :=
  (getAppointmentById db tenantId appointmentId,
   { db with
     appointments := db.appointments.filter (fun a =>
       !(a.tenant_id == tenantId && a.id == appointmentId)) })

/-! ## Appointment service (`appointment.service.js`) -/

def MIN_APPOINTMENT_MINUTES : Int := 15

/-- The function `validateTimes`. An argument is `none` when moment cannot
parse it. The duration in minutes is `(end - start) / 60000`, so the test
`duration < 15` is `end - start < 15 * 60000`. -/
def validateTimes (startTime endTime : Option Instant) : Except ApiError (Instant × Instant) :=
  match startTime, endTime with
  | some start, some stop =>
    if ¬ (stop > start) then
      .error ⟨400, "Appointment end must be after start"⟩
    else if stop - start < MIN_APPOINTMENT_MINUTES * 60000 then
      .error ⟨400, "Appointments must be at least 15 minutes"⟩
    else
      .ok (start, stop)
  | _, _ => .error ⟨400, "Invalid appointment time"⟩

/-- Arguments of `createAppointmentForTenant`. -/
structure CreateAppointmentArgs where
  tenantId : Uuid
  calendarId : Uuid
  clientUserId : Uuid
  startTime : Option Instant
  endTime : Option Instant
  requiredSkills : Option (List Uuid) := none
  notes : Option String := none
  metadata : Option String := none
  deriving DecidableEq, Repr

/-- The service function `createAppointmentForTenant`. -/
def createAppointmentForTenant (w : World) (args : CreateAppointmentArgs) :
    Except ApiError (Appointment × World) :=
  match getCalendarById w.db args.tenantId args.calendarId with
  | none => .error ⟨404, "Calendar not found"⟩
  | some calendar =>
    match findUserById w.db args.clientUserId with
    | none => .error ⟨400, "Client user must belong to tenant"⟩
    | some client =>
      if client.tenant_id != args.tenantId then
        .error ⟨400, "Client user must belong to tenant"⟩
      else if client.status != "active" then
        .error ⟨400, "Client user must be active"⟩
      else
        match validateTimes args.startTime args.endTime with
        | .error e => .error e
        | .ok (start, stop) =>
          let conflicts := findConflictingAppointments w.db args.calendarId start stop none
          if conflicts.length != 0 then
            .error ⟨409, "Appointment conflicts with existing booking"⟩
          else
            let missing := (args.requiredSkills.getD []).filter
              (fun skillId => !(calendar.skills.contains skillId))
            if missing.length != 0 then
              .error ⟨400, "Calendar does not support required skills"⟩
            else
              let (created, db2) := createAppointment w.db
                { tenantId := args.tenantId
                  calendarId := args.calendarId
                  clientUserId := args.clientUserId
                  startTime := start
                  endTime := stop
                  status := "pending"
                  requiredSkills := args.requiredSkills
                  notes := args.notes
                  metadata := args.metadata }
              .ok (created, invalidateAvailabilityCache { w with db := db2 } args.tenantId)

/-- Arguments of `updateAppointmentForTenant`. A time that is `none` is not
supplied (falsy); `some none` is a supplied value that moment cannot parse.
A status that is `none` or the empty string is falsy. -/
structure UpdateAppointmentArgs where
  tenantId : Uuid
  appointmentId : Uuid
  startTime : Option (Option Instant) := none
  endTime : Option (Option Instant) := none
  status : Option String := none
  notes : Option String := none
  metadata : Option String := none
  deriving DecidableEq, Repr

def allowedStatuses : List String := ["pending", "confirmed", "completed", "cancelled"]

/-- The service function `updateAppointmentForTenant`. -/
def updateAppointmentForTenant (w : World) (args : UpdateAppointmentArgs) :
    Except ApiError (Option Appointment × World) :=
  match getAppointmentById w.db args.tenantId args.appointmentId with
  | none => .error ⟨404, "Appointment not found"⟩
  | some appointment =>
    let timesStep : Except ApiError AppointmentPayload :=
      if args.startTime.isSome || args.endTime.isSome then
        match validateTimes (args.startTime.getD (some appointment.start_time))
            (args.endTime.getD (some appointment.end_time)) with
        | .error e => .error e
        | .ok (start, stop) =>
          let conflicts := findConflictingAppointments w.db appointment.calendar_id start stop
            (some appointment.id)
          if conflicts.length != 0 then
            .error ⟨409, "Appointment conflicts with existing booking"⟩
          else
            .ok { start_time := some start, end_time := some stop }
      else
        .ok {}
    match timesStep with
    | .error e => .error e
    | .ok payload =>
      let statusStep : Except ApiError AppointmentPayload :=
        match args.status with
        | none => .ok payload
        | some s =>
          if s == "" then .ok payload
          else if !(allowedStatuses.contains s) then
            .error ⟨400, "Invalid appointment status"⟩
          else .ok { payload with status := some s }
      match statusStep with
      | .error e => .error e
      | .ok payload2 =>
        let payload3 : AppointmentPayload :=
          { payload2 with notes := args.notes, metadata := args.metadata }
        let (updated, db2) := updateAppointment w.db args.tenantId args.appointmentId payload3
        .ok (updated, invalidateAvailabilityCache { w with db := db2 } args.tenantId)

/-- The service function `cancelAppointmentForTenant`. -/
def cancelAppointmentForTenant (w : World) (tenantId appointmentId : Uuid) :
    Except ApiError (Option Appointment × World) :=
  match getAppointmentById w.db tenantId appointmentId with
  | none => .error ⟨404, "Appointment not found"⟩
  | some _ =>
    let (cancelled, db2) := updateAppointment w.db tenantId appointmentId
      { status := some "cancelled" }
    .ok (cancelled, invalidateAvailabilityCache { w with db := db2 } tenantId)

/-- The service function `deleteAppointmentForTenant`. -/
def deleteAppointmentForTenant (w : World) (tenantId appointmentId : Uuid) :
    Except ApiError (Appointment × World) :=
  match deleteAppointment w.db tenantId appointmentId with
  | (none, _) => .error ⟨404, "Appointment not found"⟩
  | (some deleted, db2) =>
    .ok (deleted, invalidateAvailabilityCache { w with db := db2 } tenantId)

/-! ## Sequences of calls to the appointment service -/

/-- One call to the appointment service. -/
inductive AppointmentCall where
  | create (args : CreateAppointmentArgs)
  | update (args : UpdateAppointmentArgs)
  | cancel (tenantId appointmentId : Uuid)
  | delete (tenantId appointmentId : Uuid)
  deriving DecidableEq, Repr

/-- The world after one call; a call that throws leaves the world as it was. -/
def stepCall (w : World) : AppointmentCall → World
  | .create args =>
    match createAppointmentForTenant w args with
    | .ok (_, w2) => w2
    | .error _ => w
  | .update args =>
    match updateAppointmentForTenant w args with
    | .ok (_, w2) => w2
    | .error _ => w
  | .cancel t i =>
    match cancelAppointmentForTenant w t i with
    | .ok (_, w2) => w2
    | .error _ => w
  | .delete t i =>
    match deleteAppointmentForTenant w t i with
    | .ok (_, w2) => w2
    | .error _ => w

/-- The world after a sequence of calls applied one after another. -/
def runCalls (w : World) (calls : List AppointmentCall) : World :=
  calls.foldl stepCall w

/-- Status pending or confirmed. -/
def isActiveStatus (s : String) : Bool := s == "pending" || s == "confirmed"

/-- Half-open overlap of the intervals of two appointments. -/
def overlaps (a b : Appointment) : Bool :=
  decide (a.start_time < b.end_time) && decide (b.start_time < a.end_time)

/-- Two distinct rows of the same calendar, both pending or confirmed, whose
intervals overlap. -/
def doubleBooked (a b : Appointment) : Bool :=
  a.id != b.id && a.calendar_id == b.calendar_id && isActiveStatus a.status
    && isActiveStatus b.status && overlaps a b

/-- No double booking in a list of appointments. -/
def NoDoubleBooking (appts : List Appointment) : Prop :=
  ∀ a ∈ appts, ∀ b ∈ appts, doubleBooked a b = false

instance (appts : List Appointment) : Decidable (NoDoubleBooking appts) := by
  unfold NoDoubleBooking; infer_instance

/-! ## Availability search (`availability.service.js`, `availability.repository.js`) -/

/-- What the search uses of a moment-timezone zone: the local calendar day
(days since 1970-01-01) of an instant, and the instant of a wall-clock time (in
seconds after midnight) on a local day, i.e. `moment.tz("YYYY-MM-DD HH:mm:ss", tz)`. -/
structure Zone where
  localDay : Instant → Int
  atLocal : Int → Nat → Instant

/-- A zone with a constant offset from UTC, in milliseconds. -/
def fixedOffsetZone (offsetMs : Int) : Zone :=
  { localDay := fun t => (t + offsetMs) / 86400000
    atLocal := fun day s => day * 86400000 + (s : Int) * 1000 - offsetMs }

/-- The value of `day()` for a local day: 1970-01-01 was a Thursday (4). -/
def weekday (day : Int) : Int := (day + 4) % 7

def SLOT_MINUTES : Int := 15

/-- The function `isValidTimezone`: `Boolean(timezone && moment.tz.zone(timezone))`. -/
def isValidTimezone (tzdb : String → Option Zone) (timezone : Option String) : Bool :=
  match timezone with
  | none => false
  | some tz => tz != "" && (tzdb tz).isSome

/-- The function `groupBy(items, key)`: a map from key to the items with that
key, keys in order of first occurrence, items in input order. -/
def groupBy {α : Type} (key : α → Uuid) (items : List α) : List (Uuid × List α) :=
  items.foldl (fun acc item =>
    if acc.any (fun kv => kv.1 == key item) then
      acc.map (fun kv => if kv.1 == key item then (kv.1, kv.2 ++ [item]) else kv)
    else
      acc ++ [(key item, [item])]) []

/-- The expression `map.get(k) || []`. -/
def getOrEmpty {α : Type} (m : List (Uuid × List α)) (k : Uuid) : List α :=
  match m.find? (fun kv => kv.1 == k) with
  | some kv => kv.2
  | none => []

/-- The function `countOverlaps`. -/
def countOverlaps (appointments : List Appointment) (startUtc endUtc : Instant) : Nat :=
  (appointments.filter (fun appt =>
    decide (appt.end_time > startUtc) && decide (appt.start_time < endUtc))).length

/-- From `availability.repository.js`: active calendars of the tenant, each with
its skill ids in ascending order. -/
def findCalendarsForAvailability (db : Db) (tenantId : Uuid) : List Calendar :=
  (db.calendars.filter (fun c => c.tenant_id == tenantId && c.is_active)).map
    (fun c => { c with skills := c.skills.insertionSort (fun a b => a ≤ b) })

/-- The `ORDER BY calendar_id, day_of_week, start_time` of `findSlotsForCalendars`. -/
def slotOrder (a b : AvailabilitySlot) : Bool :=
  decide (a.calendar_id < b.calendar_id)
    || (a.calendar_id == b.calendar_id
      && (decide (a.day_of_week < b.day_of_week)
        || (a.day_of_week == b.day_of_week && decide (a.start_time ≤ b.start_time))))

/-- From `availability.repository.js`. -/
def findSlotsForCalendars (db : Db) (calendarIds : List Uuid) : List AvailabilitySlot :=
  if calendarIds.isEmpty then []
  else
    (db.slots.filter (fun s => calendarIds.contains s.calendar_id)).insertionSort
      (fun a b => slotOrder a b = true)

/-- From `availability.repository.js`: `calendar_id = ANY($1)
AND status IN ('pending','confirmed') AND NOT (end_time <= $2 OR start_time >= $3)`. -/
def findAppointmentsForCalendars (db : Db) (calendarIds : List Uuid)
    (startTime endTime : Instant) : List Appointment :=
  if calendarIds.isEmpty then []
  else
    db.appointments.filter (fun a =>
      calendarIds.contains a.calendar_id
        && (a.status == "pending" || a.status == "confirmed")
        && !(decide (a.end_time ≤ startTime) || decide (a.start_time ≥ endTime)))

/-- The expression `slot.capacity || 1`. -/
def capacityOrOne (slot : AvailabilitySlot) : Int :=
  if slot.capacity = 0 then 1 else slot.capacity

/-- The entry pushed for a candidate with a given overlap count. -/
def mkEntry (calendar : Calendar) (slot : AvailabilitySlot) (candidateStart candidateEnd : Instant)
    (overlappingCount : Nat) : AvailabilityEntry :=
  { calendarId := calendar.id
    providerUserId := calendar.provider_user_id
    tenantId := calendar.tenant_id
    skills := calendar.skills
    slotId := slot.id
    start := candidateStart
    stop := candidateEnd
    timezone := calendar.timezone
    availableCapacity := capacityOrOne slot - overlappingCount
    capacity := capacityOrOne slot }

/-- The body of the inner loop for a full-size candidate: the window test, the
overlap count and the capacity test; the list holds the pushed entry, if any. -/
def offerCandidate (calendar : Calendar) (slot : AvailabilitySlot)
    (calendarAppointments : List Appointment) (windowStart windowEnd : Instant)
    (candidateStart candidateEnd : Instant) : List AvailabilityEntry :=
  if candidateStart ≥ windowStart ∧ candidateEnd ≤ windowEnd then
    let overlappingCount := countOverlaps calendarAppointments candidateStart candidateEnd
    if (overlappingCount : Int) < capacityOrOne slot then
      [mkEntry calendar slot candidateStart candidateEnd overlappingCount]
    else []
  else []

/-- The loop `while (candidateStart.isBefore(slotEnd))`, with `fuel` bounding the
number of iterations. -/
def tileLoop (calendar : Calendar) (slot : AvailabilitySlot)
    (calendarAppointments : List Appointment) (windowStart windowEnd : Instant)
    (slotEnd step : Int) : Nat → Instant → List AvailabilityEntry
  | 0, _ => []
  | fuel + 1, candidateStart =>
    if candidateStart < slotEnd then
      let candidateEnd := candidateStart + step
      if ¬ (candidateEnd > slotEnd) then
        offerCandidate calendar slot calendarAppointments windowStart windowEnd
            candidateStart candidateEnd
          ++ tileLoop calendar slot calendarAppointments windowStart windowEnd slotEnd step
            fuel (candidateStart + step)
      else []
    else []

/-- The number of full steps between two instants, `floor((E - S) / d)`. -/
def tileCount (slotStart slotEnd step : Int) : Nat := ((slotEnd - slotStart) / step).toNat

/-- The candidates of one template on one local day of the zone. -/
def tileSlot (zone : Zone) (calendar : Calendar) (slot : AvailabilitySlot)
    (calendarAppointments : List Appointment) (windowStart windowEnd : Instant)
    (step : Int) (day : Int) : List AvailabilityEntry :=
  let slotStart := zone.atLocal day slot.start_time
  let slotEnd := zone.atLocal day slot.end_time
  tileLoop calendar slot calendarAppointments windowStart windowEnd slotEnd step
    (tileCount slotStart slotEnd step + 1) slotStart

/-- The local days visited by `dayCursor`: from the day of the window start to
the day of the window end, both included. -/
def searchDays (zone : Zone) (windowStart windowEnd : Instant) : List Int :=
  let first := zone.localDay windowStart
  let last := zone.localDay windowEnd
  (List.range (last - first + 1).toNat).map (fun i => first + (i : Int))

/-- The body of `calendarSlots.forEach`: the day loop of one template.
`dayZone` gives the local days, `slotZone` the instants of the slot times. -/
def slotCandidates (dayZone slotZone : Zone) (calendar : Calendar) (slot : AvailabilitySlot)
    (calendarAppointments : List Appointment) (windowStart windowEnd : Instant)
    (step : Int) : List AvailabilityEntry :=
  (searchDays dayZone windowStart windowEnd).flatMap (fun day =>
    if weekday day = slot.day_of_week then
      tileSlot slotZone calendar slot calendarAppointments windowStart windowEnd step day
    else [])

/-- The zone of `windowStart` and `dayCursor` for a calendar:
`searchStart.clone().tz(calendarTimezone)`. A zone name unknown to the library
leaves the moment in the zone of the request. -/
def dayZoneOf (tzdb : String → Option Zone) (requestZone : Zone) (calendar : Calendar) : Zone :=
  (tzdb calendar.timezone).getD requestZone

/-- The zone in which `moment.tz(text, calendarTimezone)` reads the slot times.
A zone name unknown to the library leaves the moment in UTC. -/
def slotZoneOf (tzdb : String → Option Zone) (calendar : Calendar) : Zone :=
  (tzdb calendar.timezone).getD (fixedOffsetZone 0)

/-- The body of `calendarsMatchingSkills.forEach`. -/
def calendarCandidates (tzdb : String → Option Zone) (requestZone : Zone)
    (slotsByCalendar : List (Uuid × List AvailabilitySlot))
    (appointmentsByCalendar : List (Uuid × List Appointment))
    (windowStart windowEnd : Instant) (step : Int) (calendar : Calendar) :
    List AvailabilityEntry :=
  let calendarSlots := getOrEmpty slotsByCalendar calendar.id
  if calendarSlots.length = 0 then []
  else
    let calendarAppointments := getOrEmpty appointmentsByCalendar calendar.id
    calendarSlots.flatMap (fun slot =>
      slotCandidates (dayZoneOf tzdb requestZone calendar) (slotZoneOf tzdb calendar) calendar
        slot calendarAppointments windowStart windowEnd step)

/-- The filter `calendarsMatchingSkills`. -/
def calendarsMatchingSkills (calendars : List Calendar) (skillIds : List Uuid) : List Calendar :=
  calendars.filter (fun calendar =>
    if skillIds.length = 0 then true
    else skillIds.all (fun skillId => calendar.skills.contains skillId))

/-- The array `availability` before it is sorted: every pushed entry, in the
order of the pushes. -/
def offeredCandidates (tzdb : String → Option Zone) (requestZone : Zone) (db : Db)
    (matching : List Calendar) (searchStart searchEnd : Instant) (duration : Int) :
    List AvailabilityEntry :=
  let calendarIds := matching.map (fun c => c.id)
  let slots := findSlotsForCalendars db calendarIds
  let appointments := findAppointmentsForCalendars db calendarIds searchStart searchEnd
  let slotsByCalendar := groupBy (fun s : AvailabilitySlot => s.calendar_id) slots
  let appointmentsByCalendar := groupBy (fun a : Appointment => a.calendar_id) appointments
  matching.flatMap
    (calendarCandidates tzdb requestZone slotsByCalendar appointmentsByCalendar
      searchStart searchEnd (duration * 60000))

/-- The call `availability.sort((a, b) => a.start - b.start)`; the sort of the
runtime is stable. -/
def sortByStart (l : List AvailabilityEntry) : List AvailabilityEntry :=
  l.insertionSort (fun a b => a.start ≤ b.start)

/-- The function `formatCacheKey`: the skill ids enter the key sorted. -/
def formatCacheKey (tenantId : Uuid) (skillIds : List Uuid) (startUtc endUtc : Instant)
    (duration : Int) (timezone : String) : CacheKey :=
  { tenantId := tenantId
    skillsPart := skillIds.insertionSort (fun a b => a ≤ b)
    startUtc := startUtc
    endUtc := endUtc
    duration := duration
    timezone := timezone }

/-- Arguments of `searchAvailability`. A time or zone that is `none` is
missing; a time `some none` is a value that moment cannot parse. -/
structure SearchArgs where
  tenantId : Uuid
  skillIds : Option (List Uuid) := none
  start : Option (Option Instant)
  stop : Option (Option Instant)
  duration : Option Int := none
  timezone : Option String
  deriving DecidableEq, Repr

/-- The service function `searchAvailability`. The test `!timezone` is the
missing or empty zone name, and `isValidTimezone(timezone)` on a non-empty name
is the lookup of the zone, which also yields the zone of the request. -/
def searchAvailability (tzdb : String → Option Zone) (w : World) (args : SearchArgs) :
    Except ApiError (List AvailabilityEntry × World) :=
  let skillIds := args.skillIds.getD []
  let duration := args.duration.getD 30
  match args.start, args.stop with
  | some start, some stop =>
    match args.timezone with
    | none => .error ⟨400, "timezone is required"⟩
    | some timezone =>
      if timezone == "" then .error ⟨400, "timezone is required"⟩
      else
        match tzdb timezone with
        | none => .error ⟨400, "Invalid timezone"⟩
        | some requestZone =>
          match start, stop with
          | some searchStart, some searchEnd =>
            if ¬ (searchEnd > searchStart) then .error ⟨400, "end must be after start"⟩
            else if duration < SLOT_MINUTES then
              .error ⟨400, "duration must be at least 15 minutes"⟩
            else
              let cacheKey := formatCacheKey args.tenantId skillIds searchStart searchEnd
                duration timezone
              match cacheGet w cacheKey with
              | some cached => .ok (cached, w)
              | none =>
                let calendars := findCalendarsForAvailability w.db args.tenantId
                let matching := calendarsMatchingSkills calendars skillIds
                if matching.length = 0 then .ok ([], w)
                else
                  let availability := sortByStart
                    (offeredCandidates tzdb requestZone w.db matching searchStart searchEnd
                      duration)
                  .ok (availability, cacheSet w cacheKey availability)
          | _, _ => .error ⟨400, "Invalid start or end datetime"⟩
  | _, _ => .error ⟨400, "start and end are required"⟩

/-! ## Group appointments (`groupAppointment.service.js`,
`groupAppointment.repository.js`, `config/database.js`)

A group operation is a function from a world to an outcome and the world it
leaves behind, so that a failing call may in principle leave rows behind. -/

/-- One element of the `providers` argument; `userId` is `none` when falsy. -/
structure ProviderInput where
  userId : Option Uuid
  calendarId : Option Uuid := none
  deriving DecidableEq, Repr

/-- One normalised provider. -/
structure ProviderRecord where
  userId : Uuid
  calendarId : Option Uuid
  deriving DecidableEq, Repr

/-- One element of the `participants` argument. -/
structure ParticipantInput where
  userId : Option Uuid
  metadata : Option String := none
  deriving DecidableEq, Repr

/-- One normalised participant. -/
structure ParticipantRecord where
  userId : Uuid
  metadata : Option String
  deriving DecidableEq, Repr

/-- The last `filter` of `normalizeProviderInput`, with the set `seen`. -/
def dedupProviders : List Uuid → List ProviderRecord → List ProviderRecord
  | _, [] => []
  | seen, p :: rest =>
    if seen.contains p.userId then dedupProviders seen rest
    else p :: dedupProviders (p.userId :: seen) rest

/-- The function `normalizeProviderInput`. -/
def normalizeProviderInput (providers : List ProviderInput) : List ProviderRecord :=
  dedupProviders []
    (providers.filterMap (fun provider =>
      provider.userId.map (fun u => { userId := u, calendarId := provider.calendarId })))

/-- The last `filter` of `normalizeParticipantInput`, with the set `seen`. -/
def dedupParticipants : List Uuid → List ParticipantRecord → List ParticipantRecord
  | _, [] => []
  | seen, p :: rest =>
    if seen.contains p.userId then dedupParticipants seen rest
    else p :: dedupParticipants (p.userId :: seen) rest

/-- The function `normalizeParticipantInput`. -/
def normalizeParticipantInput (participants : List ParticipantInput) : List ParticipantRecord :=
  dedupParticipants []
    (participants.filterMap (fun participant =>
      participant.userId.map (fun u => { userId := u, metadata := participant.metadata })))

/-- The function `assertDateRange`; an argument is `none` when `new Date` gives
an invalid date. The parsed instants are handed on. -/
def assertDateRange (start stop : Option Instant) : Except ApiError (Instant × Instant) :=
  match start, stop with
  | some startDate, some endDate =>
    if endDate ≤ startDate then .error ⟨400, "end_time must be after start_time"⟩
    else .ok (startDate, endDate)
  | _, _ => .error ⟨400, "start_time and end_time must be valid ISO timestamps"⟩

/-- The function `ensureUserActiveInTenant`. -/
def ensureUserActiveInTenant (db : Db) (tenantId userId : Uuid) (roleLabel : String) :
    Except ApiError User :=
  match findUserById db userId with
  | none => .error ⟨400, roleLabel ++ " must belong to tenant"⟩
  | some user =>
    if user.tenant_id != tenantId then .error ⟨400, roleLabel ++ " must belong to tenant"⟩
    else if user.status != "active" then .error ⟨400, roleLabel ++ " must be active"⟩
    else .ok user

/-- The function `ensureCalendarForProvider`. -/
def ensureCalendarForProvider (db : Db) (tenantId : Uuid) (calendarId : Option Uuid)
    (providerUserId : Uuid) : Except ApiError (Option Calendar) :=
  match calendarId with
  | none => .ok none
  | some cid =>
    match getCalendarById db tenantId cid with
    | none => .error ⟨404, "Calendar not found"⟩
    | some calendar =>
      if calendar.provider_user_id != providerUserId then
        .error ⟨400, "Calendar must belong to provider"⟩
      else if !calendar.is_active then .error ⟨400, "Calendar must be active"⟩
      else .ok (some calendar)

/-- The function `ensureNoCalendarConflicts`. -/
def ensureNoCalendarConflicts (db : Db) (calendarId : Option Uuid) (startTime endTime : Instant)
    (ignoreAppointmentId : Option Uuid) : Except ApiError Unit :=
  match calendarId with
  | none => .ok ()
  | some cid =>
    let conflicts := findConflictingAppointments db cid startTime endTime ignoreAppointmentId
    if conflicts.length != 0 then
      .error ⟨409, "Calendar is not available for the selected time window"⟩
    else .ok ()

/-- The call `Promise.all(items.map(check))` for checks that only read: it
rejects exactly when some check rejects. When several reject, the error
reported here is that of the first item in list order. -/
def promiseAll {α : Type} (check : α → Except ApiError Unit) : List α → Except ApiError Unit
  | [] => .ok ()
  | item :: rest =>
    match check item with
    | .error e => .error e
    | .ok _ => promiseAll check rest

/-- The callback run for each provider in `createGroupAppointment`. -/
def checkProvider (db : Db) (tenantId : Uuid) (startTime endTime : Instant)
    (provider : ProviderRecord) : Except ApiError Unit :=
  match ensureUserActiveInTenant db tenantId provider.userId "Provider" with
  | .error e => .error e
  | .ok _ =>
    match ensureCalendarForProvider db tenantId provider.calendarId provider.userId with
    | .error e => .error e
    | .ok _ => ensureNoCalendarConflicts db provider.calendarId startTime endTime none

/-- The callback run for each participant in `createGroupAppointment`. -/
def checkParticipant (db : Db) (tenantId : Uuid) (participant : ParticipantRecord) :
    Except ApiError Unit :=
  match ensureUserActiveInTenant db tenantId participant.userId "Participant" with
  | .error e => .error e
  | .ok _ => .ok ()

/-- Which of the three `INSERT` statements the database rejects (a violated
constraint, a lost connection). The SQL schema is not part of the sources, so
the failures are a parameter. -/
structure InsertFaults where
  appointment : Bool := false
  providers : Bool := false
  participants : Bool := false
  deriving DecidableEq, Repr

/-- The error thrown by a failing query. -/
def queryError : ApiError := ⟨500, "Internal Server Error"⟩

/-- Modelled from the spec: the column default of a provider's response status
(the SQL schema is missing); the spec lists pending, confirmed, declined. -/
def providerDefaultStatus : String := "pending"

/-- Modelled from the spec: the column default of a participant's response
status (the SQL schema is missing); the spec lists invited, confirmed,
declined, cancelled. -/
def participantDefaultStatus : String := "invited"

/-- The data handed to `insertGroupAppointment`. -/
structure NewGroupAppointment where
  tenantId : Uuid
  name : String
  startTime : Instant
  endTime : Instant
  durationMinutes : Int
  maxParticipants : Option Int
  status : Option String
  createdBy : Uuid
  deriving DecidableEq, Repr

/-- From `groupAppointment.repository.js`: `INSERT INTO group_appointments`. -/
def insertGroupAppointment (faults : InsertFaults) (db : Db) (data : NewGroupAppointment) :
    Except ApiError GroupAppointment × Db :=
  if faults.appointment then (.error queryError, db)
  else
    let row : GroupAppointment :=
      { id := db.nextId
        tenant_id := data.tenantId
        name := data.name
        start_time := data.startTime
        end_time := data.endTime
        duration_minutes := data.durationMinutes
        max_participants := data.maxParticipants.getD 1
        status := data.status.getD "scheduled"
        created_by := data.createdBy }
    (.ok row, { db with groupAppointments := db.groupAppointments ++ [row],
                        nextId := db.nextId + 1 })

/-- From `groupAppointment.repository.js`: one multi-row `INSERT`. -/
def insertGroupProviders (faults : InsertFaults) (db : Db) (groupAppointmentId : Uuid)
    (providers : List ProviderRecord) : Except ApiError (List GroupProvider) × Db :=
  if providers.length = 0 then (.ok [], db)
  else if faults.providers then (.error queryError, db)
  else
    let rows : List GroupProvider := providers.enum.map (fun ip =>
      { id := db.nextId + ip.1
        group_appointment_id := groupAppointmentId
        provider_user_id := ip.2.userId
        calendar_id := ip.2.calendarId
        status := providerDefaultStatus })
    (.ok rows, { db with groupProviders := db.groupProviders ++ rows,
                         nextId := db.nextId + providers.length })

/-- From `groupAppointment.repository.js`: one multi-row `INSERT`. -/
def insertGroupParticipants (faults : InsertFaults) (db : Db) (groupAppointmentId : Uuid)
    (participants : List ParticipantRecord) : Except ApiError (List GroupParticipant) × Db :=
  if participants.length = 0 then (.ok [], db)
  else if faults.participants then (.error queryError, db)
  else
    let rows : List GroupParticipant := participants.enum.map (fun ip =>
      { id := db.nextId + ip.1
        group_appointment_id := groupAppointmentId
        participant_user_id := ip.2.userId
        status := participantDefaultStatus
        metadata := ip.2.metadata })
    (.ok rows, { db with groupParticipants := db.groupParticipants ++ rows,
                         nextId := db.nextId + participants.length })

/-- The function `transaction` of `config/database.js`: `BEGIN`, the callback,
then `COMMIT`; when the callback throws, `ROLLBACK` and rethrow. The callback
yields its outcome and the database its statements have produced; a rollback
restores the database of `BEGIN`. -/
def transaction {α : Type} (db : Db) (callback : Db → Except ApiError α × Db) :
    Except ApiError α × Db :=
  match callback db with
  | (.ok result, db2) => (.ok result, db2)
  | (.error error, _) => (.error error, db)

/-- A group appointment with its providers and participants, as returned by
`findGroupAppointmentById`. -/
structure GroupAppointmentView where
  appointment : GroupAppointment
  providers : List GroupProvider
  participants : List GroupParticipant
  deriving DecidableEq, Repr

/-- From `groupAppointment.repository.js`. -/
def findGroupAppointmentById (db : Db) (tenantId id : Uuid) : Option GroupAppointmentView :=
  (db.groupAppointments.find? (fun ga => ga.tenant_id == tenantId && ga.id == id)).map
    (fun ga =>
      { appointment := ga
        providers := db.groupProviders.filter (fun gp => gp.group_appointment_id == ga.id)
        participants := db.groupParticipants.filter (fun gp => gp.group_appointment_id == ga.id) })

/-- Arguments of `createGroupAppointment`. -/
structure GroupCreateArgs where
  tenantId : Uuid
  name : String
  startTime : Option Instant
  endTime : Option Instant
  durationMinutes : Option Int := none
  maxParticipants : Option Int := none
  providers : Option (List ProviderInput)
  participants : Option (List ParticipantInput) := none
  createdBy : Uuid
  deriving DecidableEq, Repr

/-- The callback handed to `transaction` by `createGroupAppointment`. -/
def insertGroup (faults : InsertFaults) (data : NewGroupAppointment)
    (providerRecords : List ProviderRecord) (participantRecords : List ParticipantRecord)
    (client : Db) : Except ApiError GroupAppointment × Db :=
  match insertGroupAppointment faults client data with
  | (.error e, db1) => (.error e, db1)
  | (.ok createdAppointment, db1) =>
    match insertGroupProviders faults db1 createdAppointment.id providerRecords with
    | (.error e, db2) => (.error e, db2)
    | (.ok _, db2) =>
      if participantRecords.length != 0 then
        match insertGroupParticipants faults db2 createdAppointment.id participantRecords with
        | (.error e, db3) => (.error e, db3)
        | (.ok _, db3) => (.ok createdAppointment, db3)
      else (.ok createdAppointment, db2)

/-- The service function `createGroupAppointment`. `Math.round` of a number of
minutes `ms / 60000` is `floor((ms + 30000) / 60000)`. -/
def createGroupAppointment (faults : InsertFaults) (w : World) (args : GroupCreateArgs) :
    Except ApiError (Option GroupAppointmentView) × World :=
  if (args.providers.getD []).length = 0 then
    (.error ⟨400, "At least one provider is required"⟩, w)
  else
    match assertDateRange args.startTime args.endTime with
    | .error e => (.error e, w)
    | .ok (startTime, endTime) =>
      let providerRecords := normalizeProviderInput (args.providers.getD [])
      let participantRecords := normalizeParticipantInput (args.participants.getD [])
      if providerRecords.length = 0 then
        (.error ⟨400, "At least one provider is required"⟩, w)
      else
        let duration := args.durationMinutes.getD
          (max 15 ((endTime - startTime + 30000) / 60000))
        let allowedMaxParticipants := args.maxParticipants.getD
          (max 1 (participantRecords.length : Int))
        if allowedMaxParticipants < (participantRecords.length : Int) then
          (.error ⟨400, "max_participants cannot be less than participant count"⟩, w)
        else
          match ensureUserActiveInTenant w.db args.tenantId args.createdBy "Creator" with
          | .error e => (.error e, w)
          | .ok _ =>
            match promiseAll (checkProvider w.db args.tenantId startTime endTime)
                providerRecords with
            | .error e => (.error e, w)
            | .ok _ =>
              match promiseAll (checkParticipant w.db args.tenantId) participantRecords with
              | .error e => (.error e, w)
              | .ok _ =>
                match transaction w.db (insertGroup faults
                    { tenantId := args.tenantId
                      name := args.name
                      startTime := startTime
                      endTime := endTime
                      durationMinutes := duration
                      maxParticipants := some allowedMaxParticipants
                      status := some "scheduled"
                      createdBy := args.createdBy }
                    providerRecords participantRecords) with
                | (.error e, db2) => (.error e, { w with db := db2 })
                | (.ok appointment, db2) =>
                  (.ok (findGroupAppointmentById db2 args.tenantId appointment.id),
                   { w with db := db2 })

/-! ## Notions used to state the properties -/

/-- The appointments of a calendar that are pending or confirmed. -/
def countedAppointments (db : Db) (calendarId : Uuid) : List Appointment :=
  db.appointments.filter (fun a =>
    a.calendar_id == calendarId && (a.status == "pending" || a.status == "confirmed"))

/-- The appointments of a calendar that are not cancelled. -/
def nonCancelledAppointments (db : Db) (calendarId : Uuid) : List Appointment :=
  db.appointments.filter (fun a => a.calendar_id == calendarId && a.status != "cancelled")

/-- The start of tile `k` of a template on a local day: `k` steps after the
instant of the slot's start time on that day. -/
def tileStart (zone : Zone) (slot : AvailabilitySlot) (day : Int) (step : Int) (k : Nat) :
    Instant :=
  zone.atLocal day slot.start_time + (k : Int) * step

/-- The number of full steps that fit into a template on a local day. -/
def slotTiles (zone : Zone) (slot : AvailabilitySlot) (day : Int) (step : Int) : Nat :=
  tileCount (zone.atLocal day slot.start_time) (zone.atLocal day slot.end_time) step

/-- Tile `k` of the template `slot` of a matching calendar on a local day of
the search window whose weekday is the template's. -/
def IsTile (tzdb : String → Option Zone) (requestZone : Zone) (db : Db)
    (matching : List Calendar) (searchStart searchEnd : Instant) (duration : Int)
    (calendar : Calendar) (slot : AvailabilitySlot) (day : Int) (k : Nat) : Prop :=
  calendar ∈ matching ∧ slot ∈ db.slots ∧ slot.calendar_id = calendar.id ∧
    day ∈ searchDays (dayZoneOf tzdb requestZone calendar) searchStart searchEnd ∧
    weekday day = slot.day_of_week ∧
    k < slotTiles (slotZoneOf tzdb calendar) slot day (duration * 60000)

/-- The number of pending or confirmed appointments of the calendar that
overlap tile `k`. -/
def tileOverlaps (tzdb : String → Option Zone) (db : Db) (duration : Int)
    (calendar : Calendar) (slot : AvailabilitySlot) (day : Int) (k : Nat) : Nat :=
  countOverlaps (countedAppointments db calendar.id)
    (tileStart (slotZoneOf tzdb calendar) slot day (duration * 60000) k)
    (tileStart (slotZoneOf tzdb calendar) slot day (duration * 60000) k + duration * 60000)

/-- The entry that stands for tile `k` in a search result. -/
def tileEntry (tzdb : String → Option Zone) (db : Db) (duration : Int)
    (calendar : Calendar) (slot : AvailabilitySlot) (day : Int) (k : Nat) : AvailabilityEntry :=
  mkEntry calendar slot
    (tileStart (slotZoneOf tzdb calendar) slot day (duration * 60000) k)
    (tileStart (slotZoneOf tzdb calendar) slot day (duration * 60000) k + duration * 60000)
    (tileOverlaps tzdb db duration calendar slot day k)

/-- The offer condition of a tile: inside the search window, and fewer
overlapping counted appointments than the capacity. -/
def TileOffered (tzdb : String → Option Zone) (db : Db) (searchStart searchEnd : Instant)
    (duration : Int) (calendar : Calendar) (slot : AvailabilitySlot) (day : Int) (k : Nat) :
    Prop :=
  searchStart ≤ tileStart (slotZoneOf tzdb calendar) slot day (duration * 60000) k ∧
    tileStart (slotZoneOf tzdb calendar) slot day (duration * 60000) k + duration * 60000
      ≤ searchEnd ∧
    (tileOverlaps tzdb db duration calendar slot day k : Int) < capacityOrOne slot

/-- The world without the appointments that are neither pending nor confirmed. -/
def dropUncounted (w : World) : World :=
  { w with
    db := { w.db with
      appointments := w.db.appointments.filter (fun a =>
        a.status == "pending" || a.status == "confirmed") } }

/-- A status-only update that sets a status of pending or confirmed on an
appointment that is neither: the one call that makes an appointment occupy its
window again without a conflict check. -/
def reactivates (w : World) : AppointmentCall → Bool
  | .update args =>
    args.startTime.isNone && args.endTime.isNone
      && (match args.status with
          | some s => isActiveStatus s
          | none => false)
      && (match getAppointmentById w.db args.tenantId args.appointmentId with
          | some a => !isActiveStatus a.status
          | none => false)
  | _ => false

/-- No call of the sequence, run from the given world, is a reactivation. -/
def neverReactivates : World → List AppointmentCall → Bool
  | _, [] => true
  | w, call :: rest => !reactivates w call && neverReactivates (stepCall w call) rest

/-- What the appointment operations keep true of the store: no double booking,
pairwise distinct ids, and every id below the generator. -/
def StoreInv (db : Db) : Prop :=
  NoDoubleBooking db.appointments ∧ (db.appointments.map (fun a => a.id)).Nodup ∧
    ∀ a ∈ db.appointments, a.id < db.nextId

/-! ## Lookups and updates scoped by tenant (`groupAppointment.service.js`,
`groupAppointment.repository.js`, `waitlist.service.js`, `waitlist.repository.js`,
`calendar.service.js`) -/

/-- The service function `getGroupAppointment`. -/
def getGroupAppointment (db : Db) (tenantId id : Uuid) : Except ApiError GroupAppointmentView :=
  match findGroupAppointmentById db tenantId id with
  | none => .error ⟨404, "Group appointment not found"⟩
  | some appointment => .ok appointment

/-- From `waitlist.repository.js`: the entry of that tenant with that id. -/
def getWaitlistEntryById (db : Db) (tenantId id : Uuid) : Option WaitlistEntry :=
  db.waitlistEntries.find? (fun entry => entry.tenant_id == tenantId && entry.id == id)

/-- The service function `getEntry` of `waitlist.service.js`. -/
def getEntry (db : Db) (tenantId id : Uuid) : Except ApiError WaitlistEntry :=
  match getWaitlistEntryById db tenantId id with
  | none => .error ⟨404, "Waitlist entry not found"⟩
  | some entry => .ok entry

/-- The service function `getCalendarForTenant` of `calendar.service.js`. -/
def getCalendarForTenant (db : Db) (tenantId calendarId : Uuid) : Except ApiError Calendar :=
  match getCalendarById db tenantId calendarId with
  | none => .error ⟨404, "Calendar not found"⟩
  | some calendar => .ok calendar

/-- The `updates` object of `updateGroupAppointmentDetails`, the body of the
request: a field that is `none` is not a key of the object; a time that is
`some none` is a value that `new Date` cannot parse. -/
structure GroupUpdates where
  name : Option String := none
  description : Option String := none
  start_time : Option (Option Instant) := none
  end_time : Option (Option Instant) := none
  duration_minutes : Option Int := none
  max_participants : Option Int := none
  status : Option String := none
  metadata : Option String := none
  deriving DecidableEq, Repr

/-- Whether none of the allowed keys is present. -/
def GroupUpdates.isEmpty (u : GroupUpdates) : Bool :=
  u.name.isNone && u.description.isNone && u.start_time.isNone && u.end_time.isNone
    && u.duration_minutes.isNone && u.max_participants.isNone && u.status.isNone
    && u.metadata.isNone

/-- The `SET` list of `updateGroupAppointment` applied to one row. The service
hands a time on only after `assertDateRange` accepted it, so a time that cannot
be parsed does not reach the statement. -/
def applyGroupUpdates (u : GroupUpdates) (ga : GroupAppointment) : GroupAppointment :=
  { ga with
    name := u.name.getD ga.name
    start_time := (u.start_time.getD (some ga.start_time)).getD ga.start_time
    end_time := (u.end_time.getD (some ga.end_time)).getD ga.end_time
    duration_minutes := u.duration_minutes.getD ga.duration_minutes
    max_participants := u.max_participants.getD ga.max_participants
    status := u.status.getD ga.status }

/-- From `groupAppointment.repository.js`: without an allowed key the row is
only read; otherwise `UPDATE group_appointments SET … WHERE tenant_id = … AND
id = … RETURNING …`. -/
def updateGroupAppointment (db : Db) (tenantId id : Uuid) (updates : GroupUpdates) :
    Option GroupAppointment × Db :=
  if updates.isEmpty then
    ((findGroupAppointmentById db tenantId id).map (fun view => view.appointment), db)
  else
    let db2 : Db :=
      { db with
        groupAppointments := db.groupAppointments.map (fun ga =>
          if ga.tenant_id == tenantId && ga.id == id then applyGroupUpdates updates ga else ga) }
    (db2.groupAppointments.find? (fun ga => ga.tenant_id == tenantId && ga.id == id), db2)

def APPOINTMENT_STATUSES : List String := ["scheduled", "confirmed", "completed", "cancelled"]

/-- The first block of `updateGroupAppointmentDetails`: when a time is
supplied, the new window is validated and every provider's calendar is checked
for conflicts. -/
def checkGroupWindow (db : Db) (tenantId id : Uuid) (updates : GroupUpdates) :
    Except ApiError Unit :=
  if updates.start_time.isSome || updates.end_time.isSome then
    match getGroupAppointment db tenantId id with
    | .error e => .error e
    | .ok existing =>
      match assertDateRange (updates.start_time.getD (some existing.appointment.start_time))
          (updates.end_time.getD (some existing.appointment.end_time)) with
      | .error e => .error e
      | .ok (nextStart, nextEnd) =>
        promiseAll (fun provider : GroupProvider =>
          ensureNoCalendarConflicts db provider.calendar_id nextStart nextEnd (some id))
          existing.providers
  else .ok ()

/-- The service function `updateGroupAppointmentDetails`. -/
def updateGroupAppointmentDetails (w : World) (tenantId id : Uuid) (updates : GroupUpdates) :
    Except ApiError (Option GroupAppointmentView) × World :=
  match checkGroupWindow w.db tenantId id updates with
  | .error e => (.error e, w)
  | .ok _ =>
    if (match updates.status with
        | some status => status != "" && !APPOINTMENT_STATUSES.contains status
        | none => false) then
      (.error ⟨400, "Invalid status value"⟩, w)
    else if (match updates.max_participants with
        | some maxParticipants => decide (maxParticipants ≤ 0)
        | none => false) then
      (.error ⟨400, "max_participants must be greater than 0"⟩, w)
    else
      match updateGroupAppointment w.db tenantId id updates with
      | (none, db2) => (.error ⟨404, "Group appointment not found"⟩, { w with db := db2 })
      | (some _, db2) => (.ok (findGroupAppointmentById db2 tenantId id), { w with db := db2 })

/-! ## Roles and permissions (`rbac.service.js`, `userRole.repository.js`,
`role.repository.js`, `rolePermission.repository.js`, `permission.repository.js`,
`rbac.middleware.js`)

The role tables and the cache of permission contexts form a world of their own:
no function of this part reads or writes the booking tables. Every operation
takes the current time `now`, the value of `NOW()` and `Date.now()`. -/

/-- A row of `roles`. -/
structure Role where
  id : Uuid
  tenant_id : Uuid
  name : String
  description : Option String
  is_system : Bool
  deriving DecidableEq, Repr

/-- A row of `permissions` (the global catalogue). -/
structure Permission where
  id : Uuid
  name : String
  deriving DecidableEq, Repr

/-- A row of `role_permissions`. -/
structure RolePermission where
  role_id : Uuid
  permission_id : Uuid
  deriving DecidableEq, Repr

/-- A row of `user_roles`; `expires_at` is `none` for SQL `NULL`. -/
structure UserRoleRow where
  user_id : Uuid
  role_id : Uuid
  assigned_by : Option Uuid
  expires_at : Option Instant
  deriving DecidableEq, Repr

/-- The tables of the role-based access control. -/
structure RbacStore where
  roles : List Role
  permissions : List Permission
  rolePermissions : List RolePermission
  userRoles : List UserRoleRow
  deriving DecidableEq, Repr

/-- A role as it appears in a permission context. -/
structure ContextRole where
  id : Uuid
  name : String
  is_system : Bool
  deriving DecidableEq, Repr

/-- The object built by `serializeUserContext`. -/
structure UserContext where
  roles : List ContextRole
  roleIds : List Uuid
  permissions : List String
  cachedAt : Instant
  expiresAt : Instant
  deriving DecidableEq, Repr

/-- A cache entry under the key of `buildCacheKey(tenantId, userId)`, kept by
the cache until the instant `storedUntil`. -/
structure CachedContext where
  tenantId : Uuid
  userId : Uuid
  value : UserContext
  storedUntil : Instant
  deriving DecidableEq, Repr

/-- The role tables and the permission-context cache. -/
structure RbacWorld where
  store : RbacStore
  cache : List CachedContext
  deriving DecidableEq, Repr

/-- The constants read from the environment: `RBAC_ENABLE_CACHING` and
`RBAC_CACHE_TTL` (seconds). -/
structure RbacConfig where
  cacheEnabled : Bool := true
  cacheTtl : Int := 3600
  deriving DecidableEq, Repr

/-- The SQL condition `ur.expires_at IS NULL OR ur.expires_at > NOW()`. -/
def unexpired (now : Instant) (ur : UserRoleRow) : Bool :=
  match ur.expires_at with
  | none => true
  | some e => decide (e > now)

/-- The `ORDER BY r.is_system DESC, r.name ASC` of `listUserRoles`. -/
def roleOrder (a b : Role × UserRoleRow) : Bool :=
  (a.1.is_system && !b.1.is_system)
    || (a.1.is_system == b.1.is_system && !decide (b.1.name < a.1.name))

/-- From `userRole.repository.js`: the unexpired assignments of the user joined
with their roles of the tenant. -/
def listUserRoles (s : RbacStore) (now : Instant) (userId tenantId : Uuid) :
    List (Role × UserRoleRow) :=
  ((s.userRoles.filter (fun ur => ur.user_id == userId && unexpired now ur)).flatMap
    (fun ur =>
      (s.roles.filter (fun r => r.id == ur.role_id && r.tenant_id == tenantId)).map
        (fun r => (r, ur)))).insertionSort (fun a b => roleOrder a b = true)

/-- From `userRole.repository.js`: the user ids with an unexpired assignment of
the role of the tenant. -/
def getUserIdsByRole (s : RbacStore) (now : Instant) (tenantId roleId : Uuid) : List Uuid :=
  (s.userRoles.flatMap (fun ur =>
    (s.roles.filter (fun r =>
      r.id == ur.role_id && r.tenant_id == tenantId && r.id == roleId && unexpired now ur)).map
        (fun _ => ur.user_id)))

/-- From `userRole.repository.js`: `SELECT DISTINCT p.name` over the join of the
user's unexpired assignments, their roles of the tenant, the roles' permission
links and the permissions. -/
def getUserPermissions (s : RbacStore) (now : Instant) (userId tenantId : Uuid) : List String :=
  ((s.userRoles.filter (fun ur => ur.user_id == userId && unexpired now ur)).flatMap
    (fun ur =>
      (s.roles.filter (fun r => r.id == ur.role_id && r.tenant_id == tenantId)).flatMap
        (fun r =>
          (s.rolePermissions.filter (fun rp => rp.role_id == r.id)).flatMap
            (fun rp =>
              (s.permissions.filter (fun p => p.id == rp.permission_id)).map
                (fun p => p.name))))).dedup

/-- From `role.repository.js`. -/
def getRoleById (s : RbacStore) (tenantId roleId : Uuid) : Option Role :=
  s.roles.find? (fun r => r.tenant_id == tenantId && r.id == roleId)

/-- From `role.repository.js`. -/
def getRoleByName (s : RbacStore) (tenantId : Uuid) (name : String) : Option Role :=
  s.roles.find? (fun r => r.tenant_id == tenantId && r.name == name)

/-- The calls `cacheGet(buildCacheKey(tenantId, userId))` at time `now`: an
entry is served until its time to live is over. -/
def contextCacheGet (w : RbacWorld) (now : Instant) (tenantId userId : Uuid) :
    Option UserContext :=
  (w.cache.find? (fun e =>
    e.tenantId == tenantId && e.userId == userId && decide (now < e.storedUntil))).map
    (fun e => e.value)

/-- The call `cacheSet(buildCacheKey(tenantId, userId), context, ttl)`. -/
def contextCacheSet (w : RbacWorld) (now : Instant) (ttl : Int) (tenantId userId : Uuid)
    (context : UserContext) : RbacWorld :=
  { w with
    cache := ⟨tenantId, userId, context, now + ttl * 1000⟩ ::
      w.cache.filter (fun e => !(e.tenantId == tenantId && e.userId == userId)) }

/-- The call `cacheDel(buildCacheKey(tenantId, userId))`. -/
def contextCacheDel (w : RbacWorld) (tenantId userId : Uuid) : RbacWorld :=
  { w with cache := w.cache.filter (fun e => !(e.tenantId == tenantId && e.userId == userId)) }

/-- The function `serializeUserContext`. -/
def serializeUserContext (cfg : RbacConfig) (now : Instant) (roles : List (Role × UserRoleRow))
    (permissions : List String) : UserContext :=
  { roles := roles.map (fun role => ⟨role.1.id, role.1.name, role.1.is_system⟩)
    roleIds := roles.map (fun role => role.1.id)
    permissions := permissions
    cachedAt := now
    expiresAt := now + cfg.cacheTtl * 1000 }

/-- The function `fetchUserContext`. -/
def fetchUserContext (cfg : RbacConfig) (s : RbacStore) (now : Instant) (tenantId userId : Uuid) :
    UserContext :=
  serializeUserContext cfg now (listUserRoles s now userId tenantId)
    (getUserPermissions s now userId tenantId)

/-- The function `setUserContextCache`. -/
def setUserContextCache (cfg : RbacConfig) (w : RbacWorld) (now : Instant)
    (tenantId userId : Uuid) (context : UserContext) : RbacWorld :=
  if !cfg.cacheEnabled then w
  else contextCacheSet w now cfg.cacheTtl tenantId userId context

/-- The function `invalidateUserPermissions`. -/
def invalidateUserPermissions (cfg : RbacConfig) (w : RbacWorld) (tenantId userId : Uuid) :
    RbacWorld :=
  if !cfg.cacheEnabled then w
  else contextCacheDel w tenantId userId

/-- The function `getUserPermissionContext`. -/
def getUserPermissionContext (cfg : RbacConfig) (w : RbacWorld) (now : Instant)
    (tenantId userId : Uuid) : UserContext × RbacWorld :=
  match (if cfg.cacheEnabled then contextCacheGet w now tenantId userId else none) with
  | some cached => (cached, w)
  | none =>
    let context := fetchUserContext cfg w.store now tenantId userId
    (context, setUserContextCache cfg w now tenantId userId context)

/-- The function `getUserPermissionSet`; the set is kept as the list it is
built from. -/
def getUserPermissionSet (cfg : RbacConfig) (w : RbacWorld) (now : Instant)
    (tenantId userId : Uuid) : List String × RbacWorld :=
  let (context, w2) := getUserPermissionContext cfg w now tenantId userId
  (context.permissions, w2)

/-- The function `userHasPermission`. -/
def userHasPermission (cfg : RbacConfig) (w : RbacWorld) (now : Instant)
    (tenantId userId : Uuid) (permission : String) : Bool × RbacWorld :=
  let (permissions, w2) := getUserPermissionSet cfg w now tenantId userId
  (permissions.contains permission, w2)

/-- The function `userHasAllPermissions`. -/
def userHasAllPermissions (cfg : RbacConfig) (w : RbacWorld) (now : Instant)
    (tenantId userId : Uuid) (requiredPermissions : List String) : Bool × RbacWorld :=
  if requiredPermissions.length = 0 then (true, w)
  else
    let (permissions, w2) := getUserPermissionSet cfg w now tenantId userId
    (requiredPermissions.all (fun permission => permissions.contains permission), w2)

/-- The function `userHasAnyPermission`. -/
def userHasAnyPermission (cfg : RbacConfig) (w : RbacWorld) (now : Instant)
    (tenantId userId : Uuid) (requiredPermissions : List String) : Bool × RbacWorld :=
  if requiredPermissions.length = 0 then (true, w)
  else
    let (permissions, w2) := getUserPermissionSet cfg w now tenantId userId
    (requiredPermissions.any (fun permission => permissions.contains permission), w2)

/-- From `userRole.repository.js`: the `INSERT … ON CONFLICT (user_id, role_id)
DO UPDATE` of `assignRoleToUser`. -/
def assignRoleToUserRepo (s : RbacStore) (userId roleId : Uuid) (assignedBy : Option Uuid)
    (expiresAt : Option Instant) : RbacStore :=
  if s.userRoles.any (fun ur => ur.user_id == userId && ur.role_id == roleId) then
    { s with
      userRoles := s.userRoles.map (fun ur =>
        if ur.user_id == userId && ur.role_id == roleId then
          { ur with assigned_by := assignedBy, expires_at := expiresAt }
        else ur) }
  else
    { s with userRoles := s.userRoles ++ [⟨userId, roleId, assignedBy, expiresAt⟩] }

/-- From `userRole.repository.js`: `DELETE FROM user_roles WHERE user_id = $1
AND role_id = $2`. -/
def removeRoleFromUserRepo (s : RbacStore) (userId roleId : Uuid) : RbacStore :=
  { s with
    userRoles := s.userRoles.filter (fun ur => !(ur.user_id == userId && ur.role_id == roleId)) }

/-- The argument object of the service function `assignRoleToUser`. -/
structure AssignRoleArgs where
  tenantId : Uuid
  userId : Uuid
  roleId : Uuid
  assignedBy : Option Uuid := none
  expiresAt : Option Instant := none
  deriving DecidableEq, Repr

/-- The service function `assignRoleToUser`. -/
def assignRoleToUser (cfg : RbacConfig) (w : RbacWorld) (args : AssignRoleArgs) :
    Except ApiError Unit × RbacWorld :=
  match getRoleById w.store args.tenantId args.roleId with
  | none => (.error ⟨404, "Role not found"⟩, w)
  | some _ =>
    let s1 := assignRoleToUserRepo w.store args.userId args.roleId args.assignedBy args.expiresAt
    (.ok (), invalidateUserPermissions cfg { w with store := s1 } args.tenantId args.userId)

/-- The service function `removeRoleFromUser`. -/
def removeRoleFromUser (cfg : RbacConfig) (w : RbacWorld) (tenantId userId roleId : Uuid) :
    RbacWorld :=
  let s1 := removeRoleFromUserRepo w.store userId roleId
  invalidateUserPermissions cfg { w with store := s1 } tenantId userId

/-- The loop `Promise.all(userIds.map(invalidateUserPermissions))`. -/
def invalidateAll (cfg : RbacConfig) (w : RbacWorld) (tenantId : Uuid) (userIds : List Uuid) :
    RbacWorld :=
  userIds.foldl (fun w2 userId => invalidateUserPermissions cfg w2 tenantId userId) w

/-- From `role.repository.js`: the `UPDATE roles SET …` of `updateRole`, which
leaves system roles alone. -/
def updateRole (s : RbacStore) (tenantId roleId : Uuid) (name : Option String)
    (description : Option (Option String)) : RbacStore :=
  { s with
    roles := s.roles.map (fun r =>
      if r.tenant_id == tenantId && r.id == roleId && !r.is_system then
        { r with name := name.getD r.name, description := description.getD r.description }
      else r) }

/-- From `role.repository.js`: `DELETE FROM roles WHERE tenant_id = $1 AND
id = $2 AND is_system = FALSE RETURNING …`. The statement removes the row of
`roles`; every query of this part reaches `user_roles` and `role_permissions`
through a join with `roles`, so the rows that referred to the role are out of
their sight afterwards. -/
def deleteRole (s : RbacStore) (tenantId roleId : Uuid) : Option (Role × RbacStore) :=
  match s.roles.find? (fun r => r.tenant_id == tenantId && r.id == roleId && !r.is_system) with
  | none => none
  | some deleted =>
    some (deleted,
      { s with
        roles := s.roles.filter (fun r =>
          !(r.tenant_id == tenantId && r.id == roleId && !r.is_system)) })

/-- From `permission.repository.js`. -/
def getPermissionsByIds (s : RbacStore) (ids : List Uuid) : List Permission :=
  if ids.length = 0 then []
  else s.permissions.filter (fun p => ids.contains p.id)

/-- From `rolePermission.repository.js`. -/
def listRolePermissions (s : RbacStore) (roleId : Uuid) : List Uuid :=
  (s.rolePermissions.filter (fun rp => rp.role_id == roleId)).map (fun rp => rp.permission_id)

/-- From `rolePermission.repository.js`: `INSERT … ON CONFLICT (role_id,
permission_id) DO NOTHING`. -/
def addPermissionsToRole (s : RbacStore) (roleId : Uuid) (permissionIds : List Uuid) :
    RbacStore :=
  permissionIds.foldl (fun s2 permissionId =>
    if s2.rolePermissions.any (fun rp => rp.role_id == roleId && rp.permission_id == permissionId)
    then s2
    else { s2 with rolePermissions := s2.rolePermissions ++ [⟨roleId, permissionId⟩] }) s

/-- From `rolePermission.repository.js`. -/
def removePermissionsFromRole (s : RbacStore) (roleId : Uuid) (permissionIds : List Uuid) :
    RbacStore :=
  if permissionIds.length = 0 then s
  else
    { s with
      rolePermissions := s.rolePermissions.filter (fun rp =>
        !(rp.role_id == roleId && permissionIds.contains rp.permission_id)) }

/-- The result of `getRoleWithPermissions`. -/
structure RoleWithPermissions where
  role : Role
  permissions : List Permission
  deriving DecidableEq, Repr

/-- From `role.repository.js`. -/
def getRoleWithPermissions (s : RbacStore) (tenantId roleId : Uuid) :
    Option RoleWithPermissions :=
  (getRoleById s tenantId roleId).map (fun role =>
    ⟨role, (s.rolePermissions.filter (fun rp => rp.role_id == role.id)).flatMap (fun rp =>
      s.permissions.filter (fun p => p.id == rp.permission_id))⟩)

/-- The expression `[...new Set(ids)]`: the first occurrence of every id, in
order. -/
def uniqueIds : List Uuid → List Uuid
  | [] => []
  | id :: rest => id :: (uniqueIds rest).filter (fun other => other != id)

/-- The argument object of `updateTenantRole`; `none` stands for `undefined`. -/
structure UpdateRoleArgs where
  tenantId : Uuid
  roleId : Uuid
  name : Option String := none
  description : Option (Option String) := none
  permissionIds : Option (List Uuid) := none
  updatedBy : Option Uuid := none
  deriving DecidableEq, Repr

/-- The end of `updateTenantRole`: invalidate the holders of the role and
return the role. -/
def finishRoleUpdate (cfg : RbacConfig) (w : RbacWorld) (now : Instant) (s : RbacStore)
    (tenantId roleId : Uuid) : Except ApiError (Option RoleWithPermissions) × RbacWorld :=
  let userIds := getUserIdsByRole s now tenantId roleId
  (.ok (getRoleWithPermissions s tenantId roleId),
    invalidateAll cfg { w with store := s } tenantId userIds)

/-- The service function `updateTenantRole`. -/
def updateTenantRole (cfg : RbacConfig) (w : RbacWorld) (now : Instant) (args : UpdateRoleArgs) :
    Except ApiError (Option RoleWithPermissions) × RbacWorld :=
  match getRoleById w.store args.tenantId args.roleId with
  | none => (.error ⟨404, "Role not found"⟩, w)
  | some role =>
    if role.is_system then (.error ⟨400, "System roles cannot be modified"⟩, w)
    else
      let newName := args.name.filter (fun name => name != "" && name != role.name)
      if (newName.bind (fun name => getRoleByName w.store args.tenantId name)).isSome then
        (.error ⟨409, "Role name already exists"⟩, w)
      else
        let s1 :=
          if newName.isSome || args.description.isSome then
            updateRole w.store args.tenantId args.roleId newName args.description
          else w.store
        match args.permissionIds with
        | none => finishRoleUpdate cfg w now s1 args.tenantId args.roleId
        | some permissionIds =>
          let uniquePermissionIds := uniqueIds permissionIds
          if (getPermissionsByIds s1 uniquePermissionIds).length ≠ uniquePermissionIds.length then
            (.error ⟨400, "One or more permissions are invalid"⟩, { w with store := s1 })
          else
            let currentPermissionIds := listRolePermissions s1 args.roleId
            let toAdd := uniquePermissionIds.filter (fun id => !currentPermissionIds.contains id)
            let toRemove := currentPermissionIds.filter (fun id => !uniquePermissionIds.contains id)
            let s2 := if toAdd.length ≠ 0 then addPermissionsToRole s1 args.roleId toAdd else s1
            let s3 :=
              if toRemove.length ≠ 0 then removePermissionsFromRole s2 args.roleId toRemove
              else s2
            finishRoleUpdate cfg w now s3 args.tenantId args.roleId

/-- The service function `deleteTenantRole`. -/
def deleteTenantRole (cfg : RbacConfig) (w : RbacWorld) (now : Instant)
    (tenantId roleId : Uuid) : Except ApiError Role × RbacWorld :=
  let userIds := getUserIdsByRole w.store now tenantId roleId
  match deleteRole w.store tenantId roleId with
  | none => (.error ⟨404, "Role not found or cannot be deleted"⟩, w)
  | some (deleted, s1) => (.ok deleted, invalidateAll cfg { w with store := s1 } tenantId userIds)

/-- The authenticated user of a request (`req.user`); `none` stands for a
missing or empty field. -/
structure AuthUser where
  id : Option Uuid
  tenantId : Option Uuid
  role : Option String
  deriving DecidableEq, Repr

/-- From `rbac.middleware.js`. -/
def ensureAuthenticatedUser (user : Option AuthUser) : Except ApiError (Uuid × Uuid) :=
  match user with
  | some ⟨some id, some tenantId, _⟩ => .ok (tenantId, id)
  | _ => .error ⟨401, "Authentication required"⟩

/-- The first argument of `requirePermissions`: nothing, one name or an
array of names. -/
inductive PermissionsArg where
  | missing
  | single (permission : String)
  | many (permissions : List String)
  deriving DecidableEq, Repr

/-- From `rbac.middleware.js`. -/
def normalizePermissions : PermissionsArg → List String
  | .missing => []
  | .single permission => if permission = "" then [] else [permission]
  | .many permissions => permissions

/-- The options of `requirePermissions`. -/
structure RequireOptions where
  mode : Option String := none
  legacyRoles : Option (List String) := none
  deriving DecidableEq, Repr

/-- The middleware built by `requirePermissions(permissions, options)`, run on
a request of `user`: `.ok ()` stands for `next()`, an error for `next(error)`. -/
def requirePermissions (permissions : PermissionsArg) (options : RequireOptions)
    (cfg : RbacConfig) (w : RbacWorld) (now : Instant) (user : Option AuthUser) :
    Except ApiError Unit × RbacWorld :=
  let normalized := normalizePermissions permissions
  let legacyRoles := options.legacyRoles.getD []
  match ensureAuthenticatedUser user with
  | .error e => (.error e, w)
  | .ok (tenantId, userId) =>
    if normalized.length = 0 then (.ok (), w)
    else
      let (hasPermissions, w2) :=
        if options.mode = some "any" then userHasAnyPermission cfg w now tenantId userId normalized
        else userHasAllPermissions cfg w now tenantId userId normalized
      if !hasPermissions then
        if legacyRoles.length ≠ 0
            && (match user.bind (fun u => u.role) with
                | some role => role != "" && legacyRoles.contains role
                | none => false) then
          (.ok (), w2)
        else (.error ⟨403, "Insufficient permissions"⟩, w2)
      else (.ok (), w2)

/-! ### Notions used to state the properties of roles and permissions -/

/-- The role `roleId` of the tenant carries the permission named `p`. -/
def roleGrants (s : RbacStore) (tenantId roleId : Uuid) (p : String) : Prop :=
  ∃ r ∈ s.roles, r.id = roleId ∧ r.tenant_id = tenantId ∧
    ∃ rp ∈ s.rolePermissions, rp.role_id = r.id ∧
      ∃ perm ∈ s.permissions, perm.id = rp.permission_id ∧ perm.name = p

/-- The cache serves no context for the user of the tenant, and this user's
next context is the one computed from the tables. -/
def CacheFresh (cfg : RbacConfig) (w : RbacWorld) (tenantId userId : Uuid) : Prop :=
  (cfg.cacheEnabled = true → ∀ now, contextCacheGet w now tenantId userId = none)
    ∧ ∀ now, (getUserPermissionContext cfg w now tenantId userId).1
        = fetchUserContext cfg w.store now tenantId userId

/-- No entry of the cache belongs to the user of the tenant. -/
def NoContext (w : RbacWorld) (tenantId userId : Uuid) : Prop :=
  ∀ e ∈ w.cache, ¬ (e.tenantId = tenantId ∧ e.userId = userId)

instance (s : RbacStore) (tenantId roleId : Uuid) (p : String) :
    Decidable (roleGrants s tenantId roleId p) := by
  unfold roleGrants
  infer_instance

/-! ### Notions used to state the properties of request validation -/

/-- The request of a search misses `start`, `end` or `timezone`, names no zone
of the zone database, carries an invalid datetime, ends at or before its start,
or asks for a duration below 15 minutes. -/
def SearchRejected (tzdb : String → Option Zone) (args : SearchArgs) : Prop :=
  args.start = none ∨ args.stop = none
    ∨ args.timezone = none ∨ args.timezone = some ""
    ∨ (∃ tz, args.timezone = some tz ∧ tzdb tz = none)
    ∨ args.start = some none ∨ args.stop = some none
    ∨ (∃ s e, args.start = some (some s) ∧ args.stop = some (some e) ∧ e ≤ s)
    ∨ (∃ d, args.duration = some d ∧ d < 15)

/-! ### Notions used to state the properties of group appointments -/

/-- The filter with the set `seen` that both normalisations end with, for
records of any kind with a user id. -/
def dedupByUser {α : Type} (userId : α → Uuid) : List Uuid → List α → List α
  | _, [] => []
  | seen, p :: rest =>
    if seen.contains (userId p) then dedupByUser userId seen rest
    else p :: dedupByUser userId (userId p :: seen) rest

/-- A normalised provider handed in again as an input entry. -/
def ProviderRecord.toInput (r : ProviderRecord) : ProviderInput :=
  { userId := some r.userId, calendarId := r.calendarId }

/-- A normalised participant handed in again as an input entry. -/
def ParticipantRecord.toInput (r : ParticipantRecord) : ParticipantInput :=
  { userId := some r.userId, metadata := r.metadata }

/-! ## Availability templates (`availability.service.js`, `availability.repository.js`)

A time of day of a request is `none` when it is not a valid `HH:mm:ss` string,
and otherwise the number of seconds after midnight, as in the `TIME` column. -/

/-- The function `ensureCalendarOwnership`. -/
def ensureCalendarOwnership (db : Db) (tenantId calendarId : Uuid) : Except ApiError Calendar :=
  match getCalendarById db tenantId calendarId with
  | none => .error ⟨404, "Calendar not found"⟩
  | some calendar => .ok calendar

/-- The function `slotsOverlap`. -/
def slotsOverlap (aStart aEnd bStart bEnd : Nat) : Bool :=
  decide (aStart < bEnd) && decide (bStart < aEnd)

/-- The function `validateSlot`; the parsed times are handed on. The duration
in minutes is `(end - start) / 60`, so the test `durationMinutes < 15` is
`end - start < 15 * 60`. -/
def validateSlot (dayOfWeek : Int) (startTime endTime : Option Nat) :
    Except ApiError (Nat × Nat) :=
  if dayOfWeek < 0 ∨ dayOfWeek > 6 then .error ⟨400, "dayOfWeek must be between 0 and 6"⟩
  else
    match startTime, endTime with
    | some start, some stop =>
      if ¬ (stop > start) then .error ⟨400, "endTime must be after startTime"⟩
      else if (stop : Int) - start < SLOT_MINUTES * 60 then
        .error ⟨400, "Availability slot must be at least 15 minutes"⟩
      else .ok (start, stop)
    | _, _ => .error ⟨400, "startTime and endTime must be valid HH:mm:ss strings"⟩

/-- The `ORDER BY day_of_week, start_time` of `listAvailabilitySlotsByCalendar`. -/
def slotDayOrder (a b : AvailabilitySlot) : Bool :=
  decide (a.day_of_week < b.day_of_week)
    || (a.day_of_week == b.day_of_week && decide (a.start_time ≤ b.start_time))

/-- From `availability.repository.js`. -/
def listAvailabilitySlotsByCalendar (db : Db) (calendarId : Uuid) : List AvailabilitySlot :=
  (db.slots.filter (fun s => s.calendar_id == calendarId)).insertionSort
    (fun a b => slotDayOrder a b = true)

/-- From `availability.repository.js`. -/
def getAvailabilitySlotById (db : Db) (slotId : Uuid) : Option AvailabilitySlot :=
  db.slots.find? (fun s => s.id == slotId)

/-- The function `ensureNoOverlap`: the `forEach` throws at the first slot of
that calendar and day, other than the ignored one, that overlaps. -/
def ensureNoOverlap (db : Db) (calendarId : Uuid) (dayOfWeek : Int) (start stop : Nat)
    (ignoreSlotId : Option Uuid) : Except ApiError Unit :=
  let slots := listAvailabilitySlotsByCalendar db calendarId
  if (slots.filter (fun slot =>
        slot.day_of_week == dayOfWeek
          && (match ignoreSlotId with
              | none => true
              | some ignored => slot.id != ignored))).any
      (fun slot => slotsOverlap start stop slot.start_time slot.end_time) then
    .error ⟨400, "Availability slot overlaps with existing slot"⟩
  else .ok ()

/-- From `availability.repository.js`: `INSERT INTO availability_slots …
RETURNING`. -/
def createAvailabilitySlot (db : Db) (calendarId : Uuid) (dayOfWeek : Int)
    (startTime endTime : Nat) (capacity : Int) : AvailabilitySlot × Db :=
  let row : AvailabilitySlot :=
    { id := db.nextId
      calendar_id := calendarId
      day_of_week := dayOfWeek
      start_time := startTime
      end_time := endTime
      capacity := capacity }
  (row, { db with slots := db.slots ++ [row], nextId := db.nextId + 1 })

/-- From `availability.repository.js`: `UPDATE availability_slots SET … WHERE
id = … RETURNING`, with the four columns the service always hands over. -/
def updateAvailabilitySlot (db : Db) (slotId : Uuid) (dayOfWeek : Int) (startTime endTime : Nat)
    (capacity : Int) : Option AvailabilitySlot × Db :=
  let db2 : Db :=
    { db with
      slots := db.slots.map (fun s =>
        if s.id == slotId then
          { s with
            day_of_week := dayOfWeek
            start_time := startTime
            end_time := endTime
            capacity := capacity }
        else s) }
  (getAvailabilitySlotById db2 slotId, db2)

/-- From `availability.repository.js`: `DELETE FROM availability_slots WHERE
id = … RETURNING`. -/
def deleteAvailabilitySlot (db : Db) (slotId : Uuid) : Option AvailabilitySlot × Db :=
  (getAvailabilitySlotById db slotId,
   { db with slots := db.slots.filter (fun s => !(s.id == slotId)) })

/-- The `slot` object of `createSlotForCalendar`. -/
structure SlotInput where
  dayOfWeek : Int
  startTime : Option Nat
  endTime : Option Nat
  capacity : Option Int := none
  deriving DecidableEq, Repr

/-- The service function `createSlotForCalendar`. -/
def createSlotForCalendar (w : World) (tenantId calendarId : Uuid) (slot : SlotInput) :
    Except ApiError (AvailabilitySlot × World) :=
  match ensureCalendarOwnership w.db tenantId calendarId with
  | .error e => .error e
  | .ok _ =>
    match validateSlot slot.dayOfWeek slot.startTime slot.endTime with
    | .error e => .error e
    | .ok (start, stop) =>
      match ensureNoOverlap w.db calendarId slot.dayOfWeek start stop none with
      | .error e => .error e
      | .ok _ =>
        let (created, db2) := createAvailabilitySlot w.db calendarId slot.dayOfWeek start stop
          (match slot.capacity with
           | some c => if c = 0 then 1 else c
           | none => 1)
        .ok (created, invalidateAvailabilityCache { w with db := db2 } tenantId)

/-- The `updates` object of `updateSlotForCalendar`: a field that is `none` is
`undefined` or `null`; a time that is `some none` is not a valid time string. -/
structure SlotUpdates where
  dayOfWeek : Option Int := none
  startTime : Option (Option Nat) := none
  endTime : Option (Option Nat) := none
  capacity : Option Int := none
  deriving DecidableEq, Repr

/-- The service function `updateSlotForCalendar`. -/
def updateSlotForCalendar (w : World) (tenantId calendarId slotId : Uuid)
    (updates : SlotUpdates) : Except ApiError (Option AvailabilitySlot × World) :=
  match ensureCalendarOwnership w.db tenantId calendarId with
  | .error e => .error e
  | .ok _ =>
    match getAvailabilitySlotById w.db slotId with
    | none => .error ⟨404, "Availability slot not found"⟩
    | some existing =>
      if existing.calendar_id != calendarId then .error ⟨404, "Availability slot not found"⟩
      else
        let dayOfWeek := updates.dayOfWeek.getD existing.day_of_week
        let capacity := updates.capacity.getD existing.capacity
        match validateSlot dayOfWeek (updates.startTime.getD (some existing.start_time))
            (updates.endTime.getD (some existing.end_time)) with
        | .error e => .error e
        | .ok (start, stop) =>
          match ensureNoOverlap w.db calendarId dayOfWeek start stop (some slotId) with
          | .error e => .error e
          | .ok _ =>
            let (updated, db2) := updateAvailabilitySlot w.db slotId dayOfWeek start stop capacity
            .ok (updated, invalidateAvailabilityCache { w with db := db2 } tenantId)

/-- The service function `deleteSlotForCalendar`. -/
def deleteSlotForCalendar (w : World) (tenantId calendarId slotId : Uuid) :
    Except ApiError (Unit × World) :=
  match ensureCalendarOwnership w.db tenantId calendarId with
  | .error e => .error e
  | .ok _ =>
    match getAvailabilitySlotById w.db slotId with
    | none => .error ⟨404, "Availability slot not found"⟩
    | some slot =>
      if slot.calendar_id != calendarId then .error ⟨404, "Availability slot not found"⟩
      else
        let (_, db2) := deleteAvailabilitySlot w.db slotId
        .ok ((), invalidateAvailabilityCache { w with db := db2 } tenantId)

/-- One call to the slot operations of the availability service. -/
inductive SlotCall where
  | create (tenantId calendarId : Uuid) (slot : SlotInput)
  | update (tenantId calendarId slotId : Uuid) (updates : SlotUpdates)
  | delete (tenantId calendarId slotId : Uuid)
  deriving DecidableEq, Repr

/-- The world after one slot call; a call that throws leaves the world as it
was. -/
def stepSlotCall (w : World) : SlotCall → World
  | .create t c slot =>
    match createSlotForCalendar w t c slot with
    | .ok (_, w2) => w2
    | .error _ => w
  | .update t c i updates =>
    match updateSlotForCalendar w t c i updates with
    | .ok (_, w2) => w2
    | .error _ => w
  | .delete t c i =>
    match deleteSlotForCalendar w t c i with
    | .ok (_, w2) => w2
    | .error _ => w

/-- The world after a sequence of slot calls applied one after another. -/
def runSlotCalls (w : World) (calls : List SlotCall) : World :=
  calls.foldl stepSlotCall w

/-! ### Notions used to state the properties of availability templates -/

/-- Two distinct templates of the same calendar and day of week whose times of
day overlap, half-open. -/
def slotsClash (a b : AvailabilitySlot) : Bool :=
  a.id != b.id && a.calendar_id == b.calendar_id && a.day_of_week == b.day_of_week
    && slotsOverlap a.start_time a.end_time b.start_time b.end_time

/-- Every template ends after its start and lasts at least 15 minutes, and no
two templates clash. -/
def SlotsWellFormed (slots : List AvailabilitySlot) : Prop :=
  (∀ s ∈ slots, s.start_time < s.end_time ∧ s.start_time + 15 * 60 ≤ s.end_time)
    ∧ ∀ a ∈ slots, ∀ b ∈ slots, slotsClash a b = false

instance (slots : List AvailabilitySlot) : Decidable (SlotsWellFormed slots) := by
  unfold SlotsWellFormed
  infer_instance

/-- What the slot operations keep true of the store: well-formed templates,
pairwise distinct ids, and every id below the generator. -/
def SlotStoreInv (db : Db) : Prop :=
  SlotsWellFormed db.slots ∧ (db.slots.map (fun s => s.id)).Nodup
    ∧ ∀ s ∈ db.slots, s.id < db.nextId

/-! ### Notions used to state the properties of the availability cache -/

/-- The cache holds no search result of the tenant. -/
def TenantCacheEmpty (w : World) (tenantId : Uuid) : Prop :=
  ∀ kv ∈ w.cache, kv.1.tenantId ≠ tenantId

instance (w : World) (tenantId : Uuid) : Decidable (TenantCacheEmpty w tenantId) := by
  unfold TenantCacheEmpty
  infer_instance

/-- The cache holds no search result of the tenant, and every search of the
tenant returns the list computed from the store without a cache. -/
def SearchFresh (tzdb : String → Option Zone) (w : World) (tenantId : Uuid) : Prop :=
  TenantCacheEmpty w tenantId
    ∧ ∀ args : SearchArgs, args.tenantId = tenantId →
        Except.map Prod.fst (searchAvailability tzdb w args)
          = Except.map Prod.fst (searchAvailability tzdb ⟨w.db, []⟩ args)

/-! ## The caches when Redis fails (`config/redis.js`)

Every cache helper wraps its Redis call in `try … catch`: a failing read
yields `null`, a failing write or delete yields `false`, and nothing is thrown.
The operations below are the two readers of the caches with these branches. -/

/-- Which calls to Redis throw. -/
structure CacheFaults where
  get : Bool := false
  set : Bool := false
  del : Bool := false
  deriving DecidableEq, Repr

/-- The function `cacheGet` with its `catch` branch, on an availability key. -/
def cacheGetCaught (faults : CacheFaults) (w : World) (key : CacheKey) :
    Option (List AvailabilityEntry) :=
  if faults.get then none else cacheGet w key

/-- The function `cacheSet` with its `catch` branch, on an availability key. -/
def cacheSetCaught (faults : CacheFaults) (w : World) (key : CacheKey)
    (value : List AvailabilityEntry) : World :=
  if faults.set then w else cacheSet w key value

/-- The service function `searchAvailability` over a cache whose calls may
fail. -/
def searchAvailabilityCaught (faults : CacheFaults) (tzdb : String → Option Zone) (w : World)
    (args : SearchArgs) : Except ApiError (List AvailabilityEntry × World) :=
  let skillIds := args.skillIds.getD []
  let duration := args.duration.getD 30
  match args.start, args.stop with
  | some start, some stop =>
    match args.timezone with
    | none => .error ⟨400, "timezone is required"⟩
    | some timezone =>
      if timezone == "" then .error ⟨400, "timezone is required"⟩
      else
        match tzdb timezone with
        | none => .error ⟨400, "Invalid timezone"⟩
        | some requestZone =>
          match start, stop with
          | some searchStart, some searchEnd =>
            if ¬ (searchEnd > searchStart) then .error ⟨400, "end must be after start"⟩
            else if duration < SLOT_MINUTES then
              .error ⟨400, "duration must be at least 15 minutes"⟩
            else
              let cacheKey := formatCacheKey args.tenantId skillIds searchStart searchEnd
                duration timezone
              match cacheGetCaught faults w cacheKey with
              | some cached => .ok (cached, w)
              | none =>
                let calendars := findCalendarsForAvailability w.db args.tenantId
                let matching := calendarsMatchingSkills calendars skillIds
                if matching.length = 0 then .ok ([], w)
                else
                  let availability := sortByStart
                    (offeredCandidates tzdb requestZone w.db matching searchStart searchEnd
                      duration)
                  .ok (availability, cacheSetCaught faults w cacheKey availability)
          | _, _ => .error ⟨400, "Invalid start or end datetime"⟩
  | _, _ => .error ⟨400, "start and end are required"⟩

/-- The function `cacheGet` with its `catch` branch, on a permission-context
key. -/
def contextCacheGetCaught (faults : CacheFaults) (w : RbacWorld) (now : Instant)
    (tenantId userId : Uuid) : Option UserContext :=
  if faults.get then none else contextCacheGet w now tenantId userId

/-- The function `setUserContextCache` over a cache whose write may fail. -/
def setUserContextCacheCaught (faults : CacheFaults) (cfg : RbacConfig) (w : RbacWorld)
    (now : Instant) (tenantId userId : Uuid) (context : UserContext) : RbacWorld :=
  if !cfg.cacheEnabled then w
  else if faults.set then w
  else contextCacheSet w now cfg.cacheTtl tenantId userId context

/-- The function `getUserPermissionContext` over a cache whose calls may
fail. -/
def getUserPermissionContextCaught (faults : CacheFaults) (cfg : RbacConfig) (w : RbacWorld)
    (now : Instant) (tenantId userId : Uuid) : UserContext × RbacWorld :=
  match (if cfg.cacheEnabled then contextCacheGetCaught faults w now tenantId userId
      else none) with
  | some cached => (cached, w)
  | none =>
    let context := fetchUserContext cfg w.store now tenantId userId
    (context, setUserContextCacheCaught faults cfg w now tenantId userId context)

/-! ### Notions used to state the properties of role updates -/

/-- The store after the block `if (permissionIds) { … }` of `updateTenantRole`
has run on the store `s1` with ids that passed the validity check. -/
def permissionsReplaced (s1 : RbacStore) (roleId : Uuid) (permissionIds : List Uuid) :
    RbacStore :=
  let uniquePermissionIds := uniqueIds permissionIds
  let currentPermissionIds := listRolePermissions s1 roleId
  let toAdd := uniquePermissionIds.filter (fun id => !currentPermissionIds.contains id)
  let toRemove := currentPermissionIds.filter (fun id => !uniquePermissionIds.contains id)
  let s2 := if toAdd.length ≠ 0 then addPermissionsToRole s1 roleId toAdd else s1
  if toRemove.length ≠ 0 then removePermissionsFromRole s2 roleId toRemove else s2

/-! ## Calendars (`calendar.service.js`, `calendar.repository.js`,
`skill.repository.js`) -/

/-- From `skill.repository.js`. -/
def findSkillsByIds (db : Db) (tenantId : Uuid) (skillIds : List Uuid) : List Skill :=
  if skillIds.length = 0 then []
  else db.skills.filter (fun s => s.tenant_id == tenantId && skillIds.contains s.id)

/-- The function `ensureProviderBelongsToTenant`. -/
def ensureProviderBelongsToTenant (db : Db) (tenantId providerUserId : Uuid) :
    Except ApiError User :=
  match findUserById db providerUserId with
  | none => .error ⟨400, "Provider must belong to tenant"⟩
  | some user =>
    if user.tenant_id != tenantId then .error ⟨400, "Provider must belong to tenant"⟩
    else if user.status != "active" then .error ⟨400, "Provider user must be active"⟩
    else .ok user

/-- The function `ensureSkillsBelongToTenant`. -/
def ensureSkillsBelongToTenant (db : Db) (tenantId : Uuid) (skillIds : List Uuid) :
    Except ApiError Unit :=
  if skillIds.length = 0 then .ok ()
  else if (findSkillsByIds db tenantId skillIds).length ≠ skillIds.length then
    .error ⟨400, "One or more skills do not belong to tenant"⟩
  else .ok ()

/-- Arguments of `createCalendarForTenant`; the service type and the colour
of a calendar are not part of the model. -/
structure CreateCalendarArgs where
  tenantId : Uuid
  providerUserId : Uuid
  timezone : Option String
  isActive : Option Bool := none
  skillIds : Option (List Uuid) := none
  deriving DecidableEq, Repr

/-- From `calendar.repository.js`: the calendar row and its skill links
(`ON CONFLICT DO NOTHING`, so each skill once), read back with the row. -/
def createCalendar (db : Db) (tenantId providerUserId : Uuid) (timezone : String)
    (isActive : Option Bool) (skillIds : List Uuid) : Calendar × Db :=
  let row : Calendar :=
    { id := db.nextId
      tenant_id := tenantId
      provider_user_id := providerUserId
      timezone := timezone
      is_active := isActive.getD true
      skills := uniqueIds skillIds }
  (row, { db with calendars := db.calendars ++ [row], nextId := db.nextId + 1 })

/-- The service function `createCalendarForTenant`. -/
def createCalendarForTenant (tzdb : String → Option Zone) (db : Db)
    (args : CreateCalendarArgs) : Except ApiError (Calendar × Db) :=
  if !isValidTimezone tzdb args.timezone then .error ⟨400, "Invalid timezone"⟩
  else
    match ensureProviderBelongsToTenant db args.tenantId args.providerUserId with
    | .error e => .error e
    | .ok _ =>
      match ensureSkillsBelongToTenant db args.tenantId (args.skillIds.getD []) with
      | .error e => .error e
      | .ok _ =>
        .ok (createCalendar db args.tenantId args.providerUserId (args.timezone.getD "")
          args.isActive (args.skillIds.getD []))

/-! ## Dashboard metrics (`metrics.service.js`) -/

/-- The object `appointments` of the metrics. -/
structure AppointmentCounts where
  total : Int
  upcoming : Int
  completed : Int
  pending : Int
  confirmed : Int
  cancelled : Int
  deriving DecidableEq, Repr

/-- The object `waitlist` of the metrics. -/
structure WaitlistCounts where
  active : Int
  promoted : Int
  cancelled : Int
  deriving DecidableEq, Repr

/-- The object `utilization` of the metrics. -/
structure Utilization where
  percentage : Int
  activeCalendars : Int
  totalCalendars : Int
  confirmedAppointments : Int
  deriving DecidableEq, Repr

/-- The result of `getDashboardMetrics`. -/
structure DashboardMetrics where
  generatedAt : Instant
  rangeStart : Option Instant
  rangeEnd : Option Instant
  appointments : AppointmentCounts
  waitlist : WaitlistCounts
  utilization : Utilization
  deriving DecidableEq, Repr

/-- The clause of `buildDateRangeClause` on a column value: `>= start` when a
start is given and `<= end` when an end is given. -/
def inDateRange (start stop : Option Instant) (value : Instant) : Bool :=
  (match start with
   | some s => decide (value ≥ s)
   | none => true)
    && (match stop with
        | some e => decide (value ≤ e)
        | none => true)

/-- The aggregate `COUNT(*) FILTER (WHERE …)::int`. -/
def countWhere {α : Type} (rows : List α) (p : α → Bool) : Int :=
  ((rows.filter p).length : Int)

/-- The expression `Math.round((confirmed / total) * 100)` for counts with
`total > 0`, computed on the exact quotient: half-way cases go up. -/
def roundedPercentage (confirmed total : Int) : Int :=
  (200 * confirmed + total) / (2 * total)

/-- The service function `getDashboardMetrics`; a bound of the range is `none`
when it is missing or not a date. -/
def getDashboardMetrics (db : Db) (now : Instant) (tenantId : Uuid)
    (rangeStart rangeEnd : Option Instant) : DashboardMetrics :=
  let appointmentRows := db.appointments.filter (fun a =>
    a.tenant_id == tenantId && inDateRange rangeStart rangeEnd a.start_time)
  let waitlistRows := db.waitlistEntries.filter (fun e =>
    e.tenant_id == tenantId && inDateRange rangeStart rangeEnd e.created_at)
  let calendarRows := db.calendars.filter (fun c => c.tenant_id == tenantId)
  let totalAppointments := countWhere appointmentRows (fun a => a.status != "cancelled")
  let confirmedAppointments := countWhere appointmentRows
    (fun a => a.status == "confirmed" || a.status == "completed")
  let totalCalendars := countWhere calendarRows (fun _ => true)
  let pendingAppointments := countWhere appointmentRows (fun a => a.status == "pending")
  let completedAppointments := countWhere appointmentRows (fun a => a.status == "completed")
  let cancelledAppointments := max 0
    (totalAppointments - confirmedAppointments - pendingAppointments - completedAppointments)
  let utilizationPercentage :=
    if totalAppointments > 0 then roundedPercentage confirmedAppointments totalAppointments
    else 0
  { generatedAt := now
    rangeStart := rangeStart
    rangeEnd := rangeEnd
    appointments :=
      { total := totalAppointments
        upcoming := countWhere appointmentRows (fun a =>
          (a.status == "pending" || a.status == "confirmed") && decide (a.start_time ≥ now))
        completed := completedAppointments
        pending := pendingAppointments
        confirmed := confirmedAppointments
        cancelled := cancelledAppointments }
    waitlist :=
      { active := countWhere waitlistRows (fun e => e.status == "active")
        promoted := countWhere waitlistRows (fun e => e.status == "promoted")
        cancelled := countWhere waitlistRows (fun e => e.status == "cancelled") }
    utilization :=
      { percentage := max 0 (min 100 utilizationPercentage)
        activeCalendars := countWhere calendarRows (fun c => c.is_active)
        totalCalendars := totalCalendars
        confirmedAppointments := confirmedAppointments } }

/-! ## Waitlist (`waitlist.service.js`, `waitlist.repository.js`) -/

/-- The function `validateRequestWindow`; a time is `none` when it is missing. -/
def validateRequestWindow (start stop : Option Instant) : Except ApiError Unit :=
  match start, stop with
  | some s, some e =>
    if e ≤ s then .error ⟨400, "requested_end must be after requested_start"⟩
    else .ok ()
  | _, _ => .ok ()

/-- The function `ensureUserInTenant` of `waitlist.service.js`. -/
def ensureUserInTenant (db : Db) (tenantId : Uuid) (userId : Option Uuid) (roleName : String) :
    Except ApiError (Option User) :=
  match userId with
  | none => .ok none
  | some id =>
    match findUserById db id with
    | none => .error ⟨400, roleName ++ " must belong to tenant"⟩
    | some user =>
      if user.tenant_id != tenantId then .error ⟨400, roleName ++ " must belong to tenant"⟩
      else if user.status != "active" then .error ⟨400, roleName ++ " must be active"⟩
      else .ok (some user)

/-- Arguments of `createEntry`. -/
structure CreateEntryArgs where
  tenantId : Uuid
  clientUserId : Uuid
  providerUserId : Option Uuid := none
  priority : Option String := none
  requestedStart : Option Instant := none
  requestedEnd : Option Instant := none
  autoPromote : Option Bool := none
  notes : Option String := none
  metadata : Option String := none
  deriving DecidableEq, Repr

/-- From `waitlist.repository.js`: `INSERT INTO waitlist_entries … RETURNING`,
with the status `'active'` of the parameter default. -/
def createWaitlistEntry (db : Db) (now : Instant) (args : CreateEntryArgs) :
    WaitlistEntry × Db :=
  let row : WaitlistEntry :=
    { id := db.nextId
      tenant_id := args.tenantId
      client_user_id := args.clientUserId
      provider_user_id := args.providerUserId
      priority := match args.priority with
        | some p => if p = "" then "medium" else p
        | none => "medium"
      status := "active"
      requested_start := args.requestedStart
      requested_end := args.requestedEnd
      auto_promote := args.autoPromote.getD false
      notes := args.notes.filter (fun n => n != "")
      metadata := args.metadata
      promoted_at := none
      created_at := now }
  (row, { db with waitlistEntries := db.waitlistEntries ++ [row], nextId := db.nextId + 1 })

/-- The service function `createEntry`. -/
def createEntry (db : Db) (now : Instant) (args : CreateEntryArgs) :
    Except ApiError (WaitlistEntry × Db) :=
  match ensureUserInTenant db args.tenantId (some args.clientUserId) "Client" with
  | .error e => .error e
  | .ok _ =>
    match ensureUserInTenant db args.tenantId args.providerUserId "Provider" with
    | .error e => .error e
    | .ok _ =>
      match validateRequestWindow args.requestedStart args.requestedEnd with
      | .error e => .error e
      | .ok _ => .ok (createWaitlistEntry db now args)

/-- The `updates` object handed to `updateEntry` and `updateWaitlistEntry`: a
field that is `none` is not a key of the object. The window may come under the
column names `requested_start`, `requested_end` or under the names
`requestedStart`, `requestedEnd` of the request validator, which the repository
maps to the columns. Keys outside this list are left out. -/
structure WaitlistUpdates where
  client_user_id : Option Uuid := none
  provider_user_id : Option Uuid := none
  priority : Option String := none
  status : Option String := none
  requested_start : Option Instant := none
  requested_end : Option Instant := none
  requestedStart : Option Instant := none
  requestedEnd : Option Instant := none
  notes : Option (Option String) := none
  promoted_at : Option Instant := none
  deriving DecidableEq, Repr

/-- Whether the object has no key. -/
def WaitlistUpdates.isEmpty (u : WaitlistUpdates) : Bool :=
  u.client_user_id.isNone && u.provider_user_id.isNone && u.priority.isNone && u.status.isNone
    && u.requested_start.isNone && u.requested_end.isNone && u.requestedStart.isNone
    && u.requestedEnd.isNone && u.notes.isNone && u.promoted_at.isNone

/-- Two keys of the object name the same column, which the database refuses
(`multiple assignments to same column`). -/
def WaitlistUpdates.collides (u : WaitlistUpdates) : Bool :=
  (u.requested_start.isSome && u.requestedStart.isSome)
    || (u.requested_end.isSome && u.requestedEnd.isSome)

/-- The `SET` list of `updateWaitlistEntry` applied to one row. -/
def applyWaitlistUpdates (u : WaitlistUpdates) (e : WaitlistEntry) : WaitlistEntry :=
  { e with
    client_user_id := u.client_user_id.getD e.client_user_id
    provider_user_id := match u.provider_user_id with
      | some p => some p
      | none => e.provider_user_id
    priority := u.priority.getD e.priority
    status := u.status.getD e.status
    requested_start := match u.requested_start, u.requestedStart with
      | some t, _ => some t
      | none, some t => some t
      | none, none => e.requested_start
    requested_end := match u.requested_end, u.requestedEnd with
      | some t, _ => some t
      | none, some t => some t
      | none, none => e.requested_end
    notes := u.notes.getD e.notes
    promoted_at := match u.promoted_at with
      | some t => some t
      | none => e.promoted_at }

/-- From `waitlist.repository.js`: without a key the row is only read;
otherwise `UPDATE waitlist_entries SET … WHERE tenant_id = … AND id = …
RETURNING`. -/
def updateWaitlistEntry (db : Db) (tenantId id : Uuid) (updates : WaitlistUpdates) :
    Except ApiError (Option WaitlistEntry × Db) :=
  if updates.isEmpty then .ok (getWaitlistEntryById db tenantId id, db)
  else if updates.collides then .error queryError
  else
    let db2 : Db :=
      { db with
        waitlistEntries := db.waitlistEntries.map (fun e =>
          if e.tenant_id == tenantId && e.id == id then applyWaitlistUpdates updates e else e) }
    .ok (getWaitlistEntryById db2 tenantId id, db2)

/-- The service function `updateEntry`. -/
def updateEntry (db : Db) (tenantId id : Uuid) (updates : WaitlistUpdates) :
    Except ApiError (WaitlistEntry × Db) :=
  let windowStep : Except ApiError Unit :=
    if updates.requested_start.isSome || updates.requested_end.isSome then
      match getEntry db tenantId id with
      | .error e => .error e
      | .ok existing =>
        validateRequestWindow
          (match updates.requested_start with
           | some t => some t
           | none => existing.requested_start)
          (match updates.requested_end with
           | some t => some t
           | none => existing.requested_end)
    else .ok ()
  match windowStep with
  | .error e => .error e
  | .ok _ =>
    match (if updates.client_user_id.isSome then
        ensureUserInTenant db tenantId updates.client_user_id "Client" else .ok none) with
    | .error e => .error e
    | .ok _ =>
      match (if updates.provider_user_id.isSome then
          ensureUserInTenant db tenantId updates.provider_user_id "Provider"
          else .ok none) with
      | .error e => .error e
      | .ok _ =>
        match updateWaitlistEntry db tenantId id updates with
        | .error e => .error e
        | .ok (none, _) => .error ⟨404, "Waitlist entry not found"⟩
        | .ok (some entry, db2) => .ok (entry, db2)

/-- The service function `promoteEntry`. -/
def promoteEntry (db : Db) (now : Instant) (tenantId id : Uuid) :
    Except ApiError (Option WaitlistEntry × Db) :=
  match getEntry db tenantId id with
  | .error e => .error e
  | .ok entry =>
    if entry.status != "active" then .error ⟨400, "Only active entries can be promoted"⟩
    else updateWaitlistEntry db tenantId id { status := some "promoted", promoted_at := some now }

/-- The service function `cancelEntry`; `reason` is `none` when it is missing. -/
def cancelEntry (db : Db) (tenantId id : Uuid) (reason : Option String) :
    Except ApiError (Option WaitlistEntry × Db) :=
  match getEntry db tenantId id with
  | .error e => .error e
  | .ok entry =>
    if entry.status == "cancelled" then .ok (some entry, db)
    else
      updateWaitlistEntry db tenantId id
        { status := some "cancelled"
          notes := some (match reason with
            | some r =>
              if r = "" then entry.notes
              else some ((entry.notes.getD "" ++ "\nCancelled: " ++ r).trim)
            | none => entry.notes) }

/-! ### Notions used to state the frame of the group operations -/

/-- The second store has the users, calendars, slots and single appointments
of the first. -/
def SameBookings (db db2 : Db) : Prop :=
  db2.users = db.users ∧ db2.calendars = db.calendars ∧ db2.slots = db.slots
    ∧ db2.appointments = db.appointments

instance (db db2 : Db) : Decidable (SameBookings db db2) := by
  unfold SameBookings
  infer_instance

/-! ## Scenarios

Concrete stores and requests used to evaluate the definitions. Tenant 1 has the
client 10 and the provider 11, who owns calendar 20 in New York (UTC-5 in
January). Monday 2025-01-06 is local day 20094. -/

/-- The zones known in the scenarios. -/
def scenarioZones : String → Option Zone := fun name =>
  if name == "America/New_York" then some (fixedOffsetZone (-18000000))
  else if name == "UTC" then some (fixedOffsetZone 0)
  else none

/-- Monday 2025-01-06 09:00 in New York, in milliseconds since the epoch. -/
def mondayNine : Instant := 20094 * 86400000 + 9 * 3600000 + 18000000

def hourMs : Int := 3600000

/-- A store with one calendar, one Monday 09:00-12:00 template of capacity 1
and the given appointments. -/
def mondayDb (appointments : List Appointment) : Db :=
  { users := [⟨10, 1, "active"⟩, ⟨11, 1, "active"⟩, ⟨12, 1, "active"⟩]
    calendars := [⟨20, 1, 11, "America/New_York", true, [7]⟩]
    slots := [⟨30, 20, 1, 9 * 3600, 12 * 3600, 1⟩]
    appointments := appointments
    groupAppointments := []
    groupProviders := []
    groupParticipants := []
    nextId := 200 }

/-- An appointment of calendar 20 from 10:00 to 11:00 on that Monday. -/
def tenToEleven (status : String) : Appointment :=
  { id := 100
    tenant_id := 1
    calendar_id := 20
    client_user_id := 10
    start_time := mondayNine + hourMs
    end_time := mondayNine + 2 * hourMs
    status := status
    required_skills := []
    notes := none
    metadata := none }

/-- A search of Monday 09:00-12:00 for 60 minutes with skill 7. -/
def mondaySearch : SearchArgs :=
  { tenantId := 1
    skillIds := some [7]
    start := some (some mondayNine)
    stop := some (some (mondayNine + 3 * hourMs))
    duration := some 60
    timezone := some "America/New_York" }

/-- The entry of the Monday template starting `k` hours after 09:00. -/
def mondayEntry (k : Int) (available : Int) : AvailabilityEntry :=
  { calendarId := 20
    providerUserId := 11
    tenantId := 1
    skills := [7]
    slotId := 30
    start := mondayNine + k * hourMs
    stop := mondayNine + (k + 1) * hourMs
    timezone := "America/New_York"
    availableCapacity := available
    capacity := 1 }

/-- A request for an appointment of client 10 on calendar 20. -/
def bookingRequest (start stop : Instant) : CreateAppointmentArgs :=
  { tenantId := 1
    calendarId := 20
    clientUserId := 10
    startTime := some start
    endTime := some stop }

/-- Book 10:00-11:00, cancel it, book the same hour again, then set the status
of the cancelled appointment to confirmed. -/
def reactivationCalls : List AppointmentCall :=
  [ .create (bookingRequest (mondayNine + hourMs) (mondayNine + 2 * hourMs)),
    .cancel 1 200,
    .create (bookingRequest (mondayNine + hourMs) (mondayNine + 2 * hourMs)),
    .update { tenantId := 1, appointmentId := 200, status := some "confirmed" } ]

/-- The Monday store with a confirmed appointment from 10:00 to 11:00. -/
def bookedWorld : World := ⟨mondayDb [tenToEleven "confirmed"], []⟩

/-- An update of appointment 100 that supplies its own start again. -/
def moveSelf : UpdateAppointmentArgs :=
  { tenantId := 1, appointmentId := 100, startTime := some (some (mondayNine + hourMs)) }

/-- The cache key of `mondaySearch`. -/
def mondayKey : CacheKey :=
  formatCacheKey 1 [7] mondayNine (mondayNine + 3 * hourMs) 60 "America/New_York"

/-- The calendar of the Monday store as the search reads it. -/
def mondayCalendar : Calendar := ⟨20, 1, 11, "America/New_York", true, [7]⟩

/-- The template of the Monday store. -/
def mondaySlot : AvailabilitySlot := ⟨30, 20, 1, 9 * 3600, 12 * 3600, 1⟩

/-- The Monday store with a completed appointment from 10:00 to 11:00. -/
def completedWorld : World := ⟨mondayDb [tenToEleven "completed"], []⟩

/-- The Monday search asking for skill 8, which calendar 20 lacks. -/
def otherSkillSearch : SearchArgs := { mondaySearch with skillIds := some [8] }

/-- A group session in the given window with provider 11 on calendar 20,
provider 12 without a calendar, and client 10 as participant and creator. -/
def groupRequest (start stop : Instant) : GroupCreateArgs :=
  { tenantId := 1
    name := "Group session"
    startTime := some start
    endTime := some stop
    providers := some [⟨some 11, some 20⟩, ⟨some 12, none⟩]
    participants := some [⟨some 10, none⟩]
    createdBy := 10 }

/-- A group request for 11:00-11:30, when calendar 20 is free. -/
def freeGroupRequest : GroupCreateArgs :=
  groupRequest (mondayNine + 2 * hourMs) (mondayNine + 2 * hourMs + 1800000)

/-- A group request for 10:00-10:30, when calendar 20 is taken. -/
def takenGroupRequest : GroupCreateArgs :=
  groupRequest (mondayNine + hourMs) (mondayNine + hourMs + 1800000)

/-- The role tables of the scenarios: tenant 1 has the roles 50 (scheduler) and
51 (a system role), tenant 2 the role 60; user 10 holds role 50 for good, user
11 holds it until instant 1000. -/
def rbacStore : RbacStore :=
  { roles := [⟨50, 1, "scheduler", none, false⟩, ⟨51, 1, "owner", none, true⟩,
      ⟨60, 2, "scheduler", none, false⟩]
    permissions := [⟨70, "appointments:read"⟩, ⟨71, "appointments:create"⟩,
      ⟨72, "roles:update"⟩]
    rolePermissions := [⟨50, 70⟩, ⟨50, 71⟩, ⟨51, 72⟩, ⟨60, 70⟩]
    userRoles := [⟨10, 50, none, none⟩, ⟨11, 50, none, some 1000⟩] }

/-- The scenario tables with an empty cache. -/
def rbacWorld : RbacWorld := ⟨rbacStore, []⟩

/-- Caching switched on, one hour to live. -/
def rbacConfig : RbacConfig := { cacheEnabled := true, cacheTtl := 3600 }

/-- The scenario after user 10 of tenant 1 resolved a context at instant 0:
the cache holds that context. -/
def cachedWorld : RbacWorld := (getUserPermissionContext rbacConfig rbacWorld 0 1 10).2

/-- The scenario after user 11 of tenant 1, whose only assignment ends at
instant 1000, resolved a context at instant 0: the cache holds that context for
an hour. -/
def expiringWorld : RbacWorld := (getUserPermissionContext rbacConfig rbacWorld 0 1 11).2

/-- A provider list with an entry without user and a repeated user 11. -/
def repeatedProviders : List ProviderInput :=
  [⟨some 11, some 20⟩, ⟨none, some 21⟩, ⟨some 12, none⟩, ⟨some 11, some 22⟩]

/-- A group request for 11:00-11:30 with provider 11 and the two participants
10 and 12. -/
def pairGroupRequest : GroupCreateArgs :=
  { freeGroupRequest with
    providers := some [⟨some 11, some 20⟩]
    participants := some [⟨some 10, none⟩, ⟨some 12, none⟩] }

/-- The store after the group of `pairGroupRequest` was created: group
appointment 200 with two participants. -/
def pairWorld : World := (createGroupAppointment {} bookedWorld pairGroupRequest).2

/-- The booked store with a waitlist entry 300 of tenant 1. -/
def waitlistWorld : World :=
  { bookedWorld with
    db := { bookedWorld.db with
            waitlistEntries :=
              [⟨300, 1, 10, some 11, "medium", "active", none, none, false, none, none,
                none, 0⟩] } }

/-- The slot calls of the scenario on calendar 20 of tenant 1: Tuesday
10:00-12:00 is created (slot 200), Tuesday 11:00-13:00 is refused, Tuesday
12:00-13:00 is created (slot 201), slot 200 is moved to 10:30-12:00, and slot
201 is deleted. -/
def slotCalls : List SlotCall :=
  [ .create 1 20 ⟨2, some (10 * 3600), some (12 * 3600), none⟩,
    .create 1 20 ⟨2, some (11 * 3600), some (13 * 3600), none⟩,
    .create 1 20 ⟨2, some (12 * 3600), some (13 * 3600), none⟩,
    .update 1 20 200 { startTime := some (some (10 * 3600 + 1800)) },
    .delete 1 20 201 ]

/-- The Monday store without any template. -/
def emptySlotWorld : World := ⟨{ mondayDb [] with slots := [] }, []⟩

/-- The booked Monday store with a cached result of `mondaySearch` that shows
only the 09:00 candidate. -/
def staleWorld : World := ⟨mondayDb [tenToEleven "confirmed"], [(mondayKey, [mondayEntry 0 1])]⟩

/-- An update of role 50 of tenant 1 that asks for the permissions 71 and 72,
71 twice. -/
def replaceRequest : UpdateRoleArgs :=
  { tenantId := 1, roleId := 50, permissionIds := some [71, 72, 71] }

/-- The Monday store with a confirmed appointment 10:00-11:00 and a cancelled
appointment 11:00-12:00. -/
def metricsDb : Db :=
  mondayDb [tenToEleven "confirmed",
    { tenToEleven "cancelled" with
      id := 101
      start_time := mondayNine + 2 * hourMs
      end_time := mondayNine + 3 * hourMs }]

/-- A waitlist request of client 10 for the window 14:00-17:00 of the Monday. -/
def afternoonRequest : CreateEntryArgs :=
  { tenantId := 1
    clientUserId := 10
    requestedStart := some (mondayNine + 5 * hourMs)
    requestedEnd := some (mondayNine + 8 * hourMs) }

/-- The Monday store after `afternoonRequest` was accepted at instant 0: the
waitlist holds entry 200. -/
def afternoonDb : Db :=
  match createEntry (mondayDb []) 0 afternoonRequest with
  | .ok (_, db2) => db2
  | .error _ => mondayDb []

/-! # Theorems -/

/-! ## Conflicts of single appointments -/

theorem conflictsWith_iff (c : Uuid) (s e : Instant) (ig : Option Uuid) (a : Appointment) :
    conflictsWith c s e ig a = true ↔
      a.calendar_id = c ∧ (a.status = "pending" ∨ a.status = "confirmed") ∧
        a.start_time < e ∧ s < a.end_time ∧ (∀ i, ig = some i → a.id ≠ i) := by
  unfold conflictsWith
  cases ig with
  | none => simp [and_assoc]; tauto
  | some i => simp [and_assoc]; tauto

theorem findConflicting_length_ne_zero_iff (db : Db) (c : Uuid) (s e : Instant)
    (ig : Option Uuid) :
    ((findConflictingAppointments db c s e ig).length != 0) = true ↔
      ∃ a ∈ db.appointments, conflictsWith c s e ig a = true := by
  unfold findConflictingAppointments
  simp [List.filter_eq_nil_iff]

theorem create_conflict_iff (w : World) (args : CreateAppointmentArgs)
    (calendar : Calendar) (client : User) (start stop : Instant)
    (hcal : getCalendarById w.db args.tenantId args.calendarId = some calendar)
    (hclient : findUserById w.db args.clientUserId = some client)
    (htenant : client.tenant_id = args.tenantId)
    (hactive : client.status = "active")
    (htimes : validateTimes args.startTime args.endTime = .ok (start, stop))
    (hskills : ∀ s ∈ args.requiredSkills.getD [], s ∈ calendar.skills) :
    (createAppointmentForTenant w args
        = .error ⟨409, "Appointment conflicts with existing booking"⟩ ↔
      ∃ other ∈ w.db.appointments, other.calendar_id = args.calendarId ∧
        (other.status = "pending" ∨ other.status = "confirmed") ∧
        other.start_time < stop ∧ start < other.end_time) ∧
    ((¬ ∃ other ∈ w.db.appointments, other.calendar_id = args.calendarId ∧
        (other.status = "pending" ∨ other.status = "confirmed") ∧
        other.start_time < stop ∧ start < other.end_time) →
      ∃ r, createAppointmentForTenant w args = .ok r) := by
  have hex : (∃ other ∈ w.db.appointments, other.calendar_id = args.calendarId ∧
        (other.status = "pending" ∨ other.status = "confirmed") ∧
        other.start_time < stop ∧ start < other.end_time) ↔
      ((findConflictingAppointments w.db args.calendarId start stop none).length != 0)
        = true := by
    rw [findConflicting_length_ne_zero_iff]
    simp only [conflictsWith_iff]
    simp
  have hmissing : ¬ ∃ x ∈ args.requiredSkills.getD [], x ∉ calendar.skills := by
    push_neg
    exact hskills
  unfold createAppointmentForTenant
  simp only [hcal, hclient, htenant, hactive, htimes]
  rw [hex]
  by_cases hc :
      ((findConflictingAppointments w.db args.calendarId start stop none).length != 0) = true
  · simp [hc]
  · simp [hc, hmissing]

theorem update_conflict_iff (w : World) (args : UpdateAppointmentArgs)
    (appointment : Appointment) (start stop : Instant)
    (hfound : getAppointmentById w.db args.tenantId args.appointmentId = some appointment)
    (hsupplied : (args.startTime.isSome || args.endTime.isSome) = true)
    (htimes : validateTimes (args.startTime.getD (some appointment.start_time))
        (args.endTime.getD (some appointment.end_time)) = .ok (start, stop))
    (hstatus : ∀ s, args.status = some s → s = "" ∨ allowedStatuses.contains s = true) :
    (updateAppointmentForTenant w args
        = .error ⟨409, "Appointment conflicts with existing booking"⟩ ↔
      ∃ other ∈ w.db.appointments, other.id ≠ appointment.id ∧
        other.calendar_id = appointment.calendar_id ∧
        (other.status = "pending" ∨ other.status = "confirmed") ∧
        other.start_time < stop ∧ start < other.end_time) ∧
    ((¬ ∃ other ∈ w.db.appointments, other.id ≠ appointment.id ∧
        other.calendar_id = appointment.calendar_id ∧
        (other.status = "pending" ∨ other.status = "confirmed") ∧
        other.start_time < stop ∧ start < other.end_time) →
      ∃ r, updateAppointmentForTenant w args = .ok r) := by
  have hex : (∃ other ∈ w.db.appointments, other.id ≠ appointment.id ∧
        other.calendar_id = appointment.calendar_id ∧
        (other.status = "pending" ∨ other.status = "confirmed") ∧
        other.start_time < stop ∧ start < other.end_time) ↔
      ((findConflictingAppointments w.db appointment.calendar_id start stop
        (some appointment.id)).length != 0) = true := by
    rw [findConflicting_length_ne_zero_iff]
    simp only [conflictsWith_iff]
    constructor
    · rintro ⟨o, ho, h1, h2, h3, h4, h5⟩
      exact ⟨o, ho, h2, h3, h4, h5, fun i hi => by cases hi; exact h1⟩
    · rintro ⟨o, ho, h2, h3, h4, h5, h6⟩
      exact ⟨o, ho, h6 _ rfl, h2, h3, h4, h5⟩
  unfold updateAppointmentForTenant
  simp only [hfound, hsupplied, htimes, if_true]
  rw [hex]
  by_cases hc : ((findConflictingAppointments w.db appointment.calendar_id start stop
        (some appointment.id)).length != 0) = true
  · simp [hc]
  · simp only [hc, if_false]
    cases hs : args.status with
    | none => simp
    | some s =>
      rcases hstatus s hs with h | h
      · simp [h]
      · by_cases h0 : (s == "") = true
        · simp [h0]
        · have hmem : s ∈ allowedStatuses := by simpa using h
          simp [h0, hmem]

/-- C1, evaluated on the code: from a store without appointments, booking
10:00-11:00 on calendar 20, cancelling it, booking the same hour again and then
setting the status of the cancelled appointment to confirmed (an update without
times, which runs no conflict check) leaves two distinct confirmed/pending
appointments of calendar 20 on the same hour. -/
theorem status_reactivation_double_books :
    (mondayDb []).appointments = [] ∧
    (runCalls ⟨mondayDb [], []⟩ reactivationCalls).db.appointments =
      [ { tenToEleven "confirmed" with id := 200 },
        { tenToEleven "pending" with id := 201 } ] ∧
    ¬ NoDoubleBooking (runCalls ⟨mondayDb [], []⟩ reactivationCalls).db.appointments := by
  decide

/-- C2: when every other validation passes, `createAppointmentForTenant`, and
`updateAppointmentForTenant` when a start or an end is supplied, fail with the
409 conflict error exactly when some (other) pending or confirmed appointment of
the same calendar has `other.start < stop` and `start < other.end`, and succeed
otherwise; on update the appointment itself is left out. No appointment that
ends at the requested start, starts at the requested end, or is cancelled or
completed satisfies the conflict clause. -/
theorem conflict_raises_iff (w : World) (cargs : CreateAppointmentArgs)
    (uargs : UpdateAppointmentArgs) (calendar : Calendar) (client : User)
    (appointment : Appointment) (start stop ustart ustop : Instant)
    (hcal : getCalendarById w.db cargs.tenantId cargs.calendarId = some calendar)
    (hclient : findUserById w.db cargs.clientUserId = some client)
    (htenant : client.tenant_id = cargs.tenantId)
    (hactive : client.status = "active")
    (htimes : validateTimes cargs.startTime cargs.endTime = .ok (start, stop))
    (hskills : ∀ s ∈ cargs.requiredSkills.getD [], s ∈ calendar.skills)
    (hfound : getAppointmentById w.db uargs.tenantId uargs.appointmentId = some appointment)
    (hsupplied : (uargs.startTime.isSome || uargs.endTime.isSome) = true)
    (hutimes : validateTimes (uargs.startTime.getD (some appointment.start_time))
        (uargs.endTime.getD (some appointment.end_time)) = .ok (ustart, ustop))
    (hstatus : ∀ s, uargs.status = some s → s = "" ∨ allowedStatuses.contains s = true) :
    ((createAppointmentForTenant w cargs
        = .error ⟨409, "Appointment conflicts with existing booking"⟩ ↔
      ∃ other ∈ w.db.appointments, other.calendar_id = cargs.calendarId ∧
        (other.status = "pending" ∨ other.status = "confirmed") ∧
        other.start_time < stop ∧ start < other.end_time) ∧
     ((¬ ∃ other ∈ w.db.appointments, other.calendar_id = cargs.calendarId ∧
        (other.status = "pending" ∨ other.status = "confirmed") ∧
        other.start_time < stop ∧ start < other.end_time) →
      ∃ r, createAppointmentForTenant w cargs = .ok r)) ∧
    ((updateAppointmentForTenant w uargs
        = .error ⟨409, "Appointment conflicts with existing booking"⟩ ↔
      ∃ other ∈ w.db.appointments, other.id ≠ appointment.id ∧
        other.calendar_id = appointment.calendar_id ∧
        (other.status = "pending" ∨ other.status = "confirmed") ∧
        other.start_time < ustop ∧ ustart < other.end_time) ∧
     ((¬ ∃ other ∈ w.db.appointments, other.id ≠ appointment.id ∧
        other.calendar_id = appointment.calendar_id ∧
        (other.status = "pending" ∨ other.status = "confirmed") ∧
        other.start_time < ustop ∧ ustart < other.end_time) →
      ∃ r, updateAppointmentForTenant w uargs = .ok r)) ∧
    (∀ (c : Uuid) (s e : Instant) (ig : Option Uuid) (a : Appointment),
      a.end_time = s ∨ a.start_time = e ∨ a.status = "cancelled" ∨ a.status = "completed"
        ∨ ig = some a.id →
      conflictsWith c s e ig a = false) := by
  refine ⟨create_conflict_iff w cargs calendar client start stop hcal hclient htenant hactive
    htimes hskills, update_conflict_iff w uargs appointment ustart ustop hfound hsupplied
    hutimes hstatus, ?_⟩
  intro c s e ig a h
  rw [Bool.eq_false_iff]
  intro hc
  rw [conflictsWith_iff] at hc
  obtain ⟨_, hst, h3, h4, h5⟩ := hc
  rcases h with h | h | h | h | h
  · rw [h] at h4; exact lt_irrefl _ h4
  · rw [h] at h3; exact lt_irrefl _ h3
  · rw [h] at hst; revert hst; decide
  · rw [h] at hst; revert hst; decide
  · exact h5 _ h rfl

/-- Witness of C2 on the Monday store with a confirmed 10:00-11:00 appointment:
a request for 10:30-11:30 is rejected with 409, a request for 11:00-12:00 is
accepted, and an update that re-supplies the appointment's own start is
accepted. -/
theorem conflict_raises_iff_witness :
    createAppointmentForTenant bookedWorld
        (bookingRequest (mondayNine + 5400000) (mondayNine + 9000000))
      = .error ⟨409, "Appointment conflicts with existing booking"⟩ ∧
    (∃ r, updateAppointmentForTenant bookedWorld moveSelf = .ok r) ∧
    conflictsWith 20 (mondayNine + 2 * hourMs) (mondayNine + 3 * hourMs) none
      (tenToEleven "confirmed") = false :=
  have h := conflict_raises_iff bookedWorld
    (bookingRequest (mondayNine + 5400000) (mondayNine + 9000000)) moveSelf
    ⟨20, 1, 11, "America/New_York", true, [7]⟩ ⟨10, 1, "active"⟩ (tenToEleven "confirmed")
    (mondayNine + 5400000) (mondayNine + 9000000) (mondayNine + hourMs)
    (mondayNine + 2 * hourMs)
    (by decide) (by decide) (by decide) (by decide) (by decide) (by decide) (by decide)
    (by decide) (by decide) (fun s hs => by simp [moveSelf] at hs)
  ⟨h.1.1.mpr (by decide), h.2.1.2 (by decide),
    h.2.2 20 (mondayNine + 2 * hourMs) (mondayNine + 3 * hourMs) none
      (tenToEleven "confirmed") (by decide)⟩

/-! ## Availability search -/

theorem getOrEmpty_map_append {α : Type} (acc : List (Uuid × List α)) (j : Uuid) (item : α)
    (k : Uuid) :
    getOrEmpty (acc.map (fun kv => if kv.1 == j then (kv.1, kv.2 ++ [item]) else kv)) k
      = match acc.find? (fun kv => kv.1 == k) with
        | some kv => if kv.1 == j then kv.2 ++ [item] else kv.2
        | none => [] := by
  have hpg : ((fun kv : Uuid × List α => kv.1 == k) ∘
      (fun kv => if kv.1 == j then (kv.1, kv.2 ++ [item]) else kv))
      = (fun kv => kv.1 == k) := by
    funext kv
    simp only [Function.comp]
    split <;> rfl
  unfold getOrEmpty
  rw [List.find?_map, hpg]
  cases List.find? (fun kv : Uuid × List α => kv.1 == k) acc with
  | none => rfl
  | some kv =>
    simp only [Option.map_some']
    split <;> rfl

theorem getOrEmpty_groupStep {α : Type} (key : α → Uuid) (acc : List (Uuid × List α))
    (item : α) (k : Uuid) :
    getOrEmpty (if acc.any (fun kv => kv.1 == key item) then
        acc.map (fun kv => if kv.1 == key item then (kv.1, kv.2 ++ [item]) else kv)
      else acc ++ [(key item, [item])]) k
      = getOrEmpty acc k ++ (if key item == k then [item] else []) := by
  by_cases hany : acc.any (fun kv => kv.1 == key item) = true
  · rw [if_pos hany, getOrEmpty_map_append]
    unfold getOrEmpty
    cases hf : List.find? (fun kv : Uuid × List α => kv.1 == k) acc with
    | none =>
      have hk : ¬ key item = k := by
        intro hk
        rw [List.find?_eq_none] at hf
        rw [List.any_eq_true] at hany
        obtain ⟨x, hx, hxk⟩ := hany
        exact hf x hx (by simpa [hk] using hxk)
      simp [hk]
    | some kv =>
      have hkv : kv.1 = k := by simpa using List.find?_some hf
      by_cases hk : key item = k
      · simp [hk, hkv]
      · have : ¬ kv.1 = key item := by rw [hkv]; exact fun h => hk h.symm
        simp [hk, this]
  · rw [if_neg hany]
    unfold getOrEmpty
    rw [List.find?_append]
    cases hf : List.find? (fun kv : Uuid × List α => kv.1 == k) acc with
    | none =>
      by_cases hk : key item = k
      · simp [hk]
      · simp [hk]
    | some kv =>
      have hkv : kv.1 = k := by simpa using List.find?_some hf
      have hk : ¬ key item = k := by
        intro hk
        apply hany
        rw [List.any_eq_true]
        exact ⟨kv, List.mem_of_find?_eq_some hf, by simp [hk, hkv]⟩
      simp [hk]

theorem getOrEmpty_foldl {α : Type} (key : α → Uuid) (items : List α) (k : Uuid) :
    ∀ acc : List (Uuid × List α),
      getOrEmpty (items.foldl (fun acc item =>
        if acc.any (fun kv => kv.1 == key item) then
          acc.map (fun kv => if kv.1 == key item then (kv.1, kv.2 ++ [item]) else kv)
        else acc ++ [(key item, [item])]) acc) k
        = getOrEmpty acc k ++ items.filter (fun x => key x == k) := by
  induction items with
  | nil => intro acc; simp
  | cons item rest ih =>
    intro acc
    rw [List.foldl_cons, ih, getOrEmpty_groupStep]
    by_cases hk : key item = k
    · simp [hk, List.filter_cons]
    · simp [hk, List.filter_cons]

/-- Reading a key of `groupBy` gives the items with that key, in input order. -/
theorem getOrEmpty_groupBy {α : Type} (key : α → Uuid) (items : List α) (k : Uuid) :
    getOrEmpty (groupBy key items) k = items.filter (fun x => key x == k) := by
  unfold groupBy
  rw [getOrEmpty_foldl]
  simp [getOrEmpty]


theorem tileCount_of_not_lt (cs slotEnd step : Int) (hstep : 0 < step) (h : ¬ cs < slotEnd) :
    tileCount cs slotEnd step = 0 := by
  unfold tileCount
  rw [Int.toNat_eq_zero]
  have h1 : slotEnd - cs ≤ 0 := by omega
  exact Int.ediv_le_of_le_mul hstep (by omega)

theorem tileCount_of_short (cs slotEnd step : Int) (h1 : cs < slotEnd)
    (h2 : cs + step > slotEnd) : tileCount cs slotEnd step = 0 := by
  unfold tileCount
  rw [Int.ediv_eq_zero_of_lt (by omega) (by omega)]
  rfl

theorem tileCount_step (cs slotEnd step : Int) (hstep : 0 < step)
    (h2 : ¬ cs + step > slotEnd) :
    tileCount cs slotEnd step = tileCount (cs + step) slotEnd step + 1 := by
  unfold tileCount
  have e1 : slotEnd - cs = (slotEnd - (cs + step)) + 1 * step := by ring
  rw [e1, Int.add_mul_ediv_right _ _ (ne_of_gt hstep)]
  have h3 : 0 ≤ (slotEnd - (cs + step)) / step :=
    Int.ediv_nonneg (by omega) (le_of_lt hstep)
  omega

/-- The candidate loop in closed form: with enough fuel it visits the starts
`cs + k * step` for `k` below the number of full steps, in order. -/
theorem tileLoop_eq (calendar : Calendar) (slot : AvailabilitySlot)
    (appts : List Appointment) (ws we slotEnd step : Int) (hstep : 0 < step) :
    ∀ (fuel : Nat) (cs : Int), tileCount cs slotEnd step < fuel →
      tileLoop calendar slot appts ws we slotEnd step fuel cs =
        (List.range (tileCount cs slotEnd step)).flatMap (fun k =>
          offerCandidate calendar slot appts ws we (cs + (k : Int) * step)
            (cs + (k : Int) * step + step)) := by
  intro fuel
  induction fuel with
  | zero => intro cs h; omega
  | succ f ih =>
    intro cs hfuel
    unfold tileLoop
    by_cases h1 : cs < slotEnd
    · by_cases h2 : cs + step > slotEnd
      · simp [h1, h2, tileCount_of_short cs slotEnd step h1 h2]
      · have hc := tileCount_step cs slotEnd step hstep h2
        simp only [h1, h2, if_true, not_false_eq_true]
        rw [ih (cs + step) (by omega), hc, List.range_succ_eq_map]
        simp only [List.flatMap_cons, List.flatMap_map, Nat.cast_zero, zero_mul, add_zero]
        congr 1
        apply congrArg (fun f => List.flatMap (List.range (tileCount (cs + step) slotEnd step)) f)
        funext k
        simp only [Function.comp, Nat.succ_eq_add_one, Nat.cast_add, Nat.cast_one]
        have e : cs + step + (k : Int) * step = cs + ((k : Int) + 1) * step := by ring
        rw [e]
    · simp [h1, tileCount_of_not_lt cs slotEnd step hstep h1]

theorem mem_offerCandidate (calendar : Calendar) (slot : AvailabilitySlot)
    (appts : List Appointment) (ws we cs ce : Instant) (e : AvailabilityEntry) :
    e ∈ offerCandidate calendar slot appts ws we cs ce ↔
      ws ≤ cs ∧ ce ≤ we ∧ (countOverlaps appts cs ce : Int) < capacityOrOne slot ∧
        e = mkEntry calendar slot cs ce (countOverlaps appts cs ce) := by
  unfold offerCandidate
  dsimp only
  by_cases h1 : cs ≥ ws ∧ ce ≤ we
  · rw [if_pos h1]
    by_cases h2 : (countOverlaps appts cs ce : Int) < capacityOrOne slot
    · rw [if_pos h2, List.mem_singleton]
      exact ⟨fun h => ⟨h1.1, h1.2, h2, h⟩, fun h => h.2.2.2⟩
    · rw [if_neg h2]
      exact ⟨fun h => absurd h (List.not_mem_nil _), fun h => absurd h.2.2.1 h2⟩
  · rw [if_neg h1]
    exact ⟨fun h => absurd h (List.not_mem_nil _), fun h => absurd ⟨h.1, h.2.1⟩ h1⟩

theorem tileSlot_eq (zone : Zone) (calendar : Calendar) (slot : AvailabilitySlot)
    (appts : List Appointment) (ws we step : Int) (day : Int) (hstep : 0 < step) :
    tileSlot zone calendar slot appts ws we step day =
      (List.range (tileCount (zone.atLocal day slot.start_time)
          (zone.atLocal day slot.end_time) step)).flatMap (fun k =>
        offerCandidate calendar slot appts ws we
          (zone.atLocal day slot.start_time + (k : Int) * step)
          (zone.atLocal day slot.start_time + (k : Int) * step + step)) := by
  unfold tileSlot
  exact tileLoop_eq calendar slot appts ws we _ step hstep _ _ (Nat.lt_succ_self _)

/-- Any fuel above the number of full steps gives the same candidates: the
loop has finished. -/
theorem tileLoop_fuel_enough (calendar : Calendar) (slot : AvailabilitySlot)
    (appts : List Appointment) (ws we slotEnd step : Int) (hstep : 0 < step)
    (fuel : Nat) (cs : Int) (hfuel : tileCount cs slotEnd step < fuel) :
    tileLoop calendar slot appts ws we slotEnd step fuel cs =
      tileLoop calendar slot appts ws we slotEnd step (tileCount cs slotEnd step + 1) cs := by
  rw [tileLoop_eq calendar slot appts ws we slotEnd step hstep fuel cs hfuel,
    tileLoop_eq calendar slot appts ws we slotEnd step hstep _ cs (Nat.lt_succ_self _)]

theorem mem_tileSlot (zone : Zone) (calendar : Calendar) (slot : AvailabilitySlot)
    (appts : List Appointment) (ws we step : Int) (day : Int) (hstep : 0 < step)
    (e : AvailabilityEntry) :
    e ∈ tileSlot zone calendar slot appts ws we step day ↔
      ∃ k : Nat, k < tileCount (zone.atLocal day slot.start_time)
          (zone.atLocal day slot.end_time) step ∧
        ws ≤ zone.atLocal day slot.start_time + (k : Int) * step ∧
        zone.atLocal day slot.start_time + (k : Int) * step + step ≤ we ∧
        (countOverlaps appts (zone.atLocal day slot.start_time + (k : Int) * step)
          (zone.atLocal day slot.start_time + (k : Int) * step + step) : Int)
            < capacityOrOne slot ∧
        e = mkEntry calendar slot (zone.atLocal day slot.start_time + (k : Int) * step)
          (zone.atLocal day slot.start_time + (k : Int) * step + step)
          (countOverlaps appts (zone.atLocal day slot.start_time + (k : Int) * step)
            (zone.atLocal day slot.start_time + (k : Int) * step + step)) := by
  rw [tileSlot_eq zone calendar slot appts ws we step day hstep, List.mem_flatMap]
  simp only [List.mem_range, mem_offerCandidate]


theorem mem_slotCandidates (dz sz : Zone) (calendar : Calendar) (slot : AvailabilitySlot)
    (appts : List Appointment) (ws we step : Int) (e : AvailabilityEntry) :
    e ∈ slotCandidates dz sz calendar slot appts ws we step ↔
      ∃ day ∈ searchDays dz ws we, weekday day = slot.day_of_week ∧
        e ∈ tileSlot sz calendar slot appts ws we step day := by
  unfold slotCandidates
  rw [List.mem_flatMap]
  constructor
  · rintro ⟨day, hday, he⟩
    by_cases hw : weekday day = slot.day_of_week
    · rw [if_pos hw] at he; exact ⟨day, hday, hw, he⟩
    · rw [if_neg hw] at he; exact absurd he (List.not_mem_nil _)
  · rintro ⟨day, hday, hw, he⟩
    exact ⟨day, hday, by rw [if_pos hw]; exact he⟩

theorem mem_calendarCandidates (tzdb : String → Option Zone) (rz : Zone)
    (slotsBy : List (Uuid × List AvailabilitySlot)) (apptsBy : List (Uuid × List Appointment))
    (ws we step : Int) (calendar : Calendar) (e : AvailabilityEntry) :
    e ∈ calendarCandidates tzdb rz slotsBy apptsBy ws we step calendar ↔
      ∃ slot ∈ getOrEmpty slotsBy calendar.id,
        e ∈ slotCandidates (dayZoneOf tzdb rz calendar) (slotZoneOf tzdb calendar) calendar slot
          (getOrEmpty apptsBy calendar.id) ws we step := by
  unfold calendarCandidates
  dsimp only
  by_cases h : (getOrEmpty slotsBy calendar.id).length = 0
  · rw [if_pos h]
    have hnil : getOrEmpty slotsBy calendar.id = [] := List.length_eq_zero.mp h
    rw [hnil]
    simp
  · rw [if_neg h, List.mem_flatMap]

theorem contains_map_id (matching : List Calendar) (calendar : Calendar)
    (hc : calendar ∈ matching) :
    (matching.map (fun c => c.id)).contains calendar.id = true := by
  rw [List.contains_iff_exists_mem_beq]
  exact ⟨calendar.id, List.mem_map_of_mem _ hc, by simp⟩

theorem mem_calendarSlots (db : Db) (matching : List Calendar) (calendar : Calendar)
    (hc : calendar ∈ matching) (slot : AvailabilitySlot) :
    slot ∈ getOrEmpty (groupBy (fun s : AvailabilitySlot => s.calendar_id)
        (findSlotsForCalendars db (matching.map (fun c => c.id)))) calendar.id ↔
      slot ∈ db.slots ∧ slot.calendar_id = calendar.id := by
  have hne : (matching.map (fun c => c.id)).isEmpty = false := by
    cases matching with
    | nil => exact absurd hc (List.not_mem_nil _)
    | cons a l => rfl
  have hin := contains_map_id matching calendar hc
  rw [getOrEmpty_groupBy]
  unfold findSlotsForCalendars
  rw [hne]
  simp only [Bool.false_eq_true, if_false, List.mem_filter, List.mem_insertionSort,
    beq_iff_eq]
  constructor
  · rintro ⟨⟨h1, _⟩, h2⟩; exact ⟨h1, h2⟩
  · rintro ⟨h1, h2⟩; exact ⟨⟨h1, by rw [h2]; exact hin⟩, h2⟩

theorem countOverlaps_calendarAppointments (db : Db) (matching : List Calendar)
    (calendar : Calendar) (hc : calendar ∈ matching) (ws we cs ce : Instant)
    (h1 : ws ≤ cs) (h2 : ce ≤ we) :
    countOverlaps (getOrEmpty (groupBy (fun a : Appointment => a.calendar_id)
        (findAppointmentsForCalendars db (matching.map (fun c => c.id)) ws we)) calendar.id)
        cs ce
      = countOverlaps (countedAppointments db calendar.id) cs ce := by
  have hne : (matching.map (fun c => c.id)).isEmpty = false := by
    cases matching with
    | nil => exact absurd hc (List.not_mem_nil _)
    | cons a l => rfl
  have hin := contains_map_id matching calendar hc
  rw [getOrEmpty_groupBy]
  unfold findAppointmentsForCalendars countOverlaps countedAppointments
  rw [hne]
  simp only [Bool.false_eq_true, if_false, List.filter_filter]
  congr 1
  apply List.filter_congr
  intro a _
  by_cases hcal : a.calendar_id = calendar.id
  · by_cases hov : a.end_time > cs ∧ a.start_time < ce
    · have h3 : decide (a.end_time ≤ ws) = false :=
        decide_eq_false (not_le.mpr (lt_of_le_of_lt h1 hov.1))
      have h4 : decide (a.start_time ≥ we) = false :=
        decide_eq_false (not_le.mpr (lt_of_lt_of_le hov.2 h2))
      rw [hcal, hin, h3, h4]
      simp
    · have h5 : (decide (a.end_time > cs) && decide (a.start_time < ce)) = false := by
        simpa using hov
      rw [h5]
      simp
  · rw [beq_false_of_ne hcal]
    simp


/-- On a cache miss with well-formed arguments the search returns the sorted
list of offered candidates. -/
theorem search_miss_ok (tzdb : String → Option Zone) (w : World) (args : SearchArgs)
    (ss se : Instant) (tz : String) (rz : Zone)
    (hstart : args.start = some (some ss)) (hstop : args.stop = some (some se))
    (htz : args.timezone = some tz) (hne : tz ≠ "") (hzone : tzdb tz = some rz)
    (horder : ss < se) (hdur : 15 ≤ args.duration.getD 30)
    (hmiss : cacheGet w (formatCacheKey args.tenantId (args.skillIds.getD []) ss se
      (args.duration.getD 30) tz) = none) :
    ∃ w2, searchAvailability tzdb w args = .ok
      (sortByStart (offeredCandidates tzdb rz w.db
        (calendarsMatchingSkills (findCalendarsForAvailability w.db args.tenantId)
          (args.skillIds.getD [])) ss se (args.duration.getD 30)), w2) := by
  unfold searchAvailability
  simp only [hstart, hstop, htz, hzone, hmiss]
  have h1 : ¬ (tz == "") = true := by simpa using hne
  have h2 : ¬ ¬ se > ss := by simpa using horder
  have h3 : ¬ args.duration.getD 30 < SLOT_MINUTES := by
    unfold SLOT_MINUTES; omega
  rw [if_neg h1, if_neg h2, if_neg h3]
  by_cases hm : (calendarsMatchingSkills (findCalendarsForAvailability w.db args.tenantId)
      (args.skillIds.getD [])).length = 0
  · rw [if_pos hm]
    have hnil := List.length_eq_zero.mp hm
    rw [hnil]
    exact ⟨w, rfl⟩
  · rw [if_neg hm]
    exact ⟨_, rfl⟩

/-- What a successful search on a cache miss has checked and returns. -/
theorem search_miss_result (tzdb : String → Option Zone) (w : World) (args : SearchArgs)
    (ss se : Instant) (tz : String) (rz : Zone) (result : List AvailabilityEntry) (w2 : World)
    (hstart : args.start = some (some ss)) (hstop : args.stop = some (some se))
    (htz : args.timezone = some tz) (hzone : tzdb tz = some rz)
    (hmiss : cacheGet w (formatCacheKey args.tenantId (args.skillIds.getD []) ss se
      (args.duration.getD 30) tz) = none)
    (hres : searchAvailability tzdb w args = .ok (result, w2)) :
    15 ≤ args.duration.getD 30 ∧ ss < se ∧
    result = sortByStart (offeredCandidates tzdb rz w.db
        (calendarsMatchingSkills (findCalendarsForAvailability w.db args.tenantId)
          (args.skillIds.getD [])) ss se (args.duration.getD 30)) := by
  unfold searchAvailability at hres
  simp only [hstart, hstop, htz, hzone, hmiss] at hres
  by_cases h1 : (tz == "") = true
  · rw [if_pos h1] at hres; cases hres
  · rw [if_neg h1] at hres
    by_cases h2 : ¬ se > ss
    · rw [if_pos h2] at hres; cases hres
    · rw [if_neg h2] at hres
      by_cases h3 : args.duration.getD 30 < SLOT_MINUTES
      · rw [if_pos h3] at hres; cases hres
      · rw [if_neg h3] at hres
        have hdur : 15 ≤ args.duration.getD 30 := by
          unfold SLOT_MINUTES at h3; omega
        have hord : ss < se := by simpa using h2
        refine ⟨hdur, hord, ?_⟩
        by_cases hm : (calendarsMatchingSkills
            (findCalendarsForAvailability w.db args.tenantId)
            (args.skillIds.getD [])).length = 0
        · rw [if_pos hm] at hres
          have hnil := List.length_eq_zero.mp hm
          rw [hnil]
          injection hres with h
          injection h with h _
          rw [← h]
          rfl
        · rw [if_neg hm] at hres
          injection hres with h
          injection h with h _
          exact h.symm


/-- The offered candidates are exactly the entries of the tiles that satisfy
the offer condition. -/
theorem mem_offeredCandidates (tzdb : String → Option Zone) (rz : Zone) (db : Db)
    (matching : List Calendar) (ss se : Instant) (duration : Int) (hd : 0 < duration)
    (e : AvailabilityEntry) :
    e ∈ offeredCandidates tzdb rz db matching ss se duration ↔
      ∃ calendar slot day k, IsTile tzdb rz db matching ss se duration calendar slot day k ∧
        TileOffered tzdb db ss se duration calendar slot day k ∧
        e = tileEntry tzdb db duration calendar slot day k := by
  have hstep : (0 : Int) < duration * 60000 := by omega
  unfold offeredCandidates
  dsimp only
  rw [List.mem_flatMap]
  constructor
  · rintro ⟨calendar, hc, he⟩
    rw [mem_calendarCandidates] at he
    obtain ⟨slot, hslot, he⟩ := he
    rw [mem_calendarSlots db matching calendar hc] at hslot
    rw [mem_slotCandidates] at he
    obtain ⟨day, hday, hw, he⟩ := he
    rw [mem_tileSlot _ _ _ _ _ _ _ _ hstep] at he
    obtain ⟨k, hk, h1, h2, h3, h4⟩ := he
    rw [countOverlaps_calendarAppointments db matching calendar hc ss se _ _ h1 h2] at h3 h4
    exact ⟨calendar, slot, day, k, ⟨hc, hslot.1, hslot.2, hday, hw, hk⟩, ⟨h1, h2, h3⟩,
      h4⟩
  · rintro ⟨calendar, slot, day, k, ⟨hc, hs1, hs2, hday, hw, hk⟩, ⟨h1, h2, h3⟩, h4⟩
    refine ⟨calendar, hc, ?_⟩
    rw [mem_calendarCandidates]
    refine ⟨slot, (mem_calendarSlots db matching calendar hc slot).mpr ⟨hs1, hs2⟩, ?_⟩
    rw [mem_slotCandidates]
    refine ⟨day, hday, hw, ?_⟩
    rw [mem_tileSlot _ _ _ _ _ _ _ _ hstep]
    have hcnt := countOverlaps_calendarAppointments db matching calendar hc ss se _ _ h1 h2
    unfold tileStart at hcnt
    refine ⟨k, hk, h1, h2, ?_, ?_⟩
    · rw [hcnt]
      exact h3
    · rw [hcnt]
      exact h4


theorem tile_within (S E step : Int) (hstep : 0 < step) (k : Nat)
    (hk : k < tileCount S E step) : S + (k : Int) * step + step ≤ E := by
  unfold tileCount at hk
  have h0 : 0 ≤ (E - S) / step := by
    by_contra hneg
    have : ((E - S) / step).toNat = 0 := Int.toNat_eq_zero.mpr (by omega)
    omega
  have h1 : ((k : Int) + 1) ≤ (E - S) / step := by
    have := Int.toNat_of_nonneg h0
    omega
  have h2 : (E - S) / step * step ≤ E - S := Int.ediv_mul_le _ (ne_of_gt hstep)
  have h3 : ((k : Int) + 1) * step ≤ (E - S) / step * step :=
    mul_le_mul_of_nonneg_right h1 (le_of_lt hstep)
  have h4 : ((k : Int) + 1) * step = (k : Int) * step + step := by ring
  omega

theorem flatMap_singleton_eq_map {α β : Type} (l : List α) (f : α → List β) (g : α → β)
    (h : ∀ a ∈ l, f a = [g a]) : l.flatMap f = l.map g := by
  induction l with
  | nil => rfl
  | cons a rest ih =>
    rw [List.flatMap_cons, List.map_cons, h a (List.mem_cons_self _ _),
      ih (fun b hb => h b (List.mem_cons_of_mem _ hb))]
    rfl

theorem flatMap_ite_eq_filter {α β : Type} (l : List α) (p : α → Prop) [DecidablePred p]
    (f : α → List β) :
    l.flatMap (fun x => if p x then f x else [])
      = (l.filter (fun x => decide (p x))).flatMap f := by
  induction l with
  | nil => rfl
  | cons a rest ih =>
    rw [List.flatMap_cons, ih]
    by_cases h : p a
    · rw [if_pos h, List.filter_cons_of_pos (by simpa using h), List.flatMap_cons]
    · rw [if_neg h, List.filter_cons_of_neg (by simpa using h), List.nil_append]

theorem capacityOrOne_pos (slot : AvailabilitySlot) (h : 0 ≤ slot.capacity) :
    0 < capacityOrOne slot := by
  unfold capacityOrOne
  split <;> omega

theorem countOverlaps_eq_zero (appts : List Appointment) (cs ce : Instant)
    (h : ∀ a ∈ appts, ¬ (a.end_time > cs ∧ a.start_time < ce)) :
    countOverlaps appts cs ce = 0 := by
  unfold countOverlaps
  rw [List.length_eq_zero, List.filter_eq_nil_iff]
  intro a ha
  simpa using h a ha

/-- C3: the candidates of one template on one local day start at whole
multiples of the duration after the instant `S` of the slot start, have exactly
the duration and end no later than the instant `E` of the slot end, so neither a
trailing remainder nor an unaligned window is offered; and when the search
window contains `[S, E]` and no appointment overlaps it, they are exactly the
windows `[S + k*d, S + (k+1)*d)` for `k` below `floor((E - S) / d)`, in order.
The candidates of a template are those of the days of the window whose weekday
is the template's. For the Monday 09:00-12:00 template and 60 minutes the search
returns exactly 09-10, 10-11 and 11-12. -/
theorem tiling_exact (zone : Zone) (calendar : Calendar) (slot : AvailabilitySlot)
    (appts : List Appointment) (ws we : Instant) (duration : Int) (day : Int)
    (hd : 15 ≤ duration) (hcap : 0 ≤ slot.capacity) :
    (∀ e ∈ tileSlot zone calendar slot appts ws we (duration * 60000) day,
      ∃ k : Nat, k < slotTiles zone slot day (duration * 60000) ∧
        e.start = tileStart zone slot day (duration * 60000) k ∧
        e.stop = e.start + duration * 60000 ∧
        e.stop ≤ zone.atLocal day slot.end_time) ∧
    (ws ≤ zone.atLocal day slot.start_time → zone.atLocal day slot.end_time ≤ we →
      (∀ a ∈ appts, ¬ (a.end_time > zone.atLocal day slot.start_time ∧
        a.start_time < zone.atLocal day slot.end_time)) →
      tileSlot zone calendar slot appts ws we (duration * 60000) day =
        (List.range (slotTiles zone slot day (duration * 60000))).map (fun k =>
          mkEntry calendar slot (tileStart zone slot day (duration * 60000) k)
            (tileStart zone slot day (duration * 60000) k + duration * 60000) 0)) ∧
    (∀ dayZone : Zone,
      slotCandidates dayZone zone calendar slot appts ws we (duration * 60000) =
        ((searchDays dayZone ws we).filter (fun d => decide (weekday d = slot.day_of_week))).flatMap
          (tileSlot zone calendar slot appts ws we (duration * 60000))) ∧
    (searchAvailability scenarioZones ⟨mondayDb [], []⟩ mondaySearch).toOption.map Prod.fst =
      some [mondayEntry 0 1, mondayEntry 1 1, mondayEntry 2 1] := by
  have hstep : (0 : Int) < duration * 60000 := by omega
  refine ⟨?_, ?_, fun dayZone => flatMap_ite_eq_filter _ _ _, by decide⟩
  · intro e he
    rw [mem_tileSlot _ _ _ _ _ _ _ _ hstep] at he
    obtain ⟨k, hk, _, _, _, rfl⟩ := he
    exact ⟨k, hk, rfl, rfl, tile_within _ _ _ hstep k hk⟩
  · intro h1 h2 hfree
    rw [tileSlot_eq _ _ _ _ _ _ _ _ hstep]
    apply flatMap_singleton_eq_map
    intro k hk
    rw [List.mem_range] at hk
    have hw := tile_within _ _ _ hstep k hk
    have hk0 : (0 : Int) ≤ (k : Int) * (duration * 60000) :=
      mul_nonneg (Int.ofNat_nonneg k) (le_of_lt hstep)
    have hcount : countOverlaps appts
        (zone.atLocal day slot.start_time + (k : Int) * (duration * 60000))
        (zone.atLocal day slot.start_time + (k : Int) * (duration * 60000)
          + duration * 60000) = 0 := by
      apply countOverlaps_eq_zero
      intro a ha hov
      apply hfree a ha
      constructor
      · have := hov.1
        linarith
      · have := hov.2
        linarith
    unfold offerCandidate
    dsimp only
    rw [hcount]
    have hin : zone.atLocal day slot.start_time + (k : Int) * (duration * 60000) ≥ ws ∧
        zone.atLocal day slot.start_time + (k : Int) * (duration * 60000)
          + duration * 60000 ≤ we := by
      constructor <;> linarith
    rw [if_pos hin, if_pos (by simpa using capacityOrOne_pos slot hcap)]
    rfl

/-- Witness of C3: the Monday 09:00-12:00 template in New York with a 60 minute
duration and a window 09:00-12:00 is tiled into exactly 09-10, 10-11, 11-12. -/
theorem tiling_exact_witness :
    tileSlot (fixedOffsetZone (-18000000)) ⟨20, 1, 11, "America/New_York", true, [7]⟩
        ⟨30, 20, 1, 9 * 3600, 12 * 3600, 1⟩ [] mondayNine (mondayNine + 3 * hourMs)
        (60 * 60000) 20094
      = [mondayEntry 0 1, mondayEntry 1 1, mondayEntry 2 1] :=
  ((tiling_exact (fixedOffsetZone (-18000000)) ⟨20, 1, 11, "America/New_York", true, [7]⟩
      ⟨30, 20, 1, 9 * 3600, 12 * 3600, 1⟩ [] mondayNine (mondayNine + 3 * hourMs) 60 20094
      (by decide) (by decide)).2.1 (by decide) (by decide) (by decide)).trans (by decide)


theorem mkEntry_inj_offer (c1 c2 : Calendar) (s1 s2 : AvailabilitySlot) (a1 b1 a2 b2 : Instant)
    (n1 n2 : Nat) (h : mkEntry c1 s1 a1 b1 n1 = mkEntry c2 s2 a2 b2 n2) :
    a1 = a2 ∧ b1 = b2 ∧ capacityOrOne s1 = capacityOrOne s2 ∧ (n1 : Int) = (n2 : Int) := by
  unfold mkEntry at h
  injection h with _ _ _ _ _ h6 h7 _ h9 h10
  refine ⟨h6, h7, h10, ?_⟩
  rw [h10] at h9
  omega

/-- C4: on a cache miss, for every tile of a template of a matching calendar
on a matching day of the window, the tile's entry is in the result if and only
if the tile lies inside the search window and fewer pending or confirmed
appointments of the calendar overlap it than the slot's capacity; and the
result holds nothing but such entries. With the capacity-1 Monday template,
60 minutes and a confirmed appointment 10:00-11:00 the result is exactly
09:00-10:00 and 11:00-12:00. -/
theorem offer_condition (tzdb : String → Option Zone) (w : World) (args : SearchArgs)
    (ss se : Instant) (tz : String) (rz : Zone) (result : List AvailabilityEntry) (w2 : World)
    (hstart : args.start = some (some ss)) (hstop : args.stop = some (some se))
    (htz : args.timezone = some tz) (hzone : tzdb tz = some rz)
    (hmiss : cacheGet w (formatCacheKey args.tenantId (args.skillIds.getD []) ss se
      (args.duration.getD 30) tz) = none)
    (hres : searchAvailability tzdb w args = .ok (result, w2)) :
    (∀ calendar slot day k,
      IsTile tzdb rz w.db
        (calendarsMatchingSkills (findCalendarsForAvailability w.db args.tenantId)
          (args.skillIds.getD [])) ss se (args.duration.getD 30) calendar slot day k →
      (tileEntry tzdb w.db (args.duration.getD 30) calendar slot day k ∈ result ↔
        TileOffered tzdb w.db ss se (args.duration.getD 30) calendar slot day k)) ∧
    (∀ e ∈ result, ∃ calendar slot day k,
      IsTile tzdb rz w.db
        (calendarsMatchingSkills (findCalendarsForAvailability w.db args.tenantId)
          (args.skillIds.getD [])) ss se (args.duration.getD 30) calendar slot day k ∧
      TileOffered tzdb w.db ss se (args.duration.getD 30) calendar slot day k ∧
      e = tileEntry tzdb w.db (args.duration.getD 30) calendar slot day k) ∧
    (searchAvailability scenarioZones bookedWorld mondaySearch).toOption.map Prod.fst =
      some [mondayEntry 0 1, mondayEntry 2 1] := by
  obtain ⟨hdur, _, hr⟩ := search_miss_result tzdb w args ss se tz rz result w2 hstart hstop htz
    hzone hmiss hres
  have hd : 0 < args.duration.getD 30 := by omega
  have hmem : ∀ e, e ∈ result ↔ e ∈ offeredCandidates tzdb rz w.db
      (calendarsMatchingSkills (findCalendarsForAvailability w.db args.tenantId)
        (args.skillIds.getD [])) ss se (args.duration.getD 30) := by
    intro e
    rw [hr]
    unfold sortByStart
    exact List.mem_insertionSort _
  refine ⟨?_, ?_, by decide⟩
  · intro calendar slot day k htile
    rw [hmem, mem_offeredCandidates _ _ _ _ _ _ _ hd]
    constructor
    · rintro ⟨c2, s2, d2, k2, _, ⟨o1, o2, o3⟩, heq⟩
      unfold tileEntry at heq
      obtain ⟨e1, e2, e3, e4⟩ := mkEntry_inj_offer _ _ _ _ _ _ _ _ _ _ heq
      unfold TileOffered
      rw [e1, e3, e4]
      exact ⟨o1, o2, o3⟩
    · intro hoff
      exact ⟨calendar, slot, day, k, htile, hoff, rfl⟩
  · intro e he
    exact (mem_offeredCandidates _ _ _ _ _ _ _ hd e).mp ((hmem e).mp he)


/-- Witness of C4 on the Monday store with a confirmed 10:00-11:00 appointment:
the 09:00 tile is offered and in the result, the 10:00 tile is not offered and
not in the result. -/
theorem offer_condition_witness :
    searchAvailability scenarioZones bookedWorld mondaySearch
      = .ok ([mondayEntry 0 1, mondayEntry 2 1],
          cacheSet bookedWorld mondayKey [mondayEntry 0 1, mondayEntry 2 1]) ∧
    tileEntry scenarioZones bookedWorld.db 60 mondayCalendar mondaySlot 20094 0
      ∈ [mondayEntry 0 1, mondayEntry 2 1] ∧
    tileEntry scenarioZones bookedWorld.db 60 mondayCalendar mondaySlot 20094 1
      ∉ [mondayEntry 0 1, mondayEntry 2 1] :=
  have hres : searchAvailability scenarioZones bookedWorld mondaySearch
      = .ok ([mondayEntry 0 1, mondayEntry 2 1],
          cacheSet bookedWorld mondayKey [mondayEntry 0 1, mondayEntry 2 1]) := by decide
  have h := offer_condition scenarioZones bookedWorld mondaySearch mondayNine
    (mondayNine + 3 * hourMs) "America/New_York" (fixedOffsetZone (-18000000))
    [mondayEntry 0 1, mondayEntry 2 1]
    (cacheSet bookedWorld mondayKey [mondayEntry 0 1, mondayEntry 2 1])
    (by decide) (by decide) (by decide) rfl (by decide) hres
  ⟨hres,
   (h.1 mondayCalendar mondaySlot 20094 0 (by unfold IsTile; decide)).mpr
     (by unfold TileOffered; decide),
   fun hin => absurd ((h.1 mondayCalendar mondaySlot 20094 1 (by unfold IsTile; decide)).mp hin)
     (by unfold TileOffered; decide)⟩


/-- The entries of a search result computed on a cache miss. -/
theorem mem_result (tzdb : String → Option Zone) (w : World) (args : SearchArgs)
    (ss se : Instant) (tz : String) (rz : Zone) (result : List AvailabilityEntry) (w2 : World)
    (hstart : args.start = some (some ss)) (hstop : args.stop = some (some se))
    (htz : args.timezone = some tz) (hzone : tzdb tz = some rz)
    (hmiss : cacheGet w (formatCacheKey args.tenantId (args.skillIds.getD []) ss se
      (args.duration.getD 30) tz) = none)
    (hres : searchAvailability tzdb w args = .ok (result, w2)) (e : AvailabilityEntry) :
    e ∈ result ↔ ∃ calendar slot day k,
      IsTile tzdb rz w.db
        (calendarsMatchingSkills (findCalendarsForAvailability w.db args.tenantId)
          (args.skillIds.getD [])) ss se (args.duration.getD 30) calendar slot day k ∧
      TileOffered tzdb w.db ss se (args.duration.getD 30) calendar slot day k ∧
      e = tileEntry tzdb w.db (args.duration.getD 30) calendar slot day k := by
  obtain ⟨hdur, _, hr⟩ := search_miss_result tzdb w args ss se tz rz result w2 hstart hstop htz
    hzone hmiss hres
  have hd : 0 < args.duration.getD 30 := by omega
  rw [← mem_offeredCandidates _ _ _ _ _ _ _ hd, hr]
  unfold sortByStart
  exact List.mem_insertionSort _

/-- C5: on a cache miss every returned entry has
`availableCapacity = capacity - overlappingCount`, where `overlappingCount` is
the number of pending or confirmed appointments of the entry's calendar that
overlap the entry's window, and `1 <= availableCapacity <= capacity`. -/
theorem remaining_capacity (tzdb : String → Option Zone) (w : World) (args : SearchArgs)
    (ss se : Instant) (tz : String) (rz : Zone) (result : List AvailabilityEntry) (w2 : World)
    (hstart : args.start = some (some ss)) (hstop : args.stop = some (some se))
    (htz : args.timezone = some tz) (hzone : tzdb tz = some rz)
    (hmiss : cacheGet w (formatCacheKey args.tenantId (args.skillIds.getD []) ss se
      (args.duration.getD 30) tz) = none)
    (hres : searchAvailability tzdb w args = .ok (result, w2)) :
    ∀ e ∈ result,
      e.availableCapacity = e.capacity
        - (countOverlaps (countedAppointments w.db e.calendarId) e.start e.stop : Int) ∧
      1 ≤ e.availableCapacity ∧ e.availableCapacity ≤ e.capacity := by
  intro e he
  rw [mem_result tzdb w args ss se tz rz result w2 hstart hstop htz hzone hmiss hres] at he
  obtain ⟨calendar, slot, day, k, _, ⟨_, _, h3⟩, rfl⟩ := he
  refine ⟨rfl, ?_, ?_⟩
  · show 1 ≤ capacityOrOne slot - (tileOverlaps tzdb w.db (args.duration.getD 30)
      calendar slot day k : Int)
    omega
  · show capacityOrOne slot - (tileOverlaps tzdb w.db (args.duration.getD 30)
      calendar slot day k : Int) ≤ capacityOrOne slot
    omega

/-- Witness of C5 on the Monday store with a confirmed 10:00-11:00
appointment: the 09:00-10:00 entry has capacity 1, no overlap, and one place
left. -/
theorem remaining_capacity_witness :
    mondayEntry 0 1 ∈ [mondayEntry 0 1, mondayEntry 2 1] ∧
    (mondayEntry 0 1).availableCapacity = (mondayEntry 0 1).capacity
      - (countOverlaps (countedAppointments bookedWorld.db (mondayEntry 0 1).calendarId)
          (mondayEntry 0 1).start (mondayEntry 0 1).stop : Int) ∧
    1 ≤ (mondayEntry 0 1).availableCapacity ∧
    (mondayEntry 0 1).availableCapacity ≤ (mondayEntry 0 1).capacity :=
  ⟨by decide,
   remaining_capacity scenarioZones bookedWorld mondaySearch mondayNine
    (mondayNine + 3 * hourMs) "America/New_York" (fixedOffsetZone (-18000000))
    [mondayEntry 0 1, mondayEntry 2 1]
    (cacheSet bookedWorld mondayKey [mondayEntry 0 1, mondayEntry 2 1])
    (by decide) (by decide) (by decide) rfl (by decide) (by decide)
    (mondayEntry 0 1) (by decide)⟩


theorem findAppointments_dropUncounted (w : World) (ids : List Uuid) (ws we : Instant) :
    findAppointmentsForCalendars (dropUncounted w).db ids ws we
      = findAppointmentsForCalendars w.db ids ws we := by
  unfold findAppointmentsForCalendars dropUncounted
  dsimp only
  split
  · rfl
  · rw [List.filter_filter]
    apply List.filter_congr
    intro a _
    cases h : (a.status == "pending" || a.status == "confirmed") <;> simp [h]

theorem offeredCandidates_dropUncounted (tzdb : String → Option Zone) (rz : Zone) (w : World)
    (matching : List Calendar) (ss se : Instant) (duration : Int) :
    offeredCandidates tzdb rz (dropUncounted w).db matching ss se duration
      = offeredCandidates tzdb rz w.db matching ss se duration := by
  unfold offeredCandidates
  dsimp only
  rw [findAppointments_dropUncounted]
  rfl

theorem search_dropUncounted (tzdb : String → Option Zone) (w : World) (args : SearchArgs) :
    Except.map Prod.fst (searchAvailability tzdb (dropUncounted w) args)
      = Except.map Prod.fst (searchAvailability tzdb w args) := by
  have hcache : ∀ key, cacheGet (dropUncounted w) key = cacheGet w key := fun _ => rfl
  have hcal : findCalendarsForAvailability (dropUncounted w).db args.tenantId
      = findCalendarsForAvailability w.db args.tenantId := rfl
  unfold searchAvailability
  dsimp only
  simp only [hcache, hcal, offeredCandidates_dropUncounted]
  repeat' split
  all_goals rfl


/-- C6 as stated fails: with a completed (hence non-cancelled) appointment
10:00-11:00 on the Monday calendar, the search still returns the 10:00-11:00
candidate with its full capacity, although one non-cancelled appointment of the
calendar overlaps that candidate. -/
theorem completed_not_counted :
    (searchAvailability scenarioZones completedWorld mondaySearch).toOption.map Prod.fst
      = some [mondayEntry 0 1, mondayEntry 1 1, mondayEntry 2 1] ∧
    countOverlaps (nonCancelledAppointments completedWorld.db (mondayEntry 1 1).calendarId)
      (mondayEntry 1 1).start (mondayEntry 1 1).stop = 1 ∧
    (mondayEntry 1 1).capacity - (mondayEntry 1 1).availableCapacity = 0 ∧
    (mondayEntry 1 1).capacity - (mondayEntry 1 1).availableCapacity ≠
      (countOverlaps (nonCancelledAppointments completedWorld.db (mondayEntry 1 1).calendarId)
        (mondayEntry 1 1).start (mondayEntry 1 1).stop : Int) := by
  decide

/-- C6, amended: on a cache miss the capacity used up in a returned entry is
the number of appointments of the entry's calendar with status pending or
confirmed that overlap the entry's window, one for each; and appointments with
any other status (cancelled, completed) are ignored: removing them from the
store never changes the list the search returns. -/
theorem counted_statuses (tzdb : String → Option Zone) (w : World) (args : SearchArgs)
    (ss se : Instant) (tz : String) (rz : Zone) (result : List AvailabilityEntry) (w2 : World)
    (hstart : args.start = some (some ss)) (hstop : args.stop = some (some se))
    (htz : args.timezone = some tz) (hzone : tzdb tz = some rz)
    (hmiss : cacheGet w (formatCacheKey args.tenantId (args.skillIds.getD []) ss se
      (args.duration.getD 30) tz) = none)
    (hres : searchAvailability tzdb w args = .ok (result, w2)) :
    (∀ e ∈ result,
      e.capacity - e.availableCapacity =
        ((w.db.appointments.filter (fun a =>
          (a.calendar_id == e.calendarId && (a.status == "pending" || a.status == "confirmed"))
            && (decide (a.end_time > e.start) && decide (a.start_time < e.stop)))).length
          : Int)) ∧
    Except.map Prod.fst (searchAvailability tzdb (dropUncounted w) args)
      = Except.map Prod.fst (searchAvailability tzdb w args) := by
  refine ⟨?_, search_dropUncounted tzdb w args⟩
  intro e he
  rw [mem_result tzdb w args ss se tz rz result w2 hstart hstop htz hzone hmiss hres] at he
  obtain ⟨calendar, slot, day, k, _, _, rfl⟩ := he
  have hcount : tileOverlaps tzdb w.db (args.duration.getD 30) calendar slot day k
      = (w.db.appointments.filter (fun a =>
          (a.calendar_id == calendar.id && (a.status == "pending" || a.status == "confirmed"))
            && (decide (a.end_time > tileStart (slotZoneOf tzdb calendar) slot day
                (args.duration.getD 30 * 60000) k)
              && decide (a.start_time < tileStart (slotZoneOf tzdb calendar) slot day
                (args.duration.getD 30 * 60000) k + args.duration.getD 30 * 60000)))).length := by
    unfold tileOverlaps countOverlaps countedAppointments
    rw [List.filter_filter]
    congr 1
    apply List.filter_congr
    intro a _
    exact Bool.and_comm _ _
  show capacityOrOne slot - (capacityOrOne slot
      - (tileOverlaps tzdb w.db (args.duration.getD 30) calendar slot day k : Int)) = _
  rw [hcount]
  unfold tileEntry mkEntry
  dsimp only
  omega

/-- Witness of the amended C6 on the Monday store with a confirmed 10:00-11:00
appointment: the 09:00-10:00 entry has used up none of its capacity. -/
theorem counted_statuses_witness :
    mondayEntry 0 1 ∈ [mondayEntry 0 1, mondayEntry 2 1] ∧
    (mondayEntry 0 1).capacity - (mondayEntry 0 1).availableCapacity =
        ((bookedWorld.db.appointments.filter (fun a =>
          (a.calendar_id == (mondayEntry 0 1).calendarId
              && (a.status == "pending" || a.status == "confirmed"))
            && (decide (a.end_time > (mondayEntry 0 1).start)
              && decide (a.start_time < (mondayEntry 0 1).stop)))).length : Int) :=
  ⟨by decide,
   (counted_statuses scenarioZones bookedWorld mondaySearch mondayNine
    (mondayNine + 3 * hourMs) "America/New_York" (fixedOffsetZone (-18000000))
    [mondayEntry 0 1, mondayEntry 2 1]
    (cacheSet bookedWorld mondayKey [mondayEntry 0 1, mondayEntry 2 1])
    (by decide) (by decide) (by decide) rfl (by decide) (by decide)).1
    (mondayEntry 0 1) (by decide)⟩


theorem mem_calendarsMatchingSkills (calendars : List Calendar) (skillIds : List Uuid)
    (c : Calendar) :
    c ∈ calendarsMatchingSkills calendars skillIds ↔
      c ∈ calendars ∧ ∀ s ∈ skillIds, s ∈ c.skills := by
  unfold calendarsMatchingSkills
  rw [List.mem_filter]
  constructor
  · rintro ⟨hc, hp⟩
    refine ⟨hc, ?_⟩
    by_cases hl : skillIds.length = 0
    · rw [List.length_eq_zero.mp hl]
      intro s hs
      exact absurd hs (List.not_mem_nil _)
    · rw [if_neg hl, List.all_eq_true] at hp
      intro s hs
      simpa using hp s hs
  · rintro ⟨hc, hp⟩
    refine ⟨hc, ?_⟩
    by_cases hl : skillIds.length = 0
    · rw [if_pos hl]
    · rw [if_neg hl, List.all_eq_true]
      intro s hs
      simpa using hp s hs

theorem mem_findCalendarsForAvailability (db : Db) (tenantId : Uuid) (c : Calendar) :
    c ∈ findCalendarsForAvailability db tenantId ↔
      ∃ cal ∈ db.calendars, cal.tenant_id = tenantId ∧ cal.is_active = true ∧
        c = { cal with skills := cal.skills.insertionSort (fun a b => a ≤ b) } := by
  unfold findCalendarsForAvailability
  rw [List.mem_map]
  constructor
  · rintro ⟨cal, hcal, rfl⟩
    rw [List.mem_filter] at hcal
    have h2 : cal.tenant_id = tenantId ∧ cal.is_active = true := by simpa using hcal.2
    exact ⟨cal, hcal.1, h2.1, h2.2, rfl⟩
  · rintro ⟨cal, hcal, h1, h2, rfl⟩
    refine ⟨cal, ?_, rfl⟩
    rw [List.mem_filter]
    exact ⟨hcal, by simp [h1, h2]⟩

/-- C7: on a cache miss with well-formed arguments the search returns a list
(never an error); the calendar of every returned entry belongs to the tenant, is
active and has every skill of the filter; an active calendar of the tenant that
has every skill of the filter is among the calendars searched, and each of its
tiles that satisfies the offer condition is in the result; the empty filter
keeps every active calendar; and when no active calendar matches the result is
the empty list. -/
theorem skill_filtering (tzdb : String → Option Zone) (w : World) (args : SearchArgs)
    (ss se : Instant) (tz : String) (rz : Zone)
    (hstart : args.start = some (some ss)) (hstop : args.stop = some (some se))
    (htz : args.timezone = some tz) (hne : tz ≠ "") (hzone : tzdb tz = some rz)
    (horder : ss < se) (hdur : 15 ≤ args.duration.getD 30)
    (hmiss : cacheGet w (formatCacheKey args.tenantId (args.skillIds.getD []) ss se
      (args.duration.getD 30) tz) = none) :
    ∃ result w2, searchAvailability tzdb w args = .ok (result, w2) ∧
      (∀ e ∈ result, ∃ cal ∈ w.db.calendars, cal.id = e.calendarId ∧
        cal.tenant_id = args.tenantId ∧ cal.is_active = true ∧
        ∀ s ∈ args.skillIds.getD [], s ∈ cal.skills) ∧
      (∀ cal ∈ w.db.calendars, cal.tenant_id = args.tenantId → cal.is_active = true →
        (∀ s ∈ args.skillIds.getD [], s ∈ cal.skills) →
        { cal with skills := cal.skills.insertionSort (fun a b => a ≤ b) } ∈
            calendarsMatchingSkills (findCalendarsForAvailability w.db args.tenantId)
              (args.skillIds.getD []) ∧
          ∀ slot ∈ w.db.slots, slot.calendar_id = cal.id →
            ∀ day ∈ searchDays (dayZoneOf tzdb rz cal) ss se, weekday day = slot.day_of_week →
            ∀ k, k < slotTiles (slotZoneOf tzdb cal) slot day (args.duration.getD 30 * 60000) →
              TileOffered tzdb w.db ss se (args.duration.getD 30)
                { cal with skills := cal.skills.insertionSort (fun a b => a ≤ b) } slot day k →
              tileEntry tzdb w.db (args.duration.getD 30)
                { cal with skills := cal.skills.insertionSort (fun a b => a ≤ b) } slot day k
                ∈ result) ∧
      (args.skillIds.getD [] = [] →
        calendarsMatchingSkills (findCalendarsForAvailability w.db args.tenantId)
          (args.skillIds.getD []) = findCalendarsForAvailability w.db args.tenantId) ∧
      (calendarsMatchingSkills (findCalendarsForAvailability w.db args.tenantId)
          (args.skillIds.getD []) = [] →
        searchAvailability tzdb w args = .ok ([], w)) := by
  obtain ⟨w2, hres⟩ := search_miss_ok tzdb w args ss se tz rz hstart hstop htz hne hzone horder
    hdur hmiss
  refine ⟨_, w2, hres, ?_, ?_, ?_, ?_⟩
  · intro e he
    rw [mem_result tzdb w args ss se tz rz _ w2 hstart hstop htz hzone hmiss hres] at he
    obtain ⟨calendar, slot, day, k, ⟨hc, _⟩, _, rfl⟩ := he
    rw [mem_calendarsMatchingSkills, mem_findCalendarsForAvailability] at hc
    obtain ⟨⟨cal, hcal, h1, h2, rfl⟩, hskills⟩ := hc
    refine ⟨cal, hcal, rfl, h1, h2, ?_⟩
    intro s hs
    exact (List.mem_insertionSort _).mp (hskills s hs)
  · intro cal hcal h1 h2 hskills
    have hmatch : { cal with skills := cal.skills.insertionSort (fun a b => a ≤ b) } ∈
        calendarsMatchingSkills (findCalendarsForAvailability w.db args.tenantId)
          (args.skillIds.getD []) := by
      rw [mem_calendarsMatchingSkills, mem_findCalendarsForAvailability]
      exact ⟨⟨cal, hcal, h1, h2, rfl⟩,
        fun s hs => (List.mem_insertionSort _).mpr (hskills s hs)⟩
    refine ⟨hmatch, ?_⟩
    intro slot hslot hsc day hday hw k hk hoff
    rw [mem_result tzdb w args ss se tz rz _ w2 hstart hstop htz hzone hmiss hres]
    exact ⟨_, slot, day, k, ⟨hmatch, hslot, hsc, hday, hw, hk⟩, hoff, rfl⟩
  · intro hnil
    rw [hnil]
    unfold calendarsMatchingSkills
    simp
  · intro hnil
    unfold searchAvailability
    simp only [hstart, hstop, htz, hzone, hmiss]
    have h1 : ¬ (tz == "") = true := by simpa using hne
    have h2 : ¬ ¬ se > ss := by simpa using horder
    have h3 : ¬ args.duration.getD 30 < SLOT_MINUTES := by
      unfold SLOT_MINUTES; omega
    rw [if_neg h1, if_neg h2, if_neg h3, hnil]
    rfl


/-- Witness of C7 on the Monday store: a search for skill 8, which the only
calendar lacks, returns the empty list and no error. -/
theorem skill_filtering_witness :
    calendarsMatchingSkills (findCalendarsForAvailability bookedWorld.db 1) [8] = [] ∧
    searchAvailability scenarioZones bookedWorld otherSkillSearch = .ok ([], bookedWorld) := by
  obtain ⟨_, _, _, _, _, _, h⟩ := skill_filtering scenarioZones bookedWorld otherSkillSearch
    mondayNine (mondayNine + 3 * hourMs) "America/New_York" (fixedOffsetZone (-18000000))
    (by decide) (by decide) (by decide) (by decide) rfl (by decide) (by decide) (by decide)
  exact ⟨by decide, h (by decide)⟩

/-- C8: on a cache miss the returned list is a permutation of the offered
candidates collected over all calendars, templates and days, and is sorted by
start instant: of any two entries the earlier in the list starts no later, in
particular each entry starts no later than its successor. -/
theorem result_sorted_perm (tzdb : String → Option Zone) (w : World) (args : SearchArgs)
    (ss se : Instant) (tz : String) (rz : Zone) (result : List AvailabilityEntry) (w2 : World)
    (hstart : args.start = some (some ss)) (hstop : args.stop = some (some se))
    (htz : args.timezone = some tz) (hzone : tzdb tz = some rz)
    (hmiss : cacheGet w (formatCacheKey args.tenantId (args.skillIds.getD []) ss se
      (args.duration.getD 30) tz) = none)
    (hres : searchAvailability tzdb w args = .ok (result, w2)) :
    result.Perm (offeredCandidates tzdb rz w.db
        (calendarsMatchingSkills (findCalendarsForAvailability w.db args.tenantId)
          (args.skillIds.getD [])) ss se (args.duration.getD 30)) ∧
    List.Sorted (fun a b => a.start ≤ b.start) result ∧
    (∀ (i : Nat) (h : i + 1 < result.length),
      (result.get ⟨i, Nat.lt_of_succ_lt h⟩).start ≤ (result.get ⟨i + 1, h⟩).start) := by
  obtain ⟨_, _, hr⟩ := search_miss_result tzdb w args ss se tz rz result w2 hstart hstop htz
    hzone hmiss hres
  haveI : IsTotal AvailabilityEntry (fun a b => a.start ≤ b.start) :=
    ⟨fun a b => le_total a.start b.start⟩
  haveI : IsTrans AvailabilityEntry (fun a b => a.start ≤ b.start) :=
    ⟨fun a b c hab hbc => le_trans hab hbc⟩
  have hsorted : List.Sorted (fun a b => a.start ≤ b.start) result := by
    rw [hr]
    exact List.sorted_insertionSort _ _
  refine ⟨?_, hsorted, ?_⟩
  · rw [hr]
    exact List.perm_insertionSort _ _
  · intro i h
    exact List.pairwise_iff_get.mp hsorted ⟨i, Nat.lt_of_succ_lt h⟩ ⟨i + 1, h⟩
      (Nat.lt_succ_self i)

/-- Witness of C8 on the Monday store with a confirmed 10:00-11:00
appointment: the result 09:00-10:00, 11:00-12:00 is sorted by start. -/
theorem result_sorted_perm_witness :
    searchAvailability scenarioZones bookedWorld mondaySearch
      = .ok ([mondayEntry 0 1, mondayEntry 2 1],
          cacheSet bookedWorld mondayKey [mondayEntry 0 1, mondayEntry 2 1]) ∧
    List.Sorted (fun a b => a.start ≤ b.start) [mondayEntry 0 1, mondayEntry 2 1] :=
  have hres : searchAvailability scenarioZones bookedWorld mondaySearch
      = .ok ([mondayEntry 0 1, mondayEntry 2 1],
          cacheSet bookedWorld mondayKey [mondayEntry 0 1, mondayEntry 2 1]) := by decide
  ⟨hres, (result_sorted_perm scenarioZones bookedWorld mondaySearch mondayNine
    (mondayNine + 3 * hourMs) "America/New_York" (fixedOffsetZone (-18000000))
    [mondayEntry 0 1, mondayEntry 2 1]
    (cacheSet bookedWorld mondayKey [mondayEntry 0 1, mondayEntry 2 1])
    (by decide) (by decide) (by decide) rfl (by decide) hres).2.1⟩

/-! ## Group appointments -/

theorem transaction_rollback {α : Type} (db : Db) (callback : Db → Except ApiError α × Db)
    (e : ApiError) (h : (transaction db callback).1 = .error e) :
    (transaction db callback).2 = db := by
  unfold transaction at h ⊢
  split at h
  · cases h
  · rfl

theorem transaction_error_db {α : Type} (db db2 : Db) (callback : Db → Except ApiError α × Db)
    (e : ApiError) (h : transaction db callback = (.error e, db2)) : db2 = db := by
  have h2 := transaction_rollback db callback e (by rw [h])
  rw [h] at h2
  exact h2

/-- A call to `createGroupAppointment` either leaves the world as it was or
succeeds. -/
theorem createGroup_unchanged_or_ok (faults : InsertFaults) (w : World)
    (args : GroupCreateArgs) :
    (createGroupAppointment faults w args).2 = w ∨
      ∃ v, (createGroupAppointment faults w args).1 = .ok v := by
  unfold createGroupAppointment
  dsimp only
  repeat' split
  all_goals first
    | exact Or.inl rfl
    | exact Or.inr ⟨_, rfl⟩
    | (rename_i heq
       have h2 := transaction_error_db _ _ _ _ heq
       subst h2
       exact Or.inl rfl)

/-- C9: whenever `createGroupAppointment` fails, whether in a validation, in a
provider's conflict check or in any of the three inserts, the world after the
call is the world before it: no group appointment, provider or participant row
of the request is kept. -/
theorem group_creation_atomic (faults : InsertFaults) (w : World) (args : GroupCreateArgs)
    (e : ApiError) (hfail : (createGroupAppointment faults w args).1 = .error e) :
    (createGroupAppointment faults w args).2 = w := by
  rcases createGroup_unchanged_or_ok faults w args with h | ⟨v, hv⟩
  · exact h
  · rw [hv] at hfail
    cases hfail

/-- Witness of C9 on the Monday store with a confirmed 10:00-11:00 appointment:
a group request whose participant insert is rejected by the database, and one
whose provider calendar is taken (409), both leave the world unchanged, while
the accepted request stores one group appointment, two providers and one
participant. -/
theorem group_creation_atomic_witness :
    (createGroupAppointment { participants := true } bookedWorld freeGroupRequest).1
      = .error queryError ∧
    (createGroupAppointment { participants := true } bookedWorld freeGroupRequest).2
      = bookedWorld ∧
    (createGroupAppointment {} bookedWorld takenGroupRequest).2 = bookedWorld ∧
    ((createGroupAppointment {} bookedWorld freeGroupRequest).2.db.groupAppointments.length,
     (createGroupAppointment {} bookedWorld freeGroupRequest).2.db.groupProviders.length,
     (createGroupAppointment {} bookedWorld freeGroupRequest).2.db.groupParticipants.length)
      = (1, 2, 1) :=
  ⟨by decide,
   group_creation_atomic { participants := true } bookedWorld freeGroupRequest queryError
     (by decide),
   group_creation_atomic {} bookedWorld takenGroupRequest
     ⟨409, "Calendar is not available for the selected time window"⟩ (by decide),
   by decide⟩


theorem promiseAll_ok {α : Type} (check : α → Except ApiError Unit) (l : List α)
    (h : ∀ x ∈ l, check x = .ok ()) : promiseAll check l = .ok () := by
  induction l with
  | nil => rfl
  | cons a rest ih =>
    unfold promiseAll
    rw [h a (List.mem_cons_self _ _)]
    exact ih (fun x hx => h x (List.mem_cons_of_mem _ hx))

theorem promiseAll_error {α : Type} (check : α → Except ApiError Unit) (l : List α)
    (err : ApiError) (h : ∀ x ∈ l, check x = .ok () ∨ check x = .error err)
    (hex : ∃ x ∈ l, check x = .error err) : promiseAll check l = .error err := by
  induction l with
  | nil =>
    obtain ⟨x, hx, _⟩ := hex
    exact absurd hx (List.not_mem_nil _)
  | cons a rest ih =>
    unfold promiseAll
    rcases h a (List.mem_cons_self _ _) with ha | ha
    · rw [ha]
      apply ih (fun x hx => h x (List.mem_cons_of_mem _ hx))
      obtain ⟨x, hx, hxe⟩ := hex
      rcases List.mem_cons.mp hx with rfl | hx2
      · rw [ha] at hxe; cases hxe
      · exact ⟨x, hx2, hxe⟩
    · rw [ha]

/-- With no insert rejected by the database the transaction callback succeeds. -/
theorem insertGroup_ok (data : NewGroupAppointment) (providers : List ProviderRecord)
    (participants : List ParticipantRecord) (db : Db) :
    ∃ ga db2, transaction db (insertGroup {} data providers participants) = (.ok ga, db2) := by
  unfold transaction insertGroup insertGroupAppointment insertGroupProviders
    insertGroupParticipants
  dsimp only
  by_cases h1 : providers.length = 0
  · by_cases h2 : participants.length = 0
    · simp [h1, h2]
    · simp [h1, h2]
  · by_cases h2 : participants.length = 0
    · simp [h1, h2]
    · simp [h1, h2]


theorem ensureNoCalendarConflicts_cases (db : Db) (cid : Option Uuid) (s e : Instant) :
    (ensureNoCalendarConflicts db cid s e none
        = .error ⟨409, "Calendar is not available for the selected time window"⟩ ∧
      ∃ c, cid = some c ∧ ∃ a ∈ db.appointments, a.calendar_id = c ∧
        (a.status = "pending" ∨ a.status = "confirmed") ∧
        a.start_time < e ∧ s < a.end_time) ∨
    (ensureNoCalendarConflicts db cid s e none = .ok () ∧
      ¬ ∃ c, cid = some c ∧ ∃ a ∈ db.appointments, a.calendar_id = c ∧
        (a.status = "pending" ∨ a.status = "confirmed") ∧
        a.start_time < e ∧ s < a.end_time) := by
  unfold ensureNoCalendarConflicts
  cases cid with
  | none =>
    right
    exact ⟨rfl, fun ⟨c, hc, _⟩ => by cases hc⟩
  | some c =>
    dsimp only
    by_cases hc : ((findConflictingAppointments db c s e none).length != 0) = true
    · left
      rw [if_pos hc]
      refine ⟨rfl, c, rfl, ?_⟩
      rw [findConflicting_length_ne_zero_iff] at hc
      obtain ⟨a, ha, hca⟩ := hc
      rw [conflictsWith_iff] at hca
      exact ⟨a, ha, hca.1, hca.2.1, hca.2.2.1, hca.2.2.2.1⟩
    · right
      rw [if_neg hc]
      refine ⟨rfl, ?_⟩
      rintro ⟨c2, hc2, a, ha, h1, h2, h3, h4⟩
      cases hc2
      apply hc
      rw [findConflicting_length_ne_zero_iff]
      exact ⟨a, ha,
        (conflictsWith_iff _ _ _ _ _).mpr ⟨h1, h2, h3, h4, fun i hi => by cases hi⟩⟩

/-- C10: when every other validation passes and no insert is rejected,
`createGroupAppointment` fails with the 409 conflict error if and only if some
normalised provider names a calendar on which a pending or confirmed
appointment overlaps the requested window `[start, stop)` (half-open), and
succeeds otherwise; the check reads the named calendar only, and a provider
without a calendar is never conflict-checked. -/
theorem group_conflict_iff (w : World) (args : GroupCreateArgs) (start stop : Instant)
    (creator : User)
    (hprov : (args.providers.getD []).length ≠ 0)
    (hrange : assertDateRange args.startTime args.endTime = .ok (start, stop))
    (hnorm : (normalizeProviderInput (args.providers.getD [])).length ≠ 0)
    (hmax : ¬ args.maxParticipants.getD
        (max 1 ((normalizeParticipantInput (args.participants.getD [])).length : Int))
      < ((normalizeParticipantInput (args.participants.getD [])).length : Int))
    (hcreator : ensureUserActiveInTenant w.db args.tenantId args.createdBy "Creator"
      = .ok creator)
    (hproviders : ∀ p ∈ normalizeProviderInput (args.providers.getD []),
      (∃ u, ensureUserActiveInTenant w.db args.tenantId p.userId "Provider" = .ok u) ∧
      (∃ c, ensureCalendarForProvider w.db args.tenantId p.calendarId p.userId = .ok c))
    (hparticipants : ∀ p ∈ normalizeParticipantInput (args.participants.getD []),
      ∃ u, ensureUserActiveInTenant w.db args.tenantId p.userId "Participant" = .ok u) :
    ((createGroupAppointment {} w args).1
        = .error ⟨409, "Calendar is not available for the selected time window"⟩ ↔
      ∃ p ∈ normalizeProviderInput (args.providers.getD []), ∃ c, p.calendarId = some c ∧
        ∃ a ∈ w.db.appointments, a.calendar_id = c ∧
          (a.status = "pending" ∨ a.status = "confirmed") ∧
          a.start_time < stop ∧ start < a.end_time) ∧
    ((¬ ∃ p ∈ normalizeProviderInput (args.providers.getD []), ∃ c, p.calendarId = some c ∧
        ∃ a ∈ w.db.appointments, a.calendar_id = c ∧
          (a.status = "pending" ∨ a.status = "confirmed") ∧
          a.start_time < stop ∧ start < a.end_time) →
      ∃ v, (createGroupAppointment {} w args).1 = .ok v) ∧
    (∀ (s e : Instant) (ig : Option Uuid),
      ensureNoCalendarConflicts w.db none s e ig = .ok ()) := by
  have hcheck : ∀ p ∈ normalizeProviderInput (args.providers.getD []),
      checkProvider w.db args.tenantId start stop p
        = ensureNoCalendarConflicts w.db p.calendarId start stop none := by
    intro p hp
    obtain ⟨⟨u, hu⟩, ⟨c, hc⟩⟩ := hproviders p hp
    unfold checkProvider
    rw [hu, hc]
  have hpart : promiseAll (checkParticipant w.db args.tenantId)
      (normalizeParticipantInput (args.participants.getD [])) = .ok () := by
    apply promiseAll_ok
    intro p hp
    obtain ⟨u, hu⟩ := hparticipants p hp
    unfold checkParticipant
    rw [hu]
  have hsplit : ∀ p ∈ normalizeProviderInput (args.providers.getD []),
      checkProvider w.db args.tenantId start stop p = .ok () ∨
      checkProvider w.db args.tenantId start stop p
        = .error ⟨409, "Calendar is not available for the selected time window"⟩ := by
    intro p hp
    rw [hcheck p hp]
    rcases ensureNoCalendarConflicts_cases w.db p.calendarId start stop with h | h
    · exact Or.inr h.1
    · exact Or.inl h.1
  have hthird : ∀ (s e : Instant) (ig : Option Uuid),
      ensureNoCalendarConflicts w.db none s e ig = .ok () := fun _ _ _ => rfl
  by_cases hex : ∃ p ∈ normalizeProviderInput (args.providers.getD []), ∃ c,
      p.calendarId = some c ∧ ∃ a ∈ w.db.appointments, a.calendar_id = c ∧
        (a.status = "pending" ∨ a.status = "confirmed") ∧
        a.start_time < stop ∧ start < a.end_time
  · have hall : promiseAll (checkProvider w.db args.tenantId start stop)
        (normalizeProviderInput (args.providers.getD []))
          = .error ⟨409, "Calendar is not available for the selected time window"⟩ := by
      apply promiseAll_error _ _ _ hsplit
      obtain ⟨p, hp, hc⟩ := hex
      refine ⟨p, hp, ?_⟩
      rw [hcheck p hp]
      rcases ensureNoCalendarConflicts_cases w.db p.calendarId start stop with h | h
      · exact h.1
      · exact absurd hc h.2
    have hres : (createGroupAppointment {} w args).1
        = .error ⟨409, "Calendar is not available for the selected time window"⟩ := by
      unfold createGroupAppointment
      rw [if_neg hprov, hrange]
      dsimp only
      rw [if_neg hnorm, if_neg hmax, hcreator]
      dsimp only
      rw [hall]
    exact ⟨⟨fun _ => hex, fun _ => hres⟩, fun hno => absurd hex hno, hthird⟩
  · have hall : promiseAll (checkProvider w.db args.tenantId start stop)
        (normalizeProviderInput (args.providers.getD [])) = .ok () := by
      apply promiseAll_ok
      intro p hp
      rw [hcheck p hp]
      rcases ensureNoCalendarConflicts_cases w.db p.calendarId start stop with h | h
      · exact absurd ⟨p, hp, h.2⟩ hex
      · exact h.1
    have hres : ∃ v, (createGroupAppointment {} w args).1 = .ok v := by
      unfold createGroupAppointment
      rw [if_neg hprov, hrange]
      dsimp only
      rw [if_neg hnorm, if_neg hmax, hcreator]
      dsimp only
      rw [hall]
      dsimp only
      rw [hpart]
      dsimp only
      obtain ⟨ga, db2, htx⟩ := insertGroup_ok
        { tenantId := args.tenantId
          name := args.name
          startTime := start
          endTime := stop
          durationMinutes := args.durationMinutes.getD (max 15 ((stop - start + 30000) / 60000))
          maxParticipants := some (args.maxParticipants.getD
            (max 1 ((normalizeParticipantInput (args.participants.getD [])).length : Int)))
          status := some "scheduled"
          createdBy := args.createdBy }
        (normalizeProviderInput (args.providers.getD []))
        (normalizeParticipantInput (args.participants.getD [])) w.db
      rw [htx]
      exact ⟨_, rfl⟩
    refine ⟨⟨fun h => ?_, fun h => absurd h hex⟩, fun _ => hres, hthird⟩
    obtain ⟨v, hv⟩ := hres
    rw [hv] at h
    cases h


/-- Witness of C10 on the Monday store with a confirmed 10:00-11:00
appointment on calendar 20: a group request for 10:30-11:00 whose first
provider names calendar 20 fails with 409. -/
theorem group_conflict_iff_witness :
    normalizeProviderInput ((groupRequest (mondayNine + 1800000 + hourMs)
        (mondayNine + 2 * hourMs)).providers.getD []) = [⟨11, some 20⟩, ⟨12, none⟩] ∧
    (createGroupAppointment {} bookedWorld
        (groupRequest (mondayNine + 1800000 + hourMs) (mondayNine + 2 * hourMs))).1
      = .error ⟨409, "Calendar is not available for the selected time window"⟩ :=
  have hrec : normalizeProviderInput ((groupRequest (mondayNine + 1800000 + hourMs)
        (mondayNine + 2 * hourMs)).providers.getD []) = [⟨11, some 20⟩, ⟨12, none⟩] := by
    decide
  have hpart : normalizeParticipantInput ((groupRequest (mondayNine + 1800000 + hourMs)
        (mondayNine + 2 * hourMs)).participants.getD []) = [⟨10, none⟩] := by
    decide
  have h := group_conflict_iff bookedWorld
    (groupRequest (mondayNine + 1800000 + hourMs) (mondayNine + 2 * hourMs))
    (mondayNine + 1800000 + hourMs) (mondayNine + 2 * hourMs) ⟨10, 1, "active"⟩
    (by decide) (by decide) (by decide) (by decide) (by decide)
    (by
      rw [hrec]
      intro p hp
      rcases List.mem_cons.mp hp with rfl | hp
      · exact ⟨⟨⟨11, 1, "active"⟩, by decide⟩, ⟨some mondayCalendar, by decide⟩⟩
      · rcases List.mem_cons.mp hp with rfl | hp
        · exact ⟨⟨⟨12, 1, "active"⟩, by decide⟩, ⟨none, by decide⟩⟩
        · exact absurd hp (List.not_mem_nil _))
    (by
      rw [hpart]
      intro p hp
      rcases List.mem_cons.mp hp with rfl | hp
      · exact ⟨⟨10, 1, "active"⟩, by decide⟩
      · exact absurd hp (List.not_mem_nil _))
  ⟨hrec, h.1.mpr (by rw [hrec]; decide)⟩

/-! ## The store invariant of the appointment operations -/

theorem doubleBooked_eq_true (a b : Appointment) :
    doubleBooked a b = true ↔ a.id ≠ b.id ∧ a.calendar_id = b.calendar_id ∧
      isActiveStatus a.status = true ∧ isActiveStatus b.status = true ∧
      a.start_time < b.end_time ∧ b.start_time < a.end_time := by
  unfold doubleBooked overlaps
  simp [and_assoc]

theorem doubleBooked_comm (a b : Appointment) : doubleBooked a b = doubleBooked b a := by
  rw [Bool.eq_iff_iff, doubleBooked_eq_true, doubleBooked_eq_true]
  constructor
  · rintro ⟨h1, h2, h3, h4, h5, h6⟩
    exact ⟨fun h => h1 h.symm, h2.symm, h4, h3, h6, h5⟩
  · rintro ⟨h1, h2, h3, h4, h5, h6⟩
    exact ⟨fun h => h1 h.symm, h2.symm, h4, h3, h6, h5⟩

theorem isActiveStatus_iff (s : String) :
    isActiveStatus s = true ↔ s = "pending" ∨ s = "confirmed" := by
  unfold isActiveStatus
  simp

theorem eq_of_id_eq (l : List Appointment) (hnd : (l.map (fun a => a.id)).Nodup)
    (a b : Appointment) (ha : a ∈ l) (hb : b ∈ l) (h : a.id = b.id) : a = b := by
  induction l with
  | nil => exact absurd ha (List.not_mem_nil _)
  | cons x rest ih =>
    rw [List.map_cons, List.nodup_cons] at hnd
    rcases List.mem_cons.mp ha with rfl | ha2
    · rcases List.mem_cons.mp hb with rfl | hb2
      · rfl
      · exact absurd (List.mem_map.mpr ⟨b, hb2, h.symm⟩) hnd.1
    · rcases List.mem_cons.mp hb with rfl | hb2
      · exact absurd (List.mem_map.mpr ⟨a, ha2, h⟩) hnd.1
      · exact ih hnd.2 ha2 hb2

/-- Rewriting the selected rows keeps the store free of double bookings when
the selected rows share their id, the rewrite keeps ids, and no rewritten row
double-books an unselected one. -/
theorem noDoubleBooking_map (l : List Appointment) (sel : Appointment → Bool)
    (g : Appointment → Appointment) (hinv : NoDoubleBooking l)
    (hsel : ∀ a ∈ l, ∀ b ∈ l, sel a = true → sel b = true → a.id = b.id)
    (hid : ∀ a, (g a).id = a.id)
    (hnew : ∀ a ∈ l, ∀ b ∈ l, sel a = true → sel b = false →
      doubleBooked (g a) b = false) :
    NoDoubleBooking (l.map (fun a => if sel a then g a else a)) := by
  intro a2 ha2 b2 hb2
  obtain ⟨a, ha, rfl⟩ := List.mem_map.mp ha2
  obtain ⟨b, hb, rfl⟩ := List.mem_map.mp hb2
  cases hsa : sel a <;> cases hsb : sel b
  · simp only [Bool.false_eq_true, if_false]
    exact hinv a ha b hb
  · simp only [Bool.false_eq_true, if_false, if_true]
    rw [doubleBooked_comm]
    exact hnew b hb a ha hsb hsa
  · simp only [Bool.false_eq_true, if_false, if_true]
    exact hnew a ha b hb hsa hsb
  · simp only [if_true]
    rw [Bool.eq_false_iff]
    intro h
    rw [doubleBooked_eq_true] at h
    apply h.1
    rw [hid, hid]
    exact hsel a ha b hb hsa hsb


theorem create_ok_inv (w : World) (args : CreateAppointmentArgs) (r : Appointment) (w2 : World)
    (h : createAppointmentForTenant w args = .ok (r, w2)) :
    ∃ start stop, findConflictingAppointments w.db args.calendarId start stop none = [] ∧
      w2.db.appointments = w.db.appointments ++ [r] ∧ w2.db.nextId = w.db.nextId + 1 ∧
      r.id = w.db.nextId ∧ r.calendar_id = args.calendarId ∧
      r.start_time = start ∧ r.end_time = stop := by
  unfold createAppointmentForTenant at h
  split at h
  · cases h
  · split at h
    · cases h
    · split at h
      · cases h
      · split at h
        · cases h
        · split at h
          · cases h
          · rename_i start stop _
            dsimp only at h
            split at h
            · cases h
            · split at h
              · cases h
              · rename_i hc _
                injection h with h
                injection h with h1 h2
                subst h1 h2
                refine ⟨start, stop, ?_, rfl, rfl, rfl, rfl, rfl, rfl⟩
                have : (findConflictingAppointments w.db args.calendarId start stop none).length
                    = 0 := by simpa using hc
                exact List.length_eq_zero.mp this


theorem applyPayload_of_isEmpty (p : AppointmentPayload) (a : Appointment)
    (h : p.isEmpty = true) : applyPayload p a = a := by
  unfold AppointmentPayload.isEmpty at h
  simp only [Bool.and_eq_true, Option.isNone_iff_eq_none] at h
  obtain ⟨⟨⟨⟨h1, h2⟩, h3⟩, h4⟩, h5⟩ := h
  unfold applyPayload
  rw [h1, h2, h3, h4, h5]
  rfl

theorem updateAppointment_appointments (db : Db) (t i : Uuid) (p : AppointmentPayload) :
    (updateAppointment db t i p).2.appointments =
      db.appointments.map (fun a =>
        if a.tenant_id == t && a.id == i then applyPayload p a else a) ∧
    (updateAppointment db t i p).2.nextId = db.nextId := by
  unfold updateAppointment
  by_cases h : p.isEmpty = true
  · rw [if_pos h]
    refine ⟨?_, rfl⟩
    have : (fun a : Appointment =>
        if (a.tenant_id == t && a.id == i) = true then applyPayload p a else a) = id := by
      funext a
      rw [applyPayload_of_isEmpty p a h]
      simp
    rw [this, List.map_id]
  · rw [if_neg h]
    exact ⟨rfl, rfl⟩

theorem update_ok_inv (w : World) (args : UpdateAppointmentArgs) (r : Option Appointment)
    (w2 : World) (h : updateAppointmentForTenant w args = .ok (r, w2)) :
    ∃ appointment payload,
      getAppointmentById w.db args.tenantId args.appointmentId = some appointment ∧
      w2.db = (updateAppointment w.db args.tenantId args.appointmentId payload).2 ∧
      (((args.startTime.isSome || args.endTime.isSome) = true ∧
          ∃ s e, payload.start_time = some s ∧ payload.end_time = some e ∧
            findConflictingAppointments w.db appointment.calendar_id s e
              (some appointment.id) = []) ∨
        ((args.startTime.isSome || args.endTime.isSome) = false ∧
          payload.start_time = none ∧ payload.end_time = none)) ∧
      (payload.status = none ∨ payload.status = args.status) := by
  unfold updateAppointmentForTenant at h
  split at h
  · cases h
  · rename_i appointment happ
    dsimp only at h
    by_cases hsup : (args.startTime.isSome || args.endTime.isSome) = true
    · rw [if_pos hsup] at h
      cases hv : validateTimes (args.startTime.getD (some appointment.start_time))
          (args.endTime.getD (some appointment.end_time)) with
      | error e => rw [hv] at h; cases h
      | ok se =>
        obtain ⟨s, e⟩ := se
        rw [hv] at h
        dsimp only at h
        by_cases hc : ((findConflictingAppointments w.db appointment.calendar_id s e
            (some appointment.id)).length != 0) = true
        · rw [if_pos hc] at h; cases h
        · rw [if_neg hc] at h
          have hnil : findConflictingAppointments w.db appointment.calendar_id s e
              (some appointment.id) = [] := by
            have : (findConflictingAppointments w.db appointment.calendar_id s e
                (some appointment.id)).length = 0 := by simpa using hc
            exact List.length_eq_zero.mp this
          dsimp only at h
          cases hst : args.status with
          | none =>
            rw [hst] at h
            dsimp only at h
            injection h with h
            injection h with h1 h2
            refine ⟨appointment,
              ({ start_time := some s, end_time := some e, notes := args.notes,
                 metadata := args.metadata } : AppointmentPayload),
              happ, ?_, Or.inl ⟨hsup, s, e, rfl, rfl, hnil⟩, Or.inl rfl⟩
            rw [← h2]
            rfl
          | some st =>
            rw [hst] at h
            dsimp only at h
            by_cases h0 : (st == "") = true
            · rw [if_pos h0] at h
              dsimp only at h
              injection h with h
              injection h with h1 h2
              refine ⟨appointment,
              ({ start_time := some s, end_time := some e, notes := args.notes,
                 metadata := args.metadata } : AppointmentPayload),
              happ, ?_, Or.inl ⟨hsup, s, e, rfl, rfl, hnil⟩, Or.inl rfl⟩
              rw [← h2]
              rfl
            · rw [if_neg h0] at h
              by_cases hal : (!(allowedStatuses.contains st)) = true
              · rw [if_pos hal] at h; cases h
              · rw [if_neg hal] at h
                dsimp only at h
                injection h with h
                injection h with h1 h2
                refine ⟨appointment,
              ({ status := some st, start_time := some s, end_time := some e,
                 notes := args.notes, metadata := args.metadata } : AppointmentPayload),
              happ, ?_, Or.inl ⟨hsup, s, e, rfl, rfl, hnil⟩, Or.inr rfl⟩
                rw [← h2]
                rfl
    · rw [if_neg hsup] at h
      have hsup2 : (args.startTime.isSome || args.endTime.isSome) = false := by
        simpa using hsup
      dsimp only at h
      cases hst : args.status with
      | none =>
        rw [hst] at h
        dsimp only at h
        injection h with h
        injection h with h1 h2
        refine ⟨appointment,
          ({ notes := args.notes, metadata := args.metadata } : AppointmentPayload),
          happ, ?_, Or.inr ⟨hsup2, rfl, rfl⟩, Or.inl rfl⟩
        rw [← h2]
        rfl
      | some st =>
        rw [hst] at h
        dsimp only at h
        by_cases h0 : (st == "") = true
        · rw [if_pos h0] at h
          dsimp only at h
          injection h with h
          injection h with h1 h2
          refine ⟨appointment,
          ({ notes := args.notes, metadata := args.metadata } : AppointmentPayload),
          happ, ?_, Or.inr ⟨hsup2, rfl, rfl⟩, Or.inl rfl⟩
          rw [← h2]
          rfl
        · rw [if_neg h0] at h
          by_cases hal : (!(allowedStatuses.contains st)) = true
          · rw [if_pos hal] at h; cases h
          · rw [if_neg hal] at h
            dsimp only at h
            injection h with h
            injection h with h1 h2
            refine ⟨appointment,
          ({ status := some st, notes := args.notes, metadata := args.metadata }
            : AppointmentPayload),
          happ, ?_, Or.inr ⟨hsup2, rfl, rfl⟩, Or.inr rfl⟩
            rw [← h2]
            rfl


theorem storeInv_create (w : World) (args : CreateAppointmentArgs) (r : Appointment)
    (w2 : World) (hinv : StoreInv w.db)
    (h : createAppointmentForTenant w args = .ok (r, w2)) : StoreInv w2.db := by
  obtain ⟨start, stop, hnil, happ, hnext, hid, hcal, hs, he⟩ := create_ok_inv w args r w2 h
  obtain ⟨hnd, hids, hlt⟩ := hinv
  have hfresh : ∀ a ∈ w.db.appointments, doubleBooked a r = false := by
    intro a ha
    rw [Bool.eq_false_iff]
    intro hdb
    rw [doubleBooked_eq_true, isActiveStatus_iff] at hdb
    obtain ⟨_, h2, h3, _, h5, h6⟩ := hdb
    have hmem : a ∈ findConflictingAppointments w.db args.calendarId start stop none := by
      unfold findConflictingAppointments
      rw [List.mem_filter]
      refine ⟨ha,
        (conflictsWith_iff _ _ _ _ _).mpr ⟨?_, h3, ?_, ?_, fun i hi => by cases hi⟩⟩
      · rw [h2, hcal]
      · rw [← he]; exact h5
      · rw [← hs]; exact h6
    rw [hnil] at hmem
    exact absurd hmem (List.not_mem_nil _)
  refine ⟨?_, ?_, ?_⟩
  · rw [happ]
    intro a ha b hb
    rcases List.mem_append.mp ha with ha | ha
    · rcases List.mem_append.mp hb with hb | hb
      · exact hnd a ha b hb
      · rw [List.mem_singleton.mp hb]
        exact hfresh a ha
    · rw [List.mem_singleton.mp ha]
      rcases List.mem_append.mp hb with hb | hb
      · rw [doubleBooked_comm]
        exact hfresh b hb
      · rw [List.mem_singleton.mp hb, Bool.eq_false_iff]
        intro hdb
        rw [doubleBooked_eq_true] at hdb
        exact hdb.1 rfl
  · rw [happ, List.map_append, List.nodup_append]
    refine ⟨hids, List.nodup_singleton _, ?_⟩
    intro x hx hx2
    rw [List.map_singleton, List.mem_singleton] at hx2
    obtain ⟨a, ha, rfl⟩ := List.mem_map.mp hx
    have hlt2 := hlt a ha
    rw [hx2, hid] at hlt2
    exact Nat.lt_irrefl _ hlt2
  · rw [happ, hnext]
    intro a ha
    rcases List.mem_append.mp ha with ha | ha
    · exact Nat.lt_succ_of_lt (hlt a ha)
    · rw [List.mem_singleton.mp ha, hid]
      exact Nat.lt_succ_self _

theorem storeInv_updateAppointment (db : Db) (t i : Uuid) (p : AppointmentPayload)
    (hinv : StoreInv db)
    (hnew : ∀ a ∈ db.appointments, ∀ b ∈ db.appointments,
      (a.tenant_id == t && a.id == i) = true → b.id ≠ a.id →
      doubleBooked (applyPayload p a) b = false) :
    StoreInv (updateAppointment db t i p).2 := by
  obtain ⟨happ, hnext⟩ := updateAppointment_appointments db t i p
  obtain ⟨hnd, hids, hlt⟩ := hinv
  have hidp : ∀ a, (applyPayload p a).id = a.id := fun _ => rfl
  have hmapid : (db.appointments.map (fun a =>
      if a.tenant_id == t && a.id == i then applyPayload p a else a)).map (fun a => a.id)
      = db.appointments.map (fun a => a.id) := by
    rw [List.map_map]
    apply List.map_congr_left
    intro a _
    simp only [Function.comp]
    split <;> rfl
  refine ⟨?_, ?_, ?_⟩
  · rw [happ]
    apply noDoubleBooking_map _ _ _ hnd
    · intro a _ b _ ha hb
      simp only [Bool.and_eq_true, beq_iff_eq] at ha hb
      rw [ha.2, hb.2]
    · exact hidp
    · intro a ha b hb hsa hsb
      apply hnew a ha b hb hsa
      intro hba
      have hab : b = a := eq_of_id_eq _ hids b a hb ha hba
      rw [hab, hsa] at hsb
      cases hsb
  · rw [happ, hmapid]
    exact hids
  · rw [happ, hnext]
    intro a2 ha2
    obtain ⟨a, ha, rfl⟩ := List.mem_map.mp ha2
    have := hlt a ha
    split <;> exact this


theorem getAppointmentById_some (db : Db) (t i : Uuid) (a : Appointment)
    (h : getAppointmentById db t i = some a) :
    a ∈ db.appointments ∧ a.tenant_id = t ∧ a.id = i := by
  unfold getAppointmentById at h
  have h1 := List.mem_of_find?_eq_some h
  have h2 := List.find?_some h
  simp only [Bool.and_eq_true, beq_iff_eq] at h2
  exact ⟨h1, h2.1, h2.2⟩

theorem storeInv_update (w : World) (args : UpdateAppointmentArgs) (r : Option Appointment)
    (w2 : World) (hinv : StoreInv w.db) (hre : reactivates w (.update args) = false)
    (h : updateAppointmentForTenant w args = .ok (r, w2)) : StoreInv w2.db := by
  obtain ⟨appointment, payload, hget, hdb, htimes, hstatus⟩ := update_ok_inv w args r w2 h
  obtain ⟨hmem, _, hidA⟩ := getAppointmentById_some _ _ _ _ hget
  rw [hdb]
  apply storeInv_updateAppointment _ _ _ _ hinv
  intro a ha b hb hsa hba
  simp only [Bool.and_eq_true, beq_iff_eq] at hsa
  have haeq : a = appointment :=
    eq_of_id_eq _ hinv.2.1 a appointment ha hmem (by rw [hsa.2, hidA])
  subst haeq
  rw [Bool.eq_false_iff]
  intro hdb2
  rw [doubleBooked_eq_true] at hdb2
  obtain ⟨_, d2, d3, d4, d5, d6⟩ := hdb2
  have hcal : (applyPayload payload a).calendar_id = a.calendar_id := rfl
  rw [hcal] at d2
  rcases htimes with ⟨_, s, e, hs, he, hnil⟩ | ⟨hsup, hs, he⟩
  · have hst : (applyPayload payload a).start_time = s := by
      unfold applyPayload; rw [hs]; rfl
    have het : (applyPayload payload a).end_time = e := by
      unfold applyPayload; rw [he]; rfl
    rw [hst] at d5
    rw [het] at d6
    have hin : b ∈ findConflictingAppointments w.db a.calendar_id s e (some a.id) := by
      unfold findConflictingAppointments
      rw [List.mem_filter]
      refine ⟨hb, (conflictsWith_iff _ _ _ _ _).mpr
        ⟨d2.symm, (isActiveStatus_iff _).mp d4, d6, d5, ?_⟩⟩
      intro i hi
      cases hi
      exact hba
    rw [hnil] at hin
    exact absurd hin (List.not_mem_nil _)
  · have hst : (applyPayload payload a).start_time = a.start_time := by
      unfold applyPayload; rw [hs]; rfl
    have het : (applyPayload payload a).end_time = a.end_time := by
      unfold applyPayload; rw [he]; rfl
    rw [hst] at d5
    rw [het] at d6
    have hact : isActiveStatus a.status = true := by
      rcases hstatus with hp | hp
      · have hsame : (applyPayload payload a).status = a.status := by
          unfold applyPayload; rw [hp]; rfl
        rw [hsame] at d3
        exact d3
      · cases hargs : args.status with
        | none =>
          have hsame : (applyPayload payload a).status = a.status := by
            unfold applyPayload; rw [hp, hargs]; rfl
          rw [hsame] at d3
          exact d3
        | some st =>
          have hnew : (applyPayload payload a).status = st := by
            unfold applyPayload; rw [hp, hargs]; rfl
          rw [hnew] at d3
          have hnone : args.startTime.isNone = true ∧ args.endTime.isNone = true := by
            cases h1 : args.startTime <;> cases h2 : args.endTime <;>
              simp [h1, h2] at hsup ⊢
          simp only [reactivates, hnone.1, hnone.2, hargs, hget, d3, Bool.and_self,
            Bool.true_and] at hre
          simpa using hre
    have hold : doubleBooked a b = true :=
      (doubleBooked_eq_true a b).mpr ⟨fun h => hba h.symm, d2, hact, d4, d5, d6⟩
    rw [hinv.1 a ha b hb] at hold
    cases hold

theorem storeInv_cancel (w : World) (t i : Uuid) (r : Option Appointment) (w2 : World)
    (hinv : StoreInv w.db) (h : cancelAppointmentForTenant w t i = .ok (r, w2)) :
    StoreInv w2.db := by
  unfold cancelAppointmentForTenant at h
  split at h
  · cases h
  · dsimp only at h
    injection h with h
    injection h with _ h2
    rw [← h2]
    apply storeInv_updateAppointment _ _ _ _ hinv
    intro a _ b _ _ _
    rw [Bool.eq_false_iff]
    intro hdb
    rw [doubleBooked_eq_true] at hdb
    have : isActiveStatus "cancelled" = true := hdb.2.2.1
    revert this
    decide

theorem storeInv_delete (w : World) (t i : Uuid) (r : Appointment) (w2 : World)
    (hinv : StoreInv w.db) (h : deleteAppointmentForTenant w t i = .ok (r, w2)) :
    StoreInv w2.db := by
  unfold deleteAppointmentForTenant deleteAppointment at h
  split at h
  · cases h
  · rename_i deleted db2 heq
    injection h with h
    injection h with _ h2
    injection heq with _ hdb
    rw [← h2]
    show StoreInv db2
    rw [← hdb]
    obtain ⟨hnd, hids, hlt⟩ := hinv
    refine ⟨?_, ?_, ?_⟩
    · intro a ha b hb
      exact hnd a (List.mem_of_mem_filter ha) b (List.mem_of_mem_filter hb)
    · exact (List.filter_sublist _).map _ |>.nodup hids
    · intro a ha
      exact hlt a (List.mem_of_mem_filter ha)


theorem storeInv_step (w : World) (call : AppointmentCall) (hinv : StoreInv w.db)
    (hre : reactivates w call = false) : StoreInv (stepCall w call).db := by
  cases call with
  | create args =>
    show StoreInv (match createAppointmentForTenant w args with
      | .ok (_, w2) => w2
      | .error _ => w).db
    cases h : createAppointmentForTenant w args with
    | error e => exact hinv
    | ok rw2 =>
      obtain ⟨r, w2⟩ := rw2
      exact storeInv_create w args r w2 hinv h
  | update args =>
    show StoreInv (match updateAppointmentForTenant w args with
      | .ok (_, w2) => w2
      | .error _ => w).db
    cases h : updateAppointmentForTenant w args with
    | error e => exact hinv
    | ok rw2 =>
      obtain ⟨r, w2⟩ := rw2
      exact storeInv_update w args r w2 hinv hre h
  | cancel t i =>
    show StoreInv (match cancelAppointmentForTenant w t i with
      | .ok (_, w2) => w2
      | .error _ => w).db
    cases h : cancelAppointmentForTenant w t i with
    | error e => exact hinv
    | ok rw2 =>
      obtain ⟨r, w2⟩ := rw2
      exact storeInv_cancel w t i r w2 hinv h
  | delete t i =>
    show StoreInv (match deleteAppointmentForTenant w t i with
      | .ok (_, w2) => w2
      | .error _ => w).db
    cases h : deleteAppointmentForTenant w t i with
    | error e => exact hinv
    | ok rw2 =>
      obtain ⟨r, w2⟩ := rw2
      exact storeInv_delete w t i r w2 hinv h

theorem storeInv_run (calls : List AppointmentCall) :
    ∀ w : World, StoreInv w.db → neverReactivates w calls = true →
      StoreInv (runCalls w calls).db := by
  induction calls with
  | nil => intro w hinv _; exact hinv
  | cons call rest ih =>
    intro w hinv hn
    unfold neverReactivates at hn
    simp only [Bool.and_eq_true, Bool.not_eq_true'] at hn
    unfold runCalls
    rw [List.foldl_cons]
    exact ih (stepCall w call) (storeInv_step w call hinv hn.1) hn.2

/-- Where the invariant of C1 does hold: from a store without appointments,
every sequence of create, update, cancel and delete calls in which no update is
a status-only reactivation (a status of pending or confirmed set, without start
or end, on an appointment that is neither) leaves no two distinct pending or
confirmed appointments of one calendar with overlapping intervals. -/
theorem no_double_booking_without_reactivation (w0 : World)
    (h0 : w0.db.appointments = []) (calls : List AppointmentCall)
    (hn : neverReactivates w0 calls = true) :
    NoDoubleBooking (runCalls w0 calls).db.appointments := by
  have hinv : StoreInv w0.db := by
    unfold StoreInv NoDoubleBooking
    rw [h0]
    exact ⟨fun a ha => absurd ha (List.not_mem_nil _), List.nodup_nil,
      fun a ha => absurd ha (List.not_mem_nil _)⟩
  exact (storeInv_run calls w0 hinv hn).1

/-- The first three calls of the reactivation scenario keep the invariant; the
fourth is the reactivation. -/
theorem no_double_booking_without_reactivation_witness :
    NoDoubleBooking (runCalls ⟨mondayDb [], []⟩ (reactivationCalls.take 3)).db.appointments ∧
    neverReactivates ⟨mondayDb [], []⟩ reactivationCalls = false :=
  ⟨no_double_booking_without_reactivation ⟨mondayDb [], []⟩ rfl (reactivationCalls.take 3)
    (by decide), by decide⟩


theorem userHasAll_eq (cfg : RbacConfig) (w : RbacWorld) (now : Instant) (tenantId userId : Uuid)
    (required : List String) :
    (userHasAllPermissions cfg w now tenantId userId required).1
      = required.all (fun p => (getUserPermissionSet cfg w now tenantId userId).1.contains p) := by
  unfold userHasAllPermissions
  cases required with
  | nil => simp
  | cons a l => simp

theorem userHasAny_eq (cfg : RbacConfig) (w : RbacWorld) (now : Instant) (tenantId userId : Uuid)
    (required : List String) :
    (userHasAnyPermission cfg w now tenantId userId required).1
      = (required.isEmpty
          || required.any
            (fun p => (getUserPermissionSet cfg w now tenantId userId).1.contains p)) := by
  unfold userHasAnyPermission
  cases required with
  | nil => simp
  | cons a l => simp

/-- C12, the deviation: with an empty list of required permissions
`userHasAnyPermission` answers true, although no element of the list is in the
permission set of the user. -/
theorem any_permission_of_empty_list :
    (userHasAnyPermission rbacConfig rbacWorld 0 1 10 []).1 = true
      ∧ ¬ ∃ r ∈ ([] : List String),
          r ∈ (getUserPermissionSet rbacConfig rbacWorld 0 1 10).1 := by
  constructor
  · decide
  · simp

/-- C12: `userHasAllPermissions` answers true exactly when every required
permission is in the resolved permission set of the user, and
`userHasAnyPermission` answers true exactly when the list of required
permissions is empty or one of them is in that set. -/
theorem permission_set_operations (cfg : RbacConfig) (w : RbacWorld) (now : Instant)
    (tenantId userId : Uuid) (required : List String) :
    ((userHasAllPermissions cfg w now tenantId userId required).1 = true
        ↔ ∀ r ∈ required, r ∈ (getUserPermissionSet cfg w now tenantId userId).1)
      ∧ ((userHasAnyPermission cfg w now tenantId userId required).1 = true
        ↔ required = []
          ∨ ∃ r ∈ required, r ∈ (getUserPermissionSet cfg w now tenantId userId).1) := by
  rw [userHasAll_eq, userHasAny_eq]
  constructor
  · simp [List.all_eq_true]
  · simp [List.any_eq_true, List.isEmpty_iff]


/-- The permission check of the middleware in the given mode. -/
theorem requirePermissions_authenticated (permissions : PermissionsArg) (options : RequireOptions)
    (cfg : RbacConfig) (w : RbacWorld) (now : Instant) (id tenantId : Uuid)
    (role : Option String) :
    (requirePermissions permissions options cfg w now (some ⟨some id, some tenantId, role⟩)).1
      = if normalizePermissions permissions = []
          ∨ (if options.mode = some "any" then
              (userHasAnyPermission cfg w now tenantId id (normalizePermissions permissions)).1
            else
              (userHasAllPermissions cfg w now tenantId id (normalizePermissions permissions)).1)
              = true
          ∨ (∃ r, role = some r ∧ r ≠ "" ∧ r ∈ options.legacyRoles.getD [])
        then .ok () else .error ⟨403, "Insufficient permissions"⟩ := by
  unfold requirePermissions ensureAuthenticatedUser
  simp only [List.length_eq_zero]
  by_cases hR : normalizePermissions permissions = []
  · simp [hR]
  · simp only [hR, if_false, false_or]
    by_cases hmode : options.mode = some "any"
    · simp only [hmode, if_true]
      cases hc : (userHasAnyPermission cfg w now tenantId id (normalizePermissions permissions)).1
      · cases role with
        | none => simp
        | some r =>
          by_cases hr : r = ""
          · simp [hr]
          · by_cases hl : r ∈ options.legacyRoles.getD []
            · have hne : options.legacyRoles.getD [] ≠ [] := List.ne_nil_of_mem hl
              simp [hr, hl, hne]
            · simp [hr, hl]
      · simp
    · simp only [hmode, if_false]
      cases hc : (userHasAllPermissions cfg w now tenantId id (normalizePermissions permissions)).1
      · cases role with
        | none => simp
        | some r =>
          by_cases hr : r = ""
          · simp [hr]
          · by_cases hl : r ∈ options.legacyRoles.getD []
            · have hne : options.legacyRoles.getD [] ≠ [] := List.ne_nil_of_mem hl
              simp [hr, hl, hne]
            · simp [hr, hl]
      · simp


/-- C13: the middleware `requirePermissions(permissions, options)` rejects a
request without a user, a user id or a tenant id with 401. For an authenticated
user (legacy role names being non-empty strings) it lets the request through
exactly when the required list is empty, or the permission check in the given
mode passes, or the role of the user record is one of the legacy roles; in
every other case it rejects the request with 403. -/
theorem access_decision (permissions : PermissionsArg) (options : RequireOptions)
    (cfg : RbacConfig) (w : RbacWorld) (now : Instant) (user : Option AuthUser)
    (hnames : "" ∉ options.legacyRoles.getD []) :
    ((user = none ∨ ∃ u, user = some u ∧ (u.id = none ∨ u.tenantId = none)) →
        (requirePermissions permissions options cfg w now user).1
          = .error ⟨401, "Authentication required"⟩)
      ∧ ∀ id tenantId role, user = some ⟨some id, some tenantId, role⟩ →
          ((requirePermissions permissions options cfg w now user).1 = .ok ()
            ↔ normalizePermissions permissions = []
              ∨ (if options.mode = some "any" then
                  (userHasAnyPermission cfg w now tenantId id
                    (normalizePermissions permissions)).1
                else
                  (userHasAllPermissions cfg w now tenantId id
                    (normalizePermissions permissions)).1) = true
              ∨ ∃ r, role = some r ∧ r ∈ options.legacyRoles.getD [])
          ∧ ((requirePermissions permissions options cfg w now user).1 = .ok ()
            ∨ (requirePermissions permissions options cfg w now user).1
              = .error ⟨403, "Insufficient permissions"⟩) := by
  constructor
  · intro h
    rcases h with h | ⟨u, hu, h⟩
    · subst h
      rfl
    · subst hu
      obtain ⟨uid, utenant, urole⟩ := u
      rcases h with h | h
      · simp only at h
        subst h
        rfl
      · simp only at h
        subst h
        cases uid <;> rfl
  · intro id tenantId role hu
    subst hu
    rw [requirePermissions_authenticated]
    have hlegacy : (∃ r, role = some r ∧ r ≠ "" ∧ r ∈ options.legacyRoles.getD [])
        ↔ ∃ r, role = some r ∧ r ∈ options.legacyRoles.getD [] := by
      constructor
      · rintro ⟨r, h1, _, h3⟩
        exact ⟨r, h1, h3⟩
      · rintro ⟨r, h1, h3⟩
        refine ⟨r, h1, ?_, h3⟩
        intro h
        exact hnames (h ▸ h3)
    have key : ∀ (P Q : Prop) [Decidable P] (e : ApiError), (P ↔ Q) →
        (((if P then (Except.ok () : Except ApiError Unit) else .error e) = .ok () ↔ Q)
          ∧ ((if P then (Except.ok () : Except ApiError Unit) else .error e) = .ok ()
            ∨ (if P then (Except.ok () : Except ApiError Unit) else .error e) = .error e)) := by
      intro P Q _ e hPQ
      by_cases hP : P
      · simp [hP, hPQ.mp hP]
      · have hQ : ¬ Q := fun hq => hP (hPQ.mpr hq)
        simp [hP, hQ]
    exact key _ _ _ (or_congr Iff.rfl (or_congr Iff.rfl hlegacy))

/-- C13 on the scenario: user 10 may read appointments; a user without roles
is let through only as a legacy admin; without a tenant the answer is 401. -/
theorem access_decision_witness :
    "" ∉ (RequireOptions.mk none (some ["admin"])).legacyRoles.getD []
      ∧ (requirePermissions (.single "appointments:read") ⟨none, some ["admin"]⟩ rbacConfig
          rbacWorld 0 (some ⟨some 10, some 1, some "user"⟩)).1 = .ok ()
      ∧ (requirePermissions (.single "roles:update") ⟨none, some ["admin"]⟩ rbacConfig
          rbacWorld 0 (some ⟨some 12, some 1, some "admin"⟩)).1 = .ok ()
      ∧ (requirePermissions (.single "roles:update") ⟨none, some ["admin"]⟩ rbacConfig
          rbacWorld 0 (some ⟨some 10, some 1, some "user"⟩)).1
          = .error ⟨403, "Insufficient permissions"⟩
      ∧ (requirePermissions (.single "roles:update") ⟨none, some ["admin"]⟩ rbacConfig
          rbacWorld 0 (some ⟨some 10, none, some "admin"⟩)).1
          = .error ⟨401, "Authentication required"⟩ := by
  have hn : "" ∉ (RequireOptions.mk none (some ["admin"])).legacyRoles.getD [] := by decide
  have h := access_decision (.single "roles:update") ⟨none, some ["admin"]⟩ rbacConfig
    rbacWorld 0 (some ⟨some 10, none, some "admin"⟩) hn
  refine ⟨hn, by decide, by decide, by decide, ?_⟩
  exact h.1 (Or.inr ⟨_, rfl, Or.inr rfl⟩)


theorem mem_getUserPermissions (s : RbacStore) (now : Instant) (userId tenantId : Uuid)
    (p : String) :
    p ∈ getUserPermissions s now userId tenantId
      ↔ ∃ ur ∈ s.userRoles, ur.user_id = userId ∧ unexpired now ur = true
          ∧ roleGrants s tenantId ur.role_id p := by
  unfold getUserPermissions roleGrants
  simp only [List.mem_dedup, List.mem_flatMap, List.mem_filter, List.mem_map, Bool.and_eq_true,
    beq_iff_eq]
  constructor
  · rintro ⟨ur, ⟨hur, hu, hx⟩, r, ⟨hr, hrid, hrt⟩, rp, ⟨hrp, hrpr⟩, perm, ⟨hperm, hpid⟩,
      hname⟩
    exact ⟨ur, hur, hu, hx, r, hr, hrid, hrt, rp, hrp, hrpr, perm, hperm, hpid, hname⟩
  · rintro ⟨ur, hur, hu, hx, r, hr, hrid, hrt, rp, hrp, hrpr, perm, hperm, hpid, hname⟩
    exact ⟨ur, ⟨hur, hu, hx⟩, r, ⟨hr, hrid, hrt⟩, rp, ⟨hrp, hrpr⟩, perm, ⟨hperm, hpid⟩,
      hname⟩

theorem mem_getUserIdsByRole (s : RbacStore) (now : Instant) (tenantId roleId u : Uuid) :
    u ∈ getUserIdsByRole s now tenantId roleId
      ↔ ∃ ur ∈ s.userRoles, ur.user_id = u ∧ unexpired now ur = true ∧ ur.role_id = roleId
          ∧ ∃ x ∈ s.roles.map (fun r => (r.id, r.tenant_id)), x = (roleId, tenantId) := by
  unfold getUserIdsByRole
  simp only [List.mem_flatMap, List.mem_filter, List.mem_map, Bool.and_eq_true, beq_iff_eq]
  constructor
  · rintro ⟨ur, hur, r, ⟨hr, ⟨⟨hrid, hrt⟩, hrr⟩, hx⟩, hu⟩
    refine ⟨ur, hur, hu, hx, ?_, (r.id, r.tenant_id), ⟨r, hr, rfl⟩, ?_⟩
    · rw [← hrid, hrr]
    · rw [hrr, hrt]
  · rintro ⟨ur, hur, hu, hx, hrole, x, ⟨r, hr, hrx⟩, hxe⟩
    subst hxe
    simp only [Prod.mk.injEq] at hrx
    exact ⟨ur, hur, r, ⟨hr, ⟨⟨by rw [hrx.1, hrole], hrx.2⟩, hrx.1⟩, hx⟩, hu⟩

theorem contextCacheGet_of_noContext (w : RbacWorld) (now : Instant) (tenantId userId : Uuid)
    (h : NoContext w tenantId userId) : contextCacheGet w now tenantId userId = none := by
  unfold contextCacheGet
  rw [Option.map_eq_none', List.find?_eq_none]
  intro e he
  have := h e he
  simp only [Bool.and_eq_true, beq_iff_eq, decide_eq_true_eq, not_and]
  intro h1 _
  exact absurd h1 this

theorem context_of_miss (cfg : RbacConfig) (w : RbacWorld) (now : Instant) (tenantId userId : Uuid)
    (h : cfg.cacheEnabled = false ∨ contextCacheGet w now tenantId userId = none) :
    (getUserPermissionContext cfg w now tenantId userId).1
      = fetchUserContext cfg w.store now tenantId userId := by
  unfold getUserPermissionContext
  rcases h with h | h
  · simp [h]
  · simp [h]

theorem cacheFresh_of_noContext (cfg : RbacConfig) (w : RbacWorld) (tenantId userId : Uuid)
    (h : cfg.cacheEnabled = true → NoContext w tenantId userId) :
    CacheFresh cfg w tenantId userId := by
  constructor
  · intro he now
    exact contextCacheGet_of_noContext w now tenantId userId (h he)
  · intro now
    apply context_of_miss
    cases he : cfg.cacheEnabled
    · exact Or.inl rfl
    · exact Or.inr (contextCacheGet_of_noContext w now tenantId userId (h he))

theorem invalidate_store (cfg : RbacConfig) (w : RbacWorld) (tenantId userId : Uuid) :
    (invalidateUserPermissions cfg w tenantId userId).store = w.store := by
  unfold invalidateUserPermissions contextCacheDel
  split <;> rfl

theorem invalidate_noContext (cfg : RbacConfig) (w : RbacWorld) (tenantId userId : Uuid)
    (he : cfg.cacheEnabled = true) :
    NoContext (invalidateUserPermissions cfg w tenantId userId) tenantId userId := by
  unfold invalidateUserPermissions contextCacheDel NoContext
  simp only [he, Bool.not_true, Bool.false_eq_true, if_false, List.mem_filter, Bool.not_eq_true',
    Bool.and_eq_false_iff, beq_eq_false_iff_ne, ne_eq]
  rintro e ⟨_, h⟩ ⟨h1, h2⟩
  rcases h with h | h
  · exact h h1
  · exact h h2

theorem invalidate_keeps_noContext (cfg : RbacConfig) (w : RbacWorld) (tenantId userId t u : Uuid)
    (h : NoContext w t u) : NoContext (invalidateUserPermissions cfg w tenantId userId) t u := by
  unfold invalidateUserPermissions contextCacheDel
  split
  · exact h
  · intro e he
    exact h e (List.mem_filter.mp he).1

theorem invalidateAll_store (cfg : RbacConfig) (tenantId : Uuid) (us : List Uuid) :
    ∀ w : RbacWorld, (invalidateAll cfg w tenantId us).store = w.store := by
  induction us with
  | nil => intro w; rfl
  | cons a us ih =>
    intro w
    unfold invalidateAll
    rw [List.foldl_cons]
    exact (ih _).trans (invalidate_store cfg w tenantId a)

theorem invalidateAll_keeps_noContext (cfg : RbacConfig) (tenantId t u : Uuid) (us : List Uuid) :
    ∀ w : RbacWorld, NoContext w t u → NoContext (invalidateAll cfg w tenantId us) t u := by
  induction us with
  | nil => intro w h; exact h
  | cons a us ih =>
    intro w h
    unfold invalidateAll
    rw [List.foldl_cons]
    exact ih _ (invalidate_keeps_noContext cfg w tenantId a t u h)

theorem invalidateAll_noContext (cfg : RbacConfig) (tenantId u : Uuid) (us : List Uuid)
    (he : cfg.cacheEnabled = true) :
    ∀ w : RbacWorld, u ∈ us → NoContext (invalidateAll cfg w tenantId us) tenantId u := by
  induction us with
  | nil => intro w h; cases h
  | cons a us ih =>
    intro w h
    unfold invalidateAll
    rw [List.foldl_cons]
    by_cases hu : u ∈ us
    · exact ih _ hu
    · have hua : u = a := by
        rcases List.mem_cons.mp h with h | h
        · exact h
        · exact absurd h hu
      subst hua
      exact invalidateAll_keeps_noContext cfg tenantId tenantId u us _
        (invalidate_noContext cfg w tenantId u he)


theorem updateRole_holders (s : RbacStore) (tenantId roleId : Uuid) (name : Option String)
    (description : Option (Option String)) :
    (updateRole s tenantId roleId name description).userRoles = s.userRoles
      ∧ (updateRole s tenantId roleId name description).roles.map (fun r => (r.id, r.tenant_id))
        = s.roles.map (fun r => (r.id, r.tenant_id)) := by
  unfold updateRole
  refine ⟨rfl, ?_⟩
  simp only [List.map_map]
  apply List.map_congr_left
  intro r _
  simp only [Function.comp]
  split <;> rfl

theorem addPermissionsToRole_holders (roleId : Uuid) (ids : List Uuid) :
    ∀ s : RbacStore, (addPermissionsToRole s roleId ids).userRoles = s.userRoles
      ∧ (addPermissionsToRole s roleId ids).roles = s.roles := by
  induction ids with
  | nil => intro s; exact ⟨rfl, rfl⟩
  | cons a ids ih =>
    intro s
    unfold addPermissionsToRole
    rw [List.foldl_cons]
    have h := ih (if s.rolePermissions.any (fun rp => rp.role_id == roleId && rp.permission_id == a)
      then s else { s with rolePermissions := s.rolePermissions ++ [⟨roleId, a⟩] })
    unfold addPermissionsToRole at h
    refine ⟨h.1.trans ?_, h.2.trans ?_⟩
    · split <;> rfl
    · split <;> rfl

theorem removePermissionsFromRole_holders (s : RbacStore) (roleId : Uuid) (ids : List Uuid) :
    (removePermissionsFromRole s roleId ids).userRoles = s.userRoles
      ∧ (removePermissionsFromRole s roleId ids).roles = s.roles := by
  unfold removePermissionsFromRole
  split <;> exact ⟨rfl, rfl⟩

theorem getUserIdsByRole_mem_congr (s s2 : RbacStore) (now : Instant) (tenantId roleId u : Uuid)
    (h1 : s2.userRoles = s.userRoles)
    (h2 : s2.roles.map (fun r => (r.id, r.tenant_id))
      = s.roles.map (fun r => (r.id, r.tenant_id))) :
    u ∈ getUserIdsByRole s2 now tenantId roleId
      ↔ u ∈ getUserIdsByRole s now tenantId roleId := by
  rw [mem_getUserIdsByRole, mem_getUserIdsByRole, h1, h2]

theorem finishRoleUpdate_fresh (cfg : RbacConfig) (w : RbacWorld) (now : Instant) (s : RbacStore)
    (tenantId roleId u : Uuid) (hu : u ∈ getUserIdsByRole s now tenantId roleId) :
    CacheFresh cfg (finishRoleUpdate cfg w now s tenantId roleId).2 tenantId u := by
  apply cacheFresh_of_noContext
  intro he
  exact invalidateAll_noContext cfg tenantId u _ he _ hu

theorem updateTenantRole_cases (cfg : RbacConfig) (w : RbacWorld) (now : Instant)
    (args : UpdateRoleArgs) :
    (∃ e w2, updateTenantRole cfg w now args = (.error e, w2))
      ∨ ∃ s : RbacStore, s.userRoles = w.store.userRoles
        ∧ s.roles.map (fun r => (r.id, r.tenant_id))
          = w.store.roles.map (fun r => (r.id, r.tenant_id))
        ∧ updateTenantRole cfg w now args
          = finishRoleUpdate cfg w now s args.tenantId args.roleId := by
  unfold updateTenantRole
  repeat' (first | split | dsimp only)
  all_goals first
    | exact Or.inl ⟨_, _, rfl⟩
    | (refine Or.inr ⟨_, ?_, ?_, rfl⟩
       · simp only [(removePermissionsFromRole_holders _ _ _).1,
           (addPermissionsToRole_holders _ _ _).1, (updateRole_holders _ _ _ _ _).1]
       · simp only [(removePermissionsFromRole_holders _ _ _).2,
           (addPermissionsToRole_holders _ _ _).2, (updateRole_holders _ _ _ _ _).2])


theorem roleGrants_removeRole (s : RbacStore) (userId roleId tenantId r : Uuid) (p : String) :
    roleGrants (removeRoleFromUserRepo s userId roleId) tenantId r p
      ↔ roleGrants s tenantId r p :=
  Iff.rfl

theorem permission_after_removal (cfg : RbacConfig) (w : RbacWorld) (tenantId u r : Uuid)
    (p : String) (now : Instant)
    (hsole : ∀ ur ∈ w.store.userRoles, ur.user_id = u → unexpired now ur = true →
      roleGrants w.store tenantId ur.role_id p → ur.role_id = r) :
    (userHasPermission cfg (removeRoleFromUser cfg w tenantId u r) now tenantId u p).1 = false := by
  have hfresh : CacheFresh cfg (removeRoleFromUser cfg w tenantId u r) tenantId u := by
    apply cacheFresh_of_noContext
    intro he
    exact invalidate_noContext cfg _ tenantId u he
  have hstore : (removeRoleFromUser cfg w tenantId u r).store
      = removeRoleFromUserRepo w.store u r :=
    invalidate_store cfg _ tenantId u
  unfold userHasPermission getUserPermissionSet
  simp only [hfresh.2 now, hstore]
  unfold fetchUserContext serializeUserContext
  simp only
  rw [Bool.eq_false_iff]
  intro hc
  have hmem : p ∈ getUserPermissions (removeRoleFromUserRepo w.store u r) now u tenantId := by
    simpa using hc
  rw [mem_getUserPermissions] at hmem
  obtain ⟨ur, hur, hu, hx, hg⟩ := hmem
  have hur2 : ur ∈ w.store.userRoles ∧ (¬ ur.user_id = u ∨ ¬ ur.role_id = r) := by
    simpa [removeRoleFromUserRepo] using hur
  rcases hur2.2 with h | h
  · exact h hu
  · exact h (hsole ur hur2.1 hu hx ((roleGrants_removeRole _ _ _ _ _ _).mp hg))

/-- C11: after `assignRoleToUser` or `removeRoleFromUser` completed for a user,
and after `updateTenantRole` or `deleteTenantRole` completed for a role the
user held when the call was made, the cache serves no permission context for
that user of the tenant and the next `getUserPermissionContext` is computed from
the tables. In particular, after a role was removed from a user, the check of a
permission that only this role gave the user answers false, whatever the cache
held before. -/
theorem cache_coherent_after_role_mutation (cfg : RbacConfig) (w : RbacWorld) (now : Instant) :
    (∀ args w2, assignRoleToUser cfg w args = (.ok (), w2) →
        CacheFresh cfg w2 args.tenantId args.userId)
      ∧ (∀ tenantId u r, CacheFresh cfg (removeRoleFromUser cfg w tenantId u r) tenantId u)
      ∧ (∀ args res w2, updateTenantRole cfg w now args = (.ok res, w2) →
          ∀ u ∈ getUserIdsByRole w.store now args.tenantId args.roleId,
            CacheFresh cfg w2 args.tenantId u)
      ∧ (∀ tenantId r deleted w2, deleteTenantRole cfg w now tenantId r = (.ok deleted, w2) →
          ∀ u ∈ getUserIdsByRole w.store now tenantId r, CacheFresh cfg w2 tenantId u)
      ∧ (∀ tenantId u r p later,
          (∀ ur ∈ w.store.userRoles, ur.user_id = u → unexpired later ur = true →
            roleGrants w.store tenantId ur.role_id p → ur.role_id = r) →
          (userHasPermission cfg (removeRoleFromUser cfg w tenantId u r) later tenantId u p).1
            = false) := by
  refine ⟨?_, ?_, ?_, ?_, ?_⟩
  · intro args w2 h
    unfold assignRoleToUser at h
    split at h
    · simp at h
    · simp only [Prod.mk.injEq, true_and] at h
      subst h
      apply cacheFresh_of_noContext
      intro he
      exact invalidate_noContext cfg _ _ _ he
  · intro tenantId u r
    apply cacheFresh_of_noContext
    intro he
    exact invalidate_noContext cfg _ _ _ he
  · intro args res w2 h u hu
    rcases updateTenantRole_cases cfg w now args with ⟨e, w3, he⟩ | ⟨s, h1, h2, h3⟩
    · rw [he] at h
      simp at h
    · have hw : w2 = (finishRoleUpdate cfg w now s args.tenantId args.roleId).2 := by
        rw [← h3, h]
      rw [hw]
      exact finishRoleUpdate_fresh cfg w now s _ _ u
        ((getUserIdsByRole_mem_congr w.store s now _ _ u h1 h2).mpr hu)
  · intro tenantId r deleted w2 h u hu
    unfold deleteTenantRole at h
    split at h
    · simp at h
    · simp only [Prod.mk.injEq, Except.ok.injEq] at h
      rw [← h.2]
      apply cacheFresh_of_noContext
      intro he
      exact invalidateAll_noContext cfg tenantId u _ he _ hu
  · intro tenantId u r p later hsole
    exact permission_after_removal cfg w tenantId u r p later hsole

/-- C11 on the scenario: user 10 has a cached context with "appointments:read";
once role 50 is removed from the user the check answers false, and deleting
role 50 empties the cache for its holder. -/
theorem cache_coherent_after_role_mutation_witness :
    (userHasPermission rbacConfig cachedWorld 5 1 10 "appointments:read").1 = true
      ∧ (userHasPermission rbacConfig (removeRoleFromUser rbacConfig cachedWorld 1 10 50) 5 1 10
          "appointments:read").1 = false
      ∧ (∃ deleted w2, deleteTenantRole rbacConfig cachedWorld 5 1 50 = (.ok deleted, w2)
          ∧ 10 ∈ getUserIdsByRole cachedWorld.store 5 1 50
          ∧ CacheFresh rbacConfig w2 1 10) := by
  have h := cache_coherent_after_role_mutation rbacConfig cachedWorld 5
  refine ⟨by decide, ?_, ?_⟩
  · exact h.2.2.2.2 1 10 50 "appointments:read" 5 (by decide)
  · have hdel : deleteTenantRole rbacConfig cachedWorld 5 1 50
        = (.ok ⟨50, 1, "scheduler", none, false⟩,
            (deleteTenantRole rbacConfig cachedWorld 5 1 50).2) := by
      decide
    have hmem : 10 ∈ getUserIdsByRole cachedWorld.store 5 1 50 := by decide
    exact ⟨_, _, hdel, hmem, h.2.2.2.1 1 50 _ _ hdel 10 hmem⟩


theorem unexpired_iff (now : Instant) (ur : UserRoleRow) :
    unexpired now ur = true
      ↔ ur.expires_at = none ∨ ∃ e, ur.expires_at = some e ∧ now < e := by
  unfold unexpired
  cases h : ur.expires_at with
  | none => simp
  | some e => simp

/-- C14, the deviation: user 11 resolved a context at instant 0; at instant
2000 the only assignment of the user has expired (at 1000), yet the context
returned by `getUserPermissionContext` is the cached one and still contains the
permission of the expired role. -/
theorem expired_assignment_served_from_cache :
    "appointments:read"
        ∈ (getUserPermissionContext rbacConfig expiringWorld 2000 1 11).1.permissions
      ∧ ∀ ur ∈ expiringWorld.store.userRoles,
          ur.user_id = 11 → unexpired 2000 ur = false := by
  decide

/-- C14: when the cache is switched off or serves no context for the user at
time `now`, the permissions returned by `getUserPermissionContext` are exactly
the permissions of the tenant's roles assigned to the user with no expiry or an
expiry strictly later than `now`; when the cache serves a context, that stored
context is returned as it is. -/
theorem permissions_of_unexpired_assignments (cfg : RbacConfig) (w : RbacWorld) (now : Instant)
    (tenantId userId : Uuid) :
    ((cfg.cacheEnabled = false ∨ contextCacheGet w now tenantId userId = none) →
        ∀ p, p ∈ (getUserPermissionContext cfg w now tenantId userId).1.permissions
          ↔ ∃ ur ∈ w.store.userRoles, ur.user_id = userId
              ∧ (ur.expires_at = none ∨ ∃ e, ur.expires_at = some e ∧ now < e)
              ∧ roleGrants w.store tenantId ur.role_id p)
      ∧ ∀ cached, cfg.cacheEnabled = true →
          contextCacheGet w now tenantId userId = some cached →
          getUserPermissionContext cfg w now tenantId userId = (cached, w) := by
  constructor
  · intro hmiss p
    rw [context_of_miss cfg w now tenantId userId hmiss]
    unfold fetchUserContext serializeUserContext
    simp only
    rw [mem_getUserPermissions]
    simp only [unexpired_iff]
  · intro cached he hc
    unfold getUserPermissionContext
    simp [he, hc]

/-- C14 on the scenario: with an empty cache at instant 2000, user 10 (no
expiry) has "appointments:read" and user 11 (expired at 1000) has not. -/
theorem permissions_of_unexpired_assignments_witness :
    (rbacConfig.cacheEnabled = false ∨ contextCacheGet rbacWorld 2000 1 11 = none)
      ∧ "appointments:read"
          ∈ (getUserPermissionContext rbacConfig rbacWorld 2000 1 10).1.permissions
      ∧ "appointments:read"
          ∉ (getUserPermissionContext rbacConfig rbacWorld 2000 1 11).1.permissions
      ∧ (getUserPermissionContext rbacConfig expiringWorld 2000 1 11).1.cachedAt = 0 := by
  have hmiss : rbacConfig.cacheEnabled = false ∨ contextCacheGet rbacWorld 2000 1 11 = none :=
    Or.inr (by decide)
  have h := (permissions_of_unexpired_assignments rbacConfig rbacWorld 2000 1 11).1 hmiss
    "appointments:read"
  refine ⟨hmiss, by decide, ?_, by decide⟩
  rw [h]
  decide


theorem search_rejected (tzdb : String → Option Zone) (args : SearchArgs)
    (h : SearchRejected tzdb args) :
    ∃ msg, ∀ w, searchAvailability tzdb w args = .error ⟨400, msg⟩ := by
  obtain ⟨tenantId, skillIds, start, stop, duration, timezone⟩ := args
  unfold SearchRejected at h
  simp only at h
  unfold searchAvailability
  simp only
  rcases start with _ | start
  · exact ⟨_, fun _ => rfl⟩
  rcases stop with _ | stop
  · exact ⟨_, fun _ => rfl⟩
  rcases timezone with _ | tz
  · exact ⟨_, fun _ => rfl⟩
  by_cases htz : tz = ""
  · subst htz
    exact ⟨_, fun _ => rfl⟩
  simp only [beq_iff_eq, htz, if_false]
  cases hz : tzdb tz with
  | none => exact ⟨_, fun _ => rfl⟩
  | some zone =>
    rcases start with _ | s
    · exact ⟨_, fun _ => rfl⟩
    rcases stop with _ | e
    · exact ⟨_, fun _ => rfl⟩
    simp only
    by_cases hse : e > s
    · simp only [hse, not_true_eq_false, if_false]
      by_cases hd : duration.getD 30 < SLOT_MINUTES
      · simp only [hd, if_true]
        exact ⟨_, fun _ => rfl⟩
      · exfalso
        rcases h with h | h | h | h | h | h | h | h | h
        · cases h
        · cases h
        · cases h
        · exact htz (Option.some.inj h)
        · obtain ⟨tz2, h1, h2⟩ := h
          cases h1
          rw [hz] at h2
          cases h2
        · cases h
        · cases h
        · obtain ⟨s2, e2, h1, h2, h3⟩ := h
          cases h1
          cases h2
          exact absurd hse (not_lt.mpr h3)
        · obtain ⟨d, h1, h2⟩ := h
          subst h1
          exact hd h2
    · simp only [hse, not_false_eq_true, if_true]
      exact ⟨_, fun _ => rfl⟩

theorem search_accepted (tzdb : String → Option Zone) (w : World) (args : SearchArgs)
    (h : ¬ SearchRejected tzdb args) :
    ∃ r, searchAvailability tzdb w args = .ok r := by
  obtain ⟨tenantId, skillIds, start, stop, duration, timezone⟩ := args
  unfold SearchRejected at h
  simp only [not_or] at h
  obtain ⟨h1, h2, h3, h4, h5, h6, h7, h8, h9⟩ := h
  rcases start with _ | _ | s
  · exact absurd rfl h1
  · exact absurd rfl h6
  rcases stop with _ | _ | e
  · exact absurd rfl h2
  · exact absurd rfl h7
  rcases timezone with _ | tz
  · exact absurd rfl h3
  have htz : tz ≠ "" := fun hh => h4 (by rw [hh])
  cases hz : tzdb tz with
  | none => exact absurd ⟨tz, rfl, hz⟩ h5
  | some zone =>
    have hse : e > s := by
      by_contra hc
      exact h8 ⟨s, e, rfl, rfl, not_lt.mp hc⟩
    have hd : ¬ duration.getD 30 < SLOT_MINUTES := by
      intro hc
      cases duration with
      | none => simp [SLOT_MINUTES] at hc
      | some d => exact h9 ⟨d, rfl, hc⟩
    unfold searchAvailability
    simp only [beq_iff_eq, htz, if_false, hz, hse, not_true_eq_false, hd]
    split
    · exact ⟨_, rfl⟩
    · split
      · exact ⟨_, rfl⟩
      · exact ⟨_, rfl⟩

/-- C16: `searchAvailability` fails exactly when `start`, `end` or `timezone`
is missing, the timezone is unknown to the zone database, `start` or `end` is
not a valid datetime, `end` is not after `start`, or the duration is below 15
minutes. Every failure has status 400 and is the same on any store and cache,
so no calendar, slot or appointment decides it. A duration of 15 does not
reject a request, and an omitted duration is the duration 30. -/
theorem search_preconditions (tzdb : String → Option Zone) (w : World) (args : SearchArgs) :
    ((∃ e, searchAvailability tzdb w args = .error e) ↔ SearchRejected tzdb args)
      ∧ (∀ e, searchAvailability tzdb w args = .error e →
          e.status = 400 ∧ ∀ w2, searchAvailability tzdb w2 args = .error e)
      ∧ (¬ SearchRejected tzdb { args with duration := none } →
          ∃ r, searchAvailability tzdb w { args with duration := some 15 } = .ok r)
      ∧ searchAvailability tzdb w { args with duration := none }
          = searchAvailability tzdb w { args with duration := some 30 } := by
  have hrej : ∀ e, searchAvailability tzdb w args = .error e → SearchRejected tzdb args := by
    intro e he
    by_contra hc
    obtain ⟨r, hr⟩ := search_accepted tzdb w args hc
    rw [hr] at he
    cases he
  refine ⟨⟨?_, ?_⟩, ?_, ?_, ?_⟩
  · rintro ⟨e, he⟩
    exact hrej e he
  · intro h
    obtain ⟨msg, hmsg⟩ := search_rejected tzdb args h
    exact ⟨_, hmsg w⟩
  · intro e he
    obtain ⟨msg, hmsg⟩ := search_rejected tzdb args (hrej e he)
    have hee : e = ⟨400, msg⟩ := by
      have := hmsg w
      rw [he] at this
      exact Except.error.inj this
    subst hee
    exact ⟨rfl, hmsg⟩
  · intro h
    apply search_accepted
    intro hc
    apply h
    unfold SearchRejected at hc ⊢
    simpa using hc
  · rfl

/-- C16 on the Monday scenario: the search is accepted with a duration of 15
minutes and rejected with 14. -/
theorem search_preconditions_witness :
    (∃ r, searchAvailability scenarioZones ⟨mondayDb [], []⟩
        { mondaySearch with duration := some 15 } = .ok r)
      ∧ searchAvailability scenarioZones ⟨mondayDb [], []⟩
          { mondaySearch with duration := some 14 }
        = .error ⟨400, "duration must be at least 15 minutes"⟩ := by
  have h := search_preconditions scenarioZones ⟨mondayDb [], []⟩ mondaySearch
  refine ⟨h.2.2.1 ?_, by decide⟩
  simp [SearchRejected, mondaySearch, scenarioZones, hourMs]


theorem validateTimes_some (s e : Instant) :
    validateTimes (some s) (some e)
      = if e ≤ s then .error ⟨400, "Appointment end must be after start"⟩
        else if e - s < 15 * 60000 then .error ⟨400, "Appointments must be at least 15 minutes"⟩
        else .ok (s, e) := by
  unfold validateTimes MIN_APPOINTMENT_MINUTES
  simp only [gt_iff_lt, not_lt]

theorem create_ok_times (w : World) (args : CreateAppointmentArgs) (r : Appointment) (w2 : World)
    (h : createAppointmentForTenant w args = .ok (r, w2)) :
    validateTimes args.startTime args.endTime = .ok (r.start_time, r.end_time)
      ∧ r ∈ w2.db.appointments := by
  unfold createAppointmentForTenant at h
  split at h
  · cases h
  · split at h
    · cases h
    · split at h
      · cases h
      · split at h
        · cases h
        · split at h
          · cases h
          · rename_i start stop hv
            dsimp only at h
            split at h
            · cases h
            · split at h
              · cases h
              · injection h with h
                injection h with h1 h2
                subst h1 h2
                refine ⟨hv, ?_⟩
                simp [createAppointment, invalidateAvailabilityCache]

theorem updateAppointment_fst (db : Db) (t i : Uuid) (p : AppointmentPayload) (a : Appointment)
    (h : getAppointmentById db t i = some a) :
    (updateAppointment db t i p).1 = some (applyPayload p a)
      ∧ getAppointmentById (updateAppointment db t i p).2 t i = some (applyPayload p a) := by
  have hkey : getAppointmentById
      { db with
        appointments := db.appointments.map (fun a =>
          if a.tenant_id == t && a.id == i then applyPayload p a else a) } t i
      = some (applyPayload p a) := by
    unfold getAppointmentById at h ⊢
    simp only
    rw [List.find?_map]
    have hfun : ((fun a : Appointment => a.tenant_id == t && a.id == i) ∘
        fun a : Appointment => if (a.tenant_id == t && a.id == i) = true then applyPayload p a
          else a)
        = fun a : Appointment => a.tenant_id == t && a.id == i := by
      funext x
      simp only [Function.comp]
      split
      · rename_i hx
        simp [applyPayload, hx]
      · rfl
    rw [hfun, h]
    have hp := List.find?_some h
    simp only [Option.map_some', hp, if_true]
  unfold updateAppointment
  by_cases hp : p.isEmpty = true
  · rw [if_pos hp]
    simp only [h, applyPayload_of_isEmpty p a hp, and_self]
  · rw [if_neg hp]
    exact ⟨hkey, hkey⟩

theorem update_ok_times (w : World) (args : UpdateAppointmentArgs) (r : Option Appointment)
    (w2 : World) (h : updateAppointmentForTenant w args = .ok (r, w2))
    (hsup : (args.startTime.isSome || args.endTime.isSome) = true) :
    ∃ appointment s e row,
      getAppointmentById w.db args.tenantId args.appointmentId = some appointment
        ∧ validateTimes (args.startTime.getD (some appointment.start_time))
            (args.endTime.getD (some appointment.end_time)) = .ok (s, e)
        ∧ r = some row
        ∧ getAppointmentById w2.db args.tenantId args.appointmentId = some row
        ∧ row.start_time = s ∧ row.end_time = e := by
  unfold updateAppointmentForTenant at h
  split at h
  · cases h
  · rename_i appointment happ
    dsimp only at h
    rw [if_pos hsup] at h
    cases hv : validateTimes (args.startTime.getD (some appointment.start_time))
        (args.endTime.getD (some appointment.end_time)) with
    | error e => rw [hv] at h; cases h
    | ok se =>
      obtain ⟨s, e⟩ := se
      rw [hv] at h
      dsimp only at h
      by_cases hc : ((findConflictingAppointments w.db appointment.calendar_id s e
          (some appointment.id)).length != 0) = true
      · rw [if_pos hc] at h; cases h
      · rw [if_neg hc] at h
        dsimp only at h
        have hfin : ∀ payload : AppointmentPayload,
            payload.start_time = some s → payload.end_time = some e →
            (Except.ok ((updateAppointment w.db args.tenantId args.appointmentId payload).1,
              invalidateAvailabilityCache
                { w with
                  db := (updateAppointment w.db args.tenantId args.appointmentId payload).2 }
                args.tenantId) : Except ApiError (Option Appointment × World)) = .ok (r, w2) →
            ∃ row, r = some row
              ∧ getAppointmentById w2.db args.tenantId args.appointmentId = some row
              ∧ row.start_time = s ∧ row.end_time = e := by
          intro payload hs he hh
          injection hh with hh
          injection hh with h1 h2
          obtain ⟨hf1, hf2⟩ := updateAppointment_fst w.db args.tenantId args.appointmentId
            payload appointment happ
          refine ⟨applyPayload payload appointment, ?_, ?_, ?_, ?_⟩
          · rw [← h1, hf1]
          · rw [← h2]
            exact hf2
          · simp [applyPayload, hs]
          · simp [applyPayload, he]
        cases hst : args.status with
        | none =>
          rw [hst] at h
          dsimp only at h
          obtain ⟨row, h1, h2, h3, h4⟩ := hfin _ rfl rfl h
          exact ⟨appointment, s, e, row, happ, hv, h1, h2, h3, h4⟩
        | some st =>
          rw [hst] at h
          dsimp only at h
          by_cases h0 : (st == "") = true
          · rw [if_pos h0] at h
            dsimp only at h
            obtain ⟨row, h1, h2, h3, h4⟩ := hfin _ rfl rfl h
            exact ⟨appointment, s, e, row, happ, hv, h1, h2, h3, h4⟩
          · rw [if_neg h0] at h
            by_cases hal : (!(allowedStatuses.contains st)) = true
            · rw [if_pos hal] at h; cases h
            · rw [if_neg hal] at h
              dsimp only at h
              obtain ⟨row, h1, h2, h3, h4⟩ := hfin _ rfl rfl h
              exact ⟨appointment, s, e, row, happ, hv, h1, h2, h3, h4⟩


/-- C17: for valid instants `s` and `e`, `validateTimes` fails exactly when
`e ≤ s` or `e - s` is below 15 minutes, every failure has status 400, and a
span of exactly 15 minutes is accepted. An appointment created by
`createAppointmentForTenant` is stored with the start and end `validateTimes`
returned, and so is an appointment whose time `updateAppointmentForTenant`
changed. -/
theorem appointment_time_validation (s e : Instant) :
    ((∃ err, validateTimes (some s) (some e) = .error err) ↔ e ≤ s ∨ e - s < 15 * 60000)
      ∧ (∀ err, validateTimes (some s) (some e) = .error err → err.status = 400)
      ∧ (¬ (e ≤ s ∨ e - s < 15 * 60000) → validateTimes (some s) (some e) = .ok (s, e))
      ∧ validateTimes (some s) (some (s + 15 * 60000)) = .ok (s, s + 15 * 60000)
      ∧ (∀ w args r w2, createAppointmentForTenant w args = .ok (r, w2) →
          validateTimes args.startTime args.endTime = .ok (r.start_time, r.end_time)
            ∧ r ∈ w2.db.appointments)
      ∧ (∀ w args r w2, updateAppointmentForTenant w args = .ok (r, w2) →
          (args.startTime.isSome || args.endTime.isSome) = true →
          ∃ appointment s2 e2 row,
            getAppointmentById w.db args.tenantId args.appointmentId = some appointment
              ∧ validateTimes (args.startTime.getD (some appointment.start_time))
                  (args.endTime.getD (some appointment.end_time)) = .ok (s2, e2)
              ∧ r = some row
              ∧ getAppointmentById w2.db args.tenantId args.appointmentId = some row
              ∧ row.start_time = s2 ∧ row.end_time = e2) := by
  refine ⟨?_, ?_, ?_, ?_, ?_, ?_⟩
  · rw [validateTimes_some]
    by_cases h1 : e ≤ s
    · rw [if_pos h1]
      exact ⟨fun _ => Or.inl h1, fun _ => ⟨_, rfl⟩⟩
    · rw [if_neg h1]
      by_cases h2 : e - s < 15 * 60000
      · rw [if_pos h2]
        exact ⟨fun _ => Or.inr h2, fun _ => ⟨_, rfl⟩⟩
      · rw [if_neg h2]
        constructor
        · rintro ⟨err, herr⟩
          cases herr
        · rintro (h | h)
          · exact absurd h h1
          · exact absurd h h2
  · intro err
    rw [validateTimes_some]
    by_cases h1 : e ≤ s
    · rw [if_pos h1]
      intro h
      injection h with h
      rw [← h]
    · rw [if_neg h1]
      by_cases h2 : e - s < 15 * 60000
      · rw [if_pos h2]
        intro h
        injection h with h
        rw [← h]
      · rw [if_neg h2]
        intro h
        cases h
  · intro h
    rw [not_or] at h
    rw [validateTimes_some, if_neg h.1, if_neg h.2]
  · rw [validateTimes_some]
    have h1 : ¬ (s + 15 * 60000 ≤ s) := by
      intro h
      linarith
    have h2 : ¬ (s + 15 * 60000 - s < 15 * 60000) := by
      intro h
      linarith
    rw [if_neg h1, if_neg h2]
  · intro w args r w2 h
    exact create_ok_times w args r w2 h
  · intro w args r w2 h hsup
    exact update_ok_times w args r w2 h hsup

/-- C17 on the Monday scenario: a booking of exactly 15 minutes is stored with
the requested start and end, and moving appointment 100 stores the new times. -/
theorem appointment_time_validation_witness :
    validateTimes (some mondayNine) (some (mondayNine + 15 * 60000))
        = .ok (mondayNine, mondayNine + 15 * 60000)
      ∧ (createAppointmentForTenant ⟨mondayDb [], []⟩
            (bookingRequest mondayNine (mondayNine + 15 * 60000))).map
          (fun created => (created.1.start_time, created.1.end_time))
        = .ok (mondayNine, mondayNine + 15 * 60000)
      ∧ (∃ err,
          validateTimes (some mondayNine) (some (mondayNine + 14 * 60000)) = .error err) := by
  have h := appointment_time_validation mondayNine (mondayNine + 14 * 60000)
  exact ⟨(appointment_time_validation mondayNine 0).2.2.2.1, by decide,
    h.1.mpr (Or.inr (by decide))⟩


theorem dedupProviders_eq (l : List ProviderRecord) :
    ∀ seen, dedupProviders seen l = dedupByUser (fun r => r.userId) seen l := by
  induction l with
  | nil => intro seen; rfl
  | cons p rest ih =>
    intro seen
    unfold dedupProviders dedupByUser
    rw [ih, ih]

theorem dedupParticipants_eq (l : List ParticipantRecord) :
    ∀ seen, dedupParticipants seen l = dedupByUser (fun r => r.userId) seen l := by
  induction l with
  | nil => intro seen; rfl
  | cons p rest ih =>
    intro seen
    unfold dedupParticipants dedupByUser
    rw [ih, ih]

theorem dedupByUser_sublist {α : Type} (key : α → Uuid) (l : List α) :
    ∀ seen, (dedupByUser key seen l).Sublist l := by
  induction l with
  | nil => intro seen; exact List.Sublist.slnil
  | cons p rest ih =>
    intro seen
    unfold dedupByUser
    split
    · exact List.Sublist.cons _ (ih _)
    · exact List.Sublist.cons₂ _ (ih _)

theorem dedupByUser_not_seen {α : Type} (key : α → Uuid) (l : List α) :
    ∀ seen, ∀ x ∈ dedupByUser key seen l, key x ∉ seen := by
  induction l with
  | nil => intro seen x hx; cases hx
  | cons p rest ih =>
    intro seen x hx
    unfold dedupByUser at hx
    split at hx
    · exact ih _ x hx
    · rename_i hp
      rcases List.mem_cons.mp hx with rfl | hx
      · simpa using hp
      · intro hmem
        exact ih _ x hx (List.mem_cons_of_mem _ hmem)

theorem dedupByUser_nodup {α : Type} (key : α → Uuid) (l : List α) :
    ∀ seen, ((dedupByUser key seen l).map key).Nodup := by
  induction l with
  | nil => intro seen; exact List.nodup_nil
  | cons p rest ih =>
    intro seen
    unfold dedupByUser
    split
    · exact ih _
    · rw [List.map_cons, List.nodup_cons]
      refine ⟨?_, ih _⟩
      intro hmem
      obtain ⟨x, hx, hkx⟩ := List.mem_map.mp hmem
      exact dedupByUser_not_seen key rest _ x hx (by rw [hkx]; exact List.mem_cons_self _ _)

theorem dedupByUser_complete {α : Type} (key : α → Uuid) (l : List α) :
    ∀ seen, ∀ x ∈ l, key x ∉ seen → key x ∈ (dedupByUser key seen l).map key := by
  induction l with
  | nil => intro seen x hx; cases hx
  | cons p rest ih =>
    intro seen x hx hns
    unfold dedupByUser
    split
    · rename_i hp
      rcases List.mem_cons.mp hx with rfl | hx
      · exact absurd (by simpa using hp) hns
      · exact ih _ x hx hns
    · rw [List.map_cons]
      by_cases hk : key x = key p
      · rw [hk]
        exact List.mem_cons_self _ _
      · rcases List.mem_cons.mp hx with rfl | hx
        · exact absurd rfl hk
        · apply List.mem_cons_of_mem
          apply ih _ x hx
          intro hmem
          rcases List.mem_cons.mp hmem with h | h
          · exact hk h
          · exact hns h

theorem dedupByUser_first {α : Type} (key : α → Uuid) (l : List α) :
    ∀ seen, ∀ x ∈ dedupByUser key seen l, l.find? (fun y => key y == key x) = some x := by
  induction l with
  | nil => intro seen x hx; cases hx
  | cons p rest ih =>
    intro seen x hx
    have hns := dedupByUser_not_seen key (p :: rest) seen x hx
    unfold dedupByUser at hx
    split at hx
    · rename_i hp
      have hne : key p ≠ key x := by
        intro h
        apply hns
        rw [← h]
        simpa using hp
      rw [List.find?_cons_of_neg _ (by simpa using hne)]
      exact ih _ x hx
    · rcases List.mem_cons.mp hx with rfl | hx
      · simp
      · have hne : key p ≠ key x := by
          intro h
          exact dedupByUser_not_seen key rest _ x hx (by rw [h]; exact List.mem_cons_self _ _)
        rw [List.find?_cons_of_neg _ (by simpa using hne)]
        exact ih _ x hx

theorem dedupByUser_fixed {α : Type} (key : α → Uuid) (l : List α) :
    ∀ seen, (l.map key).Nodup → (∀ x ∈ l, key x ∉ seen) →
      dedupByUser key seen l = l := by
  induction l with
  | nil => intro seen _ _; rfl
  | cons p rest ih =>
    intro seen hnd hns
    rw [List.map_cons, List.nodup_cons] at hnd
    unfold dedupByUser
    have hp : seen.contains (key p) = false := by
      have := hns p (List.mem_cons_self _ _)
      simpa using this
    rw [hp]
    simp only [Bool.false_eq_true, if_false]
    rw [ih _ hnd.2]
    intro x hx hmem
    rcases List.mem_cons.mp hmem with h | h
    · exact hnd.1 (h ▸ List.mem_map.mpr ⟨x, hx, rfl⟩)
    · exact hns x (List.mem_cons_of_mem _ hx) h


theorem normalizeProviderInput_eq (providers : List ProviderInput) :
    normalizeProviderInput providers
      = dedupByUser (fun r : ProviderRecord => r.userId) []
          (providers.filterMap (fun provider =>
            provider.userId.map
              (fun u => { userId := u, calendarId := provider.calendarId }))) := by
  unfold normalizeProviderInput
  rw [dedupProviders_eq]

theorem normalizeParticipantInput_eq (participants : List ParticipantInput) :
    normalizeParticipantInput participants
      = dedupByUser (fun r : ParticipantRecord => r.userId) []
          (participants.filterMap (fun participant =>
            participant.userId.map
              (fun u => { userId := u, metadata := participant.metadata }))) := by
  unfold normalizeParticipantInput
  rw [dedupParticipants_eq]

theorem find_provider_input (providers : List ProviderInput) (r : ProviderRecord)
    (h : (providers.filterMap (fun provider => provider.userId.map
        (fun u => ({ userId := u, calendarId := provider.calendarId } : ProviderRecord)))).find?
          (fun y => y.userId == r.userId) = some r) :
    providers.find? (fun p => p.userId == some r.userId) = some r.toInput := by
  induction providers with
  | nil => cases h
  | cons p rest ih =>
    obtain ⟨pu, pc⟩ := p
    cases pu with
    | none =>
      rw [List.filterMap_cons_none rfl] at h
      rw [List.find?_cons_of_neg _ (by simp)]
      exact ih h
    | some u =>
      simp only [List.filterMap_cons, Option.map_some'] at h
      by_cases hu : u = r.userId
      · rw [List.find?_cons_of_pos _ (by simp [hu])] at h
        rw [List.find?_cons_of_pos _ (by simp [hu])]
        injection h with h
        rw [← h]
        rfl
      · rw [List.find?_cons_of_neg _ (by simp [hu])] at h
        rw [List.find?_cons_of_neg _ (by simp [hu])]
        exact ih h

theorem find_participant_input (participants : List ParticipantInput) (r : ParticipantRecord)
    (h : (participants.filterMap (fun participant => participant.userId.map
        (fun u => ({ userId := u, metadata := participant.metadata } : ParticipantRecord)))).find?
          (fun y => y.userId == r.userId) = some r) :
    participants.find? (fun p => p.userId == some r.userId) = some r.toInput := by
  induction participants with
  | nil => cases h
  | cons p rest ih =>
    obtain ⟨pu, pc⟩ := p
    cases pu with
    | none =>
      rw [List.filterMap_cons_none rfl] at h
      rw [List.find?_cons_of_neg _ (by simp)]
      exact ih h
    | some u =>
      simp only [List.filterMap_cons, Option.map_some'] at h
      by_cases hu : u = r.userId
      · rw [List.find?_cons_of_pos _ (by simp [hu])] at h
        rw [List.find?_cons_of_pos _ (by simp [hu])]
        injection h with h
        rw [← h]
        rfl
      · rw [List.find?_cons_of_neg _ (by simp [hu])] at h
        rw [List.find?_cons_of_neg _ (by simp [hu])]
        exact ih h

theorem providers_spec (providers : List ProviderInput) :
    ((normalizeProviderInput providers).map (fun r => r.userId)).Nodup
      ∧ (∀ u, u ∈ (normalizeProviderInput providers).map (fun r => r.userId)
          ↔ ∃ p ∈ providers, p.userId = some u)
      ∧ (normalizeProviderInput providers).Sublist
          (providers.filterMap (fun provider => provider.userId.map
            (fun u => { userId := u, calendarId := provider.calendarId })))
      ∧ (∀ r ∈ normalizeProviderInput providers,
          providers.find? (fun p => p.userId == some r.userId) = some r.toInput)
      ∧ normalizeProviderInput ((normalizeProviderInput providers).map (fun r => r.toInput))
          = normalizeProviderInput providers := by
  rw [normalizeProviderInput_eq]
  refine ⟨dedupByUser_nodup _ _ _, ?_, dedupByUser_sublist _ _ _, ?_, ?_⟩
  · intro u
    constructor
    · intro hu
      obtain ⟨r, hr, hru⟩ := List.mem_map.mp hu
      have hmem := (dedupByUser_sublist (fun r : ProviderRecord => r.userId) _ []).subset hr
      obtain ⟨p, hp, hpr⟩ := List.mem_filterMap.mp hmem
      refine ⟨p, hp, ?_⟩
      cases hpu : p.userId with
      | none => rw [hpu] at hpr; cases hpr
      | some v =>
        rw [hpu] at hpr
        simp only [Option.map_some', Option.some.injEq] at hpr
        rw [← hru, ← hpr]
    · rintro ⟨p, hp, hpu⟩
      have hmem : (⟨u, p.calendarId⟩ : ProviderRecord) ∈ providers.filterMap
          (fun provider => provider.userId.map
            (fun u => ({ userId := u, calendarId := provider.calendarId } : ProviderRecord))) :=
        List.mem_filterMap.mpr ⟨p, hp, by rw [hpu]; rfl⟩
      exact dedupByUser_complete (fun r : ProviderRecord => r.userId) _ [] _ hmem
        (List.not_mem_nil _)
  · intro r hr
    exact find_provider_input providers r (dedupByUser_first _ _ [] r hr)
  · rw [normalizeProviderInput_eq]
    have hmap : ((dedupByUser (fun r : ProviderRecord => r.userId) []
        (providers.filterMap (fun provider => provider.userId.map
          (fun u => ({ userId := u, calendarId := provider.calendarId } : ProviderRecord))))).map
            (fun r => r.toInput)).filterMap (fun provider => provider.userId.map
              (fun u => ({ userId := u, calendarId := provider.calendarId } : ProviderRecord)))
        = dedupByUser (fun r : ProviderRecord => r.userId) []
          (providers.filterMap (fun provider => provider.userId.map
            (fun u => ({ userId := u, calendarId := provider.calendarId } : ProviderRecord)))) := by
      rw [List.filterMap_map]
      have hf : ((fun provider : ProviderInput => provider.userId.map
            (fun u => ({ userId := u, calendarId := provider.calendarId } : ProviderRecord)))
          ∘ fun r : ProviderRecord => r.toInput) = some := by
        funext r
        rfl
      rw [hf, List.filterMap_some]
    rw [hmap]
    exact dedupByUser_fixed _ _ [] (dedupByUser_nodup _ _ _) (fun _ _ => List.not_mem_nil _)

theorem participants_spec (participants : List ParticipantInput) :
    ((normalizeParticipantInput participants).map (fun r => r.userId)).Nodup
      ∧ (∀ u, u ∈ (normalizeParticipantInput participants).map (fun r => r.userId)
          ↔ ∃ p ∈ participants, p.userId = some u)
      ∧ (normalizeParticipantInput participants).Sublist
          (participants.filterMap (fun participant => participant.userId.map
            (fun u => { userId := u, metadata := participant.metadata })))
      ∧ (∀ r ∈ normalizeParticipantInput participants,
          participants.find? (fun p => p.userId == some r.userId) = some r.toInput)
      ∧ normalizeParticipantInput
            ((normalizeParticipantInput participants).map (fun r => r.toInput))
          = normalizeParticipantInput participants := by
  rw [normalizeParticipantInput_eq]
  refine ⟨dedupByUser_nodup _ _ _, ?_, dedupByUser_sublist _ _ _, ?_, ?_⟩
  · intro u
    constructor
    · intro hu
      obtain ⟨r, hr, hru⟩ := List.mem_map.mp hu
      have hmem := (dedupByUser_sublist (fun r : ParticipantRecord => r.userId) _ []).subset hr
      obtain ⟨p, hp, hpr⟩ := List.mem_filterMap.mp hmem
      refine ⟨p, hp, ?_⟩
      cases hpu : p.userId with
      | none => rw [hpu] at hpr; cases hpr
      | some v =>
        rw [hpu] at hpr
        simp only [Option.map_some', Option.some.injEq] at hpr
        rw [← hru, ← hpr]
    · rintro ⟨p, hp, hpu⟩
      have hmem : (⟨u, p.metadata⟩ : ParticipantRecord) ∈ participants.filterMap
          (fun participant => participant.userId.map
            (fun u => ({ userId := u, metadata := participant.metadata } : ParticipantRecord))) :=
        List.mem_filterMap.mpr ⟨p, hp, by rw [hpu]; rfl⟩
      exact dedupByUser_complete (fun r : ParticipantRecord => r.userId) _ [] _ hmem
        (List.not_mem_nil _)
  · intro r hr
    exact find_participant_input participants r (dedupByUser_first _ _ [] r hr)
  · rw [normalizeParticipantInput_eq]
    have hmap : ((dedupByUser (fun r : ParticipantRecord => r.userId) []
        (participants.filterMap (fun participant => participant.userId.map
          (fun u => ({ userId := u, metadata := participant.metadata }
            : ParticipantRecord))))).map
            (fun r => r.toInput)).filterMap (fun participant => participant.userId.map
              (fun u => ({ userId := u, metadata := participant.metadata } : ParticipantRecord)))
        = dedupByUser (fun r : ParticipantRecord => r.userId) []
          (participants.filterMap (fun participant => participant.userId.map
            (fun u => ({ userId := u, metadata := participant.metadata }
              : ParticipantRecord)))) := by
      rw [List.filterMap_map]
      have hf : ((fun participant : ParticipantInput => participant.userId.map
            (fun u => ({ userId := u, metadata := participant.metadata } : ParticipantRecord)))
          ∘ fun r : ParticipantRecord => r.toInput) = some := by
        funext r
        rfl
      rw [hf, List.filterMap_some]
    rw [hmap]
    exact dedupByUser_fixed _ _ [] (dedupByUser_nodup _ _ _) (fun _ _ => List.not_mem_nil _)

theorem assertDateRange_error (start stop : Option Instant) (e : ApiError)
    (h : assertDateRange start stop = .error e) : ∃ msg, e = ⟨400, msg⟩ := by
  unfold assertDateRange at h
  split at h
  · split at h
    · injection h with h
      exact ⟨_, h.symm⟩
    · cases h
  · injection h with h
    exact ⟨_, h.symm⟩

theorem create_without_providers (faults : InsertFaults) (w : World) (args : GroupCreateArgs)
    (h : normalizeProviderInput (args.providers.getD []) = []) :
    ∃ msg, createGroupAppointment faults w args = (.error ⟨400, msg⟩, w) := by
  unfold createGroupAppointment
  split
  · exact ⟨_, rfl⟩
  · cases hd : assertDateRange args.startTime args.endTime with
    | error e =>
      obtain ⟨msg, hmsg⟩ := assertDateRange_error _ _ e hd
      subst hmsg
      exact ⟨msg, rfl⟩
    | ok se =>
      simp only [h, List.length_nil, if_true]
      exact ⟨_, rfl⟩


/-- C19: `normalizeProviderInput` and `normalizeParticipantInput` return
records with pairwise distinct user ids; the user ids returned are exactly those
of the input entries that have one; the records come in the order of the input
entries with a user id; each record is the first input entry with its user id,
with that entry's calendar or metadata; normalising the output again returns it
unchanged; and `createGroupAppointment` fails with status 400, leaving the store
as it was, when the normalised provider list is empty. -/
theorem normalisation_dedup (providers : List ProviderInput)
    (participants : List ParticipantInput) :
    (((normalizeProviderInput providers).map (fun r => r.userId)).Nodup
        ∧ (∀ u, u ∈ (normalizeProviderInput providers).map (fun r => r.userId)
            ↔ ∃ p ∈ providers, p.userId = some u)
        ∧ (normalizeProviderInput providers).Sublist
            (providers.filterMap (fun provider => provider.userId.map
              (fun u => { userId := u, calendarId := provider.calendarId })))
        ∧ (∀ r ∈ normalizeProviderInput providers,
            providers.find? (fun p => p.userId == some r.userId) = some r.toInput)
        ∧ normalizeProviderInput ((normalizeProviderInput providers).map (fun r => r.toInput))
            = normalizeProviderInput providers)
      ∧ (((normalizeParticipantInput participants).map (fun r => r.userId)).Nodup
        ∧ (∀ u, u ∈ (normalizeParticipantInput participants).map (fun r => r.userId)
            ↔ ∃ p ∈ participants, p.userId = some u)
        ∧ (normalizeParticipantInput participants).Sublist
            (participants.filterMap (fun participant => participant.userId.map
              (fun u => { userId := u, metadata := participant.metadata })))
        ∧ (∀ r ∈ normalizeParticipantInput participants,
            participants.find? (fun p => p.userId == some r.userId) = some r.toInput)
        ∧ normalizeParticipantInput
              ((normalizeParticipantInput participants).map (fun r => r.toInput))
            = normalizeParticipantInput participants)
      ∧ ∀ faults w args, normalizeProviderInput (args.providers.getD []) = [] →
          ∃ msg, createGroupAppointment faults w args = (.error ⟨400, msg⟩, w) :=
  ⟨providers_spec providers, participants_spec participants,
    fun faults w args h => create_without_providers faults w args h⟩

/-- C19 on an example: the entry without user and the second entry of user 11
are dropped, user 11 keeps calendar 20, and a request whose providers all lack
a user id is rejected. -/
theorem normalisation_dedup_witness :
    normalizeProviderInput repeatedProviders = [⟨11, some 20⟩, ⟨12, none⟩]
      ∧ repeatedProviders.find? (fun p => p.userId == some 11) = some ⟨some 11, some 20⟩
      ∧ (createGroupAppointment {} bookedWorld
          { freeGroupRequest with providers := some [⟨none, some 20⟩] }).1
          = .error ⟨400, "At least one provider is required"⟩ := by
  have h := normalisation_dedup repeatedProviders []
  have hn : normalizeProviderInput repeatedProviders = [⟨11, some 20⟩, ⟨12, none⟩] := by decide
  refine ⟨hn, ?_, by decide⟩
  have h4 := h.1.2.2.2.1 ⟨11, some 20⟩ (by rw [hn]; exact List.mem_cons_self _ _)
  exact h4


theorem insertGroupProviders_inv (faults : InsertFaults) (db : Db) (gid : Uuid)
    (providers : List ProviderRecord) (rows : List GroupProvider) (db2 : Db)
    (h : insertGroupProviders faults db gid providers = (.ok rows, db2)) :
    db2.groupAppointments = db.groupAppointments
      ∧ db2.groupParticipants = db.groupParticipants := by
  unfold insertGroupProviders at h
  split at h
  · injection h with _ h2
    rw [← h2]
    exact ⟨rfl, rfl⟩
  · split at h
    · injection h with h1 _
      cases h1
    · injection h with _ h2
      rw [← h2]
      exact ⟨rfl, rfl⟩

theorem insertGroupParticipants_inv (faults : InsertFaults) (db : Db) (gid : Uuid)
    (participants : List ParticipantRecord) (rows : List GroupParticipant) (db2 : Db)
    (h : insertGroupParticipants faults db gid participants = (.ok rows, db2)) :
    db2.groupAppointments = db.groupAppointments
      ∧ db2.groupParticipants = db.groupParticipants ++ rows
      ∧ rows.length = participants.length
      ∧ ∀ r ∈ rows, r.group_appointment_id = gid := by
  unfold insertGroupParticipants at h
  split at h
  · rename_i h0
    injection h with h1 h2
    injection h1 with h1
    rw [← h2, ← h1]
    refine ⟨rfl, (List.append_nil _).symm, h0.symm, ?_⟩
    intro r hr
    cases hr
  · split at h
    · injection h with h1 _
      cases h1
    · injection h with h1 h2
      injection h1 with h1
      rw [← h2, ← h1]
      refine ⟨rfl, rfl, by simp, ?_⟩
      intro r hr
      obtain ⟨ip, _, hip⟩ := List.mem_map.mp hr
      rw [← hip]

theorem insertGroup_ok_inv (faults : InsertFaults) (data : NewGroupAppointment)
    (providers : List ProviderRecord) (participants : List ParticipantRecord) (db db2 : Db)
    (ga : GroupAppointment)
    (h : transaction db (insertGroup faults data providers participants) = (.ok ga, db2)) :
    ga.id = db.nextId ∧ ga.tenant_id = data.tenantId
      ∧ ga.duration_minutes = data.durationMinutes
      ∧ ga.max_participants = data.maxParticipants.getD 1
      ∧ db2.groupAppointments = db.groupAppointments ++ [ga]
      ∧ ∃ rows : List GroupParticipant, db2.groupParticipants = db.groupParticipants ++ rows
          ∧ rows.length = participants.length
          ∧ ∀ r ∈ rows, r.group_appointment_id = ga.id := by
  unfold transaction at h
  split at h
  · rename_i result db3 hcb
    injection h with h1 h2
    injection h1 with h1
    subst h1 h2
    unfold insertGroup at hcb
    split at hcb
    · injection hcb with hcb _
      cases hcb
    · rename_i created db1 hins
      have hrow : created.id = db.nextId ∧ created.tenant_id = data.tenantId
          ∧ created.duration_minutes = data.durationMinutes
          ∧ created.max_participants = data.maxParticipants.getD 1
          ∧ db1.groupAppointments = db.groupAppointments ++ [created]
          ∧ db1.groupParticipants = db.groupParticipants := by
        unfold insertGroupAppointment at hins
        split at hins
        · injection hins with hins _
          cases hins
        · injection hins with h1 h2
          injection h1 with h1
          rw [← h1, ← h2]
          exact ⟨rfl, rfl, rfl, rfl, rfl, rfl⟩
      split at hcb
      · injection hcb with hcb _
        cases hcb
      · rename_i rows2 db2x hprov
        obtain ⟨hp1, hp2⟩ := insertGroupProviders_inv _ _ _ _ _ _ hprov
        split at hcb
        · split at hcb
          · injection hcb with hcb _
            cases hcb
          · rename_i rows3 db3x hpart
            obtain ⟨hq1, hq2, hq3, hq4⟩ := insertGroupParticipants_inv _ _ _ _ _ _ hpart
            injection hcb with h1 h2
            injection h1 with h1
            subst h1 h2
            refine ⟨hrow.1, hrow.2.1, hrow.2.2.1, hrow.2.2.2.1, ?_, rows3, ?_, hq3, hq4⟩
            · rw [hq1, hp1, hrow.2.2.2.2.1]
            · rw [hq2, hp2, hrow.2.2.2.2.2]
        · rename_i hlen
          injection hcb with h1 h2
          injection h1 with h1
          subst h1 h2
          refine ⟨hrow.1, hrow.2.1, hrow.2.2.1, hrow.2.2.2.1, ?_, [], ?_, ?_, ?_⟩
          · rw [hp1, hrow.2.2.2.2.1]
          · rw [hp2, hrow.2.2.2.2.2, List.append_nil]
          · have : participants.length = 0 := by simpa using hlen
            rw [this]
            rfl
          · intro r hr
            cases hr
  · cases h


theorem assertDateRange_ok (a b : Option Instant) (s e : Instant)
    (h : assertDateRange a b = .ok (s, e)) : a = some s ∧ b = some e ∧ s < e := by
  cases a with
  | none => cases h
  | some x =>
    cases b with
    | none => cases h
    | some y =>
      unfold assertDateRange at h
      dsimp only at h
      by_cases hle : y ≤ x
      · rw [if_pos hle] at h
        cases h
      · rw [if_neg hle] at h
        injection h with h
        injection h with h1 h2
        subst h1 h2
        exact ⟨rfl, rfl, not_le.mp hle⟩

theorem createGroup_ok_inv (faults : InsertFaults) (w : World) (args : GroupCreateArgs)
    (v : Option GroupAppointmentView) (w2 : World)
    (h : createGroupAppointment faults w args = (.ok v, w2)) :
    ∃ s e ga, args.startTime = some s ∧ args.endTime = some e ∧ s < e
      ∧ ga.id = w.db.nextId ∧ ga.tenant_id = args.tenantId
      ∧ ga.duration_minutes
          = args.durationMinutes.getD (max 15 ((e - s + 30000) / 60000))
      ∧ ga.max_participants = args.maxParticipants.getD
          (max 1 ((normalizeParticipantInput (args.participants.getD [])).length : Int))
      ∧ ((normalizeParticipantInput (args.participants.getD [])).length : Int)
          ≤ ga.max_participants
      ∧ w2.db.groupAppointments = w.db.groupAppointments ++ [ga]
      ∧ v = findGroupAppointmentById w2.db args.tenantId ga.id
      ∧ ∃ rows : List GroupParticipant,
          w2.db.groupParticipants = w.db.groupParticipants ++ rows
          ∧ rows.length = (normalizeParticipantInput (args.participants.getD [])).length
          ∧ ∀ r ∈ rows, r.group_appointment_id = ga.id := by
  unfold createGroupAppointment at h
  split at h
  · injection h with h _
    cases h
  · cases hd : assertDateRange args.startTime args.endTime with
    | error e =>
      rw [hd] at h
      injection h with h _
      cases h
    | ok se =>
      obtain ⟨s, e⟩ := se
      rw [hd] at h
      dsimp only at h
      have hse := assertDateRange_ok _ _ _ _ hd
      split at h
      · injection h with h _
        cases h
      · split at h
        · injection h with h _
          cases h
        · rename_i hcap
          split at h
          · injection h with h _
            cases h
          · split at h
            · injection h with h _
              cases h
            · split at h
              · injection h with h _
                cases h
              · split at h
                · injection h with h _
                  cases h
                · rename_i ga db2 htx
                  injection h with h1 h2
                  injection h1 with h1
                  obtain ⟨g1, g2, g3, g4, g5, rows, g6, g7, g8⟩ :=
                    insertGroup_ok_inv _ _ _ _ _ _ _ htx
                  refine ⟨s, e, ga, hse.1, hse.2.1, hse.2.2, g1, g2, g3, g4, ?_, ?_, ?_,
                    rows, ?_, g7, g8⟩
                  · rw [g4]
                    exact not_lt.mp hcap
                  · rw [← h2]
                    exact g5
                  · rw [← h1, ← h2]
                  · rw [← h2]
                    exact g6

theorem createGroup_cap_rejected (faults : InsertFaults) (w : World) (args : GroupCreateArgs)
    (m : Int) (hm : args.maxParticipants = some m)
    (hlt : m < ((normalizeParticipantInput (args.participants.getD [])).length : Int)) :
    ∃ msg, createGroupAppointment faults w args = (.error ⟨400, msg⟩, w) := by
  unfold createGroupAppointment
  split
  · exact ⟨_, rfl⟩
  · cases hd : assertDateRange args.startTime args.endTime with
    | error e =>
      obtain ⟨msg, hmsg⟩ := assertDateRange_error _ _ e hd
      subst hmsg
      exact ⟨msg, rfl⟩
    | ok se =>
      dsimp only
      split
      · exact ⟨_, rfl⟩
      · rw [hm]
        simp only [Option.getD_some, hlt, if_true]
        exact ⟨_, rfl⟩


/-- C20, the deviation: a request that supplies a duration of 5 minutes is
accepted and stored with 5 minutes, below 15; and a request of a 5 minute span
without a duration is stored with 15 minutes, not with the rounded span. -/
theorem group_duration_below_minimum :
    (createGroupAppointment {} bookedWorld
        { freeGroupRequest with durationMinutes := some 5 }).1.map
        (fun v => v.map (fun view => view.appointment.duration_minutes)) = .ok (some 5)
      ∧ (createGroupAppointment {} bookedWorld
          (groupRequest (mondayNine + 2 * hourMs) (mondayNine + 2 * hourMs + 5 * 60000))).1.map
        (fun v => v.map (fun view => view.appointment.duration_minutes)) = .ok (some 15) := by
  decide

/-- C20: an accepted `createGroupAppointment` stores one new group appointment.
When no duration is supplied its `duration_minutes` is the larger of 15 and the
span `end - start` rounded to the nearest minute, hence never below 15 and equal
to the rounded span once that is 15 or more; a supplied duration is stored as
it is. -/
theorem group_duration_persisted (faults : InsertFaults) (w : World) (args : GroupCreateArgs)
    (v : Option GroupAppointmentView) (w2 : World)
    (h : createGroupAppointment faults w args = (.ok v, w2)) :
    ∃ s e ga, args.startTime = some s ∧ args.endTime = some e
      ∧ w2.db.groupAppointments = w.db.groupAppointments ++ [ga]
      ∧ (e - s - 30000 < 60000 * ((e - s + 30000) / 60000)
          ∧ 60000 * ((e - s + 30000) / 60000) ≤ e - s + 30000)
      ∧ (args.durationMinutes = none →
          ga.duration_minutes = max 15 ((e - s + 30000) / 60000)
            ∧ 15 ≤ ga.duration_minutes
            ∧ (15 ≤ (e - s + 30000) / 60000 → ga.duration_minutes = (e - s + 30000) / 60000))
      ∧ ∀ d, args.durationMinutes = some d → ga.duration_minutes = d := by
  obtain ⟨s, e, ga, h1, h2, _, _, _, h6, _, _, h9, _⟩ := createGroup_ok_inv faults w args v w2 h
  refine ⟨s, e, ga, h1, h2, h9, ?_, ?_, ?_⟩
  · constructor
    · have := Int.lt_ediv_add_one_mul_self (e - s + 30000) (show (0 : Int) < 60000 by decide)
      linarith
    · have := Int.ediv_mul_le (e - s + 30000) (show (60000 : Int) ≠ 0 by decide)
      linarith
  · intro hnone
    rw [hnone] at h6
    simp only [Option.getD_none] at h6
    refine ⟨h6, ?_, ?_⟩
    · rw [h6]
      exact le_max_left _ _
    · intro hbig
      rw [h6]
      exact max_eq_right hbig
  · intro d hd
    rw [hd] at h6
    exact h6

/-- C20 on the Monday scenario: the half-hour group request without a
duration is stored with 30 minutes. -/
theorem group_duration_persisted_witness :
    (createGroupAppointment {} bookedWorld freeGroupRequest).1.map
        (fun v => v.map (fun view => view.appointment.duration_minutes)) = .ok (some 30)
      ∧ ∃ s e ga, freeGroupRequest.startTime = some s ∧ freeGroupRequest.endTime = some e
          ∧ (createGroupAppointment {} bookedWorld freeGroupRequest).2.db.groupAppointments
              = bookedWorld.db.groupAppointments ++ [ga]
          ∧ (freeGroupRequest.durationMinutes = none → 15 ≤ ga.duration_minutes) := by
  refine ⟨by decide, ?_⟩
  obtain ⟨s, e, ga, h1, h2, h3, _, h5, _⟩ := group_duration_persisted {} bookedWorld
    freeGroupRequest (createGroupAppointment {} bookedWorld freeGroupRequest).1.toOption.join
    (createGroupAppointment {} bookedWorld freeGroupRequest).2 (by decide)
  exact ⟨s, e, ga, h1, h2, h3, fun hn => (h5 hn).2.1⟩


theorem find_none_of_foreign {α : Type} (l : List α) (tenant id : α → Uuid) (t i : Uuid)
    (h : ∀ a ∈ l, id a = i → tenant a ≠ t) :
    l.find? (fun a => tenant a == t && id a == i) = none := by
  rw [List.find?_eq_none]
  intro a ha
  simp only [Bool.and_eq_true, beq_iff_eq, not_and]
  intro ht hi
  exact h a ha hi ht

theorem filter_foreign {α : Type} (l : List α) (tenant id : α → Uuid) (t i : Uuid)
    (h : ∀ a ∈ l, id a = i → tenant a ≠ t) :
    l.filter (fun a => !(tenant a == t && id a == i)) = l := by
  rw [List.filter_eq_self]
  intro a ha
  simp only [Bool.not_eq_true', Bool.and_eq_false_iff, beq_eq_false_iff_ne, ne_eq]
  by_cases hi : id a = i
  · exact Or.inl (h a ha hi)
  · exact Or.inr hi

/-- C15: when every appointment (group appointment, waitlist entry, calendar)
with the given id belongs to another tenant, which includes that no row has the
id at all, the operation called as tenant `t` ends with the same 404 error in
both cases: `updateAppointmentForTenant`, `cancelAppointmentForTenant` and
`deleteAppointmentForTenant` answer "Appointment not found" without a new
store, the `DELETE` removing no row; `getGroupAppointment`, `getEntry` and
`getCalendarForTenant`, which only read, answer their own not-found error. -/
theorem tenant_scoping_as_absence (w : World) (t i : Uuid) :
    ((∀ a ∈ w.db.appointments, a.id = i → a.tenant_id ≠ t) →
        (∀ args : UpdateAppointmentArgs, args.tenantId = t → args.appointmentId = i →
            updateAppointmentForTenant w args = .error ⟨404, "Appointment not found"⟩)
          ∧ cancelAppointmentForTenant w t i = .error ⟨404, "Appointment not found"⟩
          ∧ deleteAppointmentForTenant w t i = .error ⟨404, "Appointment not found"⟩
          ∧ (deleteAppointment w.db t i).2 = w.db)
      ∧ ((∀ g ∈ w.db.groupAppointments, g.id = i → g.tenant_id ≠ t) →
          getGroupAppointment w.db t i = .error ⟨404, "Group appointment not found"⟩)
      ∧ ((∀ e ∈ w.db.waitlistEntries, e.id = i → e.tenant_id ≠ t) →
          getEntry w.db t i = .error ⟨404, "Waitlist entry not found"⟩)
      ∧ ((∀ c ∈ w.db.calendars, c.id = i → c.tenant_id ≠ t) →
          getCalendarForTenant w.db t i = .error ⟨404, "Calendar not found"⟩) := by
  refine ⟨?_, ?_, ?_, ?_⟩
  · intro h
    have hnone : getAppointmentById w.db t i = none :=
      find_none_of_foreign w.db.appointments (fun a => a.tenant_id) (fun a => a.id) t i h
    refine ⟨?_, ?_, ?_, ?_⟩
    · intro args ht hi
      unfold updateAppointmentForTenant
      rw [ht, hi, hnone]
    · unfold cancelAppointmentForTenant
      rw [hnone]
    · unfold deleteAppointmentForTenant deleteAppointment
      rw [hnone]
    · unfold deleteAppointment
      simp only
      rw [filter_foreign w.db.appointments (fun a => a.tenant_id) (fun a => a.id) t i h]
  · intro h
    unfold getGroupAppointment findGroupAppointmentById
    rw [find_none_of_foreign w.db.groupAppointments (fun a => a.tenant_id) (fun a => a.id) t i h]
    rfl
  · intro h
    unfold getEntry getWaitlistEntryById
    rw [find_none_of_foreign w.db.waitlistEntries (fun a => a.tenant_id) (fun a => a.id) t i h]
  · intro h
    unfold getCalendarForTenant getCalendarById
    rw [find_none_of_foreign w.db.calendars (fun a => a.tenant_id) (fun a => a.id) t i h]

/-- C15 on the scenario: appointment 100, calendar 20 and waitlist entry 300
belong to tenant 1; tenant 2 gets for them the answer it gets for the unused id
999, while tenant 1 reads them. -/
theorem tenant_scoping_as_absence_witness :
    cancelAppointmentForTenant waitlistWorld 2 100 = cancelAppointmentForTenant waitlistWorld 2 999
      ∧ cancelAppointmentForTenant waitlistWorld 2 100 = .error ⟨404, "Appointment not found"⟩
      ∧ getEntry waitlistWorld.db 2 300 = getEntry waitlistWorld.db 2 999
      ∧ getCalendarForTenant waitlistWorld.db 2 20 = .error ⟨404, "Calendar not found"⟩
      ∧ (getEntry waitlistWorld.db 1 300).toOption.isSome = true
      ∧ (getCalendarForTenant waitlistWorld.db 1 20).toOption.isSome = true := by
  have h1 := (tenant_scoping_as_absence waitlistWorld 2 100).1 (by decide)
  have h2 := (tenant_scoping_as_absence waitlistWorld 2 999).1 (by decide)
  have h3 := (tenant_scoping_as_absence waitlistWorld 2 300).2.2.1 (by decide)
  have h4 := (tenant_scoping_as_absence waitlistWorld 2 999).2.2.1 (by decide)
  have h5 := (tenant_scoping_as_absence waitlistWorld 2 20).2.2.2 (by decide)
  exact ⟨h1.2.1.trans h2.2.1.symm, h1.2.1, h3.trans h4.symm, h5, by decide, by decide⟩

/-- C18, the failure: group appointment 200 was created with two participants
and a cap of 2; `updateGroupAppointmentDetails` with `max_participants: 1` is
accepted, and the stored group appointment then has a cap of 1 with its two
participants. -/
theorem participant_cap_lowered_by_update :
    (findGroupAppointmentById pairWorld.db 1 200).map
        (fun view => (view.appointment.max_participants, view.participants.length))
        = some (2, 2)
      ∧ (updateGroupAppointmentDetails pairWorld 1 200 { max_participants := some 1 }).1.map
          (fun v => v.map
            (fun view => (view.appointment.max_participants, view.participants.length)))
        = .ok (some (1, 2)) := by
  decide


theorem slotsClash_eq_true (a b : AvailabilitySlot) :
    slotsClash a b = true ↔ a.id ≠ b.id ∧ a.calendar_id = b.calendar_id
      ∧ a.day_of_week = b.day_of_week ∧ a.start_time < b.end_time
      ∧ b.start_time < a.end_time := by
  unfold slotsClash slotsOverlap
  simp only [Bool.and_eq_true, bne_iff_ne, ne_eq, beq_iff_eq, decide_eq_true_eq]
  constructor
  · rintro ⟨⟨⟨h1, h2⟩, h3⟩, h4, h5⟩
    exact ⟨h1, h2, h3, h4, h5⟩
  · rintro ⟨h1, h2, h3, h4, h5⟩
    exact ⟨⟨⟨h1, h2⟩, h3⟩, h4, h5⟩

theorem slotsClash_comm (a b : AvailabilitySlot) : slotsClash a b = slotsClash b a := by
  rw [Bool.eq_iff_iff, slotsClash_eq_true, slotsClash_eq_true]
  constructor
  · rintro ⟨h1, h2, h3, h4, h5⟩
    exact ⟨fun h => h1 h.symm, h2.symm, h3.symm, h5, h4⟩
  · rintro ⟨h1, h2, h3, h4, h5⟩
    exact ⟨fun h => h1 h.symm, h2.symm, h3.symm, h5, h4⟩

theorem mem_listAvailabilitySlotsByCalendar (db : Db) (c : Uuid) (s : AvailabilitySlot) :
    s ∈ listAvailabilitySlotsByCalendar db c ↔ s ∈ db.slots ∧ s.calendar_id = c := by
  unfold listAvailabilitySlotsByCalendar
  rw [List.mem_insertionSort, List.mem_filter, beq_iff_eq]

theorem ensureNoOverlap_error_iff (db : Db) (c : Uuid) (d : Int) (s e : Nat)
    (ign : Option Uuid) :
    (ensureNoOverlap db c d s e ign
        = .error ⟨400, "Availability slot overlaps with existing slot"⟩
      ↔ ∃ other ∈ db.slots, other.calendar_id = c ∧ other.day_of_week = d
          ∧ (∀ i, ign = some i → other.id ≠ i)
          ∧ s < other.end_time ∧ other.start_time < e)
      ∧ (ensureNoOverlap db c d s e ign = .ok ()
        ↔ ¬ ∃ other ∈ db.slots, other.calendar_id = c ∧ other.day_of_week = d
          ∧ (∀ i, ign = some i → other.id ≠ i)
          ∧ s < other.end_time ∧ other.start_time < e) := by
  have hany : ((listAvailabilitySlotsByCalendar db c).filter (fun slot =>
        slot.day_of_week == d
          && (match ign with
              | none => true
              | some ignored => slot.id != ignored))).any
      (fun slot => slotsOverlap s e slot.start_time slot.end_time) = true
      ↔ ∃ other ∈ db.slots, other.calendar_id = c ∧ other.day_of_week = d
          ∧ (∀ i, ign = some i → other.id ≠ i)
          ∧ s < other.end_time ∧ other.start_time < e := by
    rw [List.any_eq_true]
    constructor
    · rintro ⟨x, hx, hov⟩
      rw [List.mem_filter, mem_listAvailabilitySlotsByCalendar] at hx
      obtain ⟨⟨hmem, hcal⟩, hp⟩ := hx
      simp only [Bool.and_eq_true, beq_iff_eq] at hp
      unfold slotsOverlap at hov
      simp only [Bool.and_eq_true, decide_eq_true_eq] at hov
      refine ⟨x, hmem, hcal, hp.1, ?_, hov.1, hov.2⟩
      intro i hi
      subst hi
      simpa using hp.2
    · rintro ⟨x, hmem, hcal, hday, hign, h1, h2⟩
      refine ⟨x, ?_, ?_⟩
      · rw [List.mem_filter, mem_listAvailabilitySlotsByCalendar]
        refine ⟨⟨hmem, hcal⟩, ?_⟩
        simp only [Bool.and_eq_true, beq_iff_eq]
        refine ⟨hday, ?_⟩
        cases ign with
        | none => rfl
        | some i => simpa using hign i rfl
      · unfold slotsOverlap
        simp only [Bool.and_eq_true, decide_eq_true_eq]
        exact ⟨h1, h2⟩
  unfold ensureNoOverlap
  simp only
  rw [← hany]
  split
  · rename_i h
    simp [h]
  · rename_i h
    simp [h]

theorem validateSlot_ok (d : Int) (a b : Option Nat) (s e : Nat)
    (h : validateSlot d a b = .ok (s, e)) :
    a = some s ∧ b = some e ∧ s < e ∧ s + 15 * 60 ≤ e ∧ 0 ≤ d ∧ d ≤ 6 := by
  unfold validateSlot SLOT_MINUTES at h
  split at h
  · cases h
  · rename_i hd
    rw [not_or] at hd
    cases a with
    | none => cases h
    | some x =>
      cases b with
      | none => cases h
      | some y =>
        dsimp only at h
        split at h
        · cases h
        · rename_i hlt
          split at h
          · cases h
          · rename_i hlen
            injection h with h
            injection h with h1 h2
            subst h1 h2
            refine ⟨rfl, rfl, not_not.mp hlt, ?_, not_lt.mp hd.1, not_lt.mp hd.2⟩
            omega


theorem createSlot_ok_inv (w : World) (t c : Uuid) (slot : SlotInput) (r : AvailabilitySlot)
    (w2 : World) (h : createSlotForCalendar w t c slot = .ok (r, w2)) :
    ∃ s e, validateSlot slot.dayOfWeek slot.startTime slot.endTime = .ok (s, e)
      ∧ ensureNoOverlap w.db c slot.dayOfWeek s e none = .ok ()
      ∧ r.id = w.db.nextId ∧ r.calendar_id = c ∧ r.day_of_week = slot.dayOfWeek
      ∧ r.start_time = s ∧ r.end_time = e
      ∧ w2.db.slots = w.db.slots ++ [r] ∧ w2.db.nextId = w.db.nextId + 1
      ∧ w2 = invalidateAvailabilityCache { w with db := w2.db } t := by
  unfold createSlotForCalendar at h
  split at h
  · cases h
  · split at h
    · cases h
    · rename_i s e hv
      split at h
      · cases h
      · rename_i hno
        have hno2 : ensureNoOverlap w.db c slot.dayOfWeek s e none = .ok () := by
          rw [hno]
        injection h with h
        injection h with h1 h2
        subst h1 h2
        exact ⟨s, e, hv, hno2, rfl, rfl, rfl, rfl, rfl, rfl, rfl, rfl⟩

theorem updateSlot_ok_inv (w : World) (t c i : Uuid) (updates : SlotUpdates)
    (r : Option AvailabilitySlot) (w2 : World)
    (h : updateSlotForCalendar w t c i updates = .ok (r, w2)) :
    ∃ existing s e, getAvailabilitySlotById w.db i = some existing
      ∧ existing.calendar_id = c
      ∧ validateSlot (updates.dayOfWeek.getD existing.day_of_week)
          (updates.startTime.getD (some existing.start_time))
          (updates.endTime.getD (some existing.end_time)) = .ok (s, e)
      ∧ ensureNoOverlap w.db c (updates.dayOfWeek.getD existing.day_of_week) s e (some i)
          = .ok ()
      ∧ w2.db.slots = w.db.slots.map (fun x =>
          if x.id == i then
            { x with
              day_of_week := updates.dayOfWeek.getD existing.day_of_week
              start_time := s
              end_time := e
              capacity := updates.capacity.getD existing.capacity }
          else x)
      ∧ w2.db.nextId = w.db.nextId
      ∧ w2 = invalidateAvailabilityCache { w with db := w2.db } t := by
  unfold updateSlotForCalendar at h
  split at h
  · cases h
  · split at h
    · cases h
    · rename_i existing hex
      split at h
      · cases h
      · rename_i hcal
        dsimp only at h
        split at h
        · cases h
        · rename_i s e hv
          split at h
          · cases h
          · rename_i hno
            have hno2 : ensureNoOverlap w.db c (updates.dayOfWeek.getD existing.day_of_week)
                s e (some i) = .ok () := by
              rw [hno]
            injection h with h
            injection h with h1 h2
            subst h1 h2
            refine ⟨existing, s, e, hex, ?_, hv, hno2, rfl, rfl, rfl⟩
            simpa using hcal

theorem deleteSlot_ok_inv (w : World) (t c i : Uuid) (w2 : World)
    (h : deleteSlotForCalendar w t c i = .ok ((), w2)) :
    w2.db.slots = w.db.slots.filter (fun s => !(s.id == i)) ∧ w2.db.nextId = w.db.nextId
      ∧ w2 = invalidateAvailabilityCache { w with db := w2.db } t := by
  unfold deleteSlotForCalendar at h
  split at h
  · cases h
  · split at h
    · cases h
    · split at h
      · cases h
      · injection h with h
        injection h with h1 h2
        subst h2
        exact ⟨rfl, rfl, rfl⟩

theorem getAvailabilitySlotById_some (db : Db) (i : Uuid) (s : AvailabilitySlot)
    (h : getAvailabilitySlotById db i = some s) : s ∈ db.slots ∧ s.id = i := by
  unfold getAvailabilitySlotById at h
  have h1 := List.mem_of_find?_eq_some h
  have h2 := List.find?_some h
  simp only [beq_iff_eq] at h2
  exact ⟨h1, h2⟩

theorem slot_eq_of_id_eq (l : List AvailabilitySlot) (hnd : (l.map (fun a => a.id)).Nodup)
    (a b : AvailabilitySlot) (ha : a ∈ l) (hb : b ∈ l) (h : a.id = b.id) : a = b := by
  induction l with
  | nil => exact absurd ha (List.not_mem_nil _)
  | cons x rest ih =>
    rw [List.map_cons, List.nodup_cons] at hnd
    rcases List.mem_cons.mp ha with rfl | ha2
    · rcases List.mem_cons.mp hb with rfl | hb2
      · rfl
      · exact absurd (List.mem_map.mpr ⟨b, hb2, h.symm⟩) hnd.1
    · rcases List.mem_cons.mp hb with rfl | hb2
      · exact absurd (List.mem_map.mpr ⟨a, ha2, h⟩) hnd.1
      · exact ih hnd.2 ha2 hb2

theorem slotInv_create (w : World) (t c : Uuid) (slot : SlotInput) (r : AvailabilitySlot)
    (w2 : World) (hinv : SlotStoreInv w.db)
    (h : createSlotForCalendar w t c slot = .ok (r, w2)) : SlotStoreInv w2.db := by
  obtain ⟨s, e, hv, hno, hid, hcal, hday, hs, he, hslots, hnext, _⟩ :=
    createSlot_ok_inv w t c slot r w2 h
  obtain ⟨⟨hwf, hclash⟩, hnd, hlt⟩ := hinv
  obtain ⟨_, _, hse, hlen, _, _⟩ := validateSlot_ok _ _ _ _ _ hv
  have hfree := (ensureNoOverlap_error_iff w.db c slot.dayOfWeek s e none).2.mp hno
  have hfresh : ∀ a ∈ w.db.slots, slotsClash a r = false := by
    intro a ha
    rw [Bool.eq_false_iff]
    intro hc
    rw [slotsClash_eq_true] at hc
    obtain ⟨_, h2, h3, h4, h5⟩ := hc
    apply hfree
    refine ⟨a, ha, ?_, ?_, ?_, ?_, ?_⟩
    · rw [h2, hcal]
    · rw [h3, hday]
    · intro i hi
      cases hi
    · rw [← hs]
      exact h5
    · rw [← he]
      exact h4
  have hself : slotsClash r r = false := by
    rw [Bool.eq_false_iff]
    intro hc
    rw [slotsClash_eq_true] at hc
    exact hc.1 rfl
  refine ⟨⟨?_, ?_⟩, ?_, ?_⟩
  · intro x hx
    rw [hslots, List.mem_append, List.mem_singleton] at hx
    rcases hx with hx | rfl
    · exact hwf x hx
    · rw [hs, he]
      exact ⟨hse, hlen⟩
  · intro a ha b hb
    rw [hslots, List.mem_append, List.mem_singleton] at ha hb
    rcases ha with ha | rfl
    · rcases hb with hb | rfl
      · exact hclash a ha b hb
      · exact hfresh a ha
    · rcases hb with hb | rfl
      · rw [slotsClash_comm]
        exact hfresh b hb
      · exact hself
  · rw [hslots, List.map_append, List.map_singleton, List.nodup_append]
    refine ⟨hnd, List.nodup_singleton _, ?_⟩
    intro x hx1 hx2
    rw [List.mem_singleton] at hx2
    obtain ⟨a, ha, hax⟩ := List.mem_map.mp hx1
    have := hlt a ha
    rw [hax, hx2, hid] at this
    exact Nat.lt_irrefl _ this
  · intro x hx
    rw [hslots, List.mem_append, List.mem_singleton] at hx
    rw [hnext]
    rcases hx with hx | rfl
    · exact Nat.lt_succ_of_lt (hlt x hx)
    · rw [hid]
      exact Nat.lt_succ_self _


theorem slotInv_update (w : World) (t c i : Uuid) (updates : SlotUpdates)
    (r : Option AvailabilitySlot) (w2 : World) (hinv : SlotStoreInv w.db)
    (h : updateSlotForCalendar w t c i updates = .ok (r, w2)) : SlotStoreInv w2.db := by
  obtain ⟨existing, s, e, hex, hcal, hv, hno, hslots, hnext, _⟩ :=
    updateSlot_ok_inv w t c i updates r w2 h
  obtain ⟨⟨hwf, hclash⟩, hnd, hlt⟩ := hinv
  obtain ⟨_, _, hse, hlen, _, _⟩ := validateSlot_ok _ _ _ _ _ hv
  obtain ⟨hexmem, hexid⟩ := getAvailabilitySlotById_some _ _ _ hex
  have hfree := (ensureNoOverlap_error_iff w.db c
    (updates.dayOfWeek.getD existing.day_of_week) s e (some i)).2.mp hno
  have hsel : ∀ a ∈ w.db.slots, a.id = i → a = existing := by
    intro a ha hai
    exact slot_eq_of_id_eq _ hnd a existing ha hexmem (by rw [hai, hexid])
  have hnew : ∀ a ∈ w.db.slots, ∀ b ∈ w.db.slots, a.id = i → b.id ≠ i →
      slotsClash
        { a with
          day_of_week := updates.dayOfWeek.getD existing.day_of_week
          start_time := s
          end_time := e
          capacity := updates.capacity.getD existing.capacity } b = false := by
    intro a ha b hb hai hbi
    rw [Bool.eq_false_iff]
    intro hc
    rw [slotsClash_eq_true] at hc
    obtain ⟨_, h2, h3, h4, h5⟩ := hc
    simp only at h2 h3 h4 h5
    apply hfree
    refine ⟨b, hb, ?_, h3.symm, ?_, h4, h5⟩
    · rw [← h2, hsel a ha hai, hcal]
    · intro j hj
      cases hj
      exact hbi
  refine ⟨⟨?_, ?_⟩, ?_, ?_⟩
  · intro x hx
    rw [hslots] at hx
    obtain ⟨a, ha, rfl⟩ := List.mem_map.mp hx
    split
    · exact ⟨hse, hlen⟩
    · exact hwf a ha
  · intro a2 ha2 b2 hb2
    rw [hslots] at ha2 hb2
    obtain ⟨a, ha, rfl⟩ := List.mem_map.mp ha2
    obtain ⟨b, hb, rfl⟩ := List.mem_map.mp hb2
    by_cases hai : a.id = i
    · by_cases hbi : b.id = i
      · rw [Bool.eq_false_iff]
        intro hc
        rw [slotsClash_eq_true] at hc
        apply hc.1
        simp only [hai, hbi, beq_self_eq_true, if_true]
      · have hb2 : (b.id == i) = false := by simpa using hbi
        simp only [hai, beq_self_eq_true, if_true, hb2, Bool.false_eq_true, if_false]
        have := hnew a ha b hb hai hbi
        rw [hai] at this
        exact this
    · have ha2 : (a.id == i) = false := by simpa using hai
      by_cases hbi : b.id = i
      · simp only [hbi, beq_self_eq_true, if_true, ha2, Bool.false_eq_true, if_false]
        rw [slotsClash_comm]
        have := hnew b hb a ha hbi hai
        rw [hbi] at this
        exact this
      · have hb2 : (b.id == i) = false := by simpa using hbi
        simp only [ha2, hb2, Bool.false_eq_true, if_false]
        exact hclash a ha b hb
  · rw [hslots, List.map_map]
    have hf : ((fun a : AvailabilitySlot => a.id) ∘ fun x : AvailabilitySlot =>
        if (x.id == i) = true then
          { x with
            day_of_week := updates.dayOfWeek.getD existing.day_of_week
            start_time := s
            end_time := e
            capacity := updates.capacity.getD existing.capacity }
        else x) = fun a => a.id := by
      funext x
      simp only [Function.comp]
      split <;> rfl
    rw [hf]
    exact hnd
  · intro x hx
    rw [hslots] at hx
    obtain ⟨a, ha, rfl⟩ := List.mem_map.mp hx
    rw [hnext]
    split
    · exact hlt a ha
    · exact hlt a ha

theorem slotInv_delete (w : World) (t c i : Uuid) (w2 : World) (hinv : SlotStoreInv w.db)
    (h : deleteSlotForCalendar w t c i = .ok ((), w2)) : SlotStoreInv w2.db := by
  obtain ⟨hslots, hnext, _⟩ := deleteSlot_ok_inv w t c i w2 h
  obtain ⟨⟨hwf, hclash⟩, hnd, hlt⟩ := hinv
  refine ⟨⟨?_, ?_⟩, ?_, ?_⟩
  · intro x hx
    rw [hslots] at hx
    exact hwf x (List.mem_filter.mp hx).1
  · intro a ha b hb
    rw [hslots] at ha hb
    exact hclash a (List.mem_filter.mp ha).1 b (List.mem_filter.mp hb).1
  · rw [hslots]
    exact (List.filter_sublist _).map _ |>.nodup hnd
  · intro x hx
    rw [hslots] at hx
    rw [hnext]
    exact hlt x (List.mem_filter.mp hx).1

theorem slotInv_step (w : World) (call : SlotCall) (hinv : SlotStoreInv w.db) :
    SlotStoreInv (stepSlotCall w call).db := by
  cases call with
  | create t c slot =>
    show SlotStoreInv (match createSlotForCalendar w t c slot with
      | .ok (_, w2) => w2
      | .error _ => w).db
    cases h : createSlotForCalendar w t c slot with
    | error e => exact hinv
    | ok rw2 =>
      obtain ⟨r, w2⟩ := rw2
      exact slotInv_create w t c slot r w2 hinv h
  | update t c i updates =>
    show SlotStoreInv (match updateSlotForCalendar w t c i updates with
      | .ok (_, w2) => w2
      | .error _ => w).db
    cases h : updateSlotForCalendar w t c i updates with
    | error e => exact hinv
    | ok rw2 =>
      obtain ⟨r, w2⟩ := rw2
      exact slotInv_update w t c i updates r w2 hinv h
  | delete t c i =>
    show SlotStoreInv (match deleteSlotForCalendar w t c i with
      | .ok (_, w2) => w2
      | .error _ => w).db
    cases h : deleteSlotForCalendar w t c i with
    | error e => exact hinv
    | ok rw2 =>
      obtain ⟨r, w2⟩ := rw2
      exact slotInv_delete w t c i w2 hinv h

theorem slotInv_run (calls : List SlotCall) :
    ∀ w : World, SlotStoreInv w.db → SlotStoreInv (runSlotCalls w calls).db := by
  induction calls with
  | nil => intro w hinv; exact hinv
  | cons call rest ih =>
    intro w hinv
    unfold runSlotCalls
    rw [List.foldl_cons]
    exact ih (stepSlotCall w call) (slotInv_step w call hinv)


/-- C21: in every state reached from a store without slots through
`createSlotForCalendar`, `updateSlotForCalendar` and `deleteSlotForCalendar`,
every slot ends after its start and lasts at least 15 minutes, and no two
distinct slots of one calendar and day of week overlap (half-open, so touching
slots are allowed). A create with valid times on an owned calendar is answered
with the 400 overlap error exactly when a slot of that calendar and day
overlaps it, and succeeds otherwise; an update is answered with that error
exactly when a slot other than the updated one overlaps the new times, and
succeeds otherwise. -/
theorem slot_templates_well_formed :
    (∀ (w0 : World) (calls : List SlotCall), w0.db.slots = [] →
        SlotsWellFormed (runSlotCalls w0 calls).db.slots)
      ∧ (∀ (w : World) (t c : Uuid) (slot : SlotInput) (calendar : Calendar) (s e : Nat),
          getCalendarById w.db t c = some calendar →
          validateSlot slot.dayOfWeek slot.startTime slot.endTime = .ok (s, e) →
          (createSlotForCalendar w t c slot
              = .error ⟨400, "Availability slot overlaps with existing slot"⟩
            ↔ ∃ other ∈ w.db.slots, other.calendar_id = c
                ∧ other.day_of_week = slot.dayOfWeek
                ∧ s < other.end_time ∧ other.start_time < e)
          ∧ ((¬ ∃ other ∈ w.db.slots, other.calendar_id = c
                ∧ other.day_of_week = slot.dayOfWeek
                ∧ s < other.end_time ∧ other.start_time < e) →
              ∃ r, createSlotForCalendar w t c slot = .ok r))
      ∧ (∀ (w : World) (t c i : Uuid) (updates : SlotUpdates) (calendar : Calendar)
          (existing : AvailabilitySlot) (s e : Nat),
          getCalendarById w.db t c = some calendar →
          getAvailabilitySlotById w.db i = some existing → existing.calendar_id = c →
          validateSlot (updates.dayOfWeek.getD existing.day_of_week)
            (updates.startTime.getD (some existing.start_time))
            (updates.endTime.getD (some existing.end_time)) = .ok (s, e) →
          (updateSlotForCalendar w t c i updates
              = .error ⟨400, "Availability slot overlaps with existing slot"⟩
            ↔ ∃ other ∈ w.db.slots, other.id ≠ i ∧ other.calendar_id = c
                ∧ other.day_of_week = updates.dayOfWeek.getD existing.day_of_week
                ∧ s < other.end_time ∧ other.start_time < e)
          ∧ ((¬ ∃ other ∈ w.db.slots, other.id ≠ i ∧ other.calendar_id = c
                ∧ other.day_of_week = updates.dayOfWeek.getD existing.day_of_week
                ∧ s < other.end_time ∧ other.start_time < e) →
              ∃ r, updateSlotForCalendar w t c i updates = .ok r)) := by
  refine ⟨?_, ?_, ?_⟩
  · intro w0 calls h0
    have hinv : SlotStoreInv w0.db := by
      unfold SlotStoreInv SlotsWellFormed
      rw [h0]
      exact ⟨⟨fun a ha => absurd ha (List.not_mem_nil _),
        fun a ha => absurd ha (List.not_mem_nil _)⟩, List.nodup_nil,
        fun a ha => absurd ha (List.not_mem_nil _)⟩
    exact (slotInv_run calls w0 hinv).1
  · intro w t c slot calendar s e hcal hv
    have hiff := ensureNoOverlap_error_iff w.db c slot.dayOfWeek s e none
    have hex : (∃ other ∈ w.db.slots, other.calendar_id = c
          ∧ other.day_of_week = slot.dayOfWeek
          ∧ (∀ i, (none : Option Uuid) = some i → other.id ≠ i)
          ∧ s < other.end_time ∧ other.start_time < e)
        ↔ ∃ other ∈ w.db.slots, other.calendar_id = c
          ∧ other.day_of_week = slot.dayOfWeek
          ∧ s < other.end_time ∧ other.start_time < e := by
      constructor
      · rintro ⟨o, h1, h2, h3, _, h5, h6⟩
        exact ⟨o, h1, h2, h3, h5, h6⟩
      · rintro ⟨o, h1, h2, h3, h5, h6⟩
        refine ⟨o, h1, h2, h3, ?_, h5, h6⟩
        intro i hi
        cases hi
    rw [hex] at hiff
    unfold createSlotForCalendar ensureCalendarOwnership
    simp only [hcal, hv]
    cases hno : ensureNoOverlap w.db c slot.dayOfWeek s e none with
    | error err =>
      have hne : ensureNoOverlap w.db c slot.dayOfWeek s e none ≠ .ok () := by
        rw [hno]
        intro hc
        cases hc
      have hov := not_not.mp (fun hc => hne (hiff.2.mpr hc))
      have herr := hiff.1.mpr hov
      rw [hno] at herr
      injection herr with herr
      subst herr
      simp only [true_iff]
      exact ⟨hov, fun hc => absurd hov hc⟩
    | ok u =>
      have hnov := hiff.2.mp (by rw [hno])
      simp only
      constructor
      · constructor
        · intro hc
          cases hc
        · intro hc
          exact absurd hc hnov
      · intro _
        exact ⟨_, rfl⟩
  · intro w t c i updates calendar existing s e hcal hex hown hv
    have hiff := ensureNoOverlap_error_iff w.db c
      (updates.dayOfWeek.getD existing.day_of_week) s e (some i)
    have hexi : (∃ other ∈ w.db.slots, other.calendar_id = c
          ∧ other.day_of_week = updates.dayOfWeek.getD existing.day_of_week
          ∧ (∀ j, some i = some j → other.id ≠ j)
          ∧ s < other.end_time ∧ other.start_time < e)
        ↔ ∃ other ∈ w.db.slots, other.id ≠ i ∧ other.calendar_id = c
          ∧ other.day_of_week = updates.dayOfWeek.getD existing.day_of_week
          ∧ s < other.end_time ∧ other.start_time < e := by
      constructor
      · rintro ⟨o, h1, h2, h3, h4, h5, h6⟩
        exact ⟨o, h1, h4 i rfl, h2, h3, h5, h6⟩
      · rintro ⟨o, h1, h4, h2, h3, h5, h6⟩
        refine ⟨o, h1, h2, h3, ?_, h5, h6⟩
        intro j hj
        cases hj
        exact h4
    rw [hexi] at hiff
    have hown2 : (existing.calendar_id != c) = false := by simpa using hown
    unfold updateSlotForCalendar ensureCalendarOwnership
    simp only [hcal, hex, hown2, Bool.false_eq_true, if_false, hv]
    cases hno : ensureNoOverlap w.db c (updates.dayOfWeek.getD existing.day_of_week) s e
        (some i) with
    | error err =>
      have hne : ensureNoOverlap w.db c (updates.dayOfWeek.getD existing.day_of_week) s e
          (some i) ≠ .ok () := by
        rw [hno]
        intro hc
        cases hc
      have hov := not_not.mp (fun hc => hne (hiff.2.mpr hc))
      have herr := hiff.1.mpr hov
      rw [hno] at herr
      injection herr with herr
      subst herr
      simp only [true_iff]
      exact ⟨hov, fun hc => absurd hov hc⟩
    | ok u =>
      have hnov := hiff.2.mp (by rw [hno])
      simp only
      constructor
      · constructor
        · intro hc
          cases hc
        · intro hc
          exact absurd hc hnov
      · intro _
        exact ⟨_, rfl⟩

/-- C21 on the scenario: after the five slot calls calendar 20 has the single
Tuesday template 10:30-12:00; the overlapping create was refused with status
400, the touching one and the update over the slot's own times were accepted. -/
theorem slot_templates_well_formed_witness :
    emptySlotWorld.db.slots = []
      ∧ SlotsWellFormed (runSlotCalls emptySlotWorld slotCalls).db.slots
      ∧ (runSlotCalls emptySlotWorld slotCalls).db.slots
          = [⟨200, 20, 2, 10 * 3600 + 1800, 12 * 3600, 1⟩]
      ∧ createSlotForCalendar (runSlotCalls emptySlotWorld (slotCalls.take 1)) 1 20
          ⟨2, some (11 * 3600), some (13 * 3600), none⟩
          = .error ⟨400, "Availability slot overlaps with existing slot"⟩ := by
  have h0 : emptySlotWorld.db.slots = [] := rfl
  exact ⟨h0, slot_templates_well_formed.1 emptySlotWorld slotCalls h0, by decide, by decide⟩


theorem invalidate_tenantCacheEmpty (w : World) (t : Uuid) :
    TenantCacheEmpty (invalidateAvailabilityCache w t) t := by
  intro kv hkv
  unfold invalidateAvailabilityCache at hkv
  simp only [List.mem_filter, Bool.not_eq_true', beq_eq_false_iff_ne, ne_eq] at hkv
  exact hkv.2

theorem create_cache (w : World) (args : CreateAppointmentArgs) (r : Appointment) (w2 : World)
    (h : createAppointmentForTenant w args = .ok (r, w2)) :
    TenantCacheEmpty w2 args.tenantId := by
  unfold createAppointmentForTenant at h
  split at h
  · cases h
  · split at h
    · cases h
    · split at h
      · cases h
      · split at h
        · cases h
        · split at h
          · cases h
          · dsimp only at h
            split at h
            · cases h
            · split at h
              · cases h
              · injection h with h
                injection h with h1 h2
                rw [← h2]
                exact invalidate_tenantCacheEmpty _ _

theorem update_cache (w : World) (args : UpdateAppointmentArgs) (r : Option Appointment)
    (w2 : World) (h : updateAppointmentForTenant w args = .ok (r, w2)) :
    TenantCacheEmpty w2 args.tenantId := by
  unfold updateAppointmentForTenant at h
  split at h
  · cases h
  · dsimp only at h
    split at h
    · cases h
    · split at h
      · cases h
      · injection h with h
        injection h with h1 h2
        rw [← h2]
        exact invalidate_tenantCacheEmpty _ _

theorem cancel_cache (w : World) (t i : Uuid) (r : Option Appointment) (w2 : World)
    (h : cancelAppointmentForTenant w t i = .ok (r, w2)) : TenantCacheEmpty w2 t := by
  unfold cancelAppointmentForTenant at h
  split at h
  · cases h
  · injection h with h
    injection h with h1 h2
    rw [← h2]
    exact invalidate_tenantCacheEmpty _ _

theorem delete_cache (w : World) (t i : Uuid) (r : Appointment) (w2 : World)
    (h : deleteAppointmentForTenant w t i = .ok (r, w2)) : TenantCacheEmpty w2 t := by
  unfold deleteAppointmentForTenant at h
  split at h
  · cases h
  · injection h with h
    injection h with h1 h2
    rw [← h2]
    exact invalidate_tenantCacheEmpty _ _

theorem cacheGet_of_tenantCacheEmpty (w : World) (t : Uuid) (h : TenantCacheEmpty w t)
    (skillIds : List Uuid) (s e : Instant) (d : Int) (tz : String) :
    cacheGet w (formatCacheKey t skillIds s e d tz) = none := by
  unfold cacheGet
  rw [Option.map_eq_none', List.find?_eq_none]
  intro kv hkv hc
  have hk : kv.1 = formatCacheKey t skillIds s e d tz := by simpa using hc
  apply h kv hkv
  rw [hk]
  rfl

theorem search_of_tenantCacheEmpty (tzdb : String → Option Zone) (w : World)
    (args : SearchArgs) (h : TenantCacheEmpty w args.tenantId) :
    Except.map Prod.fst (searchAvailability tzdb w args)
      = Except.map Prod.fst (searchAvailability tzdb ⟨w.db, []⟩ args) := by
  have h1 := cacheGet_of_tenantCacheEmpty w args.tenantId h
  have h2 : ∀ key, cacheGet ⟨w.db, []⟩ key = none := fun _ => rfl
  unfold searchAvailability
  dsimp only
  simp only [h1, h2]
  repeat' split
  all_goals rfl

theorem search_hit (tzdb : String → Option Zone) (w : World) (args : SearchArgs)
    (s e : Instant) (tz : String) (cached : List AvailabilityEntry)
    (hstart : args.start = some (some s)) (hstop : args.stop = some (some e))
    (htz : args.timezone = some tz) (hok : ¬ SearchRejected tzdb args)
    (hhit : cacheGet w (formatCacheKey args.tenantId (args.skillIds.getD []) s e
      (args.duration.getD 30) tz) = some cached) :
    searchAvailability tzdb w args = .ok (cached, w) := by
  unfold SearchRejected at hok
  simp only [not_or] at hok
  obtain ⟨_, _, _, h4, h5, _, _, h8, h9⟩ := hok
  have hne : tz ≠ "" := fun hh => h4 (by rw [htz, hh])
  cases hz : tzdb tz with
  | none => exact absurd ⟨tz, htz, hz⟩ h5
  | some zone =>
    have hse : e > s := by
      by_contra hc
      exact h8 ⟨s, e, hstart, hstop, not_lt.mp hc⟩
    have hd : ¬ args.duration.getD 30 < SLOT_MINUTES := by
      intro hc
      cases hdur : args.duration with
      | none =>
        rw [hdur] at hc
        simp [SLOT_MINUTES] at hc
      | some d =>
        rw [hdur] at hc
        exact h9 ⟨d, hdur, hc⟩
    unfold searchAvailability
    simp only [hstart, hstop, htz, beq_iff_eq, hne, if_false, hz, hse, not_true_eq_false, hd,
      hhit]


theorem searchFresh_of_empty (tzdb : String → Option Zone) (w : World) (t : Uuid)
    (h : TenantCacheEmpty w t) : SearchFresh tzdb w t := by
  refine ⟨h, ?_⟩
  intro args ht
  subst ht
  exact search_of_tenantCacheEmpty tzdb w args h

/-- C22: on a cache hit `searchAvailability` returns the stored list and
leaves the world as it is; after every successful create, update, cancel or
delete of an appointment and every successful create, update or delete of a
slot for a tenant, the cache holds no search result of that tenant and every
search of the tenant returns the list computed from the store without cache. -/
theorem availability_cache_memoisation (tzdb : String → Option Zone) (w : World) :
    (∀ (args : SearchArgs) (s e : Instant) (tz : String) (cached : List AvailabilityEntry),
        args.start = some (some s) → args.stop = some (some e) → args.timezone = some tz →
        ¬ SearchRejected tzdb args →
        cacheGet w (formatCacheKey args.tenantId (args.skillIds.getD []) s e
          (args.duration.getD 30) tz) = some cached →
        searchAvailability tzdb w args = .ok (cached, w))
      ∧ (∀ args r w2, createAppointmentForTenant w args = .ok (r, w2) →
          SearchFresh tzdb w2 args.tenantId)
      ∧ (∀ args r w2, updateAppointmentForTenant w args = .ok (r, w2) →
          SearchFresh tzdb w2 args.tenantId)
      ∧ (∀ t i r w2, cancelAppointmentForTenant w t i = .ok (r, w2) → SearchFresh tzdb w2 t)
      ∧ (∀ t i r w2, deleteAppointmentForTenant w t i = .ok (r, w2) → SearchFresh tzdb w2 t)
      ∧ (∀ t c slot r w2, createSlotForCalendar w t c slot = .ok (r, w2) →
          SearchFresh tzdb w2 t)
      ∧ (∀ t c i updates r w2, updateSlotForCalendar w t c i updates = .ok (r, w2) →
          SearchFresh tzdb w2 t)
      ∧ (∀ t c i w2, deleteSlotForCalendar w t c i = .ok ((), w2) → SearchFresh tzdb w2 t) := by
  refine ⟨?_, ?_, ?_, ?_, ?_, ?_, ?_, ?_⟩
  · intro args s e tz cached h1 h2 h3 h4 h5
    exact search_hit tzdb w args s e tz cached h1 h2 h3 h4 h5
  · intro args r w2 h
    exact searchFresh_of_empty tzdb w2 _ (create_cache w args r w2 h)
  · intro args r w2 h
    exact searchFresh_of_empty tzdb w2 _ (update_cache w args r w2 h)
  · intro t i r w2 h
    exact searchFresh_of_empty tzdb w2 _ (cancel_cache w t i r w2 h)
  · intro t i r w2 h
    exact searchFresh_of_empty tzdb w2 _ (delete_cache w t i r w2 h)
  · intro t c slot r w2 h
    obtain ⟨_, _, _, _, _, _, _, _, _, _, _, hw⟩ := createSlot_ok_inv w t c slot r w2 h
    apply searchFresh_of_empty
    rw [hw]
    exact invalidate_tenantCacheEmpty _ _
  · intro t c i updates r w2 h
    obtain ⟨_, _, _, _, _, _, _, _, _, hw⟩ := updateSlot_ok_inv w t c i updates r w2 h
    apply searchFresh_of_empty
    rw [hw]
    exact invalidate_tenantCacheEmpty _ _
  · intro t c i w2 h
    obtain ⟨_, _, hw⟩ := deleteSlot_ok_inv w t c i w2 h
    apply searchFresh_of_empty
    rw [hw]
    exact invalidate_tenantCacheEmpty _ _

/-- C22 on the Monday scenario: the cached list, which shows only the 09:00
candidate, is what the search returns; once appointment 100 is cancelled the
search returns the three candidates computed from the store. -/
theorem availability_cache_memoisation_witness :
    (searchAvailability scenarioZones staleWorld mondaySearch).map Prod.fst
        = .ok [mondayEntry 0 1]
      ∧ (∃ r w2, cancelAppointmentForTenant staleWorld 1 100 = .ok (r, w2)
          ∧ SearchFresh scenarioZones w2 1
          ∧ (searchAvailability scenarioZones w2 mondaySearch).map Prod.fst
              = .ok [mondayEntry 0 1, mondayEntry 1 1, mondayEntry 2 1]) := by
  refine ⟨by decide, ?_⟩
  have hc : cancelAppointmentForTenant staleWorld 1 100
      = .ok (((cancelAppointmentForTenant staleWorld 1 100).toOption.map Prod.fst).join,
          stepCall staleWorld (.cancel 1 100)) := by
    decide
  exact ⟨_, _, hc,
    (availability_cache_memoisation scenarioZones staleWorld).2.2.2.1 1 100 _ _ hc,
    by decide⟩


theorem searchCaught_no_faults (tzdb : String → Option Zone) (w : World) (args : SearchArgs) :
    searchAvailabilityCaught {} tzdb w args = searchAvailability tzdb w args := by
  have h1 : ∀ key, cacheGetCaught {} w key = cacheGet w key := fun _ => rfl
  have h2 : ∀ key value, cacheSetCaught {} w key value = cacheSet w key value := fun _ _ => rfl
  unfold searchAvailabilityCaught searchAvailability
  dsimp only
  simp only [h1, h2]

theorem searchCaught_get_fails (faults : CacheFaults) (tzdb : String → Option Zone)
    (w : World) (args : SearchArgs) (hf : faults.get = true) :
    Except.map Prod.fst (searchAvailabilityCaught faults tzdb w args)
      = Except.map Prod.fst (searchAvailability tzdb ⟨w.db, []⟩ args) := by
  have h1 : ∀ key, cacheGetCaught faults w key = none := by
    intro key
    unfold cacheGetCaught
    rw [hf]
    rfl
  have h2 : ∀ key, cacheGet ⟨w.db, []⟩ key = none := fun _ => rfl
  unfold searchAvailabilityCaught searchAvailability
  dsimp only
  simp only [h1, h2]
  repeat' split
  all_goals rfl

theorem searchCaught_get_works (faults : CacheFaults) (tzdb : String → Option Zone)
    (w : World) (args : SearchArgs) (hf : faults.get = false) :
    Except.map Prod.fst (searchAvailabilityCaught faults tzdb w args)
      = Except.map Prod.fst (searchAvailability tzdb w args) := by
  have h1 : ∀ key, cacheGetCaught faults w key = cacheGet w key := by
    intro key
    unfold cacheGetCaught
    rw [hf]
    rfl
  unfold searchAvailabilityCaught searchAvailability
  dsimp only
  simp only [h1]
  repeat' split
  all_goals rfl

theorem contextCaught_no_faults (cfg : RbacConfig) (w : RbacWorld) (now : Instant)
    (t u : Uuid) :
    getUserPermissionContextCaught {} cfg w now t u = getUserPermissionContext cfg w now t u := by
  unfold getUserPermissionContextCaught getUserPermissionContext contextCacheGetCaught
    setUserContextCacheCaught setUserContextCache
  simp only [Bool.false_eq_true, if_false]

theorem contextCaught_get_fails (faults : CacheFaults) (cfg : RbacConfig) (w : RbacWorld)
    (now : Instant) (t u : Uuid) (hf : faults.get = true) :
    (getUserPermissionContextCaught faults cfg w now t u).1
      = fetchUserContext cfg w.store now t u := by
  unfold getUserPermissionContextCaught contextCacheGetCaught
  simp only [hf, if_true, ite_self]

theorem contextCaught_get_works (faults : CacheFaults) (cfg : RbacConfig) (w : RbacWorld)
    (now : Instant) (t u : Uuid) (hf : faults.get = false) :
    (getUserPermissionContextCaught faults cfg w now t u).1
      = (getUserPermissionContext cfg w now t u).1 := by
  unfold getUserPermissionContextCaught getUserPermissionContext contextCacheGetCaught
  simp only [hf, Bool.false_eq_true, if_false]
  split <;> rfl


/-- C23: whichever cache calls fail, `searchAvailability` fails only with the
validation errors it has without a cache, and `getUserPermissionContext` does
not fail at all. When the cache read fails, each returns the value computed
from the store, as on a miss with an empty cache; when the read works, each
returns what it returns with a reliable cache, whether or not the write fails.
Without failures the operations are the ones over the reliable cache. -/
theorem cache_failures_absorbed (faults : CacheFaults) (tzdb : String → Option Zone)
    (w : World) (args : SearchArgs) (cfg : RbacConfig) (rb : RbacWorld) (now : Instant)
    (t u : Uuid) :
    (faults.get = true →
        Except.map Prod.fst (searchAvailabilityCaught faults tzdb w args)
            = Except.map Prod.fst (searchAvailability tzdb ⟨w.db, []⟩ args)
          ∧ (getUserPermissionContextCaught faults cfg rb now t u).1
            = fetchUserContext cfg rb.store now t u)
      ∧ (faults.get = false →
        Except.map Prod.fst (searchAvailabilityCaught faults tzdb w args)
            = Except.map Prod.fst (searchAvailability tzdb w args)
          ∧ (getUserPermissionContextCaught faults cfg rb now t u).1
            = (getUserPermissionContext cfg rb now t u).1)
      ∧ ((∃ e, searchAvailabilityCaught faults tzdb w args = .error e)
          ↔ SearchRejected tzdb args)
      ∧ searchAvailabilityCaught {} tzdb w args = searchAvailability tzdb w args
      ∧ getUserPermissionContextCaught {} cfg rb now t u
          = getUserPermissionContext cfg rb now t u := by
  have herr : ∀ (x y : Except ApiError (List AvailabilityEntry × World)),
      Except.map Prod.fst x = Except.map Prod.fst y →
      ((∃ e, x = .error e) ↔ ∃ e, y = .error e) := by
    intro x y hxy
    cases x with
    | error a =>
      cases y with
      | error b => exact ⟨fun _ => ⟨b, rfl⟩, fun _ => ⟨a, rfl⟩⟩
      | ok b => cases hxy
    | ok a =>
      cases y with
      | error b => cases hxy
      | ok b =>
        constructor
        · rintro ⟨e, he⟩
          cases he
        · rintro ⟨e, he⟩
          cases he
  have hrej : ∀ w2 : World,
      (∃ e, searchAvailability tzdb w2 args = .error e) ↔ SearchRejected tzdb args := by
    intro w2
    constructor
    · rintro ⟨e, he⟩
      by_contra hc
      obtain ⟨r, hr⟩ := search_accepted tzdb w2 args hc
      rw [hr] at he
      cases he
    · intro h
      obtain ⟨msg, hmsg⟩ := search_rejected tzdb args h
      exact ⟨_, hmsg w2⟩
  refine ⟨?_, ?_, ?_, searchCaught_no_faults tzdb w args, contextCaught_no_faults cfg rb now t u⟩
  · intro hf
    exact ⟨searchCaught_get_fails faults tzdb w args hf,
      contextCaught_get_fails faults cfg rb now t u hf⟩
  · intro hf
    exact ⟨searchCaught_get_works faults tzdb w args hf,
      contextCaught_get_works faults cfg rb now t u hf⟩
  · cases hf : faults.get
    · exact (herr _ _ (searchCaught_get_works faults tzdb w args hf)).trans (hrej w)
    · exact (herr _ _ (searchCaught_get_fails faults tzdb w args hf)).trans (hrej _)

/-- C23 on the scenarios: with Redis down, the search over the stale cache
returns the two candidates the booked store allows, and the context of user 11
at instant 2000 is the one of the tables, without the expired role. -/
theorem cache_failures_absorbed_witness :
    (searchAvailabilityCaught ⟨true, true, true⟩ scenarioZones staleWorld mondaySearch).map
        Prod.fst = .ok [mondayEntry 0 1, mondayEntry 2 1]
      ∧ (getUserPermissionContextCaught ⟨true, true, true⟩ rbacConfig expiringWorld 2000 1
          11).1.permissions = [] := by
  have h := (cache_failures_absorbed ⟨true, true, true⟩ scenarioZones staleWorld mondaySearch
    rbacConfig expiringWorld 2000 1 11).1 rfl
  constructor
  · exact h.1.trans (by decide)
  · rw [h.2]
    decide


/-- C27: for a calendar of the search and a candidate inside the search
window, `countOverlaps` on the appointments that `findAppointmentsForCalendars`
loaded for the window and that the search grouped under the calendar counts as
many as `countOverlaps` on all pending or confirmed appointments of that
calendar; for an appointment that overlaps such a candidate is not excluded by
the window condition of the query. -/
theorem prefilter_keeps_overlaps (db : Db) (matching : List Calendar) (calendar : Calendar)
    (hc : calendar ∈ matching) (ws we cs ce : Instant) (h1 : ws ≤ cs) (h2 : ce ≤ we) :
    countOverlaps (getOrEmpty (groupBy (fun a : Appointment => a.calendar_id)
        (findAppointmentsForCalendars db (matching.map (fun c => c.id)) ws we)) calendar.id)
        cs ce
        = countOverlaps (countedAppointments db calendar.id) cs ce
      ∧ ∀ a : Appointment, a.end_time > cs → a.start_time < ce →
          ¬ (a.end_time ≤ ws ∨ a.start_time ≥ we) := by
  refine ⟨countOverlaps_calendarAppointments db matching calendar hc ws we cs ce h1 h2, ?_⟩
  intro a ha1 ha2 hor
  rcases hor with h | h
  · exact absurd (lt_of_le_of_lt h1 ha1) (not_lt.mpr h)
  · exact absurd (lt_of_lt_of_le ha2 h2) (not_lt.mpr h)

/-- C27 on the Monday scenario: for the 10:00-11:00 candidate of the search
09:00-12:00 both counts are 1. -/
theorem prefilter_keeps_overlaps_witness :
    countOverlaps (getOrEmpty (groupBy (fun a : Appointment => a.calendar_id)
        (findAppointmentsForCalendars bookedWorld.db ([mondayCalendar].map (fun c => c.id))
          mondayNine (mondayNine + 3 * hourMs))) mondayCalendar.id)
        (mondayNine + hourMs) (mondayNine + 2 * hourMs) = 1
      ∧ countOverlaps (countedAppointments bookedWorld.db mondayCalendar.id)
        (mondayNine + hourMs) (mondayNine + 2 * hourMs) = 1 := by
  have h := (prefilter_keeps_overlaps bookedWorld.db [mondayCalendar] mondayCalendar
    (List.mem_singleton.mpr rfl) mondayNine (mondayNine + 3 * hourMs) (mondayNine + hourMs)
    (mondayNine + 2 * hourMs) (by decide) (by decide)).1
  have h2 : countOverlaps (countedAppointments bookedWorld.db mondayCalendar.id)
      (mondayNine + hourMs) (mondayNine + 2 * hourMs) = 1 := by decide
  exact ⟨h.trans h2, h2⟩


theorem mem_uniqueIds (ids : List Uuid) (p : Uuid) : p ∈ uniqueIds ids ↔ p ∈ ids := by
  induction ids with
  | nil => simp [uniqueIds]
  | cons a rest ih =>
    unfold uniqueIds
    rw [List.mem_cons, List.mem_cons, List.mem_filter, ih]
    constructor
    · rintro (h | ⟨h, _⟩)
      · exact Or.inl h
      · exact Or.inr h
    · intro h
      by_cases hp : p = a
      · exact Or.inl hp
      · rcases h with h | h
        · exact absurd h hp
        · exact Or.inr ⟨h, by simpa using hp⟩

theorem mem_listRolePermissions (s : RbacStore) (r p : Uuid) :
    p ∈ listRolePermissions s r ↔ (⟨r, p⟩ : RolePermission) ∈ s.rolePermissions := by
  unfold listRolePermissions
  rw [List.mem_map]
  constructor
  · rintro ⟨rp, hrp, hp⟩
    rw [List.mem_filter, beq_iff_eq] at hrp
    obtain ⟨rr, pp⟩ := rp
    simp only at hp hrp
    rw [← hp, ← hrp.2]
    exact hrp.1
  · intro h
    exact ⟨⟨r, p⟩, List.mem_filter.mpr ⟨h, by simp⟩, rfl⟩

theorem mem_addPermissionsToRole (r : Uuid) (ids : List Uuid) (x : RolePermission) :
    ∀ s : RbacStore, x ∈ (addPermissionsToRole s r ids).rolePermissions
      ↔ x ∈ s.rolePermissions ∨ (x.role_id = r ∧ x.permission_id ∈ ids) := by
  induction ids with
  | nil =>
    intro s
    simp [addPermissionsToRole]
  | cons a rest ih =>
    intro s
    unfold addPermissionsToRole
    rw [List.foldl_cons]
    have h := ih (if s.rolePermissions.any (fun rp => rp.role_id == r && rp.permission_id == a)
      then s else { s with rolePermissions := s.rolePermissions ++ [⟨r, a⟩] })
    unfold addPermissionsToRole at h
    rw [h]
    by_cases hany : s.rolePermissions.any (fun rp => rp.role_id == r && rp.permission_id == a)
        = true
    · rw [if_pos hany]
      rw [List.any_eq_true] at hany
      obtain ⟨y, hy, hyp⟩ := hany
      simp only [Bool.and_eq_true, beq_iff_eq] at hyp
      obtain ⟨yr, yp⟩ := y
      simp only at hyp
      constructor
      · rintro (h1 | ⟨h1, h2⟩)
        · exact Or.inl h1
        · exact Or.inr ⟨h1, List.mem_cons_of_mem _ h2⟩
      · rintro (h1 | ⟨h1, h2⟩)
        · exact Or.inl h1
        · rcases List.mem_cons.mp h2 with h3 | h3
          · left
            obtain ⟨xr, xp⟩ := x
            simp only at h1 h3
            rw [h1, h3, ← hyp.1, ← hyp.2]
            exact hy
          · exact Or.inr ⟨h1, h3⟩
    · rw [if_neg hany]
      obtain ⟨xr, xp⟩ := x
      simp only [List.mem_append, List.mem_singleton, List.mem_cons, List.not_mem_nil,
        or_false, RolePermission.mk.injEq]
      constructor
      · rintro ((h1 | ⟨h1, h2⟩) | ⟨h1, h2⟩)
        · exact Or.inl h1
        · exact Or.inr ⟨h1, Or.inl h2⟩
        · exact Or.inr ⟨h1, Or.inr h2⟩
      · rintro (h1 | ⟨h1, h2 | h2⟩)
        · exact Or.inl (Or.inl h1)
        · exact Or.inl (Or.inr ⟨h1, h2⟩)
        · exact Or.inr ⟨h1, h2⟩

theorem mem_removePermissionsFromRole (s : RbacStore) (r : Uuid) (ids : List Uuid)
    (x : RolePermission) :
    x ∈ (removePermissionsFromRole s r ids).rolePermissions
      ↔ x ∈ s.rolePermissions ∧ ¬ (x.role_id = r ∧ x.permission_id ∈ ids) := by
  unfold removePermissionsFromRole
  split
  · rename_i h
    have hnil := List.length_eq_zero.mp h
    rw [hnil]
    simp
  · simp only [List.mem_filter, Bool.not_eq_true', Bool.and_eq_false_iff, beq_eq_false_iff_ne,
      ne_eq, not_and, List.contains_eq_any_beq, List.any_eq_false, beq_iff_eq]
    constructor
    · rintro ⟨h1, h2⟩
      refine ⟨h1, ?_⟩
      intro hr hp
      rcases h2 with h2 | h2
      · exact h2 hr
      · exact h2 _ hp rfl
    · rintro ⟨h1, h2⟩
      refine ⟨h1, ?_⟩
      by_cases hr : x.role_id = r
      · right
        intro y hy hxy
        exact h2 hr (hxy ▸ hy)
      · exact Or.inl hr


theorem permissionBlock_cases (cfg : RbacConfig) (w : RbacWorld) (now : Instant)
    (args : UpdateRoleArgs) (s1 : RbacStore) :
    (∃ e w2,
        (match args.permissionIds with
          | none => finishRoleUpdate cfg w now s1 args.tenantId args.roleId
          | some permissionIds =>
            let uniquePermissionIds := uniqueIds permissionIds
            if (getPermissionsByIds s1 uniquePermissionIds).length
                ≠ uniquePermissionIds.length then
              (.error ⟨400, "One or more permissions are invalid"⟩, { w with store := s1 })
            else
              let currentPermissionIds := listRolePermissions s1 args.roleId
              let toAdd :=
                uniquePermissionIds.filter (fun id => !currentPermissionIds.contains id)
              let toRemove :=
                currentPermissionIds.filter (fun id => !uniquePermissionIds.contains id)
              let s2 :=
                if toAdd.length ≠ 0 then addPermissionsToRole s1 args.roleId toAdd else s1
              let s3 :=
                if toRemove.length ≠ 0 then removePermissionsFromRole s2 args.roleId toRemove
                else s2
              finishRoleUpdate cfg w now s3 args.tenantId args.roleId)
          = (.error e, w2))
      ∨ (match args.permissionIds with
          | none => finishRoleUpdate cfg w now s1 args.tenantId args.roleId
          | some permissionIds =>
            let uniquePermissionIds := uniqueIds permissionIds
            if (getPermissionsByIds s1 uniquePermissionIds).length
                ≠ uniquePermissionIds.length then
              (.error ⟨400, "One or more permissions are invalid"⟩, { w with store := s1 })
            else
              let currentPermissionIds := listRolePermissions s1 args.roleId
              let toAdd :=
                uniquePermissionIds.filter (fun id => !currentPermissionIds.contains id)
              let toRemove :=
                currentPermissionIds.filter (fun id => !uniquePermissionIds.contains id)
              let s2 :=
                if toAdd.length ≠ 0 then addPermissionsToRole s1 args.roleId toAdd else s1
              let s3 :=
                if toRemove.length ≠ 0 then removePermissionsFromRole s2 args.roleId toRemove
                else s2
              finishRoleUpdate cfg w now s3 args.tenantId args.roleId)
        = finishRoleUpdate cfg w now
            (match args.permissionIds with
             | none => s1
             | some ids => permissionsReplaced s1 args.roleId ids)
            args.tenantId args.roleId := by
  cases hp : args.permissionIds with
  | none => exact Or.inr rfl
  | some ids =>
    dsimp only
    by_cases hv : (getPermissionsByIds s1 (uniqueIds ids)).length ≠ (uniqueIds ids).length
    · rw [if_pos hv]
      exact Or.inl ⟨_, _, rfl⟩
    · rw [if_neg hv]
      exact Or.inr rfl

theorem updateTenantRole_store (cfg : RbacConfig) (w : RbacWorld) (now : Instant)
    (args : UpdateRoleArgs) :
    (∃ e w2, updateTenantRole cfg w now args = (.error e, w2))
      ∨ ∃ role s1, getRoleById w.store args.tenantId args.roleId = some role
        ∧ role.is_system = false
        ∧ s1.rolePermissions = w.store.rolePermissions
        ∧ updateTenantRole cfg w now args
          = finishRoleUpdate cfg w now
              (match args.permissionIds with
               | none => s1
               | some ids => permissionsReplaced s1 args.roleId ids)
              args.tenantId args.roleId := by
  unfold updateTenantRole
  cases hrole : getRoleById w.store args.tenantId args.roleId with
  | none => exact Or.inl ⟨_, _, rfl⟩
  | some role =>
    dsimp only
    by_cases hsys : role.is_system = true
    · rw [if_pos hsys]
      exact Or.inl ⟨_, _, rfl⟩
    · rw [if_neg hsys]
      have hsys2 : role.is_system = false := by simpa using hsys
      by_cases hname : ((args.name.filter (fun name => name != "" && name != role.name)).bind
          (fun name => getRoleByName w.store args.tenantId name)).isSome = true
      · rw [if_pos hname]
        exact Or.inl ⟨_, _, rfl⟩
      · rw [if_neg hname]
        have hs1 : (if ((args.name.filter (fun name => name != "" && name != role.name)).isSome
              || args.description.isSome) = true then
            updateRole w.store args.tenantId args.roleId
              (args.name.filter (fun name => name != "" && name != role.name)) args.description
            else w.store).rolePermissions = w.store.rolePermissions := by
          split <;> rfl
        rcases permissionBlock_cases cfg w now args
          (if ((args.name.filter (fun name => name != "" && name != role.name)).isSome
              || args.description.isSome) = true then
            updateRole w.store args.tenantId args.roleId
              (args.name.filter (fun name => name != "" && name != role.name)) args.description
            else w.store) with ⟨e, w2, he⟩ | hok
        · exact Or.inl ⟨e, w2, he⟩
        · exact Or.inr ⟨role, _, rfl, hsys2, hs1, hok⟩

theorem mem_permissionsReplaced (s1 : RbacStore) (r : Uuid) (ids : List Uuid)
    (x : RolePermission) :
    x ∈ (permissionsReplaced s1 r ids).rolePermissions
      ↔ (x.role_id = r ∧ x.permission_id ∈ ids)
        ∨ (x.role_id ≠ r ∧ x ∈ s1.rolePermissions) := by
  have hadd : ∀ toAdd : List Uuid,
      x ∈ (if toAdd.length ≠ 0 then addPermissionsToRole s1 r toAdd else s1).rolePermissions
        ↔ x ∈ s1.rolePermissions ∨ (x.role_id = r ∧ x.permission_id ∈ toAdd) := by
    intro toAdd
    split
    · exact mem_addPermissionsToRole r toAdd x s1
    · rename_i h
      have hnil : toAdd = [] := List.length_eq_zero.mp (not_not.mp h)
      rw [hnil]
      simp
  have hrem : ∀ (s2 : RbacStore) (toRemove : List Uuid),
      x ∈ (if toRemove.length ≠ 0 then removePermissionsFromRole s2 r toRemove
          else s2).rolePermissions
        ↔ x ∈ s2.rolePermissions ∧ ¬ (x.role_id = r ∧ x.permission_id ∈ toRemove) := by
    intro s2 toRemove
    split
    · exact mem_removePermissionsFromRole s2 r toRemove x
    · rename_i h
      have hnil : toRemove = [] := List.length_eq_zero.mp (not_not.mp h)
      rw [hnil]
      simp
  unfold permissionsReplaced
  dsimp only
  rw [hrem, hadd]
  obtain ⟨xr, xp⟩ := x
  simp only [List.mem_filter, Bool.not_eq_true', List.contains_eq_any_beq, List.any_eq_false,
    beq_iff_eq, mem_uniqueIds, ne_eq]
  by_cases hr : xr = r
  · subst hr
    have hcur : ∀ p, p ∈ listRolePermissions s1 xr
        ↔ (⟨xr, p⟩ : RolePermission) ∈ s1.rolePermissions :=
      mem_listRolePermissions s1 xr
    constructor
    · rintro ⟨h1, h2⟩
      left
      refine ⟨rfl, ?_⟩
      rcases h1 with h1 | ⟨_, h1, _⟩
      · by_contra hnot
        apply h2
        refine ⟨rfl, (hcur xp).mpr h1, ?_⟩
        intro y hy hxy
        exact hnot (hxy ▸ hy)
      · exact h1
    · rintro (⟨_, h1⟩ | ⟨h1, _⟩)
      · constructor
        · by_cases hin : (⟨xr, xp⟩ : RolePermission) ∈ s1.rolePermissions
          · exact Or.inl hin
          · right
            refine ⟨rfl, h1, ?_⟩
            intro y hy hxy
            exact hin ((hcur xp).mp (hxy ▸ hy))
        · rintro ⟨_, _, h3⟩
          exact h3 xp h1 rfl
      · exact absurd rfl h1
  · constructor
    · rintro ⟨h1, _⟩
      rcases h1 with h1 | ⟨h1, _⟩
      · exact Or.inr ⟨hr, h1⟩
      · exact absurd h1 hr
    · rintro (⟨h1, _⟩ | ⟨_, h1⟩)
      · exact absurd h1 hr
      · exact ⟨Or.inl h1, fun h => hr h.1⟩


/-- C28: when `updateTenantRole` succeeds the role is a non-system role of the
tenant. With a list `permissionIds`, the permission ids of the role afterwards
are exactly the ids of the list, whatever they were before: the ids gained are
the requested ones the role did not hold, the ids lost are the held ones that
were not requested, and the links of every other role are as before. Without
`permissionIds` the links of all roles are unchanged. -/
theorem role_permissions_replaced (cfg : RbacConfig) (w : RbacWorld) (now : Instant)
    (args : UpdateRoleArgs) (res : Option RoleWithPermissions) (w2 : RbacWorld)
    (h : updateTenantRole cfg w now args = (.ok res, w2)) :
    (∃ role, getRoleById w.store args.tenantId args.roleId = some role
        ∧ role.is_system = false)
      ∧ (∀ ids, args.permissionIds = some ids →
          (∀ p, p ∈ listRolePermissions w2.store args.roleId ↔ p ∈ ids)
            ∧ (∀ p, p ∈ listRolePermissions w2.store args.roleId
                  ∧ p ∉ listRolePermissions w.store args.roleId
                ↔ p ∈ ids ∧ p ∉ listRolePermissions w.store args.roleId)
            ∧ (∀ p, p ∈ listRolePermissions w.store args.roleId
                  ∧ p ∉ listRolePermissions w2.store args.roleId
                ↔ p ∈ listRolePermissions w.store args.roleId ∧ p ∉ ids)
            ∧ ∀ other p, other ≠ args.roleId →
                (p ∈ listRolePermissions w2.store other ↔ p ∈ listRolePermissions w.store other))
      ∧ (args.permissionIds = none → w2.store.rolePermissions = w.store.rolePermissions) := by
  rcases updateTenantRole_store cfg w now args with ⟨e, w3, he⟩ | ⟨role, s1, hrole, hsys, hs1, hok⟩
  · rw [he] at h
    injection h with h _
    cases h
  · rw [hok] at h
    have hw2 : w2.store = (match args.permissionIds with
        | none => s1
        | some ids => permissionsReplaced s1 args.roleId ids) := by
      unfold finishRoleUpdate at h
      injection h with _ h2
      rw [← h2, invalidateAll_store]
    refine ⟨⟨role, hrole, hsys⟩, ?_, ?_⟩
    · intro ids hids
      rw [hids] at hw2
      simp only at hw2
      have hmem : ∀ r p, p ∈ listRolePermissions w2.store r
          ↔ (r = args.roleId ∧ p ∈ ids)
            ∨ (r ≠ args.roleId ∧ p ∈ listRolePermissions w.store r) := by
        intro r p
        rw [mem_listRolePermissions, mem_listRolePermissions, hw2, mem_permissionsReplaced, hs1]
      have hself : ∀ p, p ∈ listRolePermissions w2.store args.roleId ↔ p ∈ ids := by
        intro p
        rw [hmem]
        constructor
        · rintro (⟨_, h1⟩ | ⟨h1, _⟩)
          · exact h1
          · exact absurd rfl h1
        · intro h1
          exact Or.inl ⟨rfl, h1⟩
      refine ⟨hself, ?_, ?_, ?_⟩
      · intro p
        rw [hself]
      · intro p
        rw [hself]
      · intro other p hne
        rw [hmem]
        constructor
        · rintro (⟨h1, _⟩ | ⟨_, h1⟩)
          · exact absurd h1 hne
          · exact h1
        · intro h1
          exact Or.inr ⟨hne, h1⟩
    · intro hnone
      rw [hnone] at hw2
      simp only at hw2
      rw [hw2, hs1]

/-- C28 on the scenario: role 50 holds the permissions 70 and 71; the update
that asks for 71, 72, 71 leaves it with 71 and 72. -/
theorem role_permissions_replaced_witness :
    listRolePermissions rbacStore 50 = [70, 71]
      ∧ listRolePermissions (updateTenantRole rbacConfig rbacWorld 0 replaceRequest).2.store 50
          = [71, 72]
      ∧ ∀ p, p ∈ listRolePermissions
            (updateTenantRole rbacConfig rbacWorld 0 replaceRequest).2.store 50
          ↔ p ∈ [71, 72, 71] := by
  have hok : updateTenantRole rbacConfig rbacWorld 0 replaceRequest
      = (.ok (getRoleWithPermissions
            (updateTenantRole rbacConfig rbacWorld 0 replaceRequest).2.store 1 50),
          (updateTenantRole rbacConfig rbacWorld 0 replaceRequest).2) := by
    decide
  exact ⟨by decide, by decide,
    ((role_permissions_replaced rbacConfig rbacWorld 0 replaceRequest _ _ hok).2.1
      [71, 72, 71] rfl).1⟩


/-- C26: `isValidTimezone` answers true exactly for a non-empty name that the
zone database of the runtime knows, hence false for a missing value, for the
empty string and for every name the database does not know, such as
"Mars/Olympus" in a database without it; and `createCalendarForTenant` with a
timezone it rejects fails with the 400 error "Invalid timezone". -/
theorem timezone_validity (tzdb : String → Option Zone) :
    (∀ tz, isValidTimezone tzdb (some tz) = true ↔ tz ≠ "" ∧ (tzdb tz).isSome = true)
      ∧ isValidTimezone tzdb none = false
      ∧ isValidTimezone tzdb (some "") = false
      ∧ (∀ tz, tzdb tz = none → isValidTimezone tzdb (some tz) = false)
      ∧ (tzdb "Mars/Olympus" = none → isValidTimezone tzdb (some "Mars/Olympus") = false)
      ∧ ∀ db args, isValidTimezone tzdb args.timezone = false →
          createCalendarForTenant tzdb db args = .error ⟨400, "Invalid timezone"⟩ := by
  refine ⟨?_, rfl, rfl, ?_, ?_, ?_⟩
  · intro tz
    unfold isValidTimezone
    simp only [Bool.and_eq_true, bne_iff_ne, ne_eq]
  · intro tz h
    unfold isValidTimezone
    simp only [h, Option.isSome_none, Bool.and_false]
  · intro h
    unfold isValidTimezone
    simp only [h, Option.isSome_none, Bool.and_false]
  · intro db args h
    unfold createCalendarForTenant
    rw [h]
    rfl

/-- C26 on the scenario zones: "America/New_York" is valid, "Mars/Olympus" is
not, and a calendar with it is refused while one in New York is created. -/
theorem timezone_validity_witness :
    isValidTimezone scenarioZones (some "America/New_York") = true
      ∧ isValidTimezone scenarioZones (some "Mars/Olympus") = false
      ∧ createCalendarForTenant scenarioZones (mondayDb [])
          { tenantId := 1, providerUserId := 12, timezone := some "Mars/Olympus" }
          = .error ⟨400, "Invalid timezone"⟩
      ∧ (createCalendarForTenant scenarioZones (mondayDb [])
          { tenantId := 1, providerUserId := 12, timezone := some "America/New_York" }).map
          (fun created => created.1.timezone) = .ok "America/New_York" := by
  have h := timezone_validity scenarioZones
  refine ⟨by decide, h.2.2.2.2.1 (by simp [scenarioZones]), h.2.2.2.2.2 _ _ (by decide),
    by decide⟩


/-- C30, the failure: the tenant has one confirmed and one cancelled
appointment; the metrics report `appointments.cancelled = 0`. -/
theorem dashboard_cancelled_count_lost :
    ((metricsDb.appointments.filter (fun a => a.tenant_id == 1 && a.status == "cancelled")).length
        = 1)
      ∧ (getDashboardMetrics metricsDb mondayNine 1 none none).appointments.cancelled = 0
      ∧ (getDashboardMetrics metricsDb mondayNine 1 none none).appointments.total = 1
      ∧ (getDashboardMetrics metricsDb mondayNine 1 none none).utilization.percentage = 100 := by
  decide


theorem countWhere_nonneg {α : Type} (l : List α) (p : α → Bool) : 0 ≤ countWhere l p := by
  unfold countWhere
  exact Int.natCast_nonneg _

theorem countWhere_le {α : Type} (l : List α) (p q : α → Bool)
    (h : ∀ a ∈ l, p a = true → q a = true) : countWhere l p ≤ countWhere l q := by
  unfold countWhere
  induction l with
  | nil => simp
  | cons a rest ih =>
    have ih2 := ih (fun b hb => h b (List.mem_cons_of_mem _ hb))
    have ha := h a (List.mem_cons_self _ _)
    cases hp : p a
    · cases hq : q a
      · simpa [List.filter_cons, hp, hq] using ih2
      · simp only [List.filter_cons, hp, hq, Bool.false_eq_true, if_false, if_true,
          List.length_cons, Nat.cast_add, Nat.cast_one]
        omega
    · have hq := ha hp
      simp only [List.filter_cons, hp, hq, if_true, List.length_cons, Nat.cast_add,
        Nat.cast_one]
      omega

theorem countWhere_split (l : List Appointment)
    (h : ∀ a ∈ l, a.status ∈ allowedStatuses) :
    countWhere l (fun a => a.status != "cancelled")
      = countWhere l (fun a => a.status == "pending")
        + countWhere l (fun a => a.status == "confirmed" || a.status == "completed") := by
  unfold countWhere
  induction l with
  | nil => simp
  | cons a rest ih =>
    have ih2 := ih (fun b hb => h b (List.mem_cons_of_mem _ hb))
    have ha := h a (List.mem_cons_self _ _)
    unfold allowedStatuses at ha
    simp only [List.mem_cons, List.mem_singleton, List.not_mem_nil, or_false] at ha
    rcases ha with ha | ha | ha | ha
    all_goals
      simp only [List.filter_cons, ha]
      simp only [bne_iff_ne, ne_eq, beq_iff_eq, Bool.or_eq_true, String.reduceEq,
        not_false_eq_true, not_true_eq_false, or_self, or_true, or_false, true_or, false_or,
        if_true, if_false, List.length_cons, Nat.cast_add, Nat.cast_one, decide_True,
        decide_False, Bool.false_eq_true, reduceCtorEq]
      omega

theorem roundedPercentage_bounds (c t : Int) (hc : 0 ≤ c) (hct : c ≤ t) (ht : 0 < t) :
    0 ≤ roundedPercentage c t ∧ roundedPercentage c t ≤ 100 := by
  unfold roundedPercentage
  constructor
  · apply Int.ediv_nonneg <;> omega
  · have h2 : (200 * c + t) / (2 * t) < 101 := by
      apply Int.ediv_lt_of_lt_mul (by omega)
      nlinarith
    omega

/-- The part of C30 that holds, and how the rest fails: the reported
percentage is the rounded quotient of the counted `confirmed` (confirmed or
completed appointments) by `total` (appointments that are not cancelled) when
`total > 0` and 0 otherwise, and lies between 0 and 100; and as long as every
status is one of the four the service accepts, the reported `cancelled` is 0. -/
theorem dashboard_counts (db : Db) (now : Instant) (t : Uuid) (rs re : Option Instant) :
    (getDashboardMetrics db now t rs re).utilization.percentage
        = (if (getDashboardMetrics db now t rs re).appointments.total > 0 then
            roundedPercentage (getDashboardMetrics db now t rs re).appointments.confirmed
              (getDashboardMetrics db now t rs re).appointments.total
          else 0)
      ∧ 0 ≤ (getDashboardMetrics db now t rs re).utilization.percentage
      ∧ (getDashboardMetrics db now t rs re).utilization.percentage ≤ 100
      ∧ ((∀ a ∈ db.appointments, a.status ∈ allowedStatuses) →
          (getDashboardMetrics db now t rs re).appointments.cancelled = 0) := by
  have hle : countWhere (db.appointments.filter (fun a =>
        a.tenant_id == t && inDateRange rs re a.start_time))
        (fun a => a.status == "confirmed" || a.status == "completed")
      ≤ countWhere (db.appointments.filter (fun a =>
        a.tenant_id == t && inDateRange rs re a.start_time))
        (fun a => a.status != "cancelled") := by
    apply countWhere_le
    intro a _ ha
    simp only [Bool.or_eq_true, beq_iff_eq] at ha
    rcases ha with ha | ha <;> simp [ha]
  have h0 := countWhere_nonneg (db.appointments.filter (fun a =>
        a.tenant_id == t && inDateRange rs re a.start_time))
        (fun a => a.status == "confirmed" || a.status == "completed")
  unfold getDashboardMetrics
  dsimp only
  refine ⟨?_, le_max_left _ _, max_le (by decide) (min_le_left _ _), ?_⟩
  · split
    · rename_i hpos
      have hb := roundedPercentage_bounds _ _ h0 hle hpos
      rw [min_eq_right hb.2, max_eq_right hb.1]
    · rfl
  · intro hst
    have hsplit := countWhere_split (db.appointments.filter (fun a =>
        a.tenant_id == t && inDateRange rs re a.start_time))
        (fun a ha => hst a (List.mem_filter.mp ha).1)
    have hcomp := countWhere_nonneg (db.appointments.filter (fun a =>
        a.tenant_id == t && inDateRange rs re a.start_time))
        (fun a => a.status == "completed")
    rw [hsplit]
    apply max_eq_left
    omega


/-- C24, the failure: entry 200 has the window 14:00-17:00. An update with
`requested_end` 13:00 is refused, but the same update under the key
`requestedEnd` is accepted and leaves the entry with an end before its start. -/
theorem waitlist_window_broken_by_update :
    (getWaitlistEntryById afternoonDb 1 200).map
        (fun e => (e.requested_start, e.requested_end))
        = some (some (mondayNine + 5 * hourMs), some (mondayNine + 8 * hourMs))
      ∧ updateEntry afternoonDb 1 200 { requested_end := some (mondayNine + 4 * hourMs) }
        = .error ⟨400, "requested_end must be after requested_start"⟩
      ∧ (updateEntry afternoonDb 1 200 { requestedEnd := some (mondayNine + 4 * hourMs) }).map
          (fun r => ((getWaitlistEntryById r.2 1 200).map
            (fun e => (e.requested_start, e.requested_end))))
        = .ok (some (some (mondayNine + 5 * hourMs), some (mondayNine + 4 * hourMs))) := by
  decide


theorem createEntry_window (db : Db) (now : Instant) (args : CreateEntryArgs)
    (r : WaitlistEntry) (db2 : Db) (h : createEntry db now args = .ok (r, db2)) :
    r ∈ db2.waitlistEntries ∧ r.status = "active"
      ∧ ∀ s e, r.requested_start = some s → r.requested_end = some e → s < e := by
  unfold createEntry at h
  split at h
  · cases h
  · split at h
    · cases h
    · split at h
      · cases h
      · rename_i hv
        injection h with h
        unfold createWaitlistEntry at h
        injection h with h1 h2
        subst h1 h2
        refine ⟨by simp, rfl, ?_⟩
        intro s e hs he
        simp only at hs he
        unfold validateRequestWindow at hv
        rw [hs, he] at hv
        simp only at hv
        split at hv
        · cases hv
        · rename_i hle
          exact not_le.mp hle

theorem getWaitlistEntryById_some (db : Db) (t i : Uuid) (e : WaitlistEntry)
    (h : getWaitlistEntryById db t i = some e) :
    e ∈ db.waitlistEntries ∧ e.tenant_id = t ∧ e.id = i := by
  unfold getWaitlistEntryById at h
  have h1 := List.mem_of_find?_eq_some h
  have h2 := List.find?_some h
  simp only [Bool.and_eq_true, beq_iff_eq] at h2
  exact ⟨h1, h2.1, h2.2⟩

theorem updateWaitlistEntry_found (db : Db) (t i : Uuid) (u : WaitlistUpdates)
    (e : WaitlistEntry) (h : getWaitlistEntryById db t i = some e)
    (hne : u.isEmpty = false) (hnc : u.collides = false) :
    ∃ db2, updateWaitlistEntry db t i u = .ok (some (applyWaitlistUpdates u e), db2)
      ∧ getWaitlistEntryById db2 t i = some (applyWaitlistUpdates u e) := by
  have hkey : getWaitlistEntryById
      { db with
        waitlistEntries := db.waitlistEntries.map (fun e =>
          if e.tenant_id == t && e.id == i then applyWaitlistUpdates u e else e) } t i
      = some (applyWaitlistUpdates u e) := by
    unfold getWaitlistEntryById at h ⊢
    simp only
    rw [List.find?_map]
    have hfun : ((fun a : WaitlistEntry => a.tenant_id == t && a.id == i) ∘
        fun a : WaitlistEntry => if (a.tenant_id == t && a.id == i) = true then
          applyWaitlistUpdates u a else a)
        = fun a : WaitlistEntry => a.tenant_id == t && a.id == i := by
      funext x
      simp only [Function.comp]
      split
      · rename_i hx
        simp [applyWaitlistUpdates, hx]
      · rfl
    rw [hfun, h]
    have hp := List.find?_some h
    simp only [Option.map_some', hp, if_true]
  unfold updateWaitlistEntry
  rw [hne, hnc]
  simp only [Bool.false_eq_true, if_false]
  exact ⟨_, by rw [hkey], hkey⟩


theorem promoteEntry_found (db : Db) (now : Instant) (t i : Uuid) (e : WaitlistEntry)
    (h : getWaitlistEntryById db t i = some e) :
    (e.status ≠ "active" →
        promoteEntry db now t i = .error ⟨400, "Only active entries can be promoted"⟩)
      ∧ (e.status = "active" →
        ∃ db2, promoteEntry db now t i
            = .ok (some { e with status := "promoted", promoted_at := some now }, db2)
          ∧ getWaitlistEntryById db2 t i
            = some { e with status := "promoted", promoted_at := some now }) := by
  unfold promoteEntry getEntry
  rw [h]
  dsimp only
  constructor
  · intro hs
    have : (e.status != "active") = true := by simpa using hs
    rw [if_pos this]
  · intro hs
    have : ¬ (e.status != "active") = true := by simp [hs]
    rw [if_neg this]
    obtain ⟨db2, h1, h2⟩ := updateWaitlistEntry_found db t i
      { status := some "promoted", promoted_at := some now } e h rfl rfl
    exact ⟨db2, h1, h2⟩

theorem cancelEntry_found (db : Db) (t i : Uuid) (reason : Option String) (e : WaitlistEntry)
    (h : getWaitlistEntryById db t i = some e) :
    (e.status = "cancelled" → cancelEntry db t i reason = .ok (some e, db))
      ∧ (e.status ≠ "cancelled" →
        ∃ e2 db2, cancelEntry db t i reason = .ok (some e2, db2)
          ∧ getWaitlistEntryById db2 t i = some e2 ∧ e2.status = "cancelled"
          ∧ ((reason = none ∨ reason = some "") → e2 = { e with status := "cancelled" })) := by
  unfold cancelEntry getEntry
  rw [h]
  dsimp only
  constructor
  · intro hs
    have : (e.status == "cancelled") = true := by simpa using hs
    rw [if_pos this]
  · intro hs
    have : ¬ (e.status == "cancelled") = true := by simpa using hs
    rw [if_neg this]
    obtain ⟨db2, h1, h2⟩ := updateWaitlistEntry_found db t i
      { status := some "cancelled"
        notes := some (match reason with
          | some r =>
            if r = "" then e.notes
            else some ((e.notes.getD "" ++ "\nCancelled: " ++ r).trim)
          | none => e.notes) } e h rfl rfl
    refine ⟨_, db2, h1, h2, rfl, ?_⟩
    rintro (hr | hr)
    · subst hr
      rfl
    · subst hr
      rfl

/-- C25: `promoteEntry` succeeds exactly when the entry exists in the tenant
with status active; it then returns and stores the entry with status promoted
and the current time as `promoted_at`; an absent entry gives 404 and an entry
of another status 400. `cancelEntry` gives 404 for an absent entry, returns an
already cancelled entry as it is without writing, and otherwise returns and
stores the entry with status cancelled (and, without a reason, nothing else
changed). On entries whose status is active, promoted or cancelled, the only
changes of status the two operations make are active to promoted, active to
cancelled and promoted to cancelled. -/
theorem waitlist_transitions (db : Db) (now : Instant) (t i : Uuid) (reason : Option String) :
    ((∃ r db2, promoteEntry db now t i = .ok (r, db2))
        ↔ ∃ e, getWaitlistEntryById db t i = some e ∧ e.status = "active")
      ∧ (getWaitlistEntryById db t i = none →
          promoteEntry db now t i = .error ⟨404, "Waitlist entry not found"⟩
            ∧ cancelEntry db t i reason = .error ⟨404, "Waitlist entry not found"⟩)
      ∧ (∀ e, getWaitlistEntryById db t i = some e →
          (e.status ≠ "active" →
              promoteEntry db now t i = .error ⟨400, "Only active entries can be promoted"⟩)
            ∧ (e.status = "active" →
              ∃ db2, promoteEntry db now t i
                  = .ok (some { e with status := "promoted", promoted_at := some now }, db2)
                ∧ getWaitlistEntryById db2 t i
                  = some { e with status := "promoted", promoted_at := some now })
            ∧ (e.status = "cancelled" → cancelEntry db t i reason = .ok (some e, db))
            ∧ (e.status ≠ "cancelled" →
              ∃ e2 db2, cancelEntry db t i reason = .ok (some e2, db2)
                ∧ getWaitlistEntryById db2 t i = some e2 ∧ e2.status = "cancelled"
                ∧ ((reason = none ∨ reason = some "") → e2 = { e with status := "cancelled" }))
            ∧ (e.status ∈ ["active", "promoted", "cancelled"] →
              ∀ e2 db2,
                (promoteEntry db now t i = .ok (some e2, db2)
                  ∨ cancelEntry db t i reason = .ok (some e2, db2)) →
                e2.status ≠ e.status →
                (e.status, e2.status) ∈ [("active", "promoted"), ("active", "cancelled"),
                  ("promoted", "cancelled")])) := by
  refine ⟨?_, ?_, ?_⟩
  · constructor
    · rintro ⟨r, db2, h⟩
      cases hget : getWaitlistEntryById db t i with
      | none =>
        unfold promoteEntry getEntry at h
        rw [hget] at h
        cases h
      | some e =>
        refine ⟨e, rfl, ?_⟩
        by_contra hs
        rw [(promoteEntry_found db now t i e hget).1 hs] at h
        cases h
    · rintro ⟨e, hget, hs⟩
      obtain ⟨db2, h1, _⟩ := (promoteEntry_found db now t i e hget).2 hs
      exact ⟨_, db2, h1⟩
  · intro hget
    unfold promoteEntry cancelEntry getEntry
    rw [hget]
    exact ⟨rfl, rfl⟩
  · intro e hget
    obtain ⟨hp1, hp2⟩ := promoteEntry_found db now t i e hget
    obtain ⟨hc1, hc2⟩ := cancelEntry_found db t i reason e hget
    refine ⟨hp1, hp2, hc1, hc2, ?_⟩
    intro hdom e2 db2 hop hne
    have hp : promoteEntry db now t i = .ok (some e2, db2) →
        e.status = "active" ∧ e2.status = "promoted" := by
      intro h
      by_cases hs : e.status = "active"
      · obtain ⟨db3, h1, _⟩ := hp2 hs
        rw [h1] at h
        injection h with h
        injection h with h h2
        injection h with h
        rw [← h]
        exact ⟨hs, rfl⟩
      · rw [hp1 hs] at h
        cases h
    have hc : cancelEntry db t i reason = .ok (some e2, db2) → e2.status = "cancelled" := by
      intro h
      by_cases hs : e.status = "cancelled"
      · rw [hc1 hs] at h
        injection h with h
        injection h with h h2
        injection h with h
        rw [← h]
        exact hs
      · obtain ⟨e3, db3, h1, _, h3, _⟩ := hc2 hs
        rw [h1] at h
        injection h with h
        injection h with h h2
        injection h with h
        rw [← h]
        exact h3
    rcases hop with hop | hop
    · obtain ⟨h1, h2⟩ := hp hop
      rw [h1, h2]
      exact List.mem_cons_self _ _
    · have h2 := hc hop
      rw [h2] at hne ⊢
      simp only [List.mem_cons, List.mem_singleton, List.not_mem_nil, or_false] at hdom
      rcases hdom with hd | hd | hd
      · rw [hd]
        exact List.mem_cons_of_mem _ (List.mem_cons_self _ _)
      · rw [hd]
        exact List.mem_cons_of_mem _ (List.mem_cons_of_mem _ (List.mem_cons_self _ _))
      · exact absurd hd.symm hne

/-- C25 on the scenario: entry 200 is promoted at instant 5 and then
cancelled; a further cancellation returns it unchanged, and promoting it again
is refused. -/
theorem waitlist_transitions_witness :
    (promoteEntry afternoonDb 5 1 200).map
        (fun r => r.1.map (fun e => (e.status, e.promoted_at)))
        = .ok (some ("promoted", some 5))
      ∧ (∃ r db2, promoteEntry afternoonDb 5 1 200 = .ok (r, db2))
      ∧ promoteEntry afternoonDb 5 1 999 = .error ⟨404, "Waitlist entry not found"⟩ := by
  have h := waitlist_transitions afternoonDb 5 1 200 none
  have h9 := waitlist_transitions afternoonDb 5 1 999 none
  refine ⟨by decide, h.1.mpr ?_, (h9.2.1 (by decide)).1⟩
  exact ⟨(getWaitlistEntryById afternoonDb 1 200).get (by decide), by simp, by decide⟩


theorem sameBookings_refl (db : Db) : SameBookings db db := ⟨rfl, rfl, rfl, rfl⟩

theorem sameBookings_trans (a b c : Db) (h1 : SameBookings a b) (h2 : SameBookings b c) :
    SameBookings a c :=
  ⟨h2.1.trans h1.1, h2.2.1.trans h1.2.1, h2.2.2.1.trans h1.2.2.1, h2.2.2.2.trans h1.2.2.2⟩

theorem insertGroupAppointment_frame (f : InsertFaults) (db : Db) (data : NewGroupAppointment) :
    SameBookings db (insertGroupAppointment f db data).2 := by
  unfold insertGroupAppointment
  split <;> exact ⟨rfl, rfl, rfl, rfl⟩

theorem insertGroupProviders_frame (f : InsertFaults) (db : Db) (gid : Uuid)
    (l : List ProviderRecord) : SameBookings db (insertGroupProviders f db gid l).2 := by
  unfold insertGroupProviders
  split
  · exact ⟨rfl, rfl, rfl, rfl⟩
  · split <;> exact ⟨rfl, rfl, rfl, rfl⟩

theorem insertGroupParticipants_frame (f : InsertFaults) (db : Db) (gid : Uuid)
    (l : List ParticipantRecord) : SameBookings db (insertGroupParticipants f db gid l).2 := by
  unfold insertGroupParticipants
  split
  · exact ⟨rfl, rfl, rfl, rfl⟩
  · split <;> exact ⟨rfl, rfl, rfl, rfl⟩

theorem insertGroup_frame (f : InsertFaults) (data : NewGroupAppointment)
    (p : List ProviderRecord) (q : List ParticipantRecord) (db : Db) :
    SameBookings db (insertGroup f data p q db).2 := by
  unfold insertGroup
  have h1 := insertGroupAppointment_frame f db data
  split
  · rename_i heq
    rw [heq] at h1
    exact h1
  · rename_i created db1 heq
    rw [heq] at h1
    have h2 := insertGroupProviders_frame f db1 created.id p
    split
    · rename_i heq2
      rw [heq2] at h2
      exact sameBookings_trans _ _ _ h1 h2
    · rename_i rows db2 heq2
      rw [heq2] at h2
      have h12 := sameBookings_trans _ _ _ h1 h2
      split
      · have h3 := insertGroupParticipants_frame f db2 created.id q
        split
        · rename_i heq3
          rw [heq3] at h3
          exact sameBookings_trans _ _ _ h12 h3
        · rename_i heq3
          rw [heq3] at h3
          exact sameBookings_trans _ _ _ h12 h3
      · exact h12

theorem transaction_frame {α : Type} (db : Db) (callback : Db → Except ApiError α × Db)
    (h : SameBookings db (callback db).2) : SameBookings db (transaction db callback).2 := by
  unfold transaction
  split
  · rename_i heq
    rw [heq] at h
    exact h
  · exact sameBookings_refl db

theorem transaction_insertGroup_frame (f : InsertFaults) (data : NewGroupAppointment)
    (p : List ProviderRecord) (q : List ParticipantRecord) (db : Db)
    (r : Except ApiError GroupAppointment) (db2 : Db)
    (heq : transaction db (insertGroup f data p q) = (r, db2)) : SameBookings db db2 := by
  have h := transaction_frame db _ (insertGroup_frame f data p q db)
  rw [heq] at h
  exact h

theorem createGroup_frame (faults : InsertFaults) (w : World) (args : GroupCreateArgs) :
    SameBookings w.db (createGroupAppointment faults w args).2.db
      ∧ (createGroupAppointment faults w args).2.cache = w.cache := by
  unfold createGroupAppointment
  repeat' (first | split | dsimp only)
  all_goals first
    | exact ⟨sameBookings_refl _, rfl⟩
    | (rename_i heq
       exact ⟨transaction_insertGroup_frame _ _ _ _ _ _ _ heq, rfl⟩)

theorem updateGroup_frame (w : World) (t i : Uuid) (updates : GroupUpdates) :
    SameBookings w.db (updateGroupAppointmentDetails w t i updates).2.db
      ∧ (updateGroupAppointmentDetails w t i updates).2.cache = w.cache := by
  have hrepo : SameBookings w.db (updateGroupAppointment w.db t i updates).2 := by
    unfold updateGroupAppointment
    split <;> exact ⟨rfl, rfl, rfl, rfl⟩
  unfold updateGroupAppointmentDetails
  repeat' (first | split | dsimp only)
  all_goals first
    | exact ⟨sameBookings_refl _, rfl⟩
    | (rename_i heq
       rw [heq] at hrepo
       exact ⟨hrepo, rfl⟩)


theorem getCalendarById_same (db db2 : Db) (h : SameBookings db db2) :
    getCalendarById db2 = getCalendarById db := by
  funext t c
  unfold getCalendarById
  rw [h.2.1]

theorem findUserById_same (db db2 : Db) (h : SameBookings db db2) :
    findUserById db2 = findUserById db := by
  funext i
  unfold findUserById
  rw [h.1]

theorem findConflicting_same (db db2 : Db) (h : SameBookings db db2) :
    findConflictingAppointments db2 = findConflictingAppointments db := by
  funext c s e ig
  unfold findConflictingAppointments
  rw [h.2.2.2]

theorem ensureUserActiveInTenant_same (db db2 : Db) (h : SameBookings db db2) :
    ensureUserActiveInTenant db2 = ensureUserActiveInTenant db := by
  funext t u l
  unfold ensureUserActiveInTenant
  rw [findUserById_same db db2 h]

theorem ensureCalendarForProvider_same (db db2 : Db) (h : SameBookings db db2) :
    ensureCalendarForProvider db2 = ensureCalendarForProvider db := by
  funext t c p
  unfold ensureCalendarForProvider
  rw [getCalendarById_same db db2 h]

theorem ensureNoCalendarConflicts_same (db db2 : Db) (h : SameBookings db db2) :
    ensureNoCalendarConflicts db2 = ensureNoCalendarConflicts db := by
  funext c s e ig
  unfold ensureNoCalendarConflicts
  rw [findConflicting_same db db2 h]

theorem checkProvider_same (db db2 : Db) (h : SameBookings db db2) :
    checkProvider db2 = checkProvider db := by
  funext t s e p
  unfold checkProvider
  rw [ensureUserActiveInTenant_same db db2 h, ensureCalendarForProvider_same db db2 h,
    ensureNoCalendarConflicts_same db db2 h]

theorem checkParticipant_same (db db2 : Db) (h : SameBookings db db2) :
    checkParticipant db2 = checkParticipant db := by
  funext t p
  unfold checkParticipant
  rw [ensureUserActiveInTenant_same db db2 h]

theorem createAppointment_error_same (w w2 : World) (h : SameBookings w.db w2.db)
    (args : CreateAppointmentArgs) (e : ApiError) :
    createAppointmentForTenant w2 args = .error e
      ↔ createAppointmentForTenant w args = .error e := by
  unfold createAppointmentForTenant
  simp only [getCalendarById_same w.db w2.db h, findUserById_same w.db w2.db h,
    findConflicting_same w.db w2.db h]
  repeat' split
  all_goals first
    | exact Iff.rfl
    | (constructor <;> intro hh <;> cases hh)

theorem insertGroup_error_same (f : InsertFaults) (data : NewGroupAppointment)
    (p : List ProviderRecord) (q : List ParticipantRecord) (db db2 : Db) (e : ApiError) :
    (transaction db2 (insertGroup f data p q)).1 = .error e
      ↔ (transaction db (insertGroup f data p q)).1 = .error e := by
  unfold transaction insertGroup insertGroupAppointment insertGroupProviders
    insertGroupParticipants
  dsimp only
  by_cases h0 : f.appointment = true
  · simp [h0]
  · by_cases h1 : p.length = 0
    · by_cases h2 : q.length = 0
      · simp [h0, h1, h2]
      · by_cases h3 : f.participants = true
        · simp [h0, h1, h2, h3]
        · simp [h0, h1, h2, h3]
    · by_cases h4 : f.providers = true
      · simp [h0, h1, h4]
      · by_cases h2 : q.length = 0
        · simp [h0, h1, h4, h2]
        · by_cases h3 : f.participants = true
          · simp [h0, h1, h4, h2, h3]
          · simp [h0, h1, h4, h2, h3]

theorem createGroup_error_same (f : InsertFaults) (w w2 : World)
    (h : SameBookings w.db w2.db) (args : GroupCreateArgs) (e : ApiError) :
    (createGroupAppointment f w2 args).1 = .error e
      ↔ (createGroupAppointment f w args).1 = .error e := by
  have key : ∀ d p q, ∀ x : Except ApiError GroupAppointment × Db,
      ∀ y : Except ApiError GroupAppointment × Db,
      transaction w2.db (insertGroup f d p q) = x → transaction w.db (insertGroup f d p q) = y →
      (x.1 = .error e ↔ y.1 = .error e) := by
    intro d p q x y hx hy
    rw [← hx, ← hy]
    exact insertGroup_error_same f d p q w.db w2.db e
  unfold createGroupAppointment
  simp only [ensureUserActiveInTenant_same w.db w2.db h, checkProvider_same w.db w2.db h,
    checkParticipant_same w.db w2.db h]
  repeat' (first | split | dsimp only)
  all_goals first
    | exact Iff.rfl
    | (rename_i h1 _ _ _ h2
       have hk := key _ _ _ _ _ h1 h2
       first
         | (simp; done)
         | simpa using hk)


theorem offeredCandidates_same (tzdb : String → Option Zone) (rz : Zone) (db db2 : Db)
    (h : SameBookings db db2) (matching : List Calendar) (ss se : Instant) (duration : Int) :
    offeredCandidates tzdb rz db2 matching ss se duration
      = offeredCandidates tzdb rz db matching ss se duration := by
  unfold offeredCandidates findSlotsForCalendars findAppointmentsForCalendars
  rw [h.2.2.1, h.2.2.2]

theorem search_same (tzdb : String → Option Zone) (w w2 : World)
    (h : SameBookings w.db w2.db) (hc : w2.cache = w.cache) (args : SearchArgs) :
    Except.map Prod.fst (searchAvailability tzdb w2 args)
      = Except.map Prod.fst (searchAvailability tzdb w args) := by
  have hcache : ∀ key, cacheGet w2 key = cacheGet w key := by
    intro key
    unfold cacheGet
    rw [hc]
  have hcal : findCalendarsForAvailability w2.db args.tenantId
      = findCalendarsForAvailability w.db args.tenantId := by
    unfold findCalendarsForAvailability
    rw [h.2.1]
  unfold searchAvailability
  dsimp only
  simp only [hcache, hcal, offeredCandidates_same tzdb _ w.db w2.db h]
  repeat' split
  all_goals rfl

theorem ensureNoCalendarConflicts_reads (db : Db) (c : Uuid) (s e : Instant)
    (ig : Option Uuid) :
    ((∃ a ∈ db.appointments, a.calendar_id = c ∧
          (a.status = "pending" ∨ a.status = "confirmed") ∧
          a.start_time < e ∧ s < a.end_time ∧ (∀ i, ig = some i → a.id ≠ i)) →
        ensureNoCalendarConflicts db (some c) s e ig
          = .error ⟨409, "Calendar is not available for the selected time window"⟩) ∧
    ((¬ ∃ a ∈ db.appointments, a.calendar_id = c ∧
          (a.status = "pending" ∨ a.status = "confirmed") ∧
          a.start_time < e ∧ s < a.end_time ∧ (∀ i, ig = some i → a.id ≠ i)) →
        ensureNoCalendarConflicts db (some c) s e ig = .ok ()) := by
  have hiff := findConflicting_length_ne_zero_iff db c s e ig
  simp only [conflictsWith_iff] at hiff
  unfold ensureNoCalendarConflicts
  dsimp only
  constructor
  · intro hex
    rw [if_pos (hiff.mpr hex)]
  · intro hno
    rw [if_neg (fun hh => hno (hiff.mp hh))]


/-- C29: group appointments do not occupy the calendar. Creating a group
appointment and updating one leave the users, calendars, templates and single
appointments of the store, and the availability cache, as they were. The
conflict check of the group service rejects exactly when a single appointment of
the calendar that is pending or confirmed overlaps the window. Hence on every
store that differs from the given one only in its group rows, a single
appointment and a group appointment are refused for the same requests with the
same errors, and the search reports the same candidates and capacities. -/
theorem group_appointments_do_not_occupy (tzdb : String → Option Zone)
    (faults : InsertFaults) (w : World) (gargs : GroupCreateArgs) (t i : Uuid)
    (updates : GroupUpdates) :
    ((createGroupAppointment faults w gargs).2.db.appointments = w.db.appointments
      ∧ SameBookings w.db (createGroupAppointment faults w gargs).2.db
      ∧ (createGroupAppointment faults w gargs).2.cache = w.cache) ∧
    ((updateGroupAppointmentDetails w t i updates).2.db.appointments = w.db.appointments
      ∧ SameBookings w.db (updateGroupAppointmentDetails w t i updates).2.db
      ∧ (updateGroupAppointmentDetails w t i updates).2.cache = w.cache) ∧
    (∀ (c : Uuid) (s e : Instant) (ig : Option Uuid),
      ((∃ a ∈ w.db.appointments, a.calendar_id = c ∧
            (a.status = "pending" ∨ a.status = "confirmed") ∧
            a.start_time < e ∧ s < a.end_time ∧ (∀ j, ig = some j → a.id ≠ j)) →
          ensureNoCalendarConflicts w.db (some c) s e ig
            = .error ⟨409, "Calendar is not available for the selected time window"⟩) ∧
      ((¬ ∃ a ∈ w.db.appointments, a.calendar_id = c ∧
            (a.status = "pending" ∨ a.status = "confirmed") ∧
            a.start_time < e ∧ s < a.end_time ∧ (∀ j, ig = some j → a.id ≠ j)) →
          ensureNoCalendarConflicts w.db (some c) s e ig = .ok ())) ∧
    (∀ w2 : World, SameBookings w.db w2.db → w2.cache = w.cache →
      (∀ args err, createAppointmentForTenant w2 args = .error err
          ↔ createAppointmentForTenant w args = .error err) ∧
      (∀ f2 args2 err, (createGroupAppointment f2 w2 args2).1 = .error err
          ↔ (createGroupAppointment f2 w args2).1 = .error err) ∧
      (∀ sargs, Except.map Prod.fst (searchAvailability tzdb w2 sargs)
          = Except.map Prod.fst (searchAvailability tzdb w sargs))) := by
  have hc := createGroup_frame faults w gargs
  have hu := updateGroup_frame w t i updates
  refine ⟨⟨hc.1.2.2.2, hc.1, hc.2⟩, ⟨hu.1.2.2.2, hu.1, hu.2⟩, ?_, ?_⟩
  · intro c s e ig
    exact ensureNoCalendarConflicts_reads w.db c s e ig
  · intro w2 hs hcache
    refine ⟨?_, ?_, ?_⟩
    · intro args err
      exact createAppointment_error_same w w2 hs args err
    · intro f2 args2 err
      exact createGroup_error_same f2 w w2 hs args2 err
    · intro sargs
      exact search_same tzdb w w2 hs hcache sargs

/-- Witness for C29 on the Monday store: after the group 11:00-11:30 on calendar
20 was created, the store holds one group appointment, a single appointment and
a second group in that window are accepted, and the search answers as on the
store without the group. -/
theorem group_appointments_do_not_occupy_witness :
    pairWorld.db.groupAppointments.length = 1 ∧
    (createAppointmentForTenant pairWorld
        (bookingRequest (mondayNine + 2 * hourMs)
          (mondayNine + 2 * hourMs + 1800000))).toOption.isSome = true ∧
    (createGroupAppointment {} pairWorld pairGroupRequest).1.toOption.isSome = true ∧
    SameBookings bookedWorld.db pairWorld.db ∧ pairWorld.cache = bookedWorld.cache ∧
    Except.map Prod.fst (searchAvailability scenarioZones pairWorld mondaySearch)
      = Except.map Prod.fst (searchAvailability scenarioZones bookedWorld mondaySearch) :=
  ⟨by decide, by decide, by decide, by decide, by decide,
    ((group_appointments_do_not_occupy scenarioZones {} bookedWorld pairGroupRequest 1 200
      {}).2.2.2 pairWorld (by decide) (by decide)).2.2 mondaySearch⟩

end BookingManager
